import Mathlib

/-!
# The node cache of the SMB client file system (`kernel/smbfs/smbfs_node.c`)

A shallow embedding of the node hash table, the lookup protocol `smb_hashget`,
the node constructor `smbfs_nget`, the attribute cache, the open deny list,
path building, the name and parent update, reconnect and the busy test,
followed by the properties proved about them.

Conventions of the embedding.

* A C buffer `(p, len)` is a `List Nat` of bytes together with the length that
  the C code passes along; reading a byte is `headD 0 % 256` and advancing the
  pointer is `tail`.
* Kernel memory holding the `struct smbnode`s of one mount is the total map
  `smbmount.nodes`; a node pointer is a `Nat`, a nullable pointer an `Option Nat`.
  A vnode and the smbnode bound to it are identified by the address of the
  smbnode (`VTOSMB` and `SMBTOV` are the identity), the per-vnode data the code
  reads are kept in `smbnode.n_vnode`.
* A hash chain (`LIST_HEAD`) is the list of node pointers in chain order.
* Machine integers are `Nat` with an explicit reduction where the C arithmetic
  can wrap.
* Results of primitives of the host kernel and of the network are taken from
  an explicit record (`smbfs_host`, `update_name_host`, `reconnect_host`).
* The open state of the nodes (`d_fid`, `f_openState`, the open deny list, ...)
  is the map `Nat → smbnode_open` kept beside the mount.
* A loop that the code restarts is modelled with a bound on its rounds, and
  the properties prove which bound is enough for it to end.
-/

namespace smbfs

/-! ## Constants -/

/-- Error numbers of `sys/errno.h`. -/
def ENOENT : Nat := 2
/-- Device not configured. -/
def ENXIO : Nat := 6
/-- Cannot allocate memory. -/
def ENOMEM : Nat := 12
/-- Invalid argument. -/
def EINVAL : Nat := 22

/-- Multiplier of the name hash, `FNV_32_PRIME` (line 82). -/
def FNV_32_PRIME : Nat := 0x01000193
/-- Start value of the name hash, `FNV1_32_INIT` (line 83). -/
def FNV1_32_INIT : Nat := 33554467

/-- Modelled from the spec: the bits of `n_flag` are declared in `smbfs_node.h`,
which is not among the sources; each flag is a distinct single bit.
`NREFPARENT`: the node holds a reference on its parent. -/
def NREFPARENT : Nat := 0x00001
/-- Modelled from the spec: `n_flag` bit, the node is a named stream. -/
def N_ISSTREAM : Nat := 0x00002
/-- Modelled from the spec: `n_flag` bit, the node is the resource fork stream. -/
def N_ISRSRCFRK : Nat := 0x00004
/-- Modelled from the spec: `n_flag` bit, a local set-EOF is pending. -/
def NNEEDS_EOF_SET : Nat := 0x00020
/-- Modelled from the spec: `n_flag` bit, attributes changed, look up on close. -/
def NATTRCHANGED : Nat := 0x00040
/-- Modelled from the spec: `n_flag` bit, the node is being created. -/
def NALLOC : Nat := 0x00080
/-- Modelled from the spec: `n_flag` bit, somebody waits for the creation. -/
def NWALLOC : Nat := 0x00100
/-- Modelled from the spec: `n_flag` bit, the node is being reclaimed. -/
def NTRANSIT : Nat := 0x00200
/-- Modelled from the spec: `n_flag` bit, somebody waits for the reclaim. -/
def NWTRANSIT : Nat := 0x00400
/-- Modelled from the spec: `n_flag` bit, delete the item on close. -/
def NDELETEONCLOSE : Nat := 0x00800
/-- Modelled from the spec: `n_flag` bit, the item has been marked for deletion. -/
def NMARKEDFORDLETE : Nat := 0x01000
/-- Modelled from the spec: `n_flag` bit, directory has negative name cache entries. -/
def NNEGNCENTRIES : Nat := 0x02000
/-- Modelled from the spec: `n_flag` bit, the node is a Windows fake symbolic link. -/
def NWINDOWSYMLNK : Nat := 0x04000
/-- Modelled from the spec: `n_flag` bit, the node carries POSIX modes. -/
def NHAS_POSIXMODES : Nat := 0x20000

/-- Modelled from the spec: `vc_misc_flags` bit of `smb_conn.h`, the server
supports file ids. -/
def SMBV_HAS_FILEIDS : Nat := 0x0004
/-- Modelled from the spec: `vc_misc_flags` bit, the server is an OS X server. -/
def SMBV_OSX_SERVER : Nat := 0x0010
/-- Modelled from the spec: `vc_volume_caps` bit, the volume is case sensitive. -/
def kAAPL_CASE_SENSITIVE : Nat := 0x02

/-- Modelled from the spec: lock kinds of `enum smbfslocktype` (`smbfs_node.h`). -/
def SMBFS_SHARED_LOCK : Nat := 1
/-- Modelled from the spec: the exclusive lock kind. -/
def SMBFS_EXCLUSIVE_LOCK : Nat := 2
/-- Modelled from the spec: the reclaim lock kind. -/
def SMBFS_RECLAIM_LOCK : Nat := 3

/-- The macro `CLR(t, f)`, `t &= ~f`, on a 32 bit flag word. -/
def CLR (t f : Nat) : Nat := t &&& (0xFFFFFFFF ^^^ f)

/-! ## Data model -/

/-- Vnode types of `sys/vnode.h`. -/
inductive vtype where
  | VNON | VREG | VDIR | VBLK | VCHR | VLNK | VSOCK | VFIFO | VBAD | VSTR | VCPLX
deriving DecidableEq, Repr

/-- The `struct timespec`. -/
structure timespec where
  tv_sec : Int := 0
  tv_nsec : Int := 0
deriving DecidableEq, Repr

/-- The fields of `struct smb_vc` read by this file (`SSTOVC(share)`). -/
structure smb_vc where
  vc_misc_flags : Nat := 0
  vc_flags : Nat := 0
  vc_volume_caps : Nat := 0
deriving DecidableEq, Repr

/-- The fields of `struct smb_share` read by this file. -/
structure smb_share where
  ss_vc : smb_vc := {}
  ss_maxfilenamelen : Nat := 255
  ss_attributes : Nat := 0
  ss_fstype : Nat := 0
  ss_flags : Nat := 0
  ss_unix_caps : Nat := 0
deriving DecidableEq, Repr

/-- What the code reads of the host vnode bound to a node. -/
structure vnode where
  v_type : vtype := vtype.VNON
  v_isvroot : Bool := false
  v_isnamedstream : Bool := false
deriving DecidableEq, Repr

/-- The `struct smbnode`. `n_hash_le_prev` tells whether `n_hash.le_prev` is
non-NULL, that is whether the node is linked in a hash chain. -/
structure smbnode where
  n_flag : Nat := 0
  n_parent : Option Nat := none
  n_name : List Nat := []
  n_nmlen : Nat := 0
  n_sname : List Nat := []
  n_snmlen : Nat := 0
  n_ino : Nat := 0
  n_lockState : Nat := 0
  n_hash_le_prev : Bool := false
  n_vnode : Option vnode := none
  n_child_refcnt : Nat := 0
  n_size : Nat := 0
  n_data_alloc : Nat := 0
  n_dosattr : Nat := 0
  n_reparse_tag : Nat := 0
  n_flags_mask : Nat := 0
  n_nlinks : Nat := 0
  n_uid : Nat := 0
  n_gid : Nat := 0
  n_nfs_uid : Nat := 0
  n_nfs_gid : Nat := 0
  n_mode : Nat := 0
  n_fstatus : Nat := 0
  maxAccessRights : Nat := 0
  maxAccessRightChTime : timespec := {}
  n_crtime : timespec := {}
  n_mtime : timespec := {}
  n_chtime : timespec := {}
  n_atime : timespec := {}
  n_sizetime : timespec := {}
  n_rename_time : timespec := {}
  attribute_cache_timer : Int := 0
  n_symlink_cache_timer : Int := 0
  waitOnClusterWrite : Nat := 0
  d_needsUpdate : Bool := false
  d_changecnt : Nat := 0
  rfrk_size : Nat := 0
  rfrk_alloc_size : Nat := 0
  rfrk_cache_timer : Int := 0
deriving DecidableEq, Repr

/-- The `struct smbmount` together with the kernel memory that holds its nodes:
`sm_hash i` is the chain of bucket `i`, `nodes p` the smbnode stored at address
`p`, and `node_brk` the next address `SMB_MALLOC` hands out. -/
structure smbmount where
  sm_share : Option smb_share := none
  sm_hashlen : Nat := 0
  sm_hash : Nat → List Nat := fun _ => []
  sm_rvp : Option Nat := none
  sm_root_ino : Nat := 0
  sm_flags : Nat := 0
  sm_args_uid : Nat := 0
  sm_args_gid : Nat := 0
  sm_args_file_mode : Nat := 0
  sm_args_dir_mode : Nat := 0
  sm_args_altflags : Nat := 0
  ntwrk_uid : Nat := 0
  ntwrk_gid : Nat := 0
  ntwrk_gids : List Nat := []
  ntwrk_cnt_gid : Nat := 0
  sm_statfstime : Int := 0
  nodes : Nat → smbnode := fun _ => {}
  node_brk : Nat := 0

/-- Store node `np` at address `p`. -/
def smbmount.setNode (smp : smbmount) (p : Nat) (np : smbnode) : smbmount :=
  { smp with nodes := fun q => if q = p then np else smp.nodes q }

/-- Replace the chain of bucket `b`. -/
def smbmount.setBucket (smp : smbmount) (b : Nat) (l : List Nat) : smbmount :=
  { smp with sm_hash := fun i => if i = b then l else smp.sm_hash i }

/-! ## Byte strings (kernel library routines) -/

/-- The file-local `tolower` (lines 436-443), on an `unsigned char`. -/
def tolower (ch : Nat) : Nat :=
  if 65 ≤ ch ∧ ch ≤ 90 then 97 + (ch - 65) else ch

/-- The kernel routine `bcmp`: zero iff the first `len` bytes agree. -/
def bcmp : List Nat → List Nat → Nat → Int
  | _, _, 0 => 0
  | b1, b2, len + 1 =>
    if b1.headD 0 % 256 = b2.headD 0 % 256 then bcmp b1.tail b2.tail len else 1

/-- The kernel routine `strncasecmp`: compares at most `n` bytes through
`tolower` and stops after a NUL byte. -/
def strncasecmp : List Nat → List Nat → Nat → Int
  | _, _, 0 => 0
  | s1, s2, n + 1 =>
    if tolower (s1.headD 0 % 256) ≠ tolower (s2.headD 0 % 256) then
      (tolower (s1.headD 0 % 256) : Int) - (tolower (s2.headD 0 % 256) : Int)
    else if s1.headD 0 % 256 = 0 then 0
    else strncasecmp s1.tail s2.tail n

/-- The kernel routine `strnlen` on a C string whose bytes are the list (the
terminating NUL follows the list). -/
def strnlen : List Nat → Nat → Nat
  | _, 0 => 0
  | [], _ + 1 => 0
  | c :: cs, maxlen + 1 => if c % 256 = 0 then 0 else strnlen cs maxlen + 1

/-- Modelled from the spec: `smb_strndup` lives in `smb_subr.c`, which is not
among the sources; it duplicates the name into owned storage, here the first
`maxlen` bytes. -/
def smb_strndup (s : List Nat) (maxlen : Nat) : List Nat := s.take maxlen

/-! ## Identity hashing (lines 436-477) -/

/-- The loop of `smbfs_hash`: `v *= FNV_32_PRIME; v ^= tolower(*name)` on the
64 bit variable `v`, for `nmlen` bytes. -/
def smbfs_hash_name : Nat → List Nat → Nat → Nat
  | v, _, 0 => v
  | v, name, nmlen + 1 =>
    smbfs_hash_name (((v * FNV_32_PRIME) % 2 ^ 64) ^^^ tolower (name.headD 0 % 256))
      name.tail nmlen

/-- The test `(share) && (SSTOVC(share)->vc_misc_flags & SMBV_HAS_FILEIDS)`. -/
def share_has_fileids (share : Option smb_share) : Bool :=
  match share with
  | none => false
  | some sh => sh.ss_vc.vc_misc_flags &&& SMBV_HAS_FILEIDS != 0

/-- The function `smbfs_hash` (lines 451-477). -/
def smbfs_hash (share : Option smb_share) (ino : Nat) (name : List Nat) (nmlen : Nat) : Nat :=
  if share_has_fileids share then ino
  else smbfs_hash_name FNV1_32_INIT name nmlen

/-- Reference definition following the words of the specification: the 32 bit
FNV-1 style hash of the case-folded name (multiply modulo `2 ^ 32`, then XOR
the folded byte). -/
def fnv1_32_folded : Nat → List Nat → Nat → Nat
  | v, _, 0 => v
  | v, name, nmlen + 1 =>
    fnv1_32_folded (((v * FNV_32_PRIME) % 2 ^ 32) ^^^ tolower (name.headD 0 % 256))
      name.tail nmlen

/-! ## The hash table (lines 73, 479-502) -/

/-- The macro `SMBFS_NOHASH`: the index of the bucket of `hval`. -/
def SMBFS_NOHASH (smp : smbmount) (hval : Nat) : Nat := hval &&& smp.sm_hashlen

/-- The function `smb_vhashrem` (lines 479-489): unlink the node if it is linked. -/
def smb_vhashrem (smp : smbmount) (p : Nat) : smbmount :=
  if (smp.nodes p).n_hash_le_prev then
    { smp with
      sm_hash := fun i => (smp.sm_hash i).erase p
      nodes := fun q => if q = p then { smp.nodes p with n_hash_le_prev := false } else smp.nodes q }
  else smp

/-- The function `smb_vhashadd` (lines 491-502): link the node at the head of
the chain of its bucket. -/
def smb_vhashadd (smp : smbmount) (p : Nat) (hashval : Nat) : smbmount :=
  { smp with
    sm_hash := fun i => if i = SMBFS_NOHASH smp hashval then p :: smp.sm_hash i else smp.sm_hash i
    nodes := fun q => if q = p then { smp.nodes p with n_hash_le_prev := true } else smp.nodes q }

/-! ## Node locks (lines 358-423) -/

/-- The function `smbnode_lock` (lines 358-375); it always returns 0. -/
def smbnode_lock (np : smbnode) (locktype : Nat) : Nat × smbnode :=
  (0, { np with n_lockState := locktype })

/-- The function `smbnode_unlock` (lines 407-423). -/
def smbnode_unlock (np : smbnode) : smbnode :=
  if np.n_lockState = SMBFS_SHARED_LOCK then np else { np with n_lockState := 0 }

/-! ## Lookup (lines 504-643) -/

/-- The function `smbfs_check_name` (lines 504-526): 0 iff the names match. -/
def smbfs_check_name (share : smb_share) (name1 name2 : List Nat) (name_len : Nat) : Int :=
  if share.ss_vc.vc_misc_flags &&& SMBV_OSX_SERVER ≠ 0 ∧
      share.ss_vc.vc_volume_caps &&& kAAPL_CASE_SENSITIVE ≠ 0 then
    bcmp name1 name2 name_len
  else strncasecmp name1 name2 name_len

/-- The tests of the body of the `LIST_FOREACH` loop of `smb_hashget` that end
in `continue` (lines 555-608), in the order of the source. -/
def smb_hashget_skip (share : smb_share) (dnp : Option Nat) (hashval : Nat)
    (name : List Nat) (nmlen : Nat) (node_flag : Nat) (sname : Option (List Nat))
    (snmlen : Nat) (np : smbnode) : Bool :=
  if (np.n_flag &&& N_ISSTREAM) ≠ node_flag then true
  else if (if share.ss_vc.vc_misc_flags &&& SMBV_HAS_FILEIDS ≠ 0 then
        decide (np.n_ino ≠ hashval)
      else
        decide (np.n_parent ≠ dnp ∨ np.n_nmlen ≠ nmlen ∨
          smbfs_check_name share name np.n_name nmlen ≠ 0)) then true
  else if np.n_flag &&& NDELETEONCLOSE ≠ 0 ∨ np.n_flag &&& NMARKEDFORDLETE ≠ 0 then true
  else if np.n_flag &&& N_ISSTREAM ≠ 0 ∧
      (np.n_snmlen ≠ snmlen ∨ bcmp (sname.getD []) np.n_sname snmlen ≠ 0) then true
  else false

/-- How one pass over a chain ends: no candidate, a candidate in a transitional
state on which the thread sleeps after setting the waiter flag `wflag`, or a
candidate that is handed to `vnode_getwithvid`. -/
inductive hashget_scan where
  | nomatch
  | sleep (p : Nat) (wflag : Nat)
  | candidate (p : Nat)
deriving DecidableEq, Repr

/-- One pass of the `LIST_FOREACH` loop of `smb_hashget` (lines 550-639) over
a chain, up to the first node that is not skipped. -/
def smb_hashget_scan (smp : smbmount) (share : smb_share) (dnp : Option Nat)
    (hashval : Nat) (name : List Nat) (nmlen : Nat) (node_flag : Nat)
    (sname : Option (List Nat)) (snmlen : Nat) : List Nat → hashget_scan
  | [] => hashget_scan.nomatch
  | p :: rest =>
    if smb_hashget_skip share dnp hashval name nmlen node_flag sname snmlen (smp.nodes p) then
      smb_hashget_scan smp share dnp hashval name nmlen node_flag sname snmlen rest
    else if (smp.nodes p).n_flag &&& NALLOC ≠ 0 then hashget_scan.sleep p NWALLOC
    else if (smp.nodes p).n_flag &&& NTRANSIT ≠ 0 then hashget_scan.sleep p NWTRANSIT
    else hashget_scan.candidate p

/-- How one run of `smb_hashget` from the label `loop` ends: the routine
returns (`vp` is the vnode, `none` for NULL), or the thread goes to sleep in
`msleep`. -/
inductive hashget_pass where
  | ret (vp : Option Nat) (smp : smbmount)
  | msleep (smp : smbmount)

/-- The stream name length `snmlen` computed at the head of `smb_hashget`
(line 537). -/
def hashget_snmlen (sname : Option (List Nat)) (maxfilenamelen : Nat) : Nat :=
  match sname with
  | some s => strnlen s (maxfilenamelen + 1)
  | none => 0

/-- One run of `smb_hashget` (lines 540-643) from its entry or from the label
`loop` up to the next `return` or `msleep`. `vnode_getwithvid p` is the result
of the host call for the vnode of node `p`. -/
def smb_hashget_pass (vnode_getwithvid : Nat → Nat) (dnp : Option Nat) (hashval : Nat)
    (name : List Nat) (nmlen : Nat) (maxfilenamelen : Nat) (node_flag : Nat)
    (sname : Option (List Nat)) (smp : smbmount) : hashget_pass :=
  match smp.sm_share with
  | none => hashget_pass.ret none smp
  | some share =>
    match smb_hashget_scan smp share dnp hashval name nmlen node_flag sname
        (hashget_snmlen sname maxfilenamelen) (smp.sm_hash (SMBFS_NOHASH smp hashval)) with
    | hashget_scan.nomatch => hashget_pass.ret none smp
    | hashget_scan.sleep p wflag =>
      hashget_pass.msleep
        (smp.setNode p { smp.nodes p with n_flag := (smp.nodes p).n_flag ||| wflag })
    | hashget_scan.candidate p =>
      if vnode_getwithvid p ≠ 0 then hashget_pass.ret none smp
      else
        if (smbnode_lock (smp.nodes p) SMBFS_EXCLUSIVE_LOCK).1 ≠ 0 then hashget_pass.ret none smp
        else
          hashget_pass.ret (some p)
            (smp.setNode p (smbnode_lock (smp.nodes p) SMBFS_EXCLUSIVE_LOCK).2)

/-- The function `smb_hashget` (lines 528-643). Each `msleep` hands the
processor to the other threads: `wake` lists what they do to the mount during
the successive sleeps of this call, after which the routine restarts at the
label `loop`. A sleep from which the thread is not woken (`wake` exhausted)
leaves the call blocked, which is the result `none`. Otherwise the result is
the returned vnode (NULL is `none`) and the mount. -/
def smb_hashget (vnode_getwithvid : Nat → Nat) (dnp : Option Nat) (hashval : Nat)
    (name : List Nat) (nmlen : Nat) (maxfilenamelen : Nat) (node_flag : Nat)
    (sname : Option (List Nat)) :
    List (smbmount → smbmount) → smbmount → Option (Option Nat × smbmount)
  | [], smp =>
    match smb_hashget_pass vnode_getwithvid dnp hashval name nmlen maxfilenamelen node_flag
        sname smp with
    | hashget_pass.ret vp s => some (vp, s)
    | hashget_pass.msleep _ => none
  | w :: ws, smp =>
    match smb_hashget_pass vnode_getwithvid dnp hashval name nmlen maxfilenamelen node_flag
        sname smp with
    | hashget_pass.ret vp s => some (vp, s)
    | hashget_pass.msleep s =>
      smb_hashget vnode_getwithvid dnp hashval name nmlen maxfilenamelen node_flag sname ws (w s)

/-! ## Attribute records and the host -/

/-- Modelled from the spec: `fa_valid_mask` bits of `smbfs.h`, which is not
among the sources; `fa_vtype` is valid. -/
def FA_VTYPE_VALID : Nat := 0x01
/-- Modelled from the spec: `fa_valid_mask` bit, `fa_fstatus` is valid. -/
def FA_FSTATUS_VALID : Nat := 0x02
/-- Modelled from the spec: `fa_valid_mask` bit, the POSIX modes are valid. -/
def FA_UNIX_MODES_VALID : Nat := 0x04
/-- Modelled from the spec: `fa_valid_mask` bit, `fa_max_access` is valid. -/
def FA_MAX_ACCESS_VALID : Nat := 0x20

/-- Extended file attribute bits of the SMB protocol (`netsmb/smb.h`). -/
def SMB_EFA_RDONLY : Nat := 0x0001
/-- Hidden. -/
def SMB_EFA_HIDDEN : Nat := 0x0002
/-- Directory. -/
def SMB_EFA_DIRECTORY : Nat := 0x0010
/-- Archive. -/
def SMB_EFA_ARCHIVE : Nat := 0x0020
/-- Reparse point. -/
def SMB_EFA_REPARSE_POINT : Nat := 0x0400
/-- Reparse tag of a DFS link. -/
def IO_REPARSE_TAG_DFS : Nat := 0x8000000A
/-- Reparse tag of a symbolic link. -/
def IO_REPARSE_TAG_SYMLINK : Nat := 0xA000000C

/-- Modelled from the spec: `EXT_REQUIRED_BY_MAC` of `netsmb/smb.h`, the
immutable, hidden and do-not-backup extension flags. -/
def EXT_REQUIRED_BY_MAC : Nat := 0x00000008 ||| 0x80000000 ||| 0x00000020

/-- The value `KAUTH_UID_NONE` of `sys/kauth.h`, `~(uid_t)0 - 100`. -/
def KAUTH_UID_NONE : Nat := 4294967195
/-- The value `KAUTH_GID_NONE` of `sys/kauth.h`. -/
def KAUTH_GID_NONE : Nat := 4294967195

/-- Permission masks of `sys/stat.h`. -/
def ACCESSPERMS : Nat := 0o777
/-- Owner bits. -/
def S_IRWXU : Nat := 0o700
/-- Group bits. -/
def S_IRWXG : Nat := 0o070
/-- Other bits. -/
def S_IRWXO : Nat := 0o007
/-- Regular file type bits. -/
def S_IFREG : Nat := 0o100000
/-- Symbolic link type bits. -/
def S_IFLNK : Nat := 0o120000
/-- Directory type bits. -/
def S_IFDIR : Nat := 0o040000

/-- Modelled from the spec: flags of `smb_get_uid_gid_mode` (`smbfs_node.h`). -/
def SMBFS_GET_UGM_IS_DIR : Nat := 0x01
/-- Modelled from the spec: remove the POSIX modes. -/
def SMBFS_GET_UGM_REMOVE_POSIX_MODES : Nat := 0x02
/-- Modelled from the spec: `sm_args.altflags` bit of a Time Machine mount. -/
def SMBFS_MNT_TIME_MACHINE : Nat := 0x0100
/-- Modelled from the spec: `sm_flags` bit, map the network user to the local user. -/
def MNT_MAPS_NETWORK_LOCAL_USER : Nat := 0x0002
/-- File system attribute of the protocol: persistent ACLs. -/
def FILE_PERSISTENT_ACLS : Nat := 0x00000008
/-- File system attribute of the protocol: named streams. -/
def FILE_NAMED_STREAMS : Nat := 0x00040000
/-- Modelled from the spec: `ss_fstype` value of a FAT share. -/
def SMB_FS_FAT : Nat := 0
/-- Modelled from the spec: `vc_flags` bit of an SMB 2/3 session. -/
def SMBV_SMB2 : Nat := 0x8000
/-- Modelled from the spec: the file id given to the root without file ids. -/
def SMBFS_ROOT_INO : Nat := 2

/-- Modelled from the spec: flags of `smbfs_nget` (`smbfs_node.h`). -/
def SMBFS_NGET_CREATE_VNODE : Nat := 0x0001
/-- Modelled from the spec: look up only, never create a node. -/
def SMBFS_NGET_LOOKUP_ONLY : Nat := 0x0002
/-- Modelled from the spec: do not update the attribute cache of a found node. -/
def SMBFS_NGET_NO_CACHE_UPDATE : Nat := 0x0004

/-- Event bits of `sys/vnode.h`. -/
def VNODE_EVENT_WRITE : Nat := 0x02
/-- Extend event. -/
def VNODE_EVENT_EXTEND : Nat := 0x04
/-- Attribute event. -/
def VNODE_EVENT_ATTRIB : Nat := 0x08
/-- Rename event. -/
def VNODE_EVENT_RENAME : Nat := 0x20

/-- Modelled from the spec: layout of a Windows fake symbolic link
(`smbfs.h`): magic `XSym\n`, four digits and a newline, 32 hex digits and a
newline, then `MAXPATHLEN` bytes of payload. -/
def SMB_SYMMAGICLEN : Nat := 5
/-- Modelled from the spec: width of the length field with its newline. -/
def SMB_SYMLENLEN : Nat := 5
/-- Modelled from the spec: width of the digest field with its newline. -/
def SMB_SYMMD5LEN : Nat := 33
/-- Length of the header. -/
def SMB_SYMHDRLEN : Nat := SMB_SYMMAGICLEN + SMB_SYMLENLEN + SMB_SYMMD5LEN
/-- Size of a fake symbolic link file, header plus `MAXPATHLEN`. -/
def SMB_SYMLEN : Nat := SMB_SYMHDRLEN + 1024
/-- The magic `XSym\n`. -/
def smb_symmagic : List Nat := [88, 83, 121, 109, 10]

/-- The `struct smbfattr`, an attribute record fetched from the server. -/
structure smbfattr where
  fa_attr : Nat := 0
  fa_size : Nat := 0
  fa_data_alloc : Nat := 0
  fa_ino : Nat := 0
  fa_vtype : vtype := vtype.VNON
  fa_valid_mask : Nat := 0
  fa_reparse_tag : Nat := 0
  fa_crtime : timespec := {}
  fa_mtime : timespec := {}
  fa_chtime : timespec := {}
  fa_atime : timespec := {}
  fa_reqtime : timespec := {}
  fa_unix : Bool := false
  fa_flags_mask : Nat := 0
  fa_nlinks : Nat := 0
  fa_permissions : Nat := 0
  fa_uid : Nat := 0
  fa_gid : Nat := 0
  fa_fstatus : Nat := 0
  fa_max_access : Nat := 0
deriving DecidableEq, Repr

/-- What the host kernel and the network answer during one call of a routine
of this file. Error results are error numbers, 0 is success. -/
structure smbfs_host where
  /-- Result of `vfs_isforce(mp)`: the mount is being forcibly unmounted. -/
  vfs_isforce : Bool := false
  /-- Whether `VTOSMB(dvp)` is NULL although `dvp` is not (a dead parent vnode). -/
  dvp_dead : Bool := false
  /-- Result of `vnode_getwithvid` on the vnode of the node at this address. -/
  vnode_getwithvid : Nat → Nat := fun _ => 0
  /-- Result of `vnode_get(dvp)`. -/
  vnode_get_dvp : Nat := 0
  /-- Result of `vnode_ref(dvp)`. -/
  vnode_ref_dvp : Nat := 0
  /-- Result of `smbfs_lookup` of the root over the wire: its error and the attribute
  record it fills in. -/
  smbfs_lookup : smbfattr → Nat × smbfattr := fun f => (0, f)
  /-- Allocation of the read buffer and of the uio succeed. -/
  symlink_alloc_ok : Bool := true
  /-- Error of `smbfs_tmpopen` on the SMB 1 path. -/
  symlink_open_error : Nat := 0
  /-- Error of reading the file content. -/
  symlink_read_error : Nat := 0
  /-- The content read from the file. -/
  symlink_content : List Nat := []
  /-- The 32 lowercase hexadecimal digits of the MD5 digest of a byte string,
  as `MD5Init`, `MD5Update`, `MD5Final` and `snprintf` produce them. -/
  md5hex : List Nat → List Nat := fun _ => []
  /-- Result of `vnode_create`. -/
  vnode_create : Nat := 0
  /-- Uptime as read through `nanouptime` by `smbfs_setsize`. -/
  uptime_setsize : timespec := {}
  /-- Uptime as read through `nanouptime` at the end of `smbfs_attr_cacheenter`. -/
  uptime_cacheenter : timespec := {}
  /-- Uptime as read through `nanouptime` by `smb_update_rsrc_and_getparent`. -/
  uptime_rsrc : timespec := {}
  /-- Result of `vnode_ismonitored(vp)`. -/
  vnode_ismonitored : Bool := false
  /-- The `vfs_context_t` argument is not NULL. -/
  context : Bool := true
  /-- Result of `vnode_getparent(vp)` in `smb_update_rsrc_and_getparent`. -/
  vnode_getparent : Option Nat := none
  /-- Uptime seconds and time-out computed by the macro `SMB_CACHE_TIME`. -/
  cache_time_sec : Int := 0
  /-- Time-out in seconds computed by the macro `SMB_CACHE_TIME`. -/
  cache_attrtimeo : Int := 0
  /-- Effect of `smb_get_rsrcfrk_size` on the node. -/
  smb_get_rsrcfrk_size : smbnode → smbnode := fun np => np

/-! ## Vnode accessors -/

/-- The call `vnode_vtype(SMBTOV(np))`; a node without vnode reads as `VNON`. -/
def vnode_vtype (np : smbnode) : vtype :=
  match np.n_vnode with
  | some v => v.v_type
  | none => vtype.VNON

/-- The call `vnode_isvroot(SMBTOV(np))`. -/
def vnode_isvroot (np : smbnode) : Bool :=
  match np.n_vnode with
  | some v => v.v_isvroot
  | none => false

/-- The call `vnode_isnamedstream(SMBTOV(np))`. -/
def vnode_isnamedstream (np : smbnode) : Bool :=
  match np.n_vnode with
  | some v => v.v_isnamedstream
  | none => false

/-- The call `vnode_isdir(SMBTOV(np))`. -/
def vnode_isdir (np : smbnode) : Bool := decide (vnode_vtype np = vtype.VDIR)

/-! ## Time stamps -/

/-- The macro `timespeccmp(a, b, <)`. -/
def timespeccmp_lt (a b : timespec) : Bool :=
  if a.tv_sec = b.tv_sec then decide (a.tv_nsec < b.tv_nsec) else decide (a.tv_sec < b.tv_sec)

/-- The macro `timespeccmp(a, b, <=)`. -/
def timespeccmp_le (a b : timespec) : Bool :=
  if a.tv_sec = b.tv_sec then decide (a.tv_nsec ≤ b.tv_nsec) else decide (a.tv_sec ≤ b.tv_sec)

/-- The macro `timespeccmp(a, b, >)`. -/
def timespeccmp_gt (a b : timespec) : Bool :=
  if a.tv_sec = b.tv_sec then decide (a.tv_nsec > b.tv_nsec) else decide (a.tv_sec > b.tv_sec)

/-- The macro `timespeccmp(a, b, ==)`. -/
def timespeccmp_eq (a b : timespec) : Bool :=
  if a.tv_sec = b.tv_sec then decide (a.tv_nsec = b.tv_nsec) else decide (a.tv_sec = b.tv_sec)

/-- The macro `timespeccmp(a, b, !=)`. -/
def timespeccmp_ne (a b : timespec) : Bool :=
  if a.tv_sec = b.tv_sec then decide (a.tv_nsec ≠ b.tv_nsec) else decide (a.tv_sec ≠ b.tv_sec)

/-! ## Type change test (lines 645-704) -/

/-- The function `node_vtype_changed` (lines 654-704) on the node bound to `vp`. -/
def node_vtype_changed (np : smbnode) (node_vtype : vtype) (fap : smbfattr) : Bool :=
  if vnode_isvroot np then false
  else if vnode_isnamedstream np then false
  else if fap.fa_valid_mask &&& FA_VTYPE_VALID ≠ 0 then
    if np.n_flag &&& NWINDOWSYMLNK ≠ 0 ∧ fap.fa_vtype = vtype.VREG then false
    else decide (fap.fa_vtype ≠ node_vtype)
  else if (node_vtype = vtype.VDIR ∧ ¬ (np.n_dosattr &&& SMB_EFA_DIRECTORY ≠ 0)) ∨
      (node_vtype ≠ vtype.VDIR ∧ np.n_dosattr &&& SMB_EFA_DIRECTORY ≠ 0) then true
  else if (np.n_dosattr &&& SMB_EFA_REPARSE_POINT) ≠ (fap.fa_attr &&& SMB_EFA_REPARSE_POINT) then
    true
  else false

/-! ## Size updates (lines 2232-2302) -/

/-- The function `smbfs_setsize` (lines 2232-2250) on the node; the reset of
`sm_statfstime` is done by the caller of this model function. -/
def smbfs_setsize (now : timespec) (np : smbnode) (size : Nat) : smbnode :=
  { np with n_size := size, n_sizetime := now }

/-- The function `smbfs_update_size` (lines 2260-2302): the result (TRUE is
`true`), the node, and whether `smbfs_setsize` ran (which clears the statfs
cache time of the mount). `now` is the uptime read by `smbfs_setsize`. -/
def smbfs_update_size (now : timespec) (np : smbnode) (reqtime : timespec) (new_size : Nat) :
    Bool × smbnode × Bool :=
  if np.n_size = new_size then (true, np, false)
  else if np.n_flag &&& NNEEDS_EOF_SET ≠ 0 then (false, np, false)
  else if np.waitOnClusterWrite ≠ 0 then (false, np, false)
  else if timespeccmp_le reqtime np.n_sizetime then (false, np, false)
  else (true, smbfs_setsize now np new_size, true)

/-! ## Owner, group and mode (lines 1482-1687) -/

/-- The function `smb_gid_match` (lines 1482-1494). -/
def smb_gid_match (smp : smbmount) (node_gid : Nat) : Bool :=
  if node_gid = smp.ntwrk_gid then true
  else (smp.ntwrk_gids.take smp.ntwrk_cnt_gid).any (fun g => decide (node_gid = g))

/-- The coarse matching at the end of the UNIX branch of `smb_get_uid_gid_mode`
(lines 1609-1633): the permission bits added to `*mode`, from the server bits
`perms`. -/
def smb_coarse_perms (uid_match gid_match : Bool) (perms : Nat) : Nat :=
  if !uid_match && !gid_match then
    ((perms &&& S_IRWXO) % 65536) ||| (((perms &&& S_IRWXO) <<< 3) % 65536) |||
      (((perms &&& S_IRWXO) <<< 6) % 65536)
  else if !uid_match && gid_match then
    ((perms &&& (S_IRWXG ||| S_IRWXO)) % 65536) ||| (((perms &&& S_IRWXG) <<< 3) % 65536)
  else if uid_match && !gid_match then
    ((perms &&& (S_IRWXU ||| S_IRWXO)) % 65536) ||| (((perms &&& S_IRWXO) <<< 3) % 65536)
  else (perms &&& ACCESSPERMS) % 65536

/-- The function `smb_get_uid_gid_mode` (lines 1525-1687): the attribute record
(whose `fa_permissions` it may rewrite) and the new `*uid`, `*gid`, `*mode`. -/
def smb_get_uid_gid_mode (share : smb_share) (smp : smbmount) (fap : smbfattr) (flags : Nat)
    (uid gid mode : Nat) : smbfattr × Nat × Nat × Nat :=
  if fap.fa_unix then
    if (fap.fa_valid_mask &&& FA_UNIX_MODES_VALID) ≠ FA_UNIX_MODES_VALID then
      (fap,
        (if uid = KAUTH_UID_NONE then smp.sm_args_uid else uid),
        (if gid = KAUTH_GID_NONE then smp.sm_args_gid else gid),
        (if uid = KAUTH_UID_NONE then
          (if flags &&& SMBFS_GET_UGM_IS_DIR ≠ 0 then mode ||| smp.sm_args_dir_mode
           else mode ||| smp.sm_args_file_mode)
         else mode))
    else if smp.sm_args_altflags &&& SMBFS_MNT_TIME_MACHINE ≠ 0 then
      (fap, smp.sm_args_uid, smp.sm_args_gid,
        (mode &&& (0xFFFF ^^^ ACCESSPERMS)) ||| ((fap.fa_permissions &&& ACCESSPERMS) % 65536))
    else if share.ss_attributes &&& FILE_PERSISTENT_ACLS ≠ 0 then
      (fap,
        (if smp.sm_flags &&& MNT_MAPS_NETWORK_LOCAL_USER ≠ 0 ∧ smp.ntwrk_uid = fap.fa_uid then
          smp.sm_args_uid else fap.fa_uid % 2 ^ 32),
        (if smp.sm_flags &&& MNT_MAPS_NETWORK_LOCAL_USER ≠ 0 ∧ smp.ntwrk_uid = fap.fa_uid then
          smp.sm_args_gid else fap.fa_gid % 2 ^ 32),
        (mode &&& (0xFFFF ^^^ ACCESSPERMS)) ||| ((fap.fa_permissions &&& ACCESSPERMS) % 65536))
    else if fap.fa_permissions &&& ACCESSPERMS ≠ 0 ∧ smp.sm_args_uid = smp.ntwrk_uid % 2 ^ 32 ∧
        smp.sm_args_gid = smp.ntwrk_gid % 2 ^ 32 then
      (fap, fap.fa_uid % 2 ^ 32, fap.fa_gid % 2 ^ 32,
        (mode &&& (0xFFFF ^^^ ACCESSPERMS)) ||| ((fap.fa_permissions &&& ACCESSPERMS) % 65536))
    else
      ({ fap with fa_permissions :=
          if fap.fa_permissions &&& ACCESSPERMS = 0 then ACCESSPERMS else fap.fa_permissions },
        smp.sm_args_uid, smp.sm_args_gid,
        (mode &&& (0xFFFF ^^^ ACCESSPERMS)) |||
          smb_coarse_perms (decide (fap.fa_uid = smp.ntwrk_uid)) (smb_gid_match smp fap.fa_gid)
            (if fap.fa_permissions &&& ACCESSPERMS = 0 then ACCESSPERMS else fap.fa_permissions))
  else
    (fap,
      (if uid = KAUTH_UID_NONE ∨ gid = KAUTH_GID_NONE then smp.sm_args_uid else uid),
      (if uid = KAUTH_UID_NONE ∨ gid = KAUTH_GID_NONE then smp.sm_args_gid else gid),
      (if fap.fa_valid_mask &&& FA_UNIX_MODES_VALID ≠ 0 then
        (mode &&& (0xFFFF ^^^ ACCESSPERMS)) ||| ((fap.fa_permissions % 65536) &&& ACCESSPERMS)
       else if flags &&& SMBFS_GET_UGM_REMOVE_POSIX_MODES ≠ 0 then
        (if flags &&& SMBFS_GET_UGM_IS_DIR ≠ 0 then
          (mode &&& (0xFFFF ^^^ ACCESSPERMS)) ||| smp.sm_args_dir_mode
         else (mode &&& (0xFFFF ^^^ ACCESSPERMS)) ||| smp.sm_args_file_mode)
       else mode))

/-! ## Attribute cache (lines 1753-2156) -/

/-- The part of a `struct vnode_attr` request that decides the effects of
`smbfs_attr_cachelookup` on the node. -/
structure vnode_attr where
  va_total_size_active : Bool := false
deriving DecidableEq, Repr

/-- The function `smbfs_attr_cachelookup` (lines 1955-2156): its result and its
effect on the node. `uptime_sec` and `attrtimeo` are what the macro
`SMB_CACHE_TIME` computes, `rsrcfrk` is the effect of `smb_get_rsrcfrk_size`.
The values stored into `*va` are not part of the model. -/
def smbfs_attr_cachelookup (share : smb_share) (uptime_sec attrtimeo : Int)
    (rsrcfrk : smbnode → smbnode) (np : smbnode) (va : Option vnode_attr)
    (useCacheDataOnly : Bool) : Nat × smbnode :=
  if (if useCacheDataOnly then false
      else if np.n_flag &&& NMARKEDFORDLETE ≠ 0 then false
      else decide (uptime_sec - np.attribute_cache_timer > attrtimeo)) then (ENOENT, np)
  else
    match va with
    | none => (0, np)
    | some v =>
      (0,
        { (if share.ss_attributes &&& FILE_NAMED_STREAMS ≠ 0 ∧ v.va_total_size_active ∧
              ¬ vnode_isdir np ∧ ¬ vnode_isnamedstream np ∧ ¬ useCacheDataOnly then rsrcfrk np
            else np) with
          n_chtime :=
            { (if share.ss_attributes &&& FILE_NAMED_STREAMS ≠ 0 ∧ v.va_total_size_active ∧
                  ¬ vnode_isdir np ∧ ¬ vnode_isnamedstream np ∧ ¬ useCacheDataOnly then rsrcfrk np
                else np).n_chtime with
              tv_sec :=
                if share.ss_fstype = SMB_FS_FAT then
                  (if share.ss_attributes &&& FILE_NAMED_STREAMS ≠ 0 ∧ v.va_total_size_active ∧
                      ¬ vnode_isdir np ∧ ¬ vnode_isnamedstream np ∧ ¬ useCacheDataOnly then
                    rsrcfrk np else np).n_mtime.tv_sec
                else
                  (if share.ss_attributes &&& FILE_NAMED_STREAMS ≠ 0 ∧ v.va_total_size_active ∧
                      ¬ vnode_isdir np ∧ ¬ vnode_isnamedstream np ∧ ¬ useCacheDataOnly then
                    rsrcfrk np else np).n_chtime.tv_sec } })

/-- What `smbfs_attr_cacheenter` does to the node `np` it is called on and to
the attribute record, up to the label `vnode_notify_needed`: `monitorHint` is
the event mask it has collected, `vtype_changed` tells that the type change
branch ran (which calls `smb_vhashrem`), `statfs_reset` that `smbfs_setsize`
ran, `notify` that the label is reached (the routine does not return at line
1821), and `rsrc_parent` carries the `setsize` argument of
`smb_update_rsrc_and_getparent` when that call is made. -/
structure cacheenter_result where
  np : smbnode
  fap : smbfattr
  monitorHint : Nat
  vtype_changed : Bool
  statfs_reset : Bool
  notify : Bool
  rsrc_parent : Option Bool

/-- Lines 1793-1822 of `smbfs_attr_cacheenter` for a regular file: the size
update. The result is the node, the record, and the `smbfs_setsize` mark. -/
def cacheenter_vreg (h : smbfs_host) (np : smbnode) (fap : smbfattr) :
    smbnode × smbfattr × Nat × Bool :=
  ({ (smbfs_update_size h.uptime_setsize np fap.fa_reqtime fap.fa_size).2.1 with
      n_flag :=
        if (smbfs_update_size h.uptime_setsize np fap.fa_reqtime fap.fa_size).1 = false then
          (smbfs_update_size h.uptime_setsize np fap.fa_reqtime fap.fa_size).2.1.n_flag |||
            NATTRCHANGED
        else (smbfs_update_size h.uptime_setsize np fap.fa_reqtime fap.fa_size).2.1.n_flag },
    { fap with
      fa_size :=
        if (smbfs_update_size h.uptime_setsize np fap.fa_reqtime fap.fa_size).1 = false then
          (smbfs_update_size h.uptime_setsize np fap.fa_reqtime fap.fa_size).2.1.n_size
        else fap.fa_size },
    (if (smbfs_update_size h.uptime_setsize np fap.fa_reqtime fap.fa_size).1 = true ∧
        (smbfs_update_size h.uptime_setsize np fap.fa_reqtime fap.fa_size).2.1.n_size ≠
          fap.fa_size then
      VNODE_EVENT_EXTEND ||| VNODE_EVENT_ATTRIB
     else 0),
    (smbfs_update_size h.uptime_setsize np fap.fa_reqtime fap.fa_size).2.2)

/-- Lines 1803-1819 of `smbfs_attr_cacheenter` for a directory: the fixed size,
the purge of the negative name cache and the clamp of the modify time. -/
def cacheenter_vdir (share : smb_share) (np : smbnode) (fap : smbfattr) :
    smbnode × smbfattr × Nat × Bool :=
  ({ np with
      n_size := 16384
      n_flag :=
        if np.n_flag &&& NNEGNCENTRIES ≠ 0 ∧
            (share.ss_fstype = SMB_FS_FAT ∨ timespeccmp_gt fap.fa_mtime np.n_mtime) then
          CLR np.n_flag NNEGNCENTRIES
        else np.n_flag
      d_changecnt :=
        if np.n_flag &&& NNEGNCENTRIES ≠ 0 ∧
            (share.ss_fstype = SMB_FS_FAT ∨ timespeccmp_gt fap.fa_mtime np.n_mtime) then
          (np.d_changecnt + 1) % 2 ^ 32
        else np.d_changecnt },
    { fap with
      fa_mtime := if timespeccmp_lt fap.fa_mtime np.n_mtime then np.n_mtime else fap.fa_mtime },
    0, false)

/-- Lines 1823-1940 of `smbfs_attr_cacheenter`: allocation size, owner and
mode, the attribute event, fstatus, maximal access, the times, the DOS
attributes and the cache timer. `hint` is the event mask collected so far. -/
def cacheenter_meta (h : smbfs_host) (share : smb_share) (smp : smbmount) (np : smbnode)
    (fap : smbfattr) (hint : Nat) : smbnode × smbfattr × Nat :=
  ({ np with
      n_data_alloc := fap.fa_data_alloc
      n_flags_mask := if fap.fa_unix then fap.fa_flags_mask else np.n_flags_mask
      n_nlinks := if fap.fa_unix then fap.fa_nlinks else np.n_nlinks
      n_uid := (smb_get_uid_gid_mode share smp fap
        ((if vnode_isdir np then SMBFS_GET_UGM_IS_DIR else 0) |||
          (if np.n_flag &&& NHAS_POSIXMODES = 0 ∧ fap.fa_valid_mask &&& FA_UNIX_MODES_VALID = 0
            then SMBFS_GET_UGM_REMOVE_POSIX_MODES else 0))
        np.n_uid np.n_gid np.n_mode).2.1
      n_gid := (smb_get_uid_gid_mode share smp fap
        ((if vnode_isdir np then SMBFS_GET_UGM_IS_DIR else 0) |||
          (if np.n_flag &&& NHAS_POSIXMODES = 0 ∧ fap.fa_valid_mask &&& FA_UNIX_MODES_VALID = 0
            then SMBFS_GET_UGM_REMOVE_POSIX_MODES else 0))
        np.n_uid np.n_gid np.n_mode).2.2.1
      n_mode := (smb_get_uid_gid_mode share smp fap
        ((if vnode_isdir np then SMBFS_GET_UGM_IS_DIR else 0) |||
          (if np.n_flag &&& NHAS_POSIXMODES = 0 ∧ fap.fa_valid_mask &&& FA_UNIX_MODES_VALID = 0
            then SMBFS_GET_UGM_REMOVE_POSIX_MODES else 0))
        np.n_uid np.n_gid np.n_mode).2.2.2
      n_flag :=
        if fap.fa_valid_mask &&& FA_UNIX_MODES_VALID ≠ 0 then np.n_flag ||| NHAS_POSIXMODES
        else np.n_flag
      n_fstatus :=
        if fap.fa_valid_mask &&& FA_FSTATUS_VALID ≠ 0 then fap.fa_fstatus
        else if timespeccmp_ne np.n_chtime fap.fa_chtime then 0
        else np.n_fstatus
      maxAccessRights :=
        if fap.fa_valid_mask &&& FA_MAX_ACCESS_VALID ≠ 0 then fap.fa_max_access
        else np.maxAccessRights
      maxAccessRightChTime :=
        if fap.fa_valid_mask &&& FA_MAX_ACCESS_VALID ≠ 0 then fap.fa_chtime
        else np.maxAccessRightChTime
      n_crtime := fap.fa_crtime
      n_chtime := fap.fa_chtime
      n_atime := fap.fa_atime
      n_mtime := fap.fa_mtime
      n_dosattr :=
        if fap.fa_unix ∧ (fap.fa_flags_mask &&& EXT_REQUIRED_BY_MAC) ≠ EXT_REQUIRED_BY_MAC then
          (np.n_dosattr &&& (SMB_EFA_RDONLY ||| SMB_EFA_HIDDEN ||| SMB_EFA_ARCHIVE)) |||
            CLR fap.fa_attr (SMB_EFA_RDONLY ||| SMB_EFA_HIDDEN ||| SMB_EFA_ARCHIVE)
        else fap.fa_attr
      attribute_cache_timer := h.uptime_cacheenter.tv_sec },
    { (smb_get_uid_gid_mode share smp fap
        ((if vnode_isdir np then SMBFS_GET_UGM_IS_DIR else 0) |||
          (if np.n_flag &&& NHAS_POSIXMODES = 0 ∧ fap.fa_valid_mask &&& FA_UNIX_MODES_VALID = 0
            then SMBFS_GET_UGM_REMOVE_POSIX_MODES else 0))
        np.n_uid np.n_gid np.n_mode).1 with
      fa_attr :=
        if fap.fa_unix ∧ (fap.fa_flags_mask &&& EXT_REQUIRED_BY_MAC) ≠ EXT_REQUIRED_BY_MAC then
          CLR fap.fa_attr (SMB_EFA_RDONLY ||| SMB_EFA_HIDDEN ||| SMB_EFA_ARCHIVE)
        else fap.fa_attr },
    (if hint &&& VNODE_EVENT_ATTRIB = 0 ∧
        ¬ (timespeccmp_eq np.n_crtime fap.fa_crtime ∨ ¬ timespeccmp_eq np.n_mtime fap.fa_mtime)
      then hint ||| VNODE_EVENT_ATTRIB else hint))

/-- The function `smbfs_attr_cacheenter` (lines 1759-1950) on the node it is
called on, up to the label `vnode_notify_needed`. -/
def smbfs_attr_cacheenter_node (h : smbfs_host) (share : smb_share) (smp : smbmount)
    (np : smbnode) (fap : smbfattr) (UpdateResourceParent : Bool) : cacheenter_result :=
  if node_vtype_changed np (vnode_vtype np) fap then
    { np := { np with
          d_needsUpdate :=
            if vnode_vtype np = vtype.VDIR ∧ np.d_needsUpdate then false else np.d_needsUpdate
          attribute_cache_timer := 0
          n_symlink_cache_timer := 0 }
      fap := fap
      monitorHint :=
        (if vnode_vtype np = vtype.VDIR ∧ np.d_needsUpdate then
          VNODE_EVENT_ATTRIB ||| VNODE_EVENT_WRITE else 0) |||
          (VNODE_EVENT_RENAME ||| VNODE_EVENT_ATTRIB)
      vtype_changed := true
      statfs_reset := false
      notify := true
      rsrc_parent := none }
  else
    match vnode_vtype np with
    | vtype.VREG =>
      { np := (cacheenter_meta h share smp
            (cacheenter_vreg h { np with n_flag := CLR np.n_flag NATTRCHANGED } fap).1
            (cacheenter_vreg h { np with n_flag := CLR np.n_flag NATTRCHANGED } fap).2.1
            (cacheenter_vreg h { np with n_flag := CLR np.n_flag NATTRCHANGED } fap).2.2.1).1
        fap := (cacheenter_meta h share smp
            (cacheenter_vreg h { np with n_flag := CLR np.n_flag NATTRCHANGED } fap).1
            (cacheenter_vreg h { np with n_flag := CLR np.n_flag NATTRCHANGED } fap).2.1
            (cacheenter_vreg h { np with n_flag := CLR np.n_flag NATTRCHANGED } fap).2.2.1).2.1
        monitorHint := (cacheenter_meta h share smp
            (cacheenter_vreg h { np with n_flag := CLR np.n_flag NATTRCHANGED } fap).1
            (cacheenter_vreg h { np with n_flag := CLR np.n_flag NATTRCHANGED } fap).2.1
            (cacheenter_vreg h { np with n_flag := CLR np.n_flag NATTRCHANGED } fap).2.2.1).2.2
        vtype_changed := false
        statfs_reset :=
          (cacheenter_vreg h { np with n_flag := CLR np.n_flag NATTRCHANGED } fap).2.2.2
        notify := true
        rsrc_parent :=
          if UpdateResourceParent ∧ vnode_isnamedstream np ∧ np.n_flag &&& N_ISRSRCFRK ≠ 0 then
            some (decide ((cacheenter_vreg h { np with n_flag := CLR np.n_flag NATTRCHANGED }
              fap).2.1.fa_size ≠ 0))
          else none }
    | vtype.VDIR =>
      { np := (cacheenter_meta h share smp
            (cacheenter_vdir share
              { np with n_flag := CLR np.n_flag NATTRCHANGED, d_needsUpdate := false } fap).1
            (cacheenter_vdir share
              { np with n_flag := CLR np.n_flag NATTRCHANGED, d_needsUpdate := false } fap).2.1
            (if np.d_needsUpdate then VNODE_EVENT_ATTRIB ||| VNODE_EVENT_WRITE else 0)).1
        fap := (cacheenter_meta h share smp
            (cacheenter_vdir share
              { np with n_flag := CLR np.n_flag NATTRCHANGED, d_needsUpdate := false } fap).1
            (cacheenter_vdir share
              { np with n_flag := CLR np.n_flag NATTRCHANGED, d_needsUpdate := false } fap).2.1
            (if np.d_needsUpdate then VNODE_EVENT_ATTRIB ||| VNODE_EVENT_WRITE else 0)).2.1
        monitorHint := (cacheenter_meta h share smp
            (cacheenter_vdir share
              { np with n_flag := CLR np.n_flag NATTRCHANGED, d_needsUpdate := false } fap).1
            (cacheenter_vdir share
              { np with n_flag := CLR np.n_flag NATTRCHANGED, d_needsUpdate := false } fap).2.1
            (if np.d_needsUpdate then VNODE_EVENT_ATTRIB ||| VNODE_EVENT_WRITE else 0)).2.2
        vtype_changed := false
        statfs_reset := false
        notify := true
        rsrc_parent :=
          if UpdateResourceParent ∧ vnode_isnamedstream np ∧ np.n_flag &&& N_ISRSRCFRK ≠ 0 then
            some (decide (fap.fa_size ≠ 0))
          else none }
    | vtype.VLNK =>
      { np := (cacheenter_meta h share smp { np with n_flag := CLR np.n_flag NATTRCHANGED }
            fap 0).1
        fap := (cacheenter_meta h share smp { np with n_flag := CLR np.n_flag NATTRCHANGED }
            fap 0).2.1
        monitorHint := (cacheenter_meta h share smp
            { np with n_flag := CLR np.n_flag NATTRCHANGED } fap 0).2.2
        vtype_changed := false
        statfs_reset := false
        notify := true
        rsrc_parent :=
          if UpdateResourceParent ∧ vnode_isnamedstream np ∧ np.n_flag &&& N_ISRSRCFRK ≠ 0 then
            some (decide (fap.fa_size ≠ 0))
          else none }
    | _ =>
      { np := { np with n_flag := CLR np.n_flag NATTRCHANGED }
        fap := fap
        monitorHint := 0
        vtype_changed := false
        statfs_reset := false
        notify := false
        rsrc_parent := none }

/-- The function `smb_update_rsrc_and_getparent` (lines 1455-1480) for the
stream node at `p`; the parent vnode is the one the host returns. -/
def smb_update_rsrc_and_getparent (h : smbfs_host) (smp : smbmount) (p : Nat) (setsize : Bool) :
    smbmount :=
  match h.vnode_getparent with
  | none => smp
  | some parent =>
    if (smp.nodes p).n_flag &&& N_ISRSRCFRK ≠ 0 then
      smp.setNode parent
        { smp.nodes parent with
          rfrk_size := if setsize then (smp.nodes p).n_size else (smp.nodes parent).rfrk_size
          rfrk_alloc_size :=
            if setsize then (smp.nodes p).n_size else (smp.nodes parent).rfrk_alloc_size
          rfrk_cache_timer :=
            if setsize then h.uptime_rsrc.tv_sec
            else if (smp.nodes parent).rfrk_size ≠ (smp.nodes p).n_size then 0
            else (smp.nodes parent).rfrk_cache_timer }
    else smp

/-- The label `vnode_notify_needed` of `smbfs_attr_cacheenter` (lines 1942-1949):
the attributes for the notification are read with `smbfs_attr_cachelookup`. -/
def cacheenter_notify (h : smbfs_host) (share : smb_share) (monitorHint : Nat) (np : smbnode) :
    smbnode :=
  if monitorHint ≠ 0 ∧ h.vnode_ismonitored ∧ h.context then
    (smbfs_attr_cachelookup share h.cache_time_sec h.cache_attrtimeo h.smb_get_rsrcfrk_size np
      (some {}) true).2
  else np

/-- The function `smbfs_attr_cacheenter` (lines 1759-1950) on the mount: the
new mount, the attribute record as the routine leaves it, and the event mask. -/
def smbfs_attr_cacheenter (h : smbfs_host) (share : smb_share) (smp : smbmount) (p : Nat)
    (fap : smbfattr) (UpdateResourceParent : Bool) : smbmount × smbfattr × Nat :=
  let r := smbfs_attr_cacheenter_node h share smp (smp.nodes p) fap UpdateResourceParent
  let s1 : smbmount :=
    { smp.setNode p r.np with
      sm_statfstime := if r.statfs_reset then 0 else smp.sm_statfstime }
  let s2 := if r.vtype_changed then smb_vhashrem s1 p else s1
  let s3 :=
    match r.rsrc_parent with
    | some setsize => smb_update_rsrc_and_getparent h s2 p setsize
    | none => s2
  let s4 := if r.notify then s3.setNode p (cacheenter_notify h share r.monitorHint (s3.nodes p))
    else s3
  (s4, r.fap, r.monitorHint)

/-! ## Windows fake symbolic links (lines 250-353) -/

/-- The digit loop of `smb_check_for_windows_symlink` (lines 311-316) over at
most `n` bytes: the number of digits consumed and the value of `len`. -/
def symlink_digits : List Nat → Nat → Nat → Nat × Nat
  | _, 0, len => (0, len)
  | cp, n + 1, len =>
    if 48 ≤ cp.headD 0 % 256 ∧ cp.headD 0 % 256 ≤ 57 then
      ((symlink_digits cp.tail n (len * 10 + (cp.headD 0 % 256 - 48))).1 + 1,
        (symlink_digits cp.tail n (len * 10 + (cp.headD 0 % 256 - 48))).2)
    else (0, len)

/-- The conversion `(int)x` of an unsigned 64 bit value. -/
def toInt32 (x : Nat) : Int :=
  if x % 2 ^ 32 < 2 ^ 31 then (x % 2 ^ 32 : Nat) else ((x % 2 ^ 32 : Nat) : Int) - 2 ^ 32

/-- The function `smb_check_for_windows_symlink` (lines 257-353): the error and
`*symlen`, which starts as 0 in the caller. -/
def smb_check_for_windows_symlink (h : smbfs_host) (share : smb_share) (np : smbnode) :
    Nat × Nat :=
  if ¬ h.symlink_alloc_ok then (ENOMEM, 0)
  else if share.ss_vc.vc_flags &&& SMBV_SMB2 = 0 ∧ h.symlink_open_error ≠ 0 then
    (h.symlink_open_error, 0)
  else if h.symlink_read_error = 0 ∧ bcmp h.symlink_content smb_symmagic SMB_SYMMAGICLEN = 0 then
    if (symlink_digits (h.symlink_content.drop SMB_SYMMAGICLEN) (SMB_SYMLENLEN - 1) 0).1 + 1 ≠
          SMB_SYMLENLEN ∨
        ((symlink_digits (h.symlink_content.drop SMB_SYMMAGICLEN) (SMB_SYMLENLEN - 1) 0).2 : Int) >
          toInt32 ((np.n_size + 2 ^ 64 - SMB_SYMHDRLEN) % 2 ^ 64) then
      (ENOENT, 0)
    else if bcmp (h.symlink_content.drop (SMB_SYMMAGICLEN + SMB_SYMLENLEN))
        (h.md5hex ((h.symlink_content.drop SMB_SYMHDRLEN).take
          (symlink_digits (h.symlink_content.drop SMB_SYMMAGICLEN) (SMB_SYMLENLEN - 1) 0).2))
        (SMB_SYMMD5LEN - 1) ≠ 0 then
      (ENOENT, 0)
    else (0, (symlink_digits (h.symlink_content.drop SMB_SYMMAGICLEN) (SMB_SYMLENLEN - 1) 0).2)
  else (ENOENT, 0)

/-! ## Node lookup and creation (lines 706-1083) -/

/-- What `smbfs_nget` returns: the error number, `*vpp`, the attribute record
as the routine leaves it, and the mount. -/
structure nget_result where
  error : Nat
  vpp : Option Nat
  fap : Option smbfattr
  smp : smbmount

/-- The label `errout` of `smbfs_nget` (lines 1049-1083) for the new node at
address `np`; `locked` is 1 whenever the label is reached. -/
def smbfs_nget_errout (smp : smbmount) (dvp : Option Nat) (np : Nat) (error : Nat)
    (fap : smbfattr) : nget_result :=
  let s1 : smbmount :=
    if (smp.nodes np).n_flag &&& NREFPARENT ≠ 0 then
      let t := smp.setNode np { smp.nodes np with n_flag := CLR (smp.nodes np).n_flag NREFPARENT }
      match dvp with
      | some d =>
        t.setNode d { t.nodes d with
          n_child_refcnt := ((t.nodes d).n_child_refcnt + 2 ^ 32 - 1) % 2 ^ 32 }
      | none => t
    else smp
  let s2 := smb_vhashrem s1 np
  let s3 := s2.setNode np (smbnode_unlock (s2.nodes np))
  let s4 := s3.setNode np { s3.nodes np with n_name := [] }
  { error := error, vpp := none, fap := some fap, smp := s4 }

/-- Lines 1007-1047 of `smbfs_nget`: the creation of the vnode of type
`vnfs_vtype`, the binding of the node, the attribute cache, and the end of the
allocation. -/
def smbfs_nget_vcreate (h : smbfs_host) (share : smb_share) (smp : smbmount)
    (dvp : Option Nat) (fap : smbfattr) (np : Nat) (vnfs_vtype : vtype) (vnfs_markroot : Bool) :
    nget_result :=
  if h.vnode_create ≠ 0 then smbfs_nget_errout smp dvp np h.vnode_create fap
  else
    let s1 := smp.setNode np
      { smp.nodes np with
        n_vnode := some { v_type := vnfs_vtype, v_isvroot := vnfs_markroot,
                          v_isnamedstream := false }
        n_mode := (smp.nodes np).n_mode |||
          (match vnfs_vtype with
            | vtype.VREG => S_IFREG
            | vtype.VLNK => S_IFLNK
            | vtype.VDIR => S_IFDIR
            | _ => S_IFREG) }
    let ce := smbfs_attr_cacheenter h share s1 np fap false
    let s2 := ce.1
    let s3 := s2.setNode np { s2.nodes np with n_flag := CLR (s2.nodes np).n_flag NALLOC }
    { error := 0, vpp := some np, fap := some ce.2.1, smp := s3 }

/-- Lines 962-967 of `smbfs_nget`: the attribute record of the root after
`smbfs_lookup`, with the file id `SMBFS_ROOT_INO` when the server has no file
ids. -/
def smbfs_nget_rootfap (h : smbfs_host) (share : smb_share) (fap : smbfattr) : smbfattr :=
  if share.ss_vc.vc_misc_flags &&& SMBV_HAS_FILEIDS = 0 then
    { (h.smbfs_lookup fap).2 with fa_ino := SMBFS_ROOT_INO }
  else (h.smbfs_lookup fap).2

/-- Lines 959-974 of `smbfs_nget`: the root node is unlinked, takes the file
id of the record, which also becomes `sm_root_ino`, and is linked again under
the hash value of that file id. -/
def smbfs_nget_rehash (share : smb_share) (smp : smbmount) (name : List Nat) (nmlen : Nat)
    (fap1 : smbfattr) (np : Nat) : smbmount :=
  smb_vhashadd
    { (smb_vhashrem smp np).setNode np
        { (smb_vhashrem smp np).nodes np with n_ino := fap1.fa_ino } with
      sm_root_ino := fap1.fa_ino }
    np (smbfs_hash (some share) fap1.fa_ino name nmlen)

/-- Lines 926-1005 of `smbfs_nget`: the lookup of the root with the update of
its hash value, or the test for a Windows fake symbolic link, then the
creation of the vnode. -/
def smbfs_nget_finish (h : smbfs_host) (share : smb_share) (smp : smbmount)
    (dvp : Option Nat) (name : List Nat) (nmlen : Nat) (fap : smbfattr) (np : Nat) :
    nget_result :=
  if fap.fa_vtype = vtype.VDIR ∧ dvp = none ∧ smp.sm_rvp = none ∧
      (smp.nodes np).n_ino = smp.sm_root_ino then
    if (h.smbfs_lookup fap).1 ≠ 0 then
      smbfs_nget_errout smp dvp np (h.smbfs_lookup fap).1 (h.smbfs_lookup fap).2
    else
      smbfs_nget_vcreate h share
        (smbfs_nget_rehash share smp name nmlen (smbfs_nget_rootfap h share fap) np)
        dvp (smbfs_nget_rootfap h share fap) np fap.fa_vtype
        (decide ((smp.nodes np).n_ino = smp.sm_root_ino))
  else if fap.fa_vtype = vtype.VREG ∧ (smp.nodes np).n_size = SMB_SYMLEN then
    if (smb_check_for_windows_symlink h share (smp.nodes np)).1 = 0 then
      smbfs_nget_vcreate h share
        (smp.setNode np
          { smp.nodes np with
            n_size := (smb_check_for_windows_symlink h share (smp.nodes np)).2
            n_flag := (smp.nodes np).n_flag ||| NWINDOWSYMLNK })
        dvp
        { fap with fa_valid_mask := fap.fa_valid_mask ||| FA_VTYPE_VALID, fa_vtype := vtype.VLNK }
        np vtype.VLNK (decide ((smp.nodes np).n_ino = smp.sm_root_ino))
    else
      smbfs_nget_vcreate h share smp dvp fap np fap.fa_vtype
        (decide ((smp.nodes np).n_ino = smp.sm_root_ino))
  else
    smbfs_nget_vcreate h share smp dvp fap np fap.fa_vtype
      (decide ((smp.nodes np).n_ino = smp.sm_root_ino))

/-- Lines 842-898 of `smbfs_nget`: the new node at address `np` is locked,
filled from the attribute record, marked `NALLOC` and linked in the table. -/
def smbfs_nget_init (smp : smbmount) (name : List Nat) (nmlen : Nat) (fap : smbfattr) (np : Nat)
    (hashval : Nat) : smbmount :=
  smb_vhashadd
    (smp.setNode np
      { (smbnode_lock (smp.nodes np) SMBFS_EXCLUSIVE_LOCK).2 with
        n_reparse_tag := fap.fa_reparse_tag
        n_dosattr := fap.fa_attr
        n_vnode := none
        n_size := fap.fa_size
        n_data_alloc := fap.fa_data_alloc
        n_ino := fap.fa_ino
        n_name := smb_strndup name nmlen
        n_nmlen := nmlen
        n_flags_mask := EXT_REQUIRED_BY_MAC
        n_uid := KAUTH_UID_NONE
        n_gid := KAUTH_GID_NONE
        n_nfs_uid := KAUTH_UID_NONE
        n_nfs_gid := KAUTH_GID_NONE
        n_flag := (smp.nodes np).n_flag ||| NALLOC })
    np hashval

/-- Lines 842-1083 of `smbfs_nget`: the creation of a node at the address `np`
that `SMB_MALLOC` returned. -/
def smbfs_nget_create (h : smbfs_host) (share : smb_share) (smp : smbmount) (dvp : Option Nat)
    (name : List Nat) (nmlen : Nat) (fap : smbfattr) (np : Nat) (hashval : Nat) : nget_result :=
  let s1 := smbfs_nget_init smp name nmlen fap np hashval
  match dvp with
  | none => smbfs_nget_finish h share s1 dvp name nmlen fap np
  | some d =>
    let s2 := s1.setNode np { s1.nodes np with n_parent := some d }
    if vnode_isvroot (s2.nodes d) then smbfs_nget_finish h share s2 dvp name nmlen fap np
    else if h.vnode_get_dvp = 0 then
      if h.vnode_ref_dvp = 0 then
        let s3 := s2.setNode np { s2.nodes np with n_flag := (s2.nodes np).n_flag ||| NREFPARENT }
        let s4 := s3.setNode d
          { s3.nodes d with n_child_refcnt := ((s3.nodes d).n_child_refcnt + 1) % 2 ^ 32 }
        smbfs_nget_finish h share s4 dvp name nmlen fap np
      else smbfs_nget_errout s2 dvp np EINVAL fap
    else smbfs_nget_errout s2 dvp np EINVAL fap

/-- Lines 826-840 of `smbfs_nget`, reached when no node is returned by the
lookup or the node found was evicted: refuse a pure lookup and a missing
attribute record, else create the node. -/
def smbfs_nget_new (h : smbfs_host) (share : smb_share) (smp : smbmount) (dvp : Option Nat)
    (name : List Nat) (nmlen : Nat) (fap : Option smbfattr) (flags : Nat) (np : Nat)
    (hashval : Nat) : nget_result :=
  if flags &&& SMBFS_NGET_LOOKUP_ONLY ≠ 0 then
    { error := ENOENT, vpp := none, fap := fap, smp := smp }
  else
    match fap with
    | none => { error := ENOENT, vpp := none, fap := fap, smp := smp }
    | some f => smbfs_nget_create h share smp dvp name nmlen f np hashval

/-- Lines 781-824 of `smbfs_nget`: the lookup found the node at `vp`. -/
def smbfs_nget_found (h : smbfs_host) (share : smb_share) (smp : smbmount) (dvp : Option Nat)
    (name : List Nat) (nmlen : Nat) (fap : Option smbfattr) (flags : Nat) (np : Nat)
    (hashval : Nat) (vp : Nat) : nget_result :=
  if flags &&& SMBFS_NGET_NO_CACHE_UPDATE ≠ 0 then
    { error := 0, vpp := some vp, fap := fap, smp := smp }
  else
    match fap with
    | some f =>
      if node_vtype_changed (smp.nodes vp) (vnode_vtype (smp.nodes vp)) f then
        let s1 := smb_vhashrem smp vp
        let s2 := s1.setNode vp
          (smbnode_unlock
            { s1.nodes vp with attribute_cache_timer := 0, n_symlink_cache_timer := 0 })
        smbfs_nget_new h share s2 dvp name nmlen fap flags np hashval
      else
        { error := 0, vpp := some vp
          fap := some (smbfs_attr_cacheenter h share smp vp f false).2.1
          smp := (smbfs_attr_cacheenter h share smp vp f false).1 }
    | none => { error := 0, vpp := some vp, fap := fap, smp := smp }

/-- Lines 741-764 of `smbfs_nget`: the tests made before the lookup, with the
error they return (`none` when the routine goes on). -/
def smbfs_nget_precheck (h : smbfs_host) (smp : smbmount) (dvp : Option Nat) (name : List Nat)
    (nmlen : Nat) (flags : Nat) : Option Nat :=
  if h.vfs_isforce then some ENXIO
  else if flags &&& SMBFS_NGET_LOOKUP_ONLY = 0 ∧ smp.sm_rvp ≠ none ∧ dvp = none then some EINVAL
  else if nmlen = 2 ∧ bcmp name [46, 46] 2 = 0 then some EINVAL
  else if nmlen = 1 ∧ name.headD 0 % 256 = 46 then some EINVAL
  else if dvp ≠ none ∧ h.dvp_dead then some EINVAL
  else none

/-- Line 775 of `smbfs_nget`: `SMB_MALLOC` with `M_ZERO` hands out the zeroed
node at the address `node_brk`. -/
def smbfs_nget_malloc (smp : smbmount) : smbmount :=
  { smp.setNode smp.node_brk {} with node_brk := smp.node_brk + 1 }

/-- Line 777 of `smbfs_nget`: the hash value of the request. -/
def smbfs_nget_hashval (share : smb_share) (name : List Nat) (nmlen : Nat)
    (fap : Option smbfattr) : Nat :=
  smbfs_hash (some share)
    (match fap with
      | some f => f.fa_ino
      | none => 0)
    name nmlen

/-- The function `smbfs_nget` (lines 715-1083). `dvp` is the vnode of the
parent, `wake` what the other threads do while the lookup sleeps (see
`smb_hashget`); the result is `none` when the call stays blocked in the
lookup. -/
def smbfs_nget (h : smbfs_host) (wake : List (smbmount → smbmount)) (share : smb_share)
    (smp : smbmount) (dvp : Option Nat) (name : List Nat) (nmlen : Nat)
    (fap : Option smbfattr) (_cnflags : Nat) (flags : Nat) : Option nget_result :=
  match smbfs_nget_precheck h smp dvp name nmlen flags with
  | some error => some { error := error, vpp := none, fap := fap, smp := smp }
  | none =>
    match smb_hashget h.vnode_getwithvid dvp (smbfs_nget_hashval share name nmlen fap)
        name nmlen share.ss_maxfilenamelen 0 none wake (smbfs_nget_malloc smp) with
    | none => none
    | some (some vp, s1) =>
      some (smbfs_nget_found h share s1 dvp name nmlen fap flags smp.node_brk
        (smbfs_nget_hashval share name nmlen fap) vp)
    | some (none, s1) =>
      some (smbfs_nget_new h share s1 dvp name nmlen fap flags smp.node_brk
        (smbfs_nget_hashval share name nmlen fap))

/-! ## Concrete mounts used by the examples -/

/-- A mount of a server without file ids whose table holds one regular file
named by the bytes `a`, NUL, `b`, in the bucket of that name. -/
def c4_state : smbmount :=
  { sm_share := some {}
    sm_hashlen := 127
    sm_hash := fun i => if i = smbfs_hash (some {}) 0 [97, 0, 98] 3 &&& 127 then [1] else []
    nodes := fun p =>
      if p = 1 then
        { n_name := [97, 0, 98], n_nmlen := 3, n_hash_le_prev := true,
          n_vnode := some { v_type := vtype.VREG } }
      else {}
    node_brk := 2 }

/-- A mount of a server without file ids with a single bucket that holds one
regular file named `a` without parent, stored at address 1. -/
def c9_state : smbmount :=
  { sm_share := some {}
    sm_hashlen := 0
    sm_hash := fun i => if i = 0 then [1] else []
    nodes := fun p =>
      if p = 1 then
        { n_name := [97], n_nmlen := 1, n_hash_le_prev := true,
          n_vnode := some { v_type := vtype.VREG } }
      else {}
    node_brk := 2 }

/-- An attribute record of a regular file that carries the reparse point bit. -/
def c9_fap : smbfattr := { fa_attr := SMB_EFA_REPARSE_POINT, fa_vtype := vtype.VREG }

/-! ## Notions used in the statements -/

/-- The bits of `n_flag` that `smbfs_attr_cacheenter` never writes: every bit of
the 32 bit word except `NATTRCHANGED`, `NNEGNCENTRIES` and `NHAS_POSIXMODES`. -/
def KEYFLAGS : Nat := 0xFFFFFFFF ^^^ (NATTRCHANGED ||| NNEGNCENTRIES ||| NHAS_POSIXMODES)

/-- Node `b` carries the identity of node `a`: the fields read by the lookup
(parent, name, stream name, file id), the vnode, the lock state, the child
count and the flag bits of `KEYFLAGS` agree. -/
def same_key (a b : smbnode) : Prop :=
  b.n_parent = a.n_parent ∧ b.n_name = a.n_name ∧ b.n_nmlen = a.n_nmlen ∧
  b.n_sname = a.n_sname ∧ b.n_snmlen = a.n_snmlen ∧ b.n_ino = a.n_ino ∧
  b.n_vnode = a.n_vnode ∧ b.n_lockState = a.n_lockState ∧
  b.n_child_refcnt = a.n_child_refcnt ∧
  b.n_flag &&& KEYFLAGS = a.n_flag &&& KEYFLAGS

/-- The flag bits that the lookup reads. -/
def LOOKUPFLAGS : Nat := N_ISSTREAM ||| NDELETEONCLOSE ||| NMARKEDFORDLETE ||| NALLOC ||| NTRANSIT

/-- Node `b` looks to `smb_hashget` like node `a`: the fields and flag bits
the lookup reads agree. -/
def same_lookup (a b : smbnode) : Prop :=
  b.n_parent = a.n_parent ∧ b.n_name = a.n_name ∧ b.n_nmlen = a.n_nmlen ∧
  b.n_sname = a.n_sname ∧ b.n_snmlen = a.n_snmlen ∧ b.n_ino = a.n_ino ∧
  b.n_flag &&& LOOKUPFLAGS = a.n_flag &&& LOOKUPFLAGS

/-- The fields of the mount that no routine of the node cache writes. -/
def mount_fields_eq (s t : smbmount) : Prop :=
  t.sm_share = s.sm_share ∧ t.sm_hashlen = s.sm_hashlen ∧ t.node_brk = s.node_brk ∧
  t.sm_rvp = s.sm_rvp

/-- The mount `c9_state` while the node at address 1 is still being created
(`NALLOC`). -/
def c2_state : smbmount :=
  c9_state.setNode 1 { c9_state.nodes 1 with n_flag := NALLOC }

/-- What the creating thread does at the end of the allocation: it clears
`NALLOC` and the waiter flag of the node at address 1. -/
def c2_wake (s : smbmount) : smbmount :=
  s.setNode 1 { s.nodes 1 with n_flag := CLR (CLR (s.nodes 1).n_flag NALLOC) NWALLOC }

/-- One call of `smbfs_nget` in a sequence of calls for one parent and name:
what the host answers during the call, the attribute record and the flags. -/
structure nget_call where
  host : smbfs_host := {}
  fap : Option smbfattr := none
  flags : Nat := 0

/-- One completed call of a sequence: the call, the mount before it and what
`smbfs_nget` returned. -/
structure nget_step where
  call : nget_call
  pre : smbmount
  res : nget_result

/-- The calls of `smbfs_nget` for the parent `dvp` and the name `name`, taken
one at a time (no other thread runs, so a call that has to sleep stays blocked
and ends the sequence): the completed calls in order. -/
def nget_trace (share : smb_share) (dvp : Option Nat) (name : List Nat) (nmlen : Nat) :
    List nget_call → smbmount → List nget_step
  | [], _ => []
  | c :: cs, smp =>
    match smbfs_nget c.host [] share smp dvp name nmlen c.fap 0 c.flags with
    | none => []
    | some r => { call := c, pre := smp, res := r } :: nget_trace share dvp name nmlen cs r.smp

/-- The share of a server with file ids. -/
def c1_share : smb_share := { ss_vc := { vc_misc_flags := SMBV_HAS_FILEIDS } }

/-- A mount of a server with file ids with a single bucket that holds the
directory with file id 7 stored at address 1. -/
def c1_state : smbmount :=
  { sm_share := some c1_share
    sm_hashlen := 0
    sm_hash := fun i => if i = 0 then [1] else []
    nodes := fun p =>
      if p = 1 then
        { n_name := [100], n_nmlen := 1, n_ino := 7, n_hash_le_prev := true,
          n_dosattr := SMB_EFA_DIRECTORY, n_vnode := some { v_type := vtype.VDIR } }
      else {}
    node_brk := 2 }

/-- Mount `t` looks to the lookup like mount `s`: same share, same table, and
every node allocated in `s` has the fields the lookup reads unchanged. -/
def lookup_equiv (s t : smbmount) : Prop :=
  t.sm_share = s.sm_share ∧ t.sm_hashlen = s.sm_hashlen ∧ t.sm_hash = s.sm_hash ∧
  s.node_brk ≤ t.node_brk ∧ ∀ q, q < s.node_brk → same_lookup (s.nodes q) (t.nodes q)

/-- Every node linked in the table has been allocated. -/
def table_wf (s : smbmount) : Prop := ∀ i q, q ∈ s.sm_hash i → q < s.node_brk

/-- The lookup of the non-stream request `(dvp, hv, name, nmlen)` in the mount
`s` of the share `share` ends at the node `p`: the table is well formed and
`p` is the first node of the bucket of `hv` that is not skipped, and it is in
no transitional state. -/
def nget_finds (share : smb_share) (dvp : Option Nat) (name : List Nat) (nmlen hv p : Nat)
    (s : smbmount) : Prop :=
  s.sm_share = some share ∧ table_wf s ∧
  smb_hashget_scan s share dvp hv name nmlen 0 none 0 (s.sm_hash (SMBFS_NOHASH s hv)) =
    hashget_scan.candidate p

/-- A call of `smbfs_nget` with the record of a regular file with file id 5,
on a host where every primitive succeeds. -/
def c1_call : nget_call :=
  { fap := some { fa_ino := 5, fa_vtype := vtype.VREG, fa_valid_mask := FA_VTYPE_VALID } }

/-- A node of size 5 with a pending set-EOF and a cluster write in flight,
whose size was set at uptime 7. -/
def c12_node : smbnode :=
  { n_size := 5, n_flag := NNEEDS_EOF_SET, waitOnClusterWrite := 1, n_sizetime := { tv_sec := 7 } }

/-! ## The open deny list (lines 2522-2988) -/

/-- Modelled from the spec: access mode bits of an open (`smbfs.h`, which is
not among the sources); each is a distinct single bit. Read access. -/
def kAccessRead : Nat := 0x01
/-- Modelled from the spec: write access. -/
def kAccessWrite : Nat := 0x02
/-- Modelled from the spec: others are denied write access. -/
def kDenyWrite : Nat := 0x10
/-- Modelled from the spec: others are denied read access. -/
def kDenyRead : Nat := 0x20

/-- Modelled from the spec: the match strategies of `FindFileRef`
(`smbfs_node.h`), pairwise distinct. Any entry with overlapping access. -/
def kAnyMatch : Int := 1
/-- Modelled from the spec: resolve by byte range locks, else by access. -/
def kCheckDenyOrLocks : Int := 2
/-- Modelled from the spec: exact access mode. -/
def kExactMatch : Int := 3
/-- Modelled from the spec: would a prospective open be denied. -/
def kPreflightOpen : Int := 4

/-- The `struct ByteRangeLockEntry` without its link. -/
structure ByteRangeLockEntry where
  offset : Int := 0
  length : Int := 0
  lck_pid : Nat := 0
deriving DecidableEq, Repr

/-- The fields of `struct fileRefEntry` read by `FindFileRef` and by
`smb2fs_reconnect`; `lockList` is the chain of byte range locks in list
order, `dur_handle_flags` and `dur_handle_fid` are the fields `flags` and
`fid` of the member `dur_handle`. -/
structure fileRefEntry where
  p_pid : Int := 0
  accessMode : Nat := 0
  fid : Nat := 0
  lockList : List ByteRangeLockEntry := []
  dur_handle_flags : Nat := 0
  dur_handle_fid : Nat := 0
deriving DecidableEq, Repr

/-- The sum of two `int64_t` values as the machine computes it. -/
def int64_add (a b : Int) : Int := (a + b + 2 ^ 63) % 2 ^ 64 - 2 ^ 63

/-- The `while (currBRL != NULL)` loop of `FindFileRef` (lines 2903-2917): does
the start or the end of the transfer fall inside one of the locks. -/
def FindFileRef_brl (offset length : Int) : List ByteRangeLockEntry → Bool
  | [] => false
  | c :: rest =>
    if offset ≥ c.offset ∧ offset ≤ int64_add c.offset c.length then true
    else if int64_add offset length ≥ c.offset ∧
        int64_add offset length ≤ int64_add c.offset c.length then true
    else FindFileRef_brl offset length rest

/-- The `switch (flags)` of `FindFileRef` (lines 2840-2960) for one entry:
whether it sets `foundIt`. -/
def FindFileRef_switch (accessMode : Nat) (flags : Int) (offset length : Int)
    (entry : fileRefEntry) : Bool :=
  if flags = kPreflightOpen then
    decide ((entry.accessMode &&& kDenyRead ≠ 0 ∧ entry.accessMode &&& kDenyWrite ≠ 0) ∨
      (entry.accessMode &&& kDenyWrite ≠ 0 ∧ accessMode &&& kAccessWrite ≠ 0) ∨
      (entry.accessMode &&& kAccessWrite ≠ 0 ∧ accessMode &&& kDenyWrite ≠ 0))
  else if flags = kAnyMatch then decide (entry.accessMode &&& accessMode ≠ 0)
  else if flags = kCheckDenyOrLocks then
    if entry.accessMode &&& accessMode ≠ 0 then FindFileRef_brl offset length entry.lockList
    else false
  else
    if accessMode = entry.accessMode then true
    else if accessMode &&& kDenyWrite ≠ 0 ∧ accessMode &&& kAccessRead ≠ 0 ∧
        ¬ (accessMode &&& kAccessWrite ≠ 0) then
      decide (entry.accessMode &&& kAccessRead ≠ 0)
    else false

/-- The `for` loop of `FindFileRef` (lines 2824-2968) from the entry with
index `i` on: the entry at which the loop breaks with its index (`none` when
the loop runs to the end, where `entry` is NULL), and `tempEntry`. `p` is the
pid of the process, `none` for a NULL `p`. -/
def FindFileRef_loop (p : Option Int) (accessMode : Nat) (flags : Int) (offset length : Int) :
    List fileRefEntry → Nat → Option (Nat × fileRefEntry) →
      Option (Nat × fileRefEntry) × Option (Nat × fileRefEntry)
  | [], _, tempEntry => (none, tempEntry)
  | entry :: rest, i, tempEntry =>
    if p.isSome ∧ some entry.p_pid ≠ p then
      FindFileRef_loop p accessMode flags offset length rest (i + 1) tempEntry
    else if FindFileRef_switch accessMode flags offset length entry then
      (some (i, entry),
        if flags = kCheckDenyOrLocks ∧ entry.accessMode &&& accessMode ≠ 0 ∧ tempEntry = none then
          some (i, entry)
        else tempEntry)
    else
      FindFileRef_loop p accessMode flags offset length rest (i + 1)
        (if flags = kCheckDenyOrLocks ∧ entry.accessMode &&& accessMode ≠ 0 ∧ tempEntry = none then
          some (i, entry)
        else tempEntry)

/-- What `FindFileRef` returns and leaves in its outputs: the `SMBFID` in
`*fid` and the entry in `*fndEntry`, given by its index in the list, `none`
for NULL. -/
structure FindFileRef_result where
  ret : Int
  fid : Nat
  fndEntry : Option Nat
deriving DecidableEq, Repr

/-- The function `FindFileRef` (lines 2803-2988). `vp` is the open deny list
of the node of the vnode (`none` for a NULL vnode), `wantEntry` tells that the
pointer `fndEntry` is not NULL, `fid0` and `fnd0` are the contents of `*fid`
and `*fndEntry` on entry. -/
def FindFileRef (vp : Option (List fileRefEntry)) (p : Option Int) (accessMode : Nat)
    (flags : Int) (offset length : Int) (wantEntry : Bool) (fid0 : Nat) (fnd0 : Option Nat) :
    FindFileRef_result :=
  match vp with
  | none => { ret := -1, fid := fid0, fndEntry := fnd0 }
  | some f_openDenyList =>
    match FindFileRef_loop p accessMode flags offset length f_openDenyList 0 none with
    | (some (i, entry), _) =>
      { ret := 0, fid := entry.fid, fndEntry := if wantEntry then some i else fnd0 }
    | (none, some (_, tempEntry)) =>
      if flags = kCheckDenyOrLocks then
        { ret := 0, fid := tempEntry.fid, fndEntry := if wantEntry then none else fnd0 }
      else { ret := -1, fid := fid0, fndEntry := fnd0 }
    | (none, none) => { ret := -1, fid := fid0, fndEntry := fnd0 }

/-- An open for read and write that denies read and write, of process 7, with
the file reference 41. -/
def c17_entry : fileRefEntry :=
  { p_pid := 7, accessMode := kAccessRead ||| kAccessWrite ||| kDenyRead ||| kDenyWrite,
    fid := 41 }

/-- An open deny list that holds `c17_entry` only. -/
def c17_list : List fileRefEntry := [c17_entry]

/-- Reference definition following the words of the specification: the entry
belongs to the calling process (every entry does when there is no process)
and matches the request exactly, that is its access mode equals the requested
one, or the request contains `kAccessRead` and `kDenyWrite` but not
`kAccessWrite` and the entry contains `kAccessRead`. -/
def exact_match_rule (p : Option Int) (accessMode : Nat) (e : fileRefEntry) : Prop :=
  (p = none ∨ p = some e.p_pid) ∧
  (e.accessMode = accessMode ∨
    (accessMode &&& kAccessRead ≠ 0 ∧ accessMode &&& kDenyWrite ≠ 0 ∧
      accessMode &&& kAccessWrite = 0 ∧ e.accessMode &&& kAccessRead ≠ 0))

/-- Reference definition following the words of the specification: the entry
belongs to the calling process (every entry does when there is no process)
and its access bits overlap the requested ones. -/
def access_overlap_rule (p : Option Int) (accessMode : Nat) (e : fileRefEntry) : Prop :=
  (p = none ∨ p = some e.p_pid) ∧ e.accessMode &&& accessMode ≠ 0

/-- The length `len` that `smb_check_for_windows_symlink` parses from the
length field of the content. -/
def symlink_len (content : List Nat) : Nat :=
  (symlink_digits (content.drop SMB_SYMMAGICLEN) (SMB_SYMLENLEN - 1) 0).2

/-- The header of the content fails the validation of
`smb_check_for_windows_symlink` for a file of size `n_size`: the magic is
absent, or the four bytes of the length field are not all decimal digits, or
the length exceeds `(int)(n_size - SMB_SYMHDRLEN)`. -/
def symlink_bad_header (content : List Nat) (n_size : Nat) : Prop :=
  bcmp content smb_symmagic SMB_SYMMAGICLEN ≠ 0 ∨
  (symlink_digits (content.drop SMB_SYMMAGICLEN) (SMB_SYMLENLEN - 1) 0).1 + 1 ≠ SMB_SYMLENLEN ∨
  (symlink_len content : Int) > toInt32 ((n_size + 2 ^ 64 - SMB_SYMHDRLEN) % 2 ^ 64)

/-- The node as lines 1007-1030 of `smbfs_nget` leave it when `vnode_create`
succeeds: bound to its vnode, with the type bits in `n_mode`. -/
def smbfs_nget_bind (n : smbnode) (vnfs_vtype : vtype) (vnfs_markroot : Bool) : smbnode :=
  { n with
    n_vnode := some { v_type := vnfs_vtype, v_isvroot := vnfs_markroot,
                      v_isnamedstream := false }
    n_mode := n.n_mode |||
      (match vnfs_vtype with
        | vtype.VREG => S_IFREG
        | vtype.VLNK => S_IFLNK
        | vtype.VDIR => S_IFDIR
        | _ => S_IFREG) }

/-- The 32 hexadecimal digits of the MD5 digest of the empty byte string,
`d41d8cd98f00b204e9800998ecf8427e`. -/
def c20_md5_empty : List Nat :=
  [100, 52, 49, 100, 56, 99, 100, 57, 56, 102, 48, 48, 98, 50, 48, 52,
   101, 57, 56, 48, 48, 57, 57, 56, 101, 99, 102, 56, 52, 50, 55, 101]

/-- The content of a file that starts with the magic `XSym\n`, the length
field `0000` followed by the letter `X` where the format has a newline, and
the digest of the empty payload. -/
def c20_content : List Nat :=
  smb_symmagic ++ [48, 48, 48, 48, 88] ++ c20_md5_empty ++ [10]

/-- A host on which the file reads as `c20_content`; the digest oracle is the
MD5 digest of the empty string, the only payload it is asked for here. -/
def c20_host : smbfs_host :=
  { symlink_content := c20_content, md5hex := fun _ => c20_md5_empty }

/-- A node of the size of a fake symbolic link file. -/
def c19_node : smbnode := { n_size := SMB_SYMLEN }

/-! ## Data for the attribute event -/

/-- A regular file of size 0 whose cached modify time is 5 s and whose cached
create time is 0. -/
def c26_node : smbnode :=
  { n_vnode := some { v_type := vtype.VREG }, n_mtime := { tv_sec := 5 } }

/-- A mount that holds `c26_node` at address 1. -/
def c26_state : smbmount := ({} : smbmount).setNode 1 c26_node

/-- A fetched record of the same file: same size and create time, modify time
9 s. -/
def c26_fap : smbfattr := { fa_mtime := { tv_sec := 9 } }

/-! ## Reference for the coarse permission matching -/

/-- Reference definition following the words of the specification: the range
`[lock.offset, lock.offset + lock.length]` of the lock overlaps the requested
range `[offset, offset + length]`. -/
def brl_overlap_rule (offset length : Int) (c : ByteRangeLockEntry) : Prop :=
  c.offset ≤ offset + length ∧ offset ≤ c.offset + c.length

/-- The test that lines 2906-2914 of `FindFileRef` make on one lock: the start
or the end of the requested range lies inside the range of the lock, with the
sums computed on `int64_t`. -/
def brl_hit_rule (offset length : Int) (c : ByteRangeLockEntry) : Prop :=
  (offset ≥ c.offset ∧ offset ≤ int64_add c.offset c.length) ∨
  (int64_add offset length ≥ c.offset ∧
    int64_add offset length ≤ int64_add c.offset c.length)

/-- The entry belongs to the calling process, its access bits overlap the
requested ones and one of its locks passes the test `rule`. -/
def lock_entry_rule (rule : Int → Int → ByteRangeLockEntry → Prop) (p : Option Int)
    (accessMode : Nat) (offset length : Int) (e : fileRefEntry) : Prop :=
  access_overlap_rule p accessMode e ∧ ∃ c, c ∈ e.lockList ∧ rule offset length c

/-- An open for read of process 7 with the file reference 1 and no lock. -/
def c27_first : fileRefEntry := { p_pid := 7, accessMode := kAccessRead, fid := 1 }

/-- A lock on the bytes 3 to 5. -/
def c27_lock : ByteRangeLockEntry := { offset := 3, length := 2, lck_pid := 7 }

/-- An open for read of process 7 with the file reference 2 that holds
`c27_lock`. -/
def c27_second : fileRefEntry :=
  { p_pid := 7, accessMode := kAccessRead, fid := 2, lockList := [c27_lock] }

/-- The open deny list with `c27_first` before `c27_second`. -/
def c27_list : List fileRefEntry := [c27_first, c27_second]

/-! ## Path building (lines 86-156) -/

/-- File name too long (`sys/errno.h`). -/
def ENAMETOOLONG : Nat := 63

/-- Modelled from the spec: the capacity of the two arrays of
`smbfs_build_path`, declared in `smbfs.h`, which is not among the sources.
The properties proved about the walk do not depend on the value. -/
def SMBFS_MAXPATHCOMP : Nat := 256

/-- What the first loop of `smbfs_build_path` leaves: `error`, and the nodes
written to `npstack` and to `lock_stack` in the order of the writes, so that
the length of each list is the number of slots of the array that were
written (`lock_count` for `lock_stack`). -/
structure build_path_walk where
  error : Nat
  npstack : List Nat
  lock_stack : List Nat
deriving DecidableEq, Repr

/-- The loop `while (np->n_parent)` of `smbfs_build_path` (lines 119-131).
`rem` is `SMBFS_MAXPATHCOMP - i`: the test `i++ == SMBFS_MAXPATHCOMP` holds
exactly when `rem` is 0. -/
def smbfs_build_path_loop (smp : smbmount) :
    Nat → Nat → List Nat → List Nat → build_path_walk
  | 0, np, npstack, lock_stack =>
    match (smp.nodes np).n_parent with
    | none => { error := 0, npstack := npstack, lock_stack := lock_stack }
    | some _ => { error := ENAMETOOLONG, npstack := npstack, lock_stack := lock_stack }
  | rem + 1, np, npstack, lock_stack =>
    match (smp.nodes np).n_parent with
    | none => { error := 0, npstack := npstack, lock_stack := lock_stack }
    | some parent =>
      smbfs_build_path_loop smp rem parent (npstack ++ [np]) (lock_stack ++ [parent])

/-- Lines 113-131 of `smbfs_build_path`: the node itself is saved in
`lock_stack`, then the parents are walked. The second loop (lines 133-146)
reads `npstack` back and writes neither array; the loop after `done` reads
the `lock_count` slots of `lock_stack` that were written. -/
def smbfs_build_path_walk (smp : smbmount) (np : Nat) : build_path_walk :=
  smbfs_build_path_loop smp SMBFS_MAXPATHCOMP np [] [np]

/-- The ancestor of `np` that is `k` levels up, if the chain is that long. -/
def nth_parent (smp : smbmount) : Nat → Nat → Option Nat
  | 0, np => some np
  | k + 1, np =>
    match (smp.nodes np).n_parent with
    | none => none
    | some parent => nth_parent smp k parent

/-- A mount in which the node at address 0 has no parent and the parent of
every other node `q` is `q - 1`. -/
def c30_state : smbmount :=
  { nodes := fun q => { n_parent := if q = 0 then none else some (q - 1) } }

/-! ## Name and parent update (lines 2304-2520) -/

/-- Bad file descriptor (`sys/errno.h`). -/
def EBADF : Nat := 9
/-- Device or resource busy. -/
def EBUSY : Nat := 16

/-- Modelled from the spec: the bits of `f_openState` are declared in
`smbfs_node.h`, which is not among the sources; each is a distinct single bit.
The opens of the file are to be revoked. -/
def kNeedRevoke : Nat := 0x01
/-- Modelled from the spec: the file is to be reopened. -/
def kNeedReopen : Nat := 0x02
/-- Modelled from the spec: the file is being reopened. -/
def kInReopen : Nat := 0x04

/-- Modelled from the spec: the bits of `dur_handle.flags` are declared in a
header that is not among the sources; each is a distinct single bit. The entry
is to be reopened through its durable handle. -/
def SMB2_DURABLE_HANDLE_RECONNECT : Nat := 0x0002
/-- Modelled from the spec: the server granted a durable handle. -/
def SMB2_DURABLE_HANDLE_GRANTED : Nat := 0x0004
/-- Modelled from the spec: the server granted a lease. -/
def SMB2_LEASE_GRANTED : Nat := 0x0008

/-- The statement `x &= ~f` on an unsigned field, whatever its width. -/
def CLRB (x f : Nat) : Nat := x ^^^ (x &&& f)

/-- The fields of `struct smbnode` that record the open state of the node,
kept in a map beside the mount: `d_fid` and `d_needReopen` of a directory,
`d_fctx` as the field `f_need_close` of the enumeration context (`none` when
the pointer is NULL), and the open file state. `f_openDenyList` is the chain
in list order, empty when the pointer is NULL. -/
structure smbnode_open where
  d_fid : Nat := 0
  d_needReopen : Bool := false
  d_fctx : Option Bool := none
  f_refcnt : Nat := 0
  f_openState : Nat := 0
  f_openDenyList : List fileRefEntry := []
  f_fid : Nat := 0
  f_openTotalWCnt : Nat := 0
deriving DecidableEq, Repr

/-- What the host kernel and the network answer during `smbfs_reconnect` and
`smbfs_IObusy`. A network call made for a node changes nothing of the other
nodes. -/
structure reconnect_host where
  /-- Result of `vnode_ismonitored` on the vnode of the node at this address. -/
  vnode_ismonitored : Nat → Bool := fun _ => false
  /-- Result of `vnode_hasdirtyblks` on the vnode of the node at this address. -/
  vnode_hasdirtyblks : Nat → Bool := fun _ => false
  /-- The call of `smbfs_smb_ntcreatex` for the entry with this index of the
  open deny list of the node at this address: its error and the entry as the
  call leaves it. -/
  smbfs_smb_ntcreatex : Nat → Nat → fileRefEntry → Nat × fileRefEntry := fun _ _ e => (0, e)
  /-- The call of `smbfs_smb_reopen_file` for the node at this address: its
  error and the `f_openState` it leaves, from the one it finds. -/
  smbfs_smb_reopen_file : Nat → Nat → Nat × Nat := fun _ s => (0, s)
  /-- What the create and close that `smb2fs_smb_cmpd_create` sends for the
  root node with the AAPL query leaves of the share. -/
  smb2fs_smb_cmpd_create : smb_share → smb_share := fun s => s

/-- The nodes of the table in the order in which the two nested `for` loops
visit them: the buckets 0 to `sm_hashlen`, each in chain order. -/
def table_nodes (smp : smbmount) : List Nat :=
  (List.range (smp.sm_hashlen + 1)).flatMap smp.sm_hash

/-- The state that the reconnect routines work on: the mount, the open state
of the nodes, and a record of what the second pass of `smb2fs_reconnect` did:
the nodes for which it made a reopen attempt, in order, the calls of
`smbfs_smb_ntcreatex` (node and index of the entry), the calls of
`smbfs_smb_reopen_file`, and the number of scans of the table it started. -/
structure reconnect_state where
  smp : smbmount
  open_state : Nat → smbnode_open
  attempts : List Nat := []
  opens : List (Nat × Nat) := []
  reopens : List Nat := []
  scans : Nat := 0

/-- Store the open state `o` for the node at `p`. -/
def setOpen (os : Nat → smbnode_open) (p : Nat) (o : smbnode_open) : Nat → smbnode_open :=
  fun q => if q = p then o else os q

/-- The block `if (np->n_vnode && vnode_ismonitored(np->n_vnode))` of both
reconnect routines (lines 3101-3114 and 3244-3261); the fid table of the share
is not part of the model. -/
def reconnect_monitored (h : reconnect_host) (p : Nat) (np : smbnode) (o : smbnode_open) :
    smbnode × smbnode_open :=
  if np.n_vnode ≠ none ∧ h.vnode_ismonitored p = true then
    ({ np with attribute_cache_timer := 0, n_symlink_cache_timer := 0, d_needsUpdate := true },
      { o with
        d_needReopen :=
          if np.n_dosattr &&& SMB_EFA_DIRECTORY ≠ 0 ∧ o.d_fid ≠ 0 then true
          else o.d_needReopen })
  else (np, o)

/-- The body of the inner `for` loop of `smb1fs_reconnect` (lines 3091-3152)
for the node at `p`. -/
def smb1fs_reconnect_node (h : reconnect_host) (p : Nat) (np : smbnode) (o : smbnode_open) :
    smbnode × smbnode_open :=
  if np.n_flag &&& NALLOC ≠ 0 then (np, o)
  else if np.n_flag &&& NTRANSIT ≠ 0 then (np, o)
  else if np.n_dosattr &&& SMB_EFA_DIRECTORY ≠ 0 then reconnect_monitored h p np o
  else if (reconnect_monitored h p np o).2.f_refcnt = 0 then reconnect_monitored h p np o
  else if (reconnect_monitored h p np o).2.f_openState &&& kNeedRevoke ≠ 0 then
    reconnect_monitored h p np o
  else
    ((reconnect_monitored h p np o).1,
      { (reconnect_monitored h p np o).2 with
        f_openState :=
          if (reconnect_monitored h p np o).2.f_openDenyList ≠ [] then
            (reconnect_monitored h p np o).2.f_openState ||| kNeedRevoke
          else (reconnect_monitored h p np o).2.f_openState ||| kNeedReopen })

/-- One round of the inner `for` loop of `smb1fs_reconnect` on the state. -/
def smb1fs_reconnect_visit (h : reconnect_host) (s : reconnect_state) (p : Nat) :
    reconnect_state :=
  { s with
    smp := s.smp.setNode p (smb1fs_reconnect_node h p (s.smp.nodes p) (s.open_state p)).1
    open_state := setOpen s.open_state p
      (smb1fs_reconnect_node h p (s.smp.nodes p) (s.open_state p)).2 }

/-- The function `smb1fs_reconnect` (lines 3077-3157). -/
def smb1fs_reconnect (h : reconnect_host) (st : reconnect_state) : reconnect_state :=
  (table_nodes st.smp).foldl (smb1fs_reconnect_visit h) st

/-- The body of the inner `for` loop of the first pass of `smb2fs_reconnect`
(lines 3230-3295) for the node at `p`; the third component tells that the
node was marked, which sets `need_reopen`. -/
def smb2fs_reconnect_node (h : reconnect_host) (p : Nat) (np : smbnode) (o : smbnode_open) :
    smbnode × smbnode_open × Bool :=
  if np.n_flag &&& NALLOC ≠ 0 then (np, o, false)
  else if np.n_flag &&& NTRANSIT ≠ 0 then (np, o, false)
  else if np.n_dosattr &&& SMB_EFA_DIRECTORY ≠ 0 then
    ((reconnect_monitored h p np o).1,
      { (reconnect_monitored h p np o).2 with
        d_fctx := (reconnect_monitored h p np o).2.d_fctx.map (fun _ => false) },
      false)
  else if (reconnect_monitored h p np o).2.f_refcnt = 0 then
    ((reconnect_monitored h p np o).1, (reconnect_monitored h p np o).2, false)
  else if (reconnect_monitored h p np o).2.f_openState &&& kNeedRevoke ≠ 0 then
    ((reconnect_monitored h p np o).1, (reconnect_monitored h p np o).2, false)
  else
    ((reconnect_monitored h p np o).1,
      { (reconnect_monitored h p np o).2 with
        f_openState := (reconnect_monitored h p np o).2.f_openState ||| kNeedReopen },
      true)

/-- One round of the inner `for` loop of the first pass of `smb2fs_reconnect`
on the state and `need_reopen`. -/
def smb2fs_reconnect_visit (h : reconnect_host) (s : reconnect_state × Bool) (p : Nat) :
    reconnect_state × Bool :=
  ({ s.1 with
      smp := s.1.smp.setNode p
        (smb2fs_reconnect_node h p (s.1.smp.nodes p) (s.1.open_state p)).1
      open_state := setOpen s.1.open_state p
        (smb2fs_reconnect_node h p (s.1.smp.nodes p) (s.1.open_state p)).2.1 },
    s.2 || (smb2fs_reconnect_node h p (s.1.smp.nodes p) (s.1.open_state p)).2.2)

/-- The first pass of `smb2fs_reconnect` (lines 3222-3300): the state and
`need_reopen`. -/
def smb2fs_reconnect_mark (h : reconnect_host) (st : reconnect_state) : reconnect_state × Bool :=
  (table_nodes st.smp).foldl (smb2fs_reconnect_visit h) (st, false)

/-- The tests of the second pass of `smb2fs_reconnect` (lines 3330-3356) that
select the node at `p` for a reopen attempt. -/
def reopen_pending (smp : smbmount) (os : Nat → smbnode_open) (p : Nat) : Bool :=
  decide ((smp.nodes p).n_flag &&& NALLOC = 0 ∧ (smp.nodes p).n_flag &&& NTRANSIT = 0 ∧
    (smp.nodes p).n_dosattr &&& SMB_EFA_DIRECTORY = 0 ∧
    (os p).f_openState &&& kNeedReopen ≠ 0)

/-- The nodes that a scan of the second pass would select, in table order. -/
def reopen_pending_nodes (st : reconnect_state) : List Nat :=
  (table_nodes st.smp).filter (reopen_pending st.smp st.open_state)

/-- The `do` loop over the open deny list of the node at `p` (lines
3388-3431), from the entry with index `i` on, with the value of `error` so
far: the final `error`, the entries as the loop leaves them, and the calls of
`smbfs_smb_ntcreatex` it made. -/
def smb2fs_reopen_denylist (h : reconnect_host) (p : Nat) :
    Nat → Nat → List fileRefEntry → Nat × List fileRefEntry × List (Nat × Nat)
  | _, error, [] => (error, [], [])
  | i, error, e :: rest =>
    if error = 0 then
      if e.dur_handle_flags &&& SMB2_DURABLE_HANDLE_GRANTED ≠ 0 then
        ((smb2fs_reopen_denylist h p (i + 1)
            (h.smbfs_smb_ntcreatex p i
              { e with
                dur_handle_flags :=
                  CLRB (e.dur_handle_flags ||| SMB2_DURABLE_HANDLE_RECONNECT)
                    (SMB2_DURABLE_HANDLE_GRANTED ||| SMB2_LEASE_GRANTED)
                dur_handle_fid := e.fid }).1 rest).1,
          (h.smbfs_smb_ntcreatex p i
              { e with
                dur_handle_flags :=
                  CLRB (e.dur_handle_flags ||| SMB2_DURABLE_HANDLE_RECONNECT)
                    (SMB2_DURABLE_HANDLE_GRANTED ||| SMB2_LEASE_GRANTED)
                dur_handle_fid := e.fid }).2 ::
            (smb2fs_reopen_denylist h p (i + 1)
              (h.smbfs_smb_ntcreatex p i
                { e with
                  dur_handle_flags :=
                    CLRB (e.dur_handle_flags ||| SMB2_DURABLE_HANDLE_RECONNECT)
                      (SMB2_DURABLE_HANDLE_GRANTED ||| SMB2_LEASE_GRANTED)
                  dur_handle_fid := e.fid }).1 rest).2.1,
          (p, i) ::
            (smb2fs_reopen_denylist h p (i + 1)
              (h.smbfs_smb_ntcreatex p i
                { e with
                  dur_handle_flags :=
                    CLRB (e.dur_handle_flags ||| SMB2_DURABLE_HANDLE_RECONNECT)
                      (SMB2_DURABLE_HANDLE_GRANTED ||| SMB2_LEASE_GRANTED)
                  dur_handle_fid := e.fid }).1 rest).2.2)
      else
        ((smb2fs_reopen_denylist h p (i + 1) EBADF rest).1,
          e :: (smb2fs_reopen_denylist h p (i + 1) EBADF rest).2.1,
          (smb2fs_reopen_denylist h p (i + 1) EBADF rest).2.2)
    else
      ((smb2fs_reopen_denylist h p (i + 1) error rest).1,
        e :: (smb2fs_reopen_denylist h p (i + 1) error rest).2.1,
        (smb2fs_reopen_denylist h p (i + 1) error rest).2.2)

/-- Lines 3344-3345: `kNeedReopen` is cleared and `kInReopen` set before the
attempt. -/
def reopen_state_begin (s : Nat) : Nat := CLRB s kNeedReopen ||| kInReopen

/-- Lines 3433-3443: the open state after the loop over a non-empty open
deny list that ended with `error`. -/
def reopen_state_denylist (error f_fid s : Nat) : Nat :=
  if error ≠ 0 then s ||| kNeedRevoke
  else if f_fid = 0 then CLRB s kInReopen
  else s

/-- Lines 3481-3487: a node found with `kNeedReopen` set after the attempt is
marked for revoke instead. -/
def reopen_state_end (s : Nat) : Nat :=
  if s &&& kNeedReopen ≠ 0 then CLRB s kNeedReopen ||| kNeedRevoke else s

/-- The value of `error` after the open deny list of a reopen attempt: that
of the loop when the list is not empty, else 0. -/
def reopen_error (h : reconnect_host) (p : Nat) (o : smbnode_open) : Nat :=
  if o.f_openDenyList ≠ [] then (smb2fs_reopen_denylist h p 0 0 o.f_openDenyList).1 else 0

/-- The calls of `smbfs_smb_ntcreatex` that a reopen attempt makes for the
node at `p`. -/
def reopen_calls (h : reconnect_host) (p : Nat) (o : smbnode_open) : List (Nat × Nat) :=
  if o.f_openDenyList ≠ [] then (smb2fs_reopen_denylist h p 0 0 o.f_openDenyList).2.2 else []

/-- The open state that a reopen attempt for the node at `p` leaves before
the test that allows one attempt only (lines 3344-3471): the open deny list
first, then the shared fork through `smbfs_smb_reopen_file` when there is one
and no error so far. -/
def reopen_state_attempt (h : reconnect_host) (p : Nat) (o : smbnode_open) : Nat :=
  if o.f_fid ≠ 0 ∧ reopen_error h p o = 0 then
    (h.smbfs_smb_reopen_file p
      (if o.f_openDenyList ≠ [] then
        reopen_state_denylist (reopen_error h p o) o.f_fid (reopen_state_begin o.f_openState)
      else reopen_state_begin o.f_openState)).2
  else if o.f_openDenyList ≠ [] then
    reopen_state_denylist (reopen_error h p o) o.f_fid (reopen_state_begin o.f_openState)
  else reopen_state_begin o.f_openState

/-- The reopen attempt of the second pass of `smb2fs_reconnect` for the node
at `p` (lines 3344-3489) on its open state. -/
def smb2fs_reopen_node (h : reconnect_host) (p : Nat) (o : smbnode_open) : smbnode_open :=
  { o with
    f_openDenyList :=
      if o.f_openDenyList ≠ [] then (smb2fs_reopen_denylist h p 0 0 o.f_openDenyList).2.1
      else o.f_openDenyList
    f_openState := reopen_state_end (reopen_state_attempt h p o) }

/-- One reopen attempt of the second pass on the state, with its record. -/
def smb2fs_reconnect_attempt (h : reconnect_host) (st : reconnect_state) (p : Nat) :
    reconnect_state :=
  { st with
    open_state := setOpen st.open_state p (smb2fs_reopen_node h p (st.open_state p))
    attempts := st.attempts ++ [p]
    opens := st.opens ++ reopen_calls h p (st.open_state p)
    reopens := st.reopens ++
      (if (st.open_state p).f_fid ≠ 0 ∧ reopen_error h p (st.open_state p) = 0 then [p] else []) }

/-- The loop `while (done == 0)` of `smb2fs_reconnect` (lines 3311-3507). Each
round scans the table from its start up to the first node that needs a
reopen, makes the attempt and starts again; a scan that finds no such node
ends the loop. `fuel` bounds the number of scans: the result is `none` when
the loop has not ended within that many scans. -/
def smb2fs_reconnect_loop (h : reconnect_host) : Nat → reconnect_state → Option reconnect_state
  | 0, _ => none
  | fuel + 1, st =>
    match (table_nodes st.smp).find? (reopen_pending st.smp st.open_state) with
    | none => some { st with scans := st.scans + 1 }
    | some p =>
      smb2fs_reconnect_loop h fuel
        (smb2fs_reconnect_attempt h { st with scans := st.scans + 1 } p)

/-- The two passes of `smb2fs_reconnect` (lines 3215-3507). `fuel` is the
bound on the scans of the second pass. -/
def smb2fs_reconnect_passes (h : reconnect_host) (fuel : Nat) (st : reconnect_state) :
    Option reconnect_state :=
  if (smb2fs_reconnect_mark h st).2 = false then some (smb2fs_reconnect_mark h st).1
  else smb2fs_reconnect_loop h fuel (smb2fs_reconnect_mark h st).1

/-- Modelled from the spec: `vc_misc_flags` bit of `smb_conn.h`, the server is
not an OS X server. -/
def SMBV_OTHER_SERVER : Nat := 0x0020
/-- Modelled from the spec: `sm_args.altflags` bit, the AAPL create context is
turned off for the mount. -/
def SMBFS_MNT_AAPL_OFF : Nat := 0x0200

/-- Lines 3180-3213 of `smb2fs_reconnect`: the AAPL create context is
negotiated again. The result is `sm_share` as these lines leave it: on a
mount with a root vnode whose server was an OS X server the bits
`SMBV_OSX_SERVER` and `SMBV_OTHER_SERVER` of `vc_misc_flags` are cleared, then
`SMBV_OTHER_SERVER` is set when AAPL is turned off for the mount, else a
create and close with the AAPL query is sent for the root node. -/
def smb2fs_reconnect_aapl (h : reconnect_host) (smp : smbmount) : Option smb_share :=
  match smp.sm_share with
  | none => none
  | some share =>
    if smp.sm_rvp ≠ none ∧ share.ss_vc.vc_misc_flags &&& SMBV_OSX_SERVER ≠ 0 then
      if smp.sm_args_altflags &&& SMBFS_MNT_AAPL_OFF ≠ 0 then
        some { share with
          ss_vc := { share.ss_vc with
            vc_misc_flags :=
              CLRB share.ss_vc.vc_misc_flags (SMBV_OSX_SERVER ||| SMBV_OTHER_SERVER) |||
                SMBV_OTHER_SERVER } }
      else
        some (h.smb2fs_smb_cmpd_create { share with
          ss_vc := { share.ss_vc with
            vc_misc_flags :=
              CLRB share.ss_vc.vc_misc_flags (SMBV_OSX_SERVER ||| SMBV_OTHER_SERVER) } })
    else some share

/-- The state with `sh` as the share of its mount. -/
def with_share (st : reconnect_state) (sh : Option smb_share) : reconnect_state :=
  { st with smp := { st.smp with sm_share := sh } }

/-- The function `smb2fs_reconnect` (lines 3159-3512): the AAPL create context
is negotiated again, then the two passes run. `fuel` is the bound on the scans
of the second pass. -/
def smb2fs_reconnect (h : reconnect_host) (fuel : Nat) (st : reconnect_state) :
    Option reconnect_state :=
  smb2fs_reconnect_passes h fuel (with_share st (smb2fs_reconnect_aapl h st.smp))

/-- The function `smbfs_reconnect` (lines 3521-3538) on the mount and the open
state of its nodes. The routine asserts that the mount has a share; without
one the result is `none`. -/
def smbfs_reconnect (h : reconnect_host) (fuel : Nat) (smp : smbmount)
    (os : Nat → smbnode_open) : Option reconnect_state :=
  match smp.sm_share with
  | none => none
  | some share =>
    if share.ss_vc.vc_flags &&& SMBV_SMB2 ≠ 0 then
      smb2fs_reconnect h fuel { smp := smp, open_state := os }
    else some (smb1fs_reconnect h { smp := smp, open_state := os })

/-- The tests of `smbfs_IObusy` (lines 3561-3581) on one node: it is none of
allocating, in transit, a directory, or without open, and it is open for
write or has dirty blocks. -/
def smbfs_IObusy_node (h : reconnect_host) (smp : smbmount) (os : Nat → smbnode_open)
    (p : Nat) : Bool :=
  if (smp.nodes p).n_flag &&& NALLOC ≠ 0 then false
  else if (smp.nodes p).n_flag &&& NTRANSIT ≠ 0 then false
  else if (smp.nodes p).n_dosattr &&& SMB_EFA_DIRECTORY ≠ 0 then false
  else if (os p).f_refcnt = 0 then false
  else decide ((os p).f_openTotalWCnt > 0) || h.vnode_hasdirtyblks p

/-- The function `smbfs_IObusy` (lines 3546-3588). It writes nothing, so its
result is the returned value alone. -/
def smbfs_IObusy (h : reconnect_host) (smp : smbmount) (os : Nat → smbnode_open) : Nat :=
  if (table_nodes smp).any (smbfs_IObusy_node h smp os) then EBUSY else 0

/-- Reference definition following the words of the specification: the table
holds a file node (not a directory) that is open for write or has dirty
cached blocks. -/
def busy_rule (h : reconnect_host) (smp : smbmount) (os : Nat → smbnode_open) : Prop :=
  ∃ i p, i ≤ smp.sm_hashlen ∧ p ∈ smp.sm_hash i ∧
    (smp.nodes p).n_dosattr &&& SMB_EFA_DIRECTORY = 0 ∧
    ((os p).f_openTotalWCnt > 0 ∨ h.vnode_hasdirtyblks p = true)

/-- The nodes that `smbfs_IObusy` looks at: linked in the table, neither
allocating nor in transit, not a directory, and with an open (`f_refcnt` not
0). -/
def busy_candidate (smp : smbmount) (os : Nat → smbnode_open) (p : Nat) : Prop :=
  (∃ i, i ≤ smp.sm_hashlen ∧ p ∈ smp.sm_hash i) ∧
  (smp.nodes p).n_flag &&& NALLOC = 0 ∧ (smp.nodes p).n_flag &&& NTRANSIT = 0 ∧
  (smp.nodes p).n_dosattr &&& SMB_EFA_DIRECTORY = 0 ∧ (os p).f_refcnt ≠ 0

/-- A host on which the vnode of the node at address 1 has dirty blocks. -/
def c24_host : reconnect_host := { vnode_hasdirtyblks := fun p => decide (p = 1) }

/-- The open state of `c9_state`: the file at address 1 has no open. -/
def c24_open : Nat → smbnode_open := fun _ => {}

/-- An open state of `c9_state` in which the file at address 1 is open once
and not for write. -/
def c24_open_read : Nat → smbnode_open := fun p => if p = 1 then { f_refcnt := 1 } else {}

/-- The condition under which both reconnect routines mark the node at `p`
for a lazy reopen of its directory handle: it is neither allocating nor in
transit, it has a vnode that is monitored, it is a directory and `d_fid` is
not 0. -/
def dir_reopen_rule (h : reconnect_host) (p : Nat) (np : smbnode) (o : smbnode_open) : Prop :=
  np.n_flag &&& NALLOC = 0 ∧ np.n_flag &&& NTRANSIT = 0 ∧ np.n_vnode ≠ none ∧
  h.vnode_ismonitored p = true ∧ np.n_dosattr &&& SMB_EFA_DIRECTORY ≠ 0 ∧ o.d_fid ≠ 0

/-- Reference definition following the words of the specification: the node
is a directory that is neither allocating nor in transit and has a non-zero
open directory handle. -/
def dir_open_rule (np : smbnode) (o : smbnode_open) : Prop :=
  np.n_flag &&& NALLOC = 0 ∧ np.n_flag &&& NTRANSIT = 0 ∧
  np.n_dosattr &&& SMB_EFA_DIRECTORY ≠ 0 ∧ o.d_fid ≠ 0

/-- The condition under which the first pass of `smb2fs_reconnect` marks a
node `kNeedReopen`: it is neither allocating nor in transit, not a directory,
it has an open and is not marked `kNeedRevoke`. -/
def reopen_mark_rule (np : smbnode) (o : smbnode_open) : Prop :=
  np.n_flag &&& NALLOC = 0 ∧ np.n_flag &&& NTRANSIT = 0 ∧
  np.n_dosattr &&& SMB_EFA_DIRECTORY = 0 ∧ o.f_refcnt ≠ 0 ∧ o.f_openState &&& kNeedRevoke = 0

/-- What a visit of the first pass keeps of a node and its open state: the
fields that the passes test, with `d_needReopen` either kept or set under
`dir_reopen_rule`, and `kNeedReopen` never cleared. -/
def visit_frame (h : reconnect_host) (p : Nat) (np : smbnode) (o : smbnode_open)
    (np2 : smbnode) (o2 : smbnode_open) : Prop :=
  np2.n_flag = np.n_flag ∧ np2.n_dosattr = np.n_dosattr ∧ np2.n_vnode = np.n_vnode ∧
  o2.d_fid = o.d_fid ∧ o2.f_refcnt = o.f_refcnt ∧ o2.f_openDenyList = o.f_openDenyList ∧
  o2.f_fid = o.f_fid ∧ o2.f_openTotalWCnt = o.f_openTotalWCnt ∧
  (o2.d_needReopen = o.d_needReopen ∨ (o2.d_needReopen = true ∧ dir_reopen_rule h p np o)) ∧
  (o.f_openState &&& kNeedReopen ≠ 0 → o2.f_openState &&& kNeedReopen ≠ 0)

/-- State `t` comes from state `s` by visits of the first pass: same table,
same record of the second pass, and every node related by `visit_frame`. -/
def pass_frame (h : reconnect_host) (s t : reconnect_state) : Prop :=
  t.smp.sm_hash = s.smp.sm_hash ∧ t.smp.sm_hashlen = s.smp.sm_hashlen ∧
  t.smp.sm_share = s.smp.sm_share ∧ t.attempts = s.attempts ∧ t.opens = s.opens ∧
  t.reopens = s.reopens ∧ t.scans = s.scans ∧
  ∀ q, visit_frame h q (s.smp.nodes q) (s.open_state q) (t.smp.nodes q) (t.open_state q)

/-- A mount of an SMB 2 server whose single bucket holds the directory at
address 1. -/
def c21_state : smbmount :=
  { sm_share := some { ss_vc := { vc_flags := SMBV_SMB2 } }
    sm_hashlen := 0
    sm_hash := fun i => if i = 0 then [1] else []
    nodes := fun p =>
      if p = 1 then
        { n_name := [100], n_nmlen := 1, n_hash_le_prev := true,
          n_dosattr := SMB_EFA_DIRECTORY, n_vnode := some { v_type := vtype.VDIR } }
      else {}
    node_brk := 2 }

/-- The open state of `c21_state`: the directory at address 1 has the open
directory handle 5. -/
def c21_open : Nat → smbnode_open := fun p => if p = 1 then { d_fid := 5 } else {}

/-- A host on which the vnode of the node at address 1 is monitored. -/
def c21_host : reconnect_host := { vnode_ismonitored := fun p => decide (p = 1) }

/-- A mount of an SMB 2 server whose single bucket holds the regular files
at the addresses 1 and 2. -/
def c22_state : smbmount :=
  { sm_share := some { ss_vc := { vc_flags := SMBV_SMB2 } }
    sm_hashlen := 0
    sm_hash := fun i => if i = 0 then [1, 2] else []
    nodes := fun p =>
      if p = 1 then
        { n_name := [97], n_nmlen := 1, n_hash_le_prev := true,
          n_vnode := some { v_type := vtype.VREG } }
      else if p = 2 then
        { n_name := [98], n_nmlen := 1, n_hash_le_prev := true,
          n_vnode := some { v_type := vtype.VREG } }
      else {}
    node_brk := 3 }

/-- The open deny list of the file at address 1 of `c22_state`: the first and
the third entry have a granted durable handle, the second has none. -/
def c22_list : List fileRefEntry :=
  [{ fid := 10, dur_handle_flags := SMB2_DURABLE_HANDLE_GRANTED },
   { fid := 11 },
   { fid := 12, dur_handle_flags := SMB2_DURABLE_HANDLE_GRANTED }]

/-- The open state of `c22_state`: the file at address 1 is open through the
three entries of `c22_list`, the file at address 2 through the shared fork
with fid 7. -/
def c22_open : Nat → smbnode_open := fun p =>
  if p = 1 then { f_refcnt := 3, f_openDenyList := c22_list }
  else if p = 2 then { f_refcnt := 1, f_fid := 7 }
  else {}

/-- A host on which `smbfs_smb_reopen_file` succeeds and leaves `kNeedReopen`
set again, as after a reconnect during the reopen. -/
def c23_host : reconnect_host := { smbfs_smb_reopen_file := fun _ s => (0, s ||| kNeedReopen) }

/-- A mount of an SMB 1 server with the table of `c21_state`. -/
def c21_state_smb1 : smbmount := { c21_state with sm_share := some {} }

/-- What the examples read of a state after reconnect: the attempts, the
calls of `smbfs_smb_ntcreatex`, the calls of `smbfs_smb_reopen_file`, the
number of scans and the `f_openState` of the nodes at the addresses 1 and
2. -/
def reconnect_view (st : reconnect_state) :
    List Nat × List (Nat × Nat) × List Nat × Nat × Nat × Nat :=
  (st.attempts, st.opens, st.reopens, st.scans, (st.open_state 1).f_openState,
    (st.open_state 2).f_openState)

/-- Node `b` has the name, the stream flag and the link flag of node `a`. -/
def same_name (a b : smbnode) : Prop :=
  b.n_name = a.n_name ∧ b.n_nmlen = a.n_nmlen ∧
  b.n_flag &&& N_ISSTREAM = a.n_flag &&& N_ISSTREAM ∧ b.n_hash_le_prev = a.n_hash_le_prev

/-- Mount `t` comes from mount `s` by steps of `smbfs_nget` that create the
node at `np`: the table has the same size, every other node keeps its name
and its stream flag, and no other node is linked in a bucket where it was not
linked. -/
def nget_frame (np : Nat) (s t : smbmount) : Prop :=
  t.sm_hashlen = s.sm_hashlen ∧
  (∀ q, q ≠ np → (t.nodes q).n_name = (s.nodes q).n_name ∧
    (t.nodes q).n_nmlen = (s.nodes q).n_nmlen ∧
    (t.nodes q).n_flag &&& N_ISSTREAM = (s.nodes q).n_flag &&& N_ISSTREAM) ∧
  (∀ i q, q ≠ np → q ∈ t.sm_hash i → q ∈ s.sm_hash i)

/-- The node at `np` is linked in no bucket. -/
def np_unlinked (np : Nat) (t : smbmount) : Prop := ∀ i, np ∉ t.sm_hash i

/-- The node at `np` is marked as linked, it is linked once, in the bucket
`b`, and it has the name `nm` of length `len`. -/
def np_linked (np b : Nat) (nm : List Nat) (len : Nat) (t : smbmount) : Prop :=
  (t.nodes np).n_hash_le_prev = true ∧
  (∀ i, (t.sm_hash i).count np = if i = b then 1 else 0) ∧
  (t.nodes np).n_name = nm ∧ (t.nodes np).n_nmlen = len

theorem tolower_lt (c : Nat) (hc : c < 256) : tolower c < 256 := by
  unfold tolower
  split <;> omega

theorem xor_mod_two_pow32 (a b : Nat) : (a ^^^ b) % 2 ^ 32 = (a % 2 ^ 32) ^^^ (b % 2 ^ 32) := by
  rw [← Nat.and_pow_two_sub_one_eq_mod, ← Nat.and_pow_two_sub_one_eq_mod,
    ← Nat.and_pow_two_sub_one_eq_mod, Nat.and_xor_distrib_right]

theorem smbfs_hash_name_fold (a b : List Nat)
    (hfold : a.map (fun c => tolower (c % 256)) = b.map (fun c => tolower (c % 256)))
    (nmlen v : Nat) : smbfs_hash_name v a nmlen = smbfs_hash_name v b nmlen := by
  induction nmlen generalizing a b v with
  | zero => rfl
  | succ n ih =>
    cases a with
    | nil =>
      cases b with
      | nil => rfl
      | cons y ys => simp at hfold
    | cons x xs =>
      cases b with
      | nil => simp at hfold
      | cons y ys =>
        simp only [List.map_cons, List.cons.injEq] at hfold
        simp only [smbfs_hash_name, List.headD_cons, List.tail_cons, hfold.1]
        exact ih xs ys hfold.2 _

theorem smbfs_hash_name_lt (name : List Nat) (nmlen v : Nat) (hv : v < 2 ^ 64) :
    smbfs_hash_name v name nmlen < 2 ^ 64 := by
  induction nmlen generalizing name v with
  | zero => simpa [smbfs_hash_name] using hv
  | succ n ih =>
    simp only [smbfs_hash_name]
    apply ih
    apply Nat.xor_lt_two_pow
    · exact Nat.mod_lt _ (by norm_num)
    · have := tolower_lt (name.headD 0 % 256) (Nat.mod_lt _ (by norm_num))
      omega

theorem smbfs_hash_name_low (name : List Nat) (nmlen v w : Nat) (hvw : v % 2 ^ 32 = w) :
    smbfs_hash_name v name nmlen % 2 ^ 32 = fnv1_32_folded w name nmlen := by
  induction nmlen generalizing name v w with
  | zero => simpa [smbfs_hash_name, fnv1_32_folded] using hvw
  | succ n ih =>
    simp only [smbfs_hash_name, fnv1_32_folded]
    apply ih
    have ht := tolower_lt (name.headD 0 % 256) (Nat.mod_lt _ (by norm_num))
    rw [xor_mod_two_pow32]
    have h1 : v * FNV_32_PRIME % 2 ^ 64 % 2 ^ 32 = w * FNV_32_PRIME % 2 ^ 32 := by
      rw [← hvw, Nat.mod_mod_of_dvd _ (by norm_num : 2 ^ 32 ∣ 2 ^ 64), Nat.mod_mul_mod]
    rw [h1, Nat.mod_eq_of_lt (by omega : tolower (name.headD 0 % 256) < 2 ^ 32)]

/-- Claim C5: `smbfs_hash` follows the identity rule. When the server of the
share has file ids the result is `ino`, whatever the name; otherwise (no file
ids, or no share) the result does not depend on `ino`, and two names whose
bytes agree after folding `A`..`Z` to `a`..`z` have the same hash. -/
theorem smbfs_hash_identity_rule (share : Option smb_share) (ino ino' : Nat) (a b : List Nat)
    (nmlen : Nat)
    (hfold : a.map (fun c => tolower (c % 256)) = b.map (fun c => tolower (c % 256))) :
    (share_has_fileids share = true → smbfs_hash share ino a nmlen = ino) ∧
    (share_has_fileids share = false →
      smbfs_hash share ino a nmlen = smbfs_hash share ino' b nmlen) := by
  constructor
  · intro hs
    simp [smbfs_hash, hs]
  · intro hs
    simp only [smbfs_hash, hs, Bool.false_eq_true, if_false]
    exact smbfs_hash_name_fold a b hfold nmlen _

theorem smbfs_hash_identity_rule_witness :
    smbfs_hash (some { ss_vc := { vc_misc_flags := SMBV_HAS_FILEIDS } }) 12345
        [70, 111, 111, 46, 116, 120, 116] 7 = 12345 ∧
    smbfs_hash (some { ss_vc := { vc_misc_flags := SMBV_HAS_FILEIDS } }) 0
        [70, 111, 111, 46, 116, 120, 116] 7 = 0 ∧
    smbfs_hash (some {}) 5 [70, 111, 111, 46, 116, 120, 116] 7 =
      smbfs_hash (some {}) 9 [102, 111, 111, 46, 116, 120, 116] 7 ∧
    smbfs_hash none 5 [70, 111, 111, 46, 116, 120, 116] 7 =
      smbfs_hash none 9 [102, 111, 111, 46, 116, 120, 116] 7 :=
  ⟨(smbfs_hash_identity_rule _ 12345 0 _ [102, 111, 111, 46, 116, 120, 116] 7 (by decide)).1
      (by decide),
   (smbfs_hash_identity_rule _ 0 0 _ [102, 111, 111, 46, 116, 120, 116] 7 (by decide)).1
      (by decide),
   (smbfs_hash_identity_rule _ 5 9 _ _ 7 (by decide)).2 (by decide),
   (smbfs_hash_identity_rule none 5 9 _ _ 7 (by decide)).2 (by decide)⟩

/-- Claim C6, counterexample: on a server without file ids the hash of the one
byte name `a` is not the 32 bit hash of the words of the claim, and it is not
below `2 ^ 32`. -/
theorem smbfs_hash_not_32bit :
    ¬ (smbfs_hash (some {}) 0 [97] 1 = fnv1_32_folded FNV1_32_INIT [97] 1) ∧
    ¬ (smbfs_hash (some {}) 0 [97] 1 < 2 ^ 32) := by
  decide

/-- Claim C6, amended: on a server without file ids (or without share)
`smbfs_hash` is the FNV-1 style hash of the case-folded name computed in 64 bit
arithmetic; its low 32 bits are the 32 bit hash, and the result is below
`2 ^ 64`. -/
theorem smbfs_hash_fnv_low32 (share : Option smb_share) (ino : Nat) (name : List Nat)
    (nmlen : Nat) (hno : share_has_fileids share = false) :
    smbfs_hash share ino name nmlen = smbfs_hash_name FNV1_32_INIT name nmlen ∧
    smbfs_hash share ino name nmlen % 2 ^ 32 = fnv1_32_folded FNV1_32_INIT name nmlen ∧
    smbfs_hash share ino name nmlen < 2 ^ 64 := by
  simp only [smbfs_hash, hno, Bool.false_eq_true, if_false, true_and]
  exact ⟨smbfs_hash_name_low name nmlen _ _ (by decide),
    smbfs_hash_name_lt name nmlen _ (by decide)⟩

theorem smbfs_hash_fnv_low32_witness :
    smbfs_hash (some {}) 0 [97] 1 % 2 ^ 32 = fnv1_32_folded FNV1_32_INIT [97] 1 ∧
    smbfs_hash (some {}) 0 [97] 1 < 2 ^ 64 :=
  (smbfs_hash_fnv_low32 (some {}) 0 [97] 1 (by decide)).2

/-! ## Lemmas on the kernel string routines -/

theorem getD_tail (a : List Nat) (i : Nat) : a.tail.getD i 0 = a.getD (i + 1) 0 := by
  cases a <;> simp

theorem headD_eq_getD (a : List Nat) : a.headD 0 = a.getD 0 0 := by
  cases a <;> simp

theorem bcmp_eq_zero_iff (n : Nat) (a b : List Nat) :
    bcmp a b n = 0 ↔ ∀ i, i < n → a.getD i 0 % 256 = b.getD i 0 % 256 := by
  induction n generalizing a b with
  | zero => simp [bcmp]
  | succ n ih =>
    simp only [bcmp, headD_eq_getD]
    split
    · rename_i h0
      rw [ih]
      simp only [getD_tail]
      constructor
      · intro h i hi
        cases i with
        | zero => exact h0
        | succ j => exact h j (by omega)
      · intro h i hi
        exact h (i + 1) (by omega)
    · rename_i h0
      simp only [one_ne_zero, false_iff, not_forall]
      exact ⟨0, by omega, h0⟩

theorem strncasecmp_eq_zero_iff (n : Nat) (a b : List Nat) :
    strncasecmp a b n = 0 ↔
      ∀ i, i < n → (∀ j, j < i → a.getD j 0 % 256 ≠ 0) →
        tolower (a.getD i 0 % 256) = tolower (b.getD i 0 % 256) := by
  induction n generalizing a b with
  | zero => simp [strncasecmp]
  | succ n ih =>
    simp only [strncasecmp, headD_eq_getD]
    split
    · rename_i h0
      constructor
      · intro h
        exfalso
        have : (tolower (a.getD 0 0 % 256) : Int) = (tolower (b.getD 0 0 % 256) : Int) := by omega
        exact h0 (by exact_mod_cast this)
      · intro h
        exfalso
        exact h0 (h 0 (by omega) (by intro j hj; omega))
    · rename_i h0
      simp only [ne_eq, Decidable.not_not] at h0
      split
      · rename_i hz
        simp only [true_iff]
        intro i hi hnz
        cases i with
        | zero => exact h0
        | succ j =>
          exfalso
          exact hnz 0 (by omega) hz
      · rename_i hz
        rw [ih]
        simp only [getD_tail]
        constructor
        · intro h i hi hnz
          cases i with
          | zero => exact h0
          | succ j =>
            exact h j (by omega) (by
              intro k hk
              exact hnz (k + 1) (by omega))
        · intro h i hi hnz
          exact h (i + 1) (by omega) (by
            intro k hk
            cases k with
            | zero => exact hz
            | succ m => exact hnz m (by omega))

theorem smb_hashget_scan_eq_find (smp : smbmount) (share : smb_share) (dnp : Option Nat)
    (hashval : Nat) (name : List Nat) (nmlen node_flag : Nat) (sname : Option (List Nat))
    (snmlen : Nat) (l : List Nat) :
    smb_hashget_scan smp share dnp hashval name nmlen node_flag sname snmlen l =
      match l.find? (fun q =>
          !smb_hashget_skip share dnp hashval name nmlen node_flag sname snmlen (smp.nodes q)) with
      | none => hashget_scan.nomatch
      | some p =>
        if (smp.nodes p).n_flag &&& NALLOC ≠ 0 then hashget_scan.sleep p NWALLOC
        else if (smp.nodes p).n_flag &&& NTRANSIT ≠ 0 then hashget_scan.sleep p NWTRANSIT
        else hashget_scan.candidate p := by
  induction l with
  | nil => rfl
  | cons q rest ih =>
    simp only [smb_hashget_scan, List.find?_cons]
    cases hs : smb_hashget_skip share dnp hashval name nmlen node_flag sname snmlen (smp.nodes q)
    · simp
    · simpa using ih

theorem smb_hashget_scan_candidate {smp : smbmount} {share : smb_share} {dnp : Option Nat}
    {hashval : Nat} {name : List Nat} {nmlen node_flag : Nat} {sname : Option (List Nat)}
    {snmlen : Nat} {l : List Nat} {p : Nat}
    (h : smb_hashget_scan smp share dnp hashval name nmlen node_flag sname snmlen l =
      hashget_scan.candidate p) :
    p ∈ l ∧
    smb_hashget_skip share dnp hashval name nmlen node_flag sname snmlen (smp.nodes p) = false ∧
    (smp.nodes p).n_flag &&& NALLOC = 0 ∧ (smp.nodes p).n_flag &&& NTRANSIT = 0 ∧
    l.find? (fun q =>
      !smb_hashget_skip share dnp hashval name nmlen node_flag sname snmlen (smp.nodes q)) =
        some p := by
  rw [smb_hashget_scan_eq_find] at h
  split at h
  · cases h
  · rename_i q hq
    split at h
    · cases h
    · split at h
      · cases h
      · rename_i h1 h2
        cases h
        refine ⟨List.mem_of_find?_eq_some hq, ?_, by simpa using h1, by simpa using h2, hq⟩
        simpa using List.find?_some hq

theorem smb_hashget_pass_some {getvid : Nat → Nat} {dnp : Option Nat} {hashval : Nat}
    {name : List Nat} {nmlen mx node_flag : Nat} {sname : Option (List Nat)} {smp s' : smbmount}
    {vp : Nat}
    (h : smb_hashget_pass getvid dnp hashval name nmlen mx node_flag sname smp =
      hashget_pass.ret (some vp) s') :
    ∃ share, smp.sm_share = some share ∧
      smb_hashget_scan smp share dnp hashval name nmlen node_flag sname (hashget_snmlen sname mx)
        (smp.sm_hash (SMBFS_NOHASH smp hashval)) = hashget_scan.candidate vp ∧
      getvid vp = 0 ∧
      s' = smp.setNode vp { smp.nodes vp with n_lockState := SMBFS_EXCLUSIVE_LOCK } := by
  unfold smb_hashget_pass at h
  split at h
  · cases h
  · rename_i share hshare
    refine ⟨share, hshare, ?_⟩
    split at h
    · cases h
    · cases h
    · rename_i p hp
      split at h
      · cases h
      · rename_i hg
        simp only [smbnode_lock, ne_eq, not_true_eq_false, if_false] at h
        cases h
        exact ⟨hp, by simpa using hg, rfl⟩

theorem smb_hashget_pass_none {getvid : Nat → Nat} {dnp : Option Nat} {hashval : Nat}
    {name : List Nat} {nmlen mx node_flag : Nat} {sname : Option (List Nat)} {smp s' : smbmount}
    (h : smb_hashget_pass getvid dnp hashval name nmlen mx node_flag sname smp =
      hashget_pass.ret none s') : s' = smp := by
  unfold smb_hashget_pass at h
  split at h
  · cases h; rfl
  · split at h
    · cases h; rfl
    · cases h
    · split at h
      · cases h; rfl
      · simp only [smbnode_lock, ne_eq, not_true_eq_false, if_false] at h
        cases h

theorem smb_hashget_pass_msleep {getvid : Nat → Nat} {dnp : Option Nat} {hashval : Nat}
    {name : List Nat} {nmlen mx node_flag : Nat} {sname : Option (List Nat)} {smp s' : smbmount}
    (h : smb_hashget_pass getvid dnp hashval name nmlen mx node_flag sname smp =
      hashget_pass.msleep s') :
    ∃ p wflag, s' = smp.setNode p { smp.nodes p with n_flag := (smp.nodes p).n_flag ||| wflag } := by
  unfold smb_hashget_pass at h
  split at h
  · cases h
  · split at h
    · cases h
    · rename_i p wflag _
      cases h
      exact ⟨p, wflag, rfl⟩
    · split at h
      · cases h
      · simp only [smbnode_lock, ne_eq, not_true_eq_false, if_false] at h
        cases h

/-- Every result of `smb_hashget` is the result of a run from the label `loop`
in a state that inherits each property of the mount which the waiter flags and
the other threads preserve. -/
theorem smb_hashget_last_pass (P : smbmount → Prop)
    (hflag : ∀ t p f, P t → P (t.setNode p { t.nodes p with n_flag := f }))
    (getvid : Nat → Nat) (dnp : Option Nat) (hashval : Nat)
    (name : List Nat) (nmlen mx node_flag : Nat) (sname : Option (List Nat))
    (wake : List (smbmount → smbmount)) (smp : smbmount)
    (hwake : ∀ w, w ∈ wake → ∀ t, P t → P (w t)) (hP : P smp)
    (vp : Option Nat) (s' : smbmount)
    (h : smb_hashget getvid dnp hashval name nmlen mx node_flag sname wake smp = some (vp, s')) :
    ∃ s0, P s0 ∧
      smb_hashget_pass getvid dnp hashval name nmlen mx node_flag sname s0 =
        hashget_pass.ret vp s' := by
  induction wake generalizing smp with
  | nil =>
    simp only [smb_hashget] at h
    split at h
    · rename_i v s hv
      cases h
      exact ⟨smp, hP, hv⟩
    · cases h
  | cons w ws ih =>
    simp only [smb_hashget] at h
    split at h
    · rename_i v s hv
      cases h
      exact ⟨smp, hP, hv⟩
    · rename_i s hs
      obtain ⟨p, wflag, rfl⟩ := smb_hashget_pass_msleep hs
      exact ih _ (fun w' hw' => hwake w' (by simp [hw'])) (hwake w (by simp) _ (hflag _ _ _ hP)) h

theorem smb_vhashadd_vhashrem (smp : smbmount) (p hashval : Nat)
    (hnot : ∀ i, p ∉ smp.sm_hash i) (hun : (smp.nodes p).n_hash_le_prev = false) :
    smb_vhashrem (smb_vhashadd smp p hashval) p = smp := by
  have hn : (fun q => if q = p then
        ({ (if p = p then ({ smp.nodes p with n_hash_le_prev := true } : smbnode)
            else smp.nodes p) with n_hash_le_prev := false } : smbnode)
      else if q = p then ({ smp.nodes p with n_hash_le_prev := true } : smbnode)
      else smp.nodes q) = smp.nodes := by
    funext q
    by_cases hq : q = p
    · subst hq
      simp only [if_true]
      rw [← hun]
    · simp only [hq, if_false]
  have hh : (fun i => (if i = SMBFS_NOHASH smp hashval then p :: smp.sm_hash i
      else smp.sm_hash i).erase p) = smp.sm_hash := by
    funext i
    by_cases hi : i = SMBFS_NOHASH smp hashval
    · simp [hi]
    · simp only [hi, if_false]
      exact List.erase_of_not_mem (hnot i)
  simp only [smb_vhashrem, smb_vhashadd, if_true, SMBFS_NOHASH] at hn hh ⊢
  rw [hn, hh]

/-- Claim C7: for a node `p` that is not linked in the table, `smb_vhashadd`
links it in the bucket of its hash value and a following `smb_vhashrem`
restores the mount exactly (every bucket holds the same nodes in the same
order, `p` is unlinked), after which no `smb_hashget` returns `p`, as long as
the other threads do not link `p` again while the lookup sleeps. -/
theorem smb_vhashadd_vhashrem_roundtrip (smp : smbmount) (p hashval : Nat)
    (hnot : ∀ i, p ∉ smp.sm_hash i) (hun : (smp.nodes p).n_hash_le_prev = false) :
    p ∈ (smb_vhashadd smp p hashval).sm_hash (SMBFS_NOHASH smp hashval) ∧
    smb_vhashrem (smb_vhashadd smp p hashval) p = smp ∧
    (∀ i, (smb_vhashrem (smb_vhashadd smp p hashval) p).sm_hash i = smp.sm_hash i) ∧
    ((smb_vhashrem (smb_vhashadd smp p hashval) p).nodes p).n_hash_le_prev = false ∧
    (∀ (getvid : Nat → Nat) (dnp : Option Nat) (hv : Nat) (name : List Nat)
        (nmlen mx node_flag : Nat) (sname : Option (List Nat))
        (wake : List (smbmount → smbmount)),
      (∀ w, w ∈ wake → ∀ t : smbmount, (∀ i, p ∉ t.sm_hash i) → ∀ i, p ∉ (w t).sm_hash i) →
      ∀ s', smb_hashget getvid dnp hv name nmlen mx node_flag sname wake
          (smb_vhashrem (smb_vhashadd smp p hashval) p) ≠ some (some p, s')) := by
  have hrt := smb_vhashadd_vhashrem smp p hashval hnot hun
  refine ⟨by simp [smb_vhashadd, SMBFS_NOHASH], hrt, fun i => by rw [hrt], by rw [hrt]; exact hun, ?_⟩
  intro getvid dnp hv name nmlen mx node_flag sname wake hwake s' hret
  rw [hrt] at hret
  obtain ⟨s0, hs0, hpass⟩ := smb_hashget_last_pass (fun t => ∀ i, p ∉ t.sm_hash i)
    (fun t q f ht => ht) getvid dnp hv name nmlen mx node_flag sname wake smp hwake hnot _ _ hret
  obtain ⟨share, _, hscan, _, _⟩ := smb_hashget_pass_some hpass
  exact hs0 _ (smb_hashget_scan_candidate hscan).1

/-! ## Lemmas on flag words -/

theorem or_and_self_right (x w : Nat) : (x ||| w) &&& w = w := by
  apply Nat.eq_of_testBit_eq
  intro i
  simp only [Nat.testBit_and, Nat.testBit_or]
  cases x.testBit i <;> cases w.testBit i <;> rfl

theorem or_and_of_disjoint (x w f : Nat) (h : w &&& f = 0) : (x ||| w) &&& f = x &&& f := by
  rw [Nat.and_distrib_right, h, Nat.or_zero]

theorem CLR_and (x w f : Nat) (h : (0xFFFFFFFF ^^^ w) &&& f = f) : CLR x w &&& f = x &&& f := by
  unfold CLR
  rw [Nat.and_assoc, h]

/-- Claim C2: `smb_hashget` never returns a node whose `NALLOC` or `NTRANSIT`
flag is set. When the first node of the bucket that matches the request
carries `NALLOC` the lookup sets `NWALLOC` on it and sleeps, when it carries
`NTRANSIT` (and not `NALLOC`) it sets `NWTRANSIT` and sleeps; a sleeping lookup
returns nothing by itself, and once woken it restarts the scan of the bucket
from the top in the state the other threads left. -/
theorem smb_hashget_waits_on_transitional (getvid : Nat → Nat) (dnp : Option Nat)
    (hashval : Nat) (name : List Nat) (nmlen mx node_flag : Nat) (sname : Option (List Nat))
    (wake : List (smbmount → smbmount)) (smp : smbmount) :
    (∀ vp s',
      smb_hashget getvid dnp hashval name nmlen mx node_flag sname wake smp = some (some vp, s') →
      (s'.nodes vp).n_flag &&& NALLOC = 0 ∧ (s'.nodes vp).n_flag &&& NTRANSIT = 0) ∧
    (∀ share p, smp.sm_share = some share →
      (smp.sm_hash (SMBFS_NOHASH smp hashval)).find? (fun q =>
        !smb_hashget_skip share dnp hashval name nmlen node_flag sname (hashget_snmlen sname mx)
          (smp.nodes q)) = some p →
      ((smp.nodes p).n_flag &&& NALLOC ≠ 0 →
        smb_hashget_pass getvid dnp hashval name nmlen mx node_flag sname smp =
          hashget_pass.msleep
            (smp.setNode p { smp.nodes p with n_flag := (smp.nodes p).n_flag ||| NWALLOC })) ∧
      ((smp.nodes p).n_flag &&& NALLOC = 0 → (smp.nodes p).n_flag &&& NTRANSIT ≠ 0 →
        smb_hashget_pass getvid dnp hashval name nmlen mx node_flag sname smp =
          hashget_pass.msleep
            (smp.setNode p { smp.nodes p with n_flag := (smp.nodes p).n_flag ||| NWTRANSIT }))) ∧
    (∀ s1, smb_hashget_pass getvid dnp hashval name nmlen mx node_flag sname smp =
        hashget_pass.msleep s1 →
      smb_hashget getvid dnp hashval name nmlen mx node_flag sname [] smp = none ∧
      ∀ w ws, smb_hashget getvid dnp hashval name nmlen mx node_flag sname (w :: ws) smp =
        smb_hashget getvid dnp hashval name nmlen mx node_flag sname ws (w s1)) := by
  refine ⟨?_, ?_, ?_⟩
  · intro vp s' hret
    obtain ⟨s0, _, hpass⟩ := smb_hashget_last_pass (fun _ => True) (fun _ _ _ _ => trivial)
      getvid dnp hashval name nmlen mx node_flag sname wake smp (fun _ _ _ _ => trivial) trivial
      _ _ hret
    obtain ⟨share, _, hscan, _, rfl⟩ := smb_hashget_pass_some hpass
    obtain ⟨_, _, ha, ht, _⟩ := smb_hashget_scan_candidate hscan
    simp only [smbmount.setNode, if_true]
    exact ⟨ha, ht⟩
  · intro share p hshare hfind
    constructor
    · intro ha
      simp only [smb_hashget_pass, hshare, smb_hashget_scan_eq_find, hfind]
      rw [if_pos ha]
    · intro ha ht
      have ha' : ¬ ((smp.nodes p).n_flag &&& NALLOC ≠ 0) := by simp [ha]
      simp only [smb_hashget_pass, hshare, smb_hashget_scan_eq_find, hfind]
      rw [if_neg ha', if_pos ht]
  · intro s1 hs1
    constructor
    · simp only [smb_hashget, hs1]
    · intro w ws
      simp only [smb_hashget, hs1]

/-- A node returned by `smb_hashget` is locked exclusively. -/
theorem smb_hashget_locked (getvid : Nat → Nat) (dnp : Option Nat)
    (hashval : Nat) (name : List Nat) (nmlen mx node_flag : Nat) (sname : Option (List Nat))
    (wake : List (smbmount → smbmount)) (smp : smbmount) (vp : Nat) (s' : smbmount)
    (hret : smb_hashget getvid dnp hashval name nmlen mx node_flag sname wake smp =
      some (some vp, s')) :
    (s'.nodes vp).n_lockState = SMBFS_EXCLUSIVE_LOCK := by
  obtain ⟨s0, _, hpass⟩ := smb_hashget_last_pass (fun _ => True) (fun _ _ _ _ => trivial)
    getvid dnp hashval name nmlen mx node_flag sname wake smp (fun _ _ _ _ => trivial) trivial
    _ _ hret
  obtain ⟨share, _, hscan, _, rfl⟩ := smb_hashget_pass_some hpass
  simp [smbmount.setNode]

/-- The case-insensitive comparison stops at a NUL byte: for byte strings
with an embedded NUL, which are not C strings of the length passed with them,
the lookup of the three bytes `a`, NUL, 0xE2 returns the node named `a`, NUL,
`b`. -/
theorem smb_hashget_match_beyond_nul :
    (smb_hashget (fun _ => 0) none (smbfs_hash (some {}) 0 [97, 0, 226] 3) [97, 0, 226] 3 255 0
        none [] c4_state).map Prod.fst = some (some 1) ∧
    (c4_state.nodes 1).n_nmlen = 3 ∧
    ¬ ((c4_state.nodes 1).n_name.map (fun c => tolower (c % 256)) =
        [97, 0, 226].map (fun c => tolower (c % 256))) := by
  decide

/-- Claim C8, counterexample: while the mount is being forcibly unmounted
`smbfs_nget` of the name `.` returns `ENXIO`, not `EINVAL`. -/
theorem smbfs_nget_dot_forced_unmount :
    (smbfs_nget { vfs_isforce := true } [] {} c9_state none [46] 1 none 0 0).map
      (fun r => r.error) = some ENXIO ∧ ENXIO ≠ EINVAL := by
  decide

/-- Claim C8, amended: every call of `smbfs_nget` whose name is `.` with
`nmlen = 1` or `..` with `nmlen = 2` returns without a node and leaves the
mount, hence the hash table, unchanged; the error is `ENXIO` when the mount is
being forcibly unmounted and `EINVAL` otherwise. -/
theorem smbfs_nget_dot_rejected (h : smbfs_host) (wake : List (smbmount → smbmount))
    (share : smb_share) (smp : smbmount) (dvp : Option Nat) (name : List Nat) (nmlen : Nat)
    (fap : Option smbfattr) (cnflags flags : Nat)
    (hname : (nmlen = 1 ∧ name.getD 0 0 % 256 = 46) ∨
      (nmlen = 2 ∧ name.getD 0 0 % 256 = 46 ∧ name.getD 1 0 % 256 = 46)) :
    ∃ r, smbfs_nget h wake share smp dvp name nmlen fap cnflags flags = some r ∧
      r.vpp = none ∧ r.smp = smp ∧
      r.error = (if h.vfs_isforce then ENXIO else EINVAL) := by
  have hdots : (nmlen = 2 ∧ bcmp name [46, 46] 2 = 0) ∨ (nmlen = 1 ∧ name.headD 0 % 256 = 46) := by
    rcases hname with ⟨h1, h2⟩ | ⟨h1, h2, h3⟩
    · right
      exact ⟨h1, by rw [headD_eq_getD]; exact h2⟩
    · left
      refine ⟨h1, (bcmp_eq_zero_iff _ _ _).2 ?_⟩
      intro i hi
      have : i = 0 ∨ i = 1 := by omega
      rcases this with rfl | rfl
      · simpa using h2
      · simpa using h3
  have hpre : smbfs_nget_precheck h smp dvp name nmlen flags =
      some (if h.vfs_isforce then ENXIO else EINVAL) := by
    unfold smbfs_nget_precheck
    by_cases hf : h.vfs_isforce = true
    · simp [hf]
    · simp only [hf, if_false, Bool.false_eq_true]
      split
      · rfl
      · rcases hdots with hd | hd
        · rw [if_pos hd]
        · split
          · rfl
          · rfl
  unfold smbfs_nget
  rw [hpre]
  exact ⟨_, rfl, rfl, rfl, rfl⟩

theorem smbfs_nget_dot_rejected_witness :
    ∃ r, smbfs_nget {} [] {} c9_state (some 1) [46, 46] 2 none 0 0 = some r ∧
      r.vpp = none ∧ r.smp = c9_state ∧
      r.error = (if ({} : smbfs_host).vfs_isforce then ENXIO else EINVAL) :=
  smbfs_nget_dot_rejected {} [] {} c9_state (some 1) [46, 46] 2 none 0 0
    (Or.inr ⟨rfl, by decide, by decide⟩)

/-- Claim C9, counterexample: a lookup-only call of `smbfs_nget` finds the
regular file `a`, but the attribute record carries the reparse point bit, so
the call returns `ENOENT` without node and the node found is removed from the
hash table. -/
theorem smbfs_nget_lookup_only_evicts :
    SMBFS_NGET_LOOKUP_ONLY &&& SMBFS_NGET_LOOKUP_ONLY ≠ 0 ∧
    (smb_hashget (fun _ => 0) none (smbfs_hash (some {}) c9_fap.fa_ino [97] 1) [97] 1 255 0 none []
      (smbfs_nget_malloc c9_state)).map
        Prod.fst = some (some 1) ∧
    (smbfs_nget {} [] {} c9_state none [97] 1 (some c9_fap) 0 SMBFS_NGET_LOOKUP_ONLY).map
      (fun r => (r.error, r.vpp, r.smp.sm_hash 0)) = some (ENOENT, none, []) ∧
    c9_state.sm_hash 0 = [1] := by
  decide

/-! ## Frame lemmas of the attribute cache -/

theorem same_key_refl (a : smbnode) : same_key a a :=
  ⟨rfl, rfl, rfl, rfl, rfl, rfl, rfl, rfl, rfl, rfl⟩

theorem same_key_trans {a b c : smbnode} (h1 : same_key a b) (h2 : same_key b c) :
    same_key a c := by
  obtain ⟨a1, a2, a3, a4, a5, a6, a7, a8, a9, a10⟩ := h1
  obtain ⟨b1, b2, b3, b4, b5, b6, b7, b8, b9, b10⟩ := h2
  exact ⟨b1.trans a1, b2.trans a2, b3.trans a3, b4.trans a4, b5.trans a5, b6.trans a6,
    b7.trans a7, b8.trans a8, b9.trans a9, b10.trans a10⟩

theorem same_key_flag {a b : smbnode} (h : same_key a b) (f : Nat) (hf : KEYFLAGS &&& f = f) :
    b.n_flag &&& f = a.n_flag &&& f := by
  have := h.2.2.2.2.2.2.2.2.2
  rw [← hf, ← Nat.and_assoc, ← Nat.and_assoc, this]

theorem smbfs_update_size_same_key (now : timespec) (np : smbnode) (reqtime : timespec)
    (new_size : Nat) :
    same_key np (smbfs_update_size now np reqtime new_size).2.1 ∧
    (smbfs_update_size now np reqtime new_size).2.1.n_flag = np.n_flag ∧
    (smbfs_update_size now np reqtime new_size).2.1.n_hash_le_prev = np.n_hash_le_prev := by
  unfold smbfs_update_size smbfs_setsize
  split_ifs <;> exact ⟨same_key_refl _, rfl, rfl⟩

theorem CLR_key (x w : Nat) (h : (0xFFFFFFFF ^^^ w) &&& KEYFLAGS = KEYFLAGS) :
    CLR x w &&& KEYFLAGS = x &&& KEYFLAGS := CLR_and x w KEYFLAGS h

theorem cacheenter_vreg_same_key (h : smbfs_host) (np : smbnode) (fap : smbfattr) :
    same_key np (cacheenter_vreg h np fap).1 ∧
    (cacheenter_vreg h np fap).1.n_hash_le_prev = np.n_hash_le_prev := by
  obtain ⟨⟨k1, k2, k3, k4, k5, k6, k7, k8, k9, k10⟩, hfl, hle⟩ :=
    smbfs_update_size_same_key h.uptime_setsize np fap.fa_reqtime fap.fa_size
  unfold cacheenter_vreg
  refine ⟨⟨k1, k2, k3, k4, k5, k6, k7, k8, k9, ?_⟩, hle⟩
  simp only [hfl]
  split_ifs
  · exact or_and_of_disjoint _ _ _ (by decide)
  · rfl

theorem cacheenter_vdir_same_key (share : smb_share) (np : smbnode) (fap : smbfattr) :
    same_key np (cacheenter_vdir share np fap).1 ∧
    (cacheenter_vdir share np fap).1.n_hash_le_prev = np.n_hash_le_prev := by
  unfold cacheenter_vdir
  refine ⟨⟨rfl, rfl, rfl, rfl, rfl, rfl, rfl, rfl, rfl, ?_⟩, rfl⟩
  simp only
  split_ifs
  · exact CLR_key _ _ (by decide)
  · rfl

theorem cacheenter_meta_same_key (h : smbfs_host) (share : smb_share) (smp : smbmount)
    (np : smbnode) (fap : smbfattr) (hint : Nat) :
    same_key np (cacheenter_meta h share smp np fap hint).1 ∧
    (cacheenter_meta h share smp np fap hint).1.n_hash_le_prev = np.n_hash_le_prev := by
  unfold cacheenter_meta
  refine ⟨⟨rfl, rfl, rfl, rfl, rfl, rfl, rfl, rfl, rfl, ?_⟩, rfl⟩
  simp only
  split_ifs
  · exact or_and_of_disjoint _ _ _ (by decide)
  · rfl

theorem smbfs_attr_cacheenter_node_same_key (h : smbfs_host) (share : smb_share)
    (smp : smbmount) (np : smbnode) (fap : smbfattr) (upd : Bool) :
    same_key np (smbfs_attr_cacheenter_node h share smp np fap upd).np ∧
    (smbfs_attr_cacheenter_node h share smp np fap upd).np.n_hash_le_prev = np.n_hash_le_prev := by
  have hclr : same_key np { np with n_flag := CLR np.n_flag NATTRCHANGED } :=
    ⟨rfl, rfl, rfl, rfl, rfl, rfl, rfl, rfl, rfl, CLR_key _ _ (by decide)⟩
  have hclr2 : same_key np
      { np with n_flag := CLR np.n_flag NATTRCHANGED, d_needsUpdate := false } :=
    ⟨rfl, rfl, rfl, rfl, rfl, rfl, rfl, rfl, rfl, CLR_key _ _ (by decide)⟩
  unfold smbfs_attr_cacheenter_node
  by_cases hc : node_vtype_changed np (vnode_vtype np) fap = true
  · rw [if_pos hc]
    exact ⟨⟨rfl, rfl, rfl, rfl, rfl, rfl, rfl, rfl, rfl, rfl⟩, rfl⟩
  · rw [if_neg hc]
    split
    · have h1 := cacheenter_vreg_same_key h { np with n_flag := CLR np.n_flag NATTRCHANGED } fap
      have h2 := cacheenter_meta_same_key h share smp
        (cacheenter_vreg h { np with n_flag := CLR np.n_flag NATTRCHANGED } fap).1
        (cacheenter_vreg h { np with n_flag := CLR np.n_flag NATTRCHANGED } fap).2.1
        (cacheenter_vreg h { np with n_flag := CLR np.n_flag NATTRCHANGED } fap).2.2.1
      exact ⟨same_key_trans hclr (same_key_trans h1.1 h2.1), h2.2.trans h1.2⟩
    · have h1 := cacheenter_vdir_same_key share
        { np with n_flag := CLR np.n_flag NATTRCHANGED, d_needsUpdate := false } fap
      have h2 := cacheenter_meta_same_key h share smp
        (cacheenter_vdir share
          { np with n_flag := CLR np.n_flag NATTRCHANGED, d_needsUpdate := false } fap).1
        (cacheenter_vdir share
          { np with n_flag := CLR np.n_flag NATTRCHANGED, d_needsUpdate := false } fap).2.1
        (if np.d_needsUpdate then VNODE_EVENT_ATTRIB ||| VNODE_EVENT_WRITE else 0)
      exact ⟨same_key_trans hclr2 (same_key_trans h1.1 h2.1), h2.2.trans h1.2⟩
    · have h2 := cacheenter_meta_same_key h share smp
        { np with n_flag := CLR np.n_flag NATTRCHANGED } fap 0
      exact ⟨same_key_trans hclr h2.1, h2.2⟩
    · exact ⟨hclr, rfl⟩

theorem smbfs_attr_cacheenter_node_no_parent (h : smbfs_host) (share : smb_share)
    (smp : smbmount) (np : smbnode) (fap : smbfattr) :
    (smbfs_attr_cacheenter_node h share smp np fap false).rsrc_parent = none := by
  unfold smbfs_attr_cacheenter_node
  by_cases hc : node_vtype_changed np (vnode_vtype np) fap = true
  · rw [if_pos hc]
  · rw [if_neg hc]
    split <;> simp

theorem smbfs_attr_cacheenter_node_changed (h : smbfs_host) (share : smb_share)
    (smp : smbmount) (np : smbnode) (fap : smbfattr) (upd : Bool) :
    (smbfs_attr_cacheenter_node h share smp np fap upd).vtype_changed =
      node_vtype_changed np (vnode_vtype np) fap := by
  unfold smbfs_attr_cacheenter_node
  by_cases hc : node_vtype_changed np (vnode_vtype np) fap = true
  · rw [if_pos hc, hc]
  · rw [if_neg hc]
    split <;> simp [hc]

theorem cacheenter_notify_same_key (h : smbfs_host) (share : smb_share) (hint : Nat)
    (np : smbnode) :
    same_key np (cacheenter_notify h share hint np) ∧
    (cacheenter_notify h share hint np).n_hash_le_prev = np.n_hash_le_prev := by
  unfold cacheenter_notify smbfs_attr_cachelookup
  split_ifs <;> simp [same_key_refl] <;> exact ⟨rfl, rfl, rfl, rfl, rfl, rfl, rfl, rfl, rfl, rfl⟩

/-- What `smbfs_attr_cacheenter` without parent update leaves alone: the
fields of the mount other than the nodes, the table and the statfs time, all
nodes but `p`, and the identity of `p`; the table changes only when the type
test fires, by unlinking `p`. -/
theorem smbfs_attr_cacheenter_frame (h : smbfs_host) (share : smb_share) (s : smbmount)
    (p : Nat) (fap : smbfattr) :
    (smbfs_attr_cacheenter h share s p fap false).1.sm_share = s.sm_share ∧
    (smbfs_attr_cacheenter h share s p fap false).1.sm_hashlen = s.sm_hashlen ∧
    (smbfs_attr_cacheenter h share s p fap false).1.sm_rvp = s.sm_rvp ∧
    (smbfs_attr_cacheenter h share s p fap false).1.sm_root_ino = s.sm_root_ino ∧
    (smbfs_attr_cacheenter h share s p fap false).1.node_brk = s.node_brk ∧
    (∀ q, q ≠ p → (smbfs_attr_cacheenter h share s p fap false).1.nodes q = s.nodes q) ∧
    same_key (s.nodes p) ((smbfs_attr_cacheenter h share s p fap false).1.nodes p) ∧
    (node_vtype_changed (s.nodes p) (vnode_vtype (s.nodes p)) fap = false →
      (smbfs_attr_cacheenter h share s p fap false).1.sm_hash = s.sm_hash ∧
      ((smbfs_attr_cacheenter h share s p fap false).1.nodes p).n_hash_le_prev =
        (s.nodes p).n_hash_le_prev) ∧
    (node_vtype_changed (s.nodes p) (vnode_vtype (s.nodes p)) fap = true →
      ((smbfs_attr_cacheenter h share s p fap false).1.nodes p).n_hash_le_prev = false ∧
      ∀ i, (smbfs_attr_cacheenter h share s p fap false).1.sm_hash i =
        if (s.nodes p).n_hash_le_prev then (s.sm_hash i).erase p else s.sm_hash i) := by
  have hk := smbfs_attr_cacheenter_node_same_key h share s (s.nodes p) fap false
  have hnp := smbfs_attr_cacheenter_node_no_parent h share s (s.nodes p) fap
  have hch := smbfs_attr_cacheenter_node_changed h share s (s.nodes p) fap false
  unfold smbfs_attr_cacheenter
  simp only
  generalize smbfs_attr_cacheenter_node h share s (s.nodes p) fap false = r at hk hnp hch
  rw [hnp, ← hch]
  simp only
  have hn := fun (x : smbnode) => cacheenter_notify_same_key h share r.monitorHint x
  cases hvc : r.vtype_changed <;> cases hno : r.notify <;>
    by_cases hle : (s.nodes p).n_hash_le_prev = true <;>
    simp only [smb_vhashrem, smbmount.setNode, if_true, if_false, Bool.false_eq_true, hk.2, hle,
      true_and, and_true, implies_true, ite_self, false_implies, Bool.true_eq_false,
      reduceCtorEq, not_false_eq_true]
  all_goals
    unfold same_key at hk hn ⊢
    obtain ⟨⟨k1, k2, k3, k4, k5, k6, k7, k8, k9, k10⟩, k11⟩ := hk
    refine ⟨fun q hq => by simp only [hq, if_false], ?_⟩
    simp only [hn, k1, k2, k3, k4, k5, k6, k7, k8, k9, k10, k11, hle, and_self, true_and,
      implies_true, Bool.not_eq_true, if_true, if_false, Bool.false_eq_true]

/-! ## The primitives on the mount -/

@[simp] theorem setNode_nodes_same (s : smbmount) (p : Nat) (n : smbnode) :
    (s.setNode p n).nodes p = n := by
  simp [smbmount.setNode]

theorem setNode_nodes_ne (s : smbmount) {p q : Nat} (n : smbnode) (h : q ≠ p) :
    (s.setNode p n).nodes q = s.nodes q := by
  simp [smbmount.setNode, h]

theorem setNode_nodes (s : smbmount) (p q : Nat) (n : smbnode) :
    (s.setNode p n).nodes q = if q = p then n else s.nodes q := rfl

@[simp] theorem setNode_sm_hash (s : smbmount) (p : Nat) (n : smbnode) :
    (s.setNode p n).sm_hash = s.sm_hash := rfl

@[simp] theorem setNode_sm_share (s : smbmount) (p : Nat) (n : smbnode) :
    (s.setNode p n).sm_share = s.sm_share := rfl

@[simp] theorem setNode_sm_hashlen (s : smbmount) (p : Nat) (n : smbnode) :
    (s.setNode p n).sm_hashlen = s.sm_hashlen := rfl

@[simp] theorem setNode_node_brk (s : smbmount) (p : Nat) (n : smbnode) :
    (s.setNode p n).node_brk = s.node_brk := rfl

@[simp] theorem setNode_sm_rvp (s : smbmount) (p : Nat) (n : smbnode) :
    (s.setNode p n).sm_rvp = s.sm_rvp := rfl

@[simp] theorem setNode_sm_root_ino (s : smbmount) (p : Nat) (n : smbnode) :
    (s.setNode p n).sm_root_ino = s.sm_root_ino := rfl

theorem smb_vhashrem_nodes (s : smbmount) (p q : Nat) :
    (smb_vhashrem s p).nodes q =
      if q = p then { s.nodes p with n_hash_le_prev := false } else s.nodes q := by
  unfold smb_vhashrem
  by_cases h : (s.nodes p).n_hash_le_prev = true
  · rw [if_pos h]
  · rw [if_neg h]
    by_cases hq : q = p
    · subst hq
      simp only [if_true]
      have : (s.nodes q).n_hash_le_prev = false := by simpa using h
      rw [← this]
    · simp only [hq, if_false]

theorem smb_vhashrem_sm_hash (s : smbmount) (p i : Nat) :
    (smb_vhashrem s p).sm_hash i =
      if (s.nodes p).n_hash_le_prev then (s.sm_hash i).erase p else s.sm_hash i := by
  unfold smb_vhashrem
  by_cases h : (s.nodes p).n_hash_le_prev = true
  · simp only [h, if_true]
  · simp only [h, if_false, Bool.false_eq_true]

theorem smb_vhashrem_fields (s : smbmount) (p : Nat) :
    (smb_vhashrem s p).sm_share = s.sm_share ∧ (smb_vhashrem s p).sm_hashlen = s.sm_hashlen ∧
    (smb_vhashrem s p).node_brk = s.node_brk ∧ (smb_vhashrem s p).sm_rvp = s.sm_rvp ∧
    (smb_vhashrem s p).sm_root_ino = s.sm_root_ino := by
  unfold smb_vhashrem
  split <;> exact ⟨rfl, rfl, rfl, rfl, rfl⟩

theorem smb_vhashadd_nodes (s : smbmount) (p hv q : Nat) :
    (smb_vhashadd s p hv).nodes q =
      if q = p then { s.nodes p with n_hash_le_prev := true } else s.nodes q := rfl

theorem smb_vhashadd_sm_hash (s : smbmount) (p hv i : Nat) :
    (smb_vhashadd s p hv).sm_hash i =
      if i = hv &&& s.sm_hashlen then p :: s.sm_hash i else s.sm_hash i := rfl

theorem smb_vhashadd_fields (s : smbmount) (p hv : Nat) :
    (smb_vhashadd s p hv).sm_share = s.sm_share ∧
    (smb_vhashadd s p hv).sm_hashlen = s.sm_hashlen ∧
    (smb_vhashadd s p hv).node_brk = s.node_brk ∧ (smb_vhashadd s p hv).sm_rvp = s.sm_rvp ∧
    (smb_vhashadd s p hv).sm_root_ino = s.sm_root_ino :=
  ⟨rfl, rfl, rfl, rfl, rfl⟩

theorem same_key_same_lookup {a b : smbnode} (h : same_key a b) : same_lookup a b :=
  ⟨h.1, h.2.1, h.2.2.1, h.2.2.2.1, h.2.2.2.2.1, h.2.2.2.2.2.1,
    same_key_flag h LOOKUPFLAGS (by decide)⟩

theorem same_lookup_refl (a : smbnode) : same_lookup a a := ⟨rfl, rfl, rfl, rfl, rfl, rfl, rfl⟩

theorem same_lookup_trans {a b c : smbnode} (h1 : same_lookup a b) (h2 : same_lookup b c) :
    same_lookup a c := by
  obtain ⟨a1, a2, a3, a4, a5, a6, a7⟩ := h1
  obtain ⟨b1, b2, b3, b4, b5, b6, b7⟩ := h2
  exact ⟨b1.trans a1, b2.trans a2, b3.trans a3, b4.trans a4, b5.trans a5, b6.trans a6,
    b7.trans a7⟩

theorem same_lookup_flag {a b : smbnode} (h : same_lookup a b) (f : Nat)
    (hf : LOOKUPFLAGS &&& f = f) : b.n_flag &&& f = a.n_flag &&& f := by
  have := h.2.2.2.2.2.2
  rw [← hf, ← Nat.and_assoc, ← Nat.and_assoc, this]

/-- The lookup tests read a node only through the fields of `same_lookup`. -/
theorem smb_hashget_skip_congr (share : smb_share) (dnp : Option Nat) (hashval : Nat)
    (name : List Nat) (nmlen node_flag : Nat) (sname : Option (List Nat)) (snmlen : Nat)
    {a b : smbnode} (h : same_lookup a b) :
    smb_hashget_skip share dnp hashval name nmlen node_flag sname snmlen b =
      smb_hashget_skip share dnp hashval name nmlen node_flag sname snmlen a := by
  have f1 := same_lookup_flag h N_ISSTREAM (by decide)
  have f2 := same_lookup_flag h NDELETEONCLOSE (by decide)
  have f3 := same_lookup_flag h NMARKEDFORDLETE (by decide)
  obtain ⟨a1, a2, a3, a4, a5, a6, _⟩ := h
  unfold smb_hashget_skip
  rw [f1, f2, f3, a1, a2, a3, a4, a5, a6]

theorem smb_hashget_scan_congr (s t : smbmount) (share : smb_share) (dnp : Option Nat)
    (hashval : Nat) (name : List Nat) (nmlen node_flag : Nat) (sname : Option (List Nat))
    (snmlen : Nat) (l : List Nat) (h : ∀ q, q ∈ l → same_lookup (s.nodes q) (t.nodes q)) :
    smb_hashget_scan t share dnp hashval name nmlen node_flag sname snmlen l =
      smb_hashget_scan s share dnp hashval name nmlen node_flag sname snmlen l := by
  induction l with
  | nil => rfl
  | cons q rest ih =>
    have hq := h q (by simp)
    simp only [smb_hashget_scan, smb_hashget_skip_congr share dnp hashval name nmlen node_flag
      sname snmlen hq, same_lookup_flag hq NALLOC (by decide),
      same_lookup_flag hq NTRANSIT (by decide)]
    rw [ih (fun q' hq' => h q' (by simp [hq']))]

/-! ## The creation path of `smbfs_nget` -/

theorem smbfs_nget_errout_error (s : smbmount) (dvp : Option Nat) (np error : Nat)
    (fap : smbfattr) :
    (smbfs_nget_errout s dvp np error fap).error = error ∧
    (smbfs_nget_errout s dvp np error fap).vpp = none := ⟨rfl, rfl⟩

theorem smbfs_nget_errout_sm_hash (s : smbmount) (dvp : Option Nat) (np error : Nat)
    (fap : smbfattr) (i : Nat) :
    (smbfs_nget_errout s dvp np error fap).smp.sm_hash i =
      if (s.nodes np).n_hash_le_prev then (s.sm_hash i).erase np else s.sm_hash i := by
  unfold smbfs_nget_errout
  simp only [setNode_sm_hash, smb_vhashrem_sm_hash]
  by_cases hr : (s.nodes np).n_flag &&& NREFPARENT ≠ 0
  · rw [if_pos hr]
    cases dvp with
    | none => simp only [setNode_nodes_same, setNode_sm_hash]
    | some d =>
      simp only [setNode_nodes, setNode_sm_hash]
      by_cases hd : np = d
      · subst hd
        simp only [if_true]
      · simp only [hd, if_false, if_true]
  · rw [if_neg hr]

theorem smbfs_nget_errout_refcnt (s : smbmount) (dvp : Option Nat) (np error : Nat)
    (fap : smbfattr) (q : Nat) (hq : q ≠ np) :
    ((smbfs_nget_errout s dvp np error fap).smp.nodes q).n_child_refcnt =
      if (s.nodes np).n_flag &&& NREFPARENT ≠ 0 ∧ dvp = some q then
        ((s.nodes q).n_child_refcnt + 2 ^ 32 - 1) % 2 ^ 32
      else (s.nodes q).n_child_refcnt := by
  unfold smbfs_nget_errout
  simp only [setNode_nodes, smb_vhashrem_nodes, hq, if_false]
  by_cases hr : (s.nodes np).n_flag &&& NREFPARENT ≠ 0
  · rw [if_pos hr]
    cases dvp with
    | none => simp only [setNode_nodes, hq, if_false, reduceCtorEq, and_false]
    | some d =>
      by_cases hd : q = d
      · subst hd
        simp only [setNode_nodes, hq, if_false, if_true, hr, and_self, not_false_eq_true, ne_eq]
      · have hd' : ¬ (some d = some q) := by
          intro h
          exact hd (Option.some.inj h).symm
        simp only [setNode_nodes, hq, hd, hd', if_false, and_false]
  · rw [if_neg hr]
    simp only [hr, false_and, if_false]

theorem smbfs_nget_vcreate_error (h : smbfs_host) (share : smb_share) (s : smbmount)
    (dvp : Option Nat) (fap : smbfattr) (np : Nat) (vt : vtype) (mr : Bool)
    (herr : (smbfs_nget_vcreate h share s dvp fap np vt mr).error ≠ 0) :
    h.vnode_create ≠ 0 ∧
    smbfs_nget_vcreate h share s dvp fap np vt mr =
      smbfs_nget_errout s dvp np h.vnode_create fap := by
  unfold smbfs_nget_vcreate at herr ⊢
  by_cases hv : h.vnode_create ≠ 0
  · rw [if_pos hv]
    exact ⟨hv, rfl⟩
  · rw [if_neg hv] at herr
    exact absurd rfl herr

/-- The table and the child counts after a failing tail of `smbfs_nget`, when
the new node `np` is linked at the head of bucket `b` of the table `T`. -/
theorem smbfs_nget_vcreate_error_frame (h : smbfs_host) (share : smb_share) (s : smbmount)
    (dvp : Option Nat) (fap : smbfattr) (np : Nat) (vt : vtype) (mr : Bool)
    (T : Nat → List Nat) (b : Nat) (hT : ∀ i, np ∉ T i)
    (hs : ∀ i, s.sm_hash i = if i = b then np :: T i else T i)
    (hle : (s.nodes np).n_hash_le_prev = true)
    (herr : (smbfs_nget_vcreate h share s dvp fap np vt mr).error ≠ 0) :
    (smbfs_nget_vcreate h share s dvp fap np vt mr).vpp = none ∧
    (smbfs_nget_vcreate h share s dvp fap np vt mr).error = h.vnode_create ∧
    (∀ i, (smbfs_nget_vcreate h share s dvp fap np vt mr).smp.sm_hash i = T i) ∧
    (∀ q, q ≠ np →
      ((smbfs_nget_vcreate h share s dvp fap np vt mr).smp.nodes q).n_child_refcnt =
        if (s.nodes np).n_flag &&& NREFPARENT ≠ 0 ∧ dvp = some q then
          ((s.nodes q).n_child_refcnt + 2 ^ 32 - 1) % 2 ^ 32
        else (s.nodes q).n_child_refcnt) := by
  obtain ⟨_, heq⟩ := smbfs_nget_vcreate_error h share s dvp fap np vt mr herr
  rw [heq]
  refine ⟨rfl, rfl, ?_, fun q hq => smbfs_nget_errout_refcnt s dvp np _ fap q hq⟩
  intro i
  rw [smbfs_nget_errout_sm_hash, hle, if_pos rfl, hs]
  by_cases hi : i = b
  · simp [hi]
  · simp only [hi, if_false]
    exact List.erase_of_not_mem (hT i)

theorem smbfs_nget_finish_error (h : smbfs_host) (share : smb_share) (s : smbmount)
    (dvp : Option Nat) (name : List Nat) (nmlen : Nat) (fap : smbfattr) (np : Nat)
    (T : Nat → List Nat) (b : Nat) (hT : ∀ i, np ∉ T i)
    (hs : ∀ i, s.sm_hash i = if i = b then np :: T i else T i)
    (hle : (s.nodes np).n_hash_le_prev = true)
    (herr : (smbfs_nget_finish h share s dvp name nmlen fap np).error ≠ 0) :
    (smbfs_nget_finish h share s dvp name nmlen fap np).vpp = none ∧
    ((smbfs_nget_finish h share s dvp name nmlen fap np).error = h.vnode_create ∨
      (dvp = none ∧
        (smbfs_nget_finish h share s dvp name nmlen fap np).error = (h.smbfs_lookup fap).1)) ∧
    (∀ i, (smbfs_nget_finish h share s dvp name nmlen fap np).smp.sm_hash i = T i) ∧
    (∀ q, q ≠ np →
      ((smbfs_nget_finish h share s dvp name nmlen fap np).smp.nodes q).n_child_refcnt =
        if (s.nodes np).n_flag &&& NREFPARENT ≠ 0 ∧ dvp = some q then
          ((s.nodes q).n_child_refcnt + 2 ^ 32 - 1) % 2 ^ 32
        else (s.nodes q).n_child_refcnt) := by
  have herase : ∀ i, (s.sm_hash i).erase np = T i := by
    intro i
    rw [hs]
    by_cases hi : i = b
    · simp [hi]
    · simp only [hi, if_false]
      exact List.erase_of_not_mem (hT i)
  unfold smbfs_nget_finish at herr ⊢
  split_ifs at herr ⊢ with h1 h2 h3 h4
  · -- the lookup of the root fails
    refine ⟨rfl, Or.inr ⟨h1.2.1, rfl⟩, ?_, fun q hq => smbfs_nget_errout_refcnt s dvp np _ _ q hq⟩
    intro i
    rw [smbfs_nget_errout_sm_hash, hle, if_pos rfl, herase]
  · -- the root is rehashed
    have hv := smbfs_nget_vcreate_error_frame h share
      (smbfs_nget_rehash share s name nmlen (smbfs_nget_rootfap h share fap) np)
      dvp (smbfs_nget_rootfap h share fap)
      np fap.fa_vtype (decide ((s.nodes np).n_ino = s.sm_root_ino)) T
      (smbfs_hash (some share) (smbfs_nget_rootfap h share fap).fa_ino name nmlen &&&
        s.sm_hashlen) hT
      (by
        intro i
        unfold smbfs_nget_rehash
        rw [smb_vhashadd_sm_hash]
        simp only [setNode_sm_hash, setNode_sm_hashlen, (smb_vhashrem_fields s np).2.1,
          smb_vhashrem_sm_hash, hle, if_true, herase])
      (by simp [smbfs_nget_rehash, smb_vhashadd_nodes])
      herr
    refine ⟨hv.1, Or.inl hv.2.1, hv.2.2.1, ?_⟩
    intro q hq
    rw [hv.2.2.2 q hq]
    simp only [smbfs_nget_rehash, smb_vhashadd_nodes, setNode_nodes, smb_vhashrem_nodes, hq,
      if_false, if_true]
  · -- a Windows symbolic link
    have hv := smbfs_nget_vcreate_error_frame h share
      (s.setNode np
        { s.nodes np with
          n_size := (smb_check_for_windows_symlink h share (s.nodes np)).2
          n_flag := (s.nodes np).n_flag ||| NWINDOWSYMLNK })
      dvp
      { fap with fa_valid_mask := fap.fa_valid_mask ||| FA_VTYPE_VALID, fa_vtype := vtype.VLNK }
      np vtype.VLNK (decide ((s.nodes np).n_ino = s.sm_root_ino)) T b hT
      (by intro i; rw [setNode_sm_hash]; exact hs i) (by simpa using hle) herr
    refine ⟨hv.1, Or.inl hv.2.1, hv.2.2.1, ?_⟩
    intro q hq
    rw [hv.2.2.2 q hq]
    simp only [setNode_nodes, hq, if_false, if_true,
      or_and_of_disjoint (s.nodes np).n_flag NWINDOWSYMLNK NREFPARENT (by decide)]
  · have hv := smbfs_nget_vcreate_error_frame h share s dvp fap np fap.fa_vtype
      (decide ((s.nodes np).n_ino = s.sm_root_ino)) T b hT hs hle herr
    exact ⟨hv.1, Or.inl hv.2.1, hv.2.2.1, hv.2.2.2⟩
  · have hv := smbfs_nget_vcreate_error_frame h share s dvp fap np fap.fa_vtype
      (decide ((s.nodes np).n_ino = s.sm_root_ino)) T b hT hs hle herr
    exact ⟨hv.1, Or.inl hv.2.1, hv.2.2.1, hv.2.2.2⟩

theorem smbfs_nget_init_sm_hash (s : smbmount) (name : List Nat) (nmlen : Nat) (fap : smbfattr)
    (np hashval i : Nat) :
    (smbfs_nget_init s name nmlen fap np hashval).sm_hash i =
      if i = hashval &&& s.sm_hashlen then np :: s.sm_hash i else s.sm_hash i := rfl

theorem smbfs_nget_init_nodes_ne (s : smbmount) (name : List Nat) (nmlen : Nat) (fap : smbfattr)
    (np hashval q : Nat) (hq : q ≠ np) :
    (smbfs_nget_init s name nmlen fap np hashval).nodes q = s.nodes q := by
  unfold smbfs_nget_init
  rw [smb_vhashadd_nodes, if_neg hq, setNode_nodes_ne _ _ hq]

theorem smbfs_nget_init_fields (s : smbmount) (name : List Nat) (nmlen : Nat) (fap : smbfattr)
    (np hashval : Nat) :
    (smbfs_nget_init s name nmlen fap np hashval).sm_share = s.sm_share ∧
    (smbfs_nget_init s name nmlen fap np hashval).sm_hashlen = s.sm_hashlen ∧
    (smbfs_nget_init s name nmlen fap np hashval).node_brk = s.node_brk ∧
    (smbfs_nget_init s name nmlen fap np hashval).sm_rvp = s.sm_rvp ∧
    (smbfs_nget_init s name nmlen fap np hashval).sm_root_ino = s.sm_root_ino :=
  ⟨rfl, rfl, rfl, rfl, rfl⟩

theorem smbfs_nget_init_np (s : smbmount) (name : List Nat) (nmlen : Nat) (fap : smbfattr)
    (np hashval : Nat) :
    ((smbfs_nget_init s name nmlen fap np hashval).nodes np).n_hash_le_prev = true ∧
    ((smbfs_nget_init s name nmlen fap np hashval).nodes np).n_flag =
      (s.nodes np).n_flag ||| NALLOC ∧
    ((smbfs_nget_init s name nmlen fap np hashval).nodes np).n_lockState =
      SMBFS_EXCLUSIVE_LOCK ∧
    ((smbfs_nget_init s name nmlen fap np hashval).nodes np).n_name = smb_strndup name nmlen ∧
    ((smbfs_nget_init s name nmlen fap np hashval).nodes np).n_nmlen = nmlen ∧
    ((smbfs_nget_init s name nmlen fap np hashval).nodes np).n_ino = fap.fa_ino ∧
    ((smbfs_nget_init s name nmlen fap np hashval).nodes np).n_parent = (s.nodes np).n_parent ∧
    ((smbfs_nget_init s name nmlen fap np hashval).nodes np).n_sname = (s.nodes np).n_sname ∧
    ((smbfs_nget_init s name nmlen fap np hashval).nodes np).n_snmlen = (s.nodes np).n_snmlen ∧
    ((smbfs_nget_init s name nmlen fap np hashval).nodes np).n_dosattr = fap.fa_attr ∧
    ((smbfs_nget_init s name nmlen fap np hashval).nodes np).n_size = fap.fa_size := by
  unfold smbfs_nget_init
  simp [smb_vhashadd_nodes, smbnode_lock]

/-- A failing creation leaves the table and the child counts as it found them. -/
theorem smbfs_nget_create_error (h : smbfs_host) (share : smb_share) (s : smbmount)
    (dvp : Option Nat) (name : List Nat) (nmlen : Nat) (fap : smbfattr) (np hashval : Nat)
    (hfresh : ∀ i, np ∉ s.sm_hash i) (hd : dvp ≠ some np)
    (href : ∀ d, dvp = some d → (s.nodes d).n_child_refcnt < 2 ^ 32)
    (hflag : (s.nodes np).n_flag &&& NREFPARENT = 0)
    (herr : (smbfs_nget_create h share s dvp name nmlen fap np hashval).error ≠ 0) :
    (smbfs_nget_create h share s dvp name nmlen fap np hashval).vpp = none ∧
    (∀ i, (smbfs_nget_create h share s dvp name nmlen fap np hashval).smp.sm_hash i =
      s.sm_hash i) ∧
    (∀ q, q ≠ np →
      ((smbfs_nget_create h share s dvp name nmlen fap np hashval).smp.nodes q).n_child_refcnt =
        (s.nodes q).n_child_refcnt) ∧
    (((smbfs_nget_create h share s dvp name nmlen fap np hashval).error = EINVAL ∧
        ∃ d, dvp = some d ∧ vnode_isvroot (s.nodes d) = false ∧
          (h.vnode_get_dvp ≠ 0 ∨ h.vnode_ref_dvp ≠ 0)) ∨
      (smbfs_nget_create h share s dvp name nmlen fap np hashval).error = h.vnode_create ∨
      (dvp = none ∧
        (smbfs_nget_create h share s dvp name nmlen fap np hashval).error =
          (h.smbfs_lookup fap).1)) := by
  obtain ⟨ile, ifl, -⟩ := smbfs_nget_init_np s name nmlen fap np hashval
  have ihash := smbfs_nget_init_sm_hash s name nmlen fap np hashval
  have ine := smbfs_nget_init_nodes_ne s name nmlen fap np hashval
  have hnoref : ((s.nodes np).n_flag ||| NALLOC) &&& NREFPARENT = 0 := by
    rw [or_and_of_disjoint _ _ _ (by decide)]
    exact hflag
  unfold smbfs_nget_create at herr ⊢
  simp only at herr ⊢
  cases dvp with
  | none =>
    simp only at herr ⊢
    obtain ⟨f1, f2, f3, f4⟩ := smbfs_nget_finish_error h share _ none name nmlen fap np s.sm_hash
      (hashval &&& s.sm_hashlen) hfresh ihash ile herr
    refine ⟨f1, f3, ?_, ?_⟩
    · intro q hq
      rw [f4 q hq]
      simp only [reduceCtorEq, and_false, if_false, ine q hq]
    · rcases f2 with f2 | f2
      · exact Or.inr (Or.inl f2)
      · exact Or.inr (Or.inr ⟨by simp, f2.2⟩)
  | some d =>
    have hdn : d ≠ np := fun hh => hd (by rw [hh])
    simp only at herr ⊢
    have hs2 : ∀ i, ((smbfs_nget_init s name nmlen fap np hashval).setNode np
        { (smbfs_nget_init s name nmlen fap np hashval).nodes np with n_parent := some d }).sm_hash i
        = if i = hashval &&& s.sm_hashlen then np :: s.sm_hash i else s.sm_hash i := by
      intro i
      rw [setNode_sm_hash]
      exact ihash i
    have hvr : vnode_isvroot (((smbfs_nget_init s name nmlen fap np hashval).setNode np
        { (smbfs_nget_init s name nmlen fap np hashval).nodes np with
          n_parent := some d }).nodes d) = vnode_isvroot (s.nodes d) := by
      rw [setNode_nodes_ne _ _ hdn, ine d hdn]
    rw [hvr] at herr ⊢
    by_cases hroot : vnode_isvroot (s.nodes d) = true
    · rw [if_pos hroot] at herr ⊢
      obtain ⟨f1, f2, f3, f4⟩ := smbfs_nget_finish_error h share _ (some d) name nmlen fap np
        s.sm_hash (hashval &&& s.sm_hashlen) hfresh hs2 (by simpa using ile) herr
      refine ⟨f1, f3, ?_, ?_⟩
      · intro q hq
        rw [f4 q hq]
        simp only [setNode_nodes_same, ifl, hnoref, ne_eq, not_true_eq_false, false_and,
          if_false, setNode_nodes_ne _ _ hq, ine q hq]
      · rcases f2 with f2 | f2
        · exact Or.inr (Or.inl f2)
        · exact absurd f2.1 (by simp)
    · rw [if_neg hroot] at herr ⊢
      by_cases hget : h.vnode_get_dvp = 0
      · rw [if_pos hget] at herr ⊢
        by_cases href0 : h.vnode_ref_dvp = 0
        · rw [if_pos href0] at herr ⊢
          obtain ⟨f1, f2, f3, f4⟩ := smbfs_nget_finish_error h share _ (some d) name nmlen fap np
            s.sm_hash (hashval &&& s.sm_hashlen) hfresh
            (by
              intro i
              simp only [setNode_sm_hash]
              exact ihash i)
            (by simp [setNode_nodes, hdn, Ne.symm hdn, ile]) herr
          refine ⟨f1, f3, ?_, ?_⟩
          · intro q hq
            rw [f4 q hq]
            have hx := href d rfl
            by_cases hqd : q = d
            · subst hqd
              simp only [setNode_nodes, hq, Ne.symm hq, if_true, if_false, ifl,
                or_and_self_right, ine q hq]
              simp only [NREFPARENT, ne_eq, one_ne_zero, not_false_eq_true, and_self, if_true]
              omega
            · have hqd' : ¬ (some d = some q) := fun hh => hqd (Option.some.inj hh).symm
              simp only [setNode_nodes, hq, hqd, hqd', if_false, and_false, ine q hq]
          · rcases f2 with f2 | f2
            · exact Or.inr (Or.inl f2)
            · exact absurd f2.1 (by simp)
        · rw [if_neg href0] at herr ⊢
          refine ⟨rfl, ?_, ?_, Or.inl ⟨rfl, d, rfl, by simpa using hroot, Or.inr href0⟩⟩
          · intro i
            rw [smbfs_nget_errout_sm_hash]
            simp only [setNode_nodes_same, setNode_sm_hash, ile, if_true, ihash]
            by_cases hi : i = hashval &&& s.sm_hashlen
            · simp [hi]
            · simp only [hi, if_false]
              exact List.erase_of_not_mem (hfresh i)
          · intro q hq
            rw [smbfs_nget_errout_refcnt _ _ _ _ _ q hq]
            simp only [setNode_nodes_same, ifl, hnoref, ne_eq, not_true_eq_false, false_and,
              if_false, setNode_nodes_ne _ _ hq, ine q hq]
      · rw [if_neg hget] at herr ⊢
        refine ⟨rfl, ?_, ?_, Or.inl ⟨rfl, d, rfl, by simpa using hroot, Or.inl hget⟩⟩
        · intro i
          rw [smbfs_nget_errout_sm_hash]
          simp only [setNode_nodes_same, setNode_sm_hash, ile, if_true, ihash]
          by_cases hi : i = hashval &&& s.sm_hashlen
          · simp [hi]
          · simp only [hi, if_false]
            exact List.erase_of_not_mem (hfresh i)
        · intro q hq
          rw [smbfs_nget_errout_refcnt _ _ _ _ _ q hq]
          simp only [setNode_nodes_same, ifl, hnoref, ne_eq, not_true_eq_false, false_and,
            if_false, setNode_nodes_ne _ _ hq, ine q hq]

/-! ## The whole of `smbfs_nget` -/

theorem smb_hashget_nil {getvid : Nat → Nat} {dnp : Option Nat} {hashval : Nat}
    {name : List Nat} {nmlen mx node_flag : Nat} {sname : Option (List Nat)} {smp s' : smbmount}
    {vp : Option Nat}
    (h : smb_hashget getvid dnp hashval name nmlen mx node_flag sname [] smp = some (vp, s')) :
    smb_hashget_pass getvid dnp hashval name nmlen mx node_flag sname smp =
      hashget_pass.ret vp s' := by
  simp only [smb_hashget] at h
  split at h
  · rename_i v s hv
    cases h
    exact hv
  · cases h

theorem smbfs_nget_malloc_spec (smp : smbmount) :
    (smbfs_nget_malloc smp).sm_hash = smp.sm_hash ∧
    (smbfs_nget_malloc smp).sm_share = smp.sm_share ∧
    (smbfs_nget_malloc smp).sm_hashlen = smp.sm_hashlen ∧
    (smbfs_nget_malloc smp).sm_rvp = smp.sm_rvp ∧
    (smbfs_nget_malloc smp).node_brk = smp.node_brk + 1 ∧
    (smbfs_nget_malloc smp).nodes smp.node_brk = {} ∧
    ∀ q, q ≠ smp.node_brk → (smbfs_nget_malloc smp).nodes q = smp.nodes q := by
  refine ⟨rfl, rfl, rfl, rfl, rfl, ?_, ?_⟩
  · simp [smbfs_nget_malloc, smbmount.setNode]
  · intro q hq
    simp [smbfs_nget_malloc, smbmount.setNode, hq]

theorem smbnode_unlock_fields (n : smbnode) :
    (smbnode_unlock n).n_child_refcnt = n.n_child_refcnt ∧
    (smbnode_unlock n).n_vnode = n.n_vnode ∧
    (smbnode_unlock n).n_hash_le_prev = n.n_hash_le_prev ∧
    same_lookup n (smbnode_unlock n) := by
  unfold smbnode_unlock
  split <;> exact ⟨rfl, rfl, rfl, same_lookup_refl _⟩

theorem smbfs_nget_new_create (h : smbfs_host) (share : smb_share) (s : smbmount)
    (dvp : Option Nat) (name : List Nat) (nmlen : Nat) (fap : smbfattr) (flags np hv : Nat)
    (hcreate : flags &&& SMBFS_NGET_LOOKUP_ONLY = 0) :
    smbfs_nget_new h share s dvp name nmlen (some fap) flags np hv =
      smbfs_nget_create h share s dvp name nmlen fap np hv := by
  unfold smbfs_nget_new
  have hlk : ¬ (flags &&& SMBFS_NGET_LOOKUP_ONLY ≠ 0) := by simp [hcreate]
  rw [if_neg hlk]

/-- The state in which a node found with a changed type has been evicted
(lines 800-807 of `smbfs_nget`). -/
theorem smbfs_nget_found_error (h : smbfs_host) (share : smb_share) (s : smbmount)
    (dvp : Option Nat) (name : List Nat) (nmlen : Nat) (fap : smbfattr) (flags np hv vp : Nat)
    (herr : (smbfs_nget_found h share s dvp name nmlen (some fap) flags np hv vp).error ≠ 0) :
    smbfs_nget_found h share s dvp name nmlen (some fap) flags np hv vp =
      smbfs_nget_new h share
        ((smb_vhashrem s vp).setNode vp
          (smbnode_unlock
            { (smb_vhashrem s vp).nodes vp with
              attribute_cache_timer := 0, n_symlink_cache_timer := 0 }))
        dvp name nmlen (some fap) flags np hv := by
  unfold smbfs_nget_found at herr ⊢
  by_cases hnc : flags &&& SMBFS_NGET_NO_CACHE_UPDATE ≠ 0
  · rw [if_pos hnc] at herr
    exact absurd rfl herr
  · rw [if_neg hnc] at herr ⊢
    simp only at herr ⊢
    by_cases hch : node_vtype_changed (s.nodes vp) (vnode_vtype (s.nodes vp)) fap = true
    · rw [if_pos hch]
    · rw [if_neg hch] at herr
      exact absurd rfl herr

/-- Claim C10: when `smbfs_nget` (run without sleeping in the lookup) fails on
the creation path, the new node, whose address is `node_brk`, is in no bucket
of the table on return, the table holds no node it did not hold on entry, the
child count of the parent equals its value on entry, no node is returned, and
the error is the one of the failing step: `EINVAL` when taking the parent
reference fails, the error of `vnode_create`, or the error of the root
lookup. -/
theorem smbfs_nget_failure_unwinds (h : smbfs_host) (share : smb_share) (smp : smbmount)
    (dvp : Option Nat) (name : List Nat) (nmlen : Nat) (fap : smbfattr) (cnflags flags : Nat)
    (r : nget_result)
    (hwf : ∀ i q, q ∈ smp.sm_hash i → q < smp.node_brk)
    (hdvp : ∀ d, dvp = some d → d < smp.node_brk ∧ (smp.nodes d).n_child_refcnt < 2 ^ 32)
    (hpre : smbfs_nget_precheck h smp dvp name nmlen flags = none)
    (hcreate : flags &&& SMBFS_NGET_LOOKUP_ONLY = 0)
    (hrun : smbfs_nget h [] share smp dvp name nmlen (some fap) cnflags flags = some r)
    (herr : r.error ≠ 0) :
    (∀ i, smp.node_brk ∉ r.smp.sm_hash i) ∧
    (∀ i q, q ∈ r.smp.sm_hash i → q ∈ smp.sm_hash i) ∧
    (∀ d, dvp = some d → (r.smp.nodes d).n_child_refcnt = (smp.nodes d).n_child_refcnt) ∧
    r.vpp = none ∧
    ((r.error = EINVAL ∧ ∃ d, dvp = some d ∧ vnode_isvroot (smp.nodes d) = false ∧
        (h.vnode_get_dvp ≠ 0 ∨ h.vnode_ref_dvp ≠ 0)) ∨
      r.error = h.vnode_create ∨
      (dvp = none ∧ r.error = (h.smbfs_lookup fap).1)) := by
  obtain ⟨mh, msh, mhl, mrvp, mbrk, mnew, mne⟩ := smbfs_nget_malloc_spec smp
  have hnotin : ∀ i, smp.node_brk ∉ smp.sm_hash i := fun i hm => by
    have := hwf i _ hm
    omega
  -- the state in which the creation starts
  have key : ∀ s2 : smbmount,
      (∀ i q, q ∈ s2.sm_hash i → q ∈ smp.sm_hash i) →
      (s2.nodes smp.node_brk).n_flag = 0 →
      (∀ q, q ≠ smp.node_brk → (s2.nodes q).n_child_refcnt = (smp.nodes q).n_child_refcnt ∧
        vnode_isvroot (s2.nodes q) = vnode_isvroot (smp.nodes q)) →
      r = smbfs_nget_create h share s2 dvp name nmlen fap smp.node_brk
        (smbfs_nget_hashval share name nmlen (some fap)) →
      (∀ i, smp.node_brk ∉ r.smp.sm_hash i) ∧
      (∀ i q, q ∈ r.smp.sm_hash i → q ∈ smp.sm_hash i) ∧
      (∀ d, dvp = some d → (r.smp.nodes d).n_child_refcnt = (smp.nodes d).n_child_refcnt) ∧
      r.vpp = none ∧
      ((r.error = EINVAL ∧ ∃ d, dvp = some d ∧ vnode_isvroot (smp.nodes d) = false ∧
          (h.vnode_get_dvp ≠ 0 ∨ h.vnode_ref_dvp ≠ 0)) ∨
        r.error = h.vnode_create ∨
        (dvp = none ∧ r.error = (h.smbfs_lookup fap).1)) := by
    intro s2 hsub hfl hcnt hr
    have hfresh : ∀ i, smp.node_brk ∉ s2.sm_hash i := fun i hm => hnotin i (hsub i _ hm)
    have hd : dvp ≠ some smp.node_brk := by
      intro hh
      have := (hdvp _ hh).1
      omega
    have hdne : ∀ d, dvp = some d → d ≠ smp.node_brk := fun d hh => by
      have := (hdvp _ hh).1
      omega
    rw [hr] at herr ⊢
    obtain ⟨c1, c2, c3, c4⟩ := smbfs_nget_create_error h share s2 dvp name nmlen fap
      smp.node_brk _ hfresh hd
      (fun d hh => by rw [(hcnt d (hdne d hh)).1]; exact (hdvp d hh).2)
      (by rw [hfl]; rfl) herr
    refine ⟨fun i => by rw [c2]; exact hfresh i, fun i q hq => hsub i q (by rwa [c2] at hq),
      fun d hh => by rw [c3 d (hdne d hh)]; exact (hcnt d (hdne d hh)).1, c1, ?_⟩
    rcases c4 with ⟨e1, d, e2, e3, e4⟩ | c4 | c4
    · exact Or.inl ⟨e1, d, e2, by rw [← (hcnt d (hdne d e2)).2]; exact e3, e4⟩
    · exact Or.inr (Or.inl c4)
    · exact Or.inr (Or.inr c4)
  unfold smbfs_nget at hrun
  rw [hpre] at hrun
  simp only at hrun
  split at hrun
  · cases hrun
  · -- a node is found: it is evicted before the creation
    rename_i vp s1 hget
    have hpass := smb_hashget_nil hget
    obtain ⟨sh, _, hscan, _, hs1⟩ := smb_hashget_pass_some hpass
    have hvpm := (smb_hashget_scan_candidate hscan).1
    rw [mh] at hvpm
    have hvp : vp ≠ smp.node_brk := by
      have := hwf _ _ hvpm
      omega
    have hr : r = smbfs_nget_found h share s1 dvp name nmlen (some fap) flags smp.node_brk
        (smbfs_nget_hashval share name nmlen (some fap)) vp := by
      cases hrun
      rfl
    have hr2 := smbfs_nget_found_error h share s1 dvp name nmlen fap flags smp.node_brk
      (smbfs_nget_hashval share name nmlen (some fap)) vp (by rw [← hr]; exact herr)
    rw [smbfs_nget_new_create _ _ _ _ _ _ _ _ _ _ hcreate] at hr2
    apply key _ _ _ _ (hr.trans hr2)
    · intro i q hq
      rw [setNode_sm_hash, smb_vhashrem_sm_hash] at hq
      rw [hs1, setNode_sm_hash, mh] at hq
      split at hq
      · exact List.mem_of_mem_erase hq
      · exact hq
    · rw [setNode_nodes_ne _ _ (Ne.symm hvp), smb_vhashrem_nodes, if_neg (Ne.symm hvp), hs1,
        setNode_nodes_ne _ _ (Ne.symm hvp), mnew]
    · intro q hq
      by_cases hqv : q = vp
      · subst hqv
        have hu := smbnode_unlock_fields
          { (smb_vhashrem s1 q).nodes q with
            attribute_cache_timer := 0, n_symlink_cache_timer := 0 }
        simp only [setNode_nodes_same, vnode_isvroot, hu.1, hu.2.1]
        simp only [smb_vhashrem_nodes, if_true, hs1, setNode_nodes_same, mne q hq, and_self]
      · simp only [setNode_nodes, smb_vhashrem_nodes, hs1, hqv, if_false, mne q hq, and_self]
  · -- no node is found
    rename_i s1 hget
    have hs1 := smb_hashget_pass_none (smb_hashget_nil hget)
    have hr : r = smbfs_nget_new h share s1 dvp name nmlen (some fap) flags smp.node_brk
        (smbfs_nget_hashval share name nmlen (some fap)) := by
      cases hrun
      rfl
    rw [smbfs_nget_new_create _ _ _ _ _ _ _ _ _ _ hcreate] at hr
    apply key _ _ _ _ hr
    · intro i q hq
      rw [hs1, mh] at hq
      exact hq
    · rw [hs1, mnew]
    · intro q hq
      rw [hs1, mne q hq]
      exact ⟨rfl, rfl⟩

theorem c9_state_wf : ∀ i q, q ∈ c9_state.sm_hash i → q < c9_state.node_brk := by
  intro i q hq
  simp only [c9_state] at hq ⊢
  split at hq
  · simp at hq
    omega
  · simp at hq

theorem smbfs_nget_failure_unwinds_witness :
    ∃ r, smbfs_nget { vnode_create := ENOMEM } [] {} c9_state (some 1) [98] 1
        (some { fa_vtype := vtype.VREG }) 0 0 = some r ∧
      r.error = ENOMEM ∧ (∀ i, c9_state.node_brk ∉ r.smp.sm_hash i) ∧
      (r.smp.nodes 1).n_child_refcnt = (c9_state.nodes 1).n_child_refcnt ∧ r.vpp = none := by
  refine ⟨_, rfl, by decide, ?_⟩
  have hw := smbfs_nget_failure_unwinds { vnode_create := ENOMEM } {} c9_state (some 1) [98] 1
    { fa_vtype := vtype.VREG } 0 0 _ c9_state_wf
    (by intro d hd; cases hd; decide) (by decide) (by decide) rfl (by decide)
  exact ⟨hw.1, hw.2.2.1 1 rfl, hw.2.2.2.1⟩

theorem smb_hashget_waits_on_transitional_witness :
    smb_hashget_pass (fun _ => 0) none (smbfs_hash (some {}) 0 [97] 1) [97] 1 255 0 none c2_state =
      hashget_pass.msleep
        (c2_state.setNode 1
          { c2_state.nodes 1 with n_flag := (c2_state.nodes 1).n_flag ||| NWALLOC }) ∧
    smb_hashget (fun _ => 0) none (smbfs_hash (some {}) 0 [97] 1) [97] 1 255 0 none [] c2_state =
      none ∧
    (smb_hashget (fun _ => 0) none (smbfs_hash (some {}) 0 [97] 1) [97] 1 255 0 none [c2_wake]
      c2_state).map Prod.fst = some (some 1) :=
  have hw := smb_hashget_waits_on_transitional (fun _ => 0) none (smbfs_hash (some {}) 0 [97] 1)
    [97] 1 255 0 none [] c2_state
  have hp := (hw.2.1 {} 1 rfl (by decide)).1 (by decide)
  ⟨hp, (hw.2.2 _ hp).1, by decide⟩

theorem smb_vhashadd_vhashrem_roundtrip_witness :
    5 ∈ (smb_vhashadd c9_state 5 7).sm_hash (SMBFS_NOHASH c9_state 7) ∧
    smb_vhashrem (smb_vhashadd c9_state 5 7) 5 = c9_state ∧
    ((smb_vhashrem (smb_vhashadd c9_state 5 7) 5).nodes 5).n_hash_le_prev = false :=
  have hw := smb_vhashadd_vhashrem_roundtrip c9_state 5 7
    (by intro i; simp only [c9_state]; split <;> simp) (by decide)
  ⟨hw.1, hw.2.1, hw.2.2.2.1⟩

theorem same_key_lock {a b : smbnode} (h : same_key a b) : b.n_lockState = a.n_lockState :=
  h.2.2.2.2.2.2.2.1

/-- The successful tail of `smbfs_nget`: the vnode is bound to the node (only
`n_vnode` and `n_mode` change), the attributes are entered, and `NALLOC` is
cleared. -/
theorem smbfs_nget_vcreate_ok (h : smbfs_host) (share : smb_share) (s : smbmount)
    (dvp : Option Nat) (fap : smbfattr) (np : Nat) (vt : vtype) (mr : Bool)
    (hv : h.vnode_create = 0) :
    ∃ n0 : smbnode,
      (n0.n_vnode = some { v_type := vt, v_isvroot := mr, v_isnamedstream := false } ∧
        same_lookup (s.nodes np) n0 ∧ n0.n_lockState = (s.nodes np).n_lockState ∧
        n0.n_hash_le_prev = (s.nodes np).n_hash_le_prev ∧ n0.n_flag = (s.nodes np).n_flag ∧
        n0.n_dosattr = (s.nodes np).n_dosattr) ∧
      smbfs_nget_vcreate h share s dvp fap np vt mr =
        { error := 0, vpp := some np
          fap := some (smbfs_attr_cacheenter h share (s.setNode np n0) np fap false).2.1
          smp := (smbfs_attr_cacheenter h share (s.setNode np n0) np fap false).1.setNode np
            { (smbfs_attr_cacheenter h share (s.setNode np n0) np fap false).1.nodes np with
              n_flag := CLR ((smbfs_attr_cacheenter h share (s.setNode np n0) np fap
                false).1.nodes np).n_flag NALLOC } } := by
  unfold smbfs_nget_vcreate
  have hv' : ¬ (h.vnode_create ≠ 0) := by simp [hv]
  rw [if_neg hv']
  refine ⟨_, ?_, rfl⟩
  exact ⟨rfl, ⟨rfl, rfl, rfl, rfl, rfl, rfl, rfl⟩, rfl, rfl, rfl, rfl⟩

theorem smbfs_nget_vcreate_ok_of_error (h : smbfs_host) (share : smb_share) (s : smbmount)
    (dvp : Option Nat) (fap : smbfattr) (np : Nat) (vt : vtype) (mr : Bool)
    (hok : (smbfs_nget_vcreate h share s dvp fap np vt mr).error = 0) : h.vnode_create = 0 := by
  by_contra hv
  exact (smbfs_nget_vcreate_error h share s dvp fap np vt mr (by
    unfold smbfs_nget_vcreate
    rw [if_pos hv]
    exact hv)).1 (by
      unfold smbfs_nget_vcreate at hok
      rw [if_pos hv] at hok
      exact hok)

theorem smbfs_nget_vcreate_locked (h : smbfs_host) (share : smb_share) (s : smbmount)
    (dvp : Option Nat) (fap : smbfattr) (np : Nat) (vt : vtype) (mr : Bool)
    (hl : (s.nodes np).n_lockState = SMBFS_EXCLUSIVE_LOCK)
    (hok : (smbfs_nget_vcreate h share s dvp fap np vt mr).error = 0) :
    (smbfs_nget_vcreate h share s dvp fap np vt mr).vpp = some np ∧
    ((smbfs_nget_vcreate h share s dvp fap np vt mr).smp.nodes np).n_lockState =
      SMBFS_EXCLUSIVE_LOCK := by
  obtain ⟨n0, ⟨_, _, hl0, _⟩, heq⟩ := smbfs_nget_vcreate_ok h share s dvp fap np vt mr
    (smbfs_nget_vcreate_ok_of_error h share s dvp fap np vt mr hok)
  rw [heq]
  refine ⟨rfl, ?_⟩
  simp only [setNode_nodes_same]
  have hf := (smbfs_attr_cacheenter_frame h share (s.setNode np n0) np fap).2.2.2.2.2.2.1
  rw [same_key_lock hf, setNode_nodes_same, hl0]
  exact hl

theorem smb_vhashrem_lock (s : smbmount) (p q : Nat) :
    ((smb_vhashrem s p).nodes q).n_lockState = (s.nodes q).n_lockState := by
  rw [smb_vhashrem_nodes]
  by_cases hq : q = p
  · subst hq
    rw [if_pos rfl]
  · rw [if_neg hq]

theorem smbfs_nget_finish_locked (h : smbfs_host) (share : smb_share) (s : smbmount)
    (dvp : Option Nat) (name : List Nat) (nmlen : Nat) (fap : smbfattr) (np : Nat)
    (hl : (s.nodes np).n_lockState = SMBFS_EXCLUSIVE_LOCK)
    (hok : (smbfs_nget_finish h share s dvp name nmlen fap np).error = 0) :
    (smbfs_nget_finish h share s dvp name nmlen fap np).vpp = some np ∧
    ((smbfs_nget_finish h share s dvp name nmlen fap np).smp.nodes np).n_lockState =
      SMBFS_EXCLUSIVE_LOCK := by
  unfold smbfs_nget_finish at hok ⊢
  split_ifs at hok ⊢
  · exact absurd hok (by assumption)
  · apply smbfs_nget_vcreate_locked _ _ _ _ _ _ _ _ _ hok
    unfold smbfs_nget_rehash
    rw [smb_vhashadd_nodes]
    simp only [if_true, setNode_nodes_same]
    rw [smb_vhashrem_lock]
    exact hl
  · apply smbfs_nget_vcreate_locked _ _ _ _ _ _ _ _ _ hok
    rw [setNode_nodes_same]
    exact hl
  · exact smbfs_nget_vcreate_locked _ _ _ _ _ _ _ _ hl hok
  · exact smbfs_nget_vcreate_locked _ _ _ _ _ _ _ _ hl hok

theorem smbfs_nget_create_locked (h : smbfs_host) (share : smb_share) (s : smbmount)
    (dvp : Option Nat) (name : List Nat) (nmlen : Nat) (fap : smbfattr) (np hv : Nat)
    (hok : (smbfs_nget_create h share s dvp name nmlen fap np hv).error = 0) :
    (smbfs_nget_create h share s dvp name nmlen fap np hv).vpp = some np ∧
    ((smbfs_nget_create h share s dvp name nmlen fap np hv).smp.nodes np).n_lockState =
      SMBFS_EXCLUSIVE_LOCK := by
  have hinit := (smbfs_nget_init_np s name nmlen fap np hv).2.2.1
  cases dvp with
  | none =>
    unfold smbfs_nget_create at hok ⊢
    exact smbfs_nget_finish_locked _ _ _ _ _ _ _ _ hinit hok
  | some d =>
    unfold smbfs_nget_create at hok ⊢
    simp only at hok ⊢
    split_ifs at hok ⊢
    · apply smbfs_nget_finish_locked _ _ _ _ _ _ _ _ _ hok
      rw [setNode_nodes_same]
      exact hinit
    · apply smbfs_nget_finish_locked _ _ _ _ _ _ _ _ _ hok
      simp only [setNode_nodes]
      by_cases hd : np = d
      · subst hd
        simp only [if_true]
        exact hinit
      · simp only [hd, if_false, if_true]
        exact hinit
    · exact absurd (show EINVAL = 0 from hok) (by decide)
    · exact absurd (show EINVAL = 0 from hok) (by decide)

theorem smbfs_nget_new_locked (h : smbfs_host) (share : smb_share) (s : smbmount)
    (dvp : Option Nat) (name : List Nat) (nmlen : Nat) (fap : Option smbfattr) (flags np hv : Nat)
    (hok : (smbfs_nget_new h share s dvp name nmlen fap flags np hv).error = 0) :
    (smbfs_nget_new h share s dvp name nmlen fap flags np hv).vpp = some np ∧
    ((smbfs_nget_new h share s dvp name nmlen fap flags np hv).smp.nodes np).n_lockState =
      SMBFS_EXCLUSIVE_LOCK := by
  cases fap with
  | none =>
    unfold smbfs_nget_new at hok
    split_ifs at hok <;> exact absurd (show ENOENT = 0 from hok) (by decide)
  | some f =>
    unfold smbfs_nget_new at hok ⊢
    split_ifs at hok ⊢
    · exact absurd (show ENOENT = 0 from hok) (by decide)
    · exact smbfs_nget_create_locked _ _ _ _ _ _ _ _ _ hok

theorem smbfs_nget_found_locked (h : smbfs_host) (share : smb_share) (s : smbmount)
    (dvp : Option Nat) (name : List Nat) (nmlen : Nat) (fap : Option smbfattr)
    (flags np hv vp : Nat) (hl : (s.nodes vp).n_lockState = SMBFS_EXCLUSIVE_LOCK)
    (hok : (smbfs_nget_found h share s dvp name nmlen fap flags np hv vp).error = 0) :
    ∃ v, (smbfs_nget_found h share s dvp name nmlen fap flags np hv vp).vpp = some v ∧
      ((smbfs_nget_found h share s dvp name nmlen fap flags np hv vp).smp.nodes v).n_lockState =
        SMBFS_EXCLUSIVE_LOCK := by
  cases fap with
  | none =>
    unfold smbfs_nget_found
    split_ifs <;> exact ⟨vp, rfl, hl⟩
  | some f =>
    unfold smbfs_nget_found at hok ⊢
    by_cases hnc : flags &&& SMBFS_NGET_NO_CACHE_UPDATE ≠ 0
    · rw [if_pos hnc]
      exact ⟨vp, rfl, hl⟩
    · rw [if_neg hnc] at hok ⊢
      simp only at hok ⊢
      by_cases hch : node_vtype_changed (s.nodes vp) (vnode_vtype (s.nodes vp)) f = true
      · rw [if_pos hch] at hok ⊢
        exact ⟨np, smbfs_nget_new_locked _ _ _ _ _ _ _ _ _ _ hok⟩
      · rw [if_neg hch]
        refine ⟨vp, rfl, ?_⟩
        have hf := (smbfs_attr_cacheenter_frame h share s vp f).2.2.2.2.2.2.1
        rw [hf.2.2.2.2.2.2.2.1]
        exact hl

/-- Claim C3: a node returned by `smb_hashget` is locked exclusively, and
whenever `smbfs_nget` returns 0 it returns a node, found in the table or newly
created, whose lock state is `SMBFS_EXCLUSIVE_LOCK` on return. -/
theorem smbfs_nget_returns_locked (h : smbfs_host) (wake : List (smbmount → smbmount))
    (share : smb_share) (smp : smbmount) (dvp : Option Nat) (name : List Nat) (nmlen : Nat)
    (fap : Option smbfattr) (cnflags flags : Nat) :
    (∀ (getvid : Nat → Nat) (hashval mx node_flag : Nat) (sname : Option (List Nat)) (vp : Nat)
        (s' : smbmount),
      smb_hashget getvid dvp hashval name nmlen mx node_flag sname wake smp = some (some vp, s') →
      (s'.nodes vp).n_lockState = SMBFS_EXCLUSIVE_LOCK) ∧
    (∀ r, smbfs_nget h wake share smp dvp name nmlen fap cnflags flags = some r → r.error = 0 →
      ∃ vp, r.vpp = some vp ∧ (r.smp.nodes vp).n_lockState = SMBFS_EXCLUSIVE_LOCK) := by
  constructor
  · intro getvid hashval mx node_flag sname vp s' hret
    exact smb_hashget_locked getvid dvp hashval name nmlen mx node_flag sname wake smp vp s' hret
  · intro r hrun hok
    unfold smbfs_nget at hrun
    split at hrun
    · rename_i e he
      cases hrun
      exfalso
      unfold smbfs_nget_precheck at he
      simp only at hok
      subst hok
      split_ifs at he <;> exact absurd (Option.some.inj he) (by decide)
    · split at hrun
      · cases hrun
      · rename_i vp s1 hget
        cases hrun
        exact smbfs_nget_found_locked _ _ _ _ _ _ _ _ _ _ _
          (smb_hashget_locked _ _ _ _ _ _ _ _ _ _ _ _ hget) hok
      · rename_i s1 hget
        cases hrun
        exact ⟨_, smbfs_nget_new_locked _ _ _ _ _ _ _ _ _ _ hok⟩

theorem smbfs_nget_returns_locked_witness :
    (∃ r, smbfs_nget {} [] {} c9_state none [98] 1 (some { fa_vtype := vtype.VREG }) 0 0 =
        some r ∧ r.error = 0 ∧
      ∃ vp, r.vpp = some vp ∧ (r.smp.nodes vp).n_lockState = SMBFS_EXCLUSIVE_LOCK) ∧
    (∃ r, smbfs_nget {} [] {} c9_state none [97] 1 (some { fa_vtype := vtype.VREG }) 0 0 =
        some r ∧ r.error = 0 ∧
      ∃ vp, r.vpp = some vp ∧ (r.smp.nodes vp).n_lockState = SMBFS_EXCLUSIVE_LOCK) :=
  ⟨⟨_, rfl, rfl,
      (smbfs_nget_returns_locked {} [] {} c9_state none [98] 1 (some { fa_vtype := vtype.VREG })
        0 0).2 _ rfl rfl⟩,
    ⟨_, rfl, rfl,
      (smbfs_nget_returns_locked {} [] {} c9_state none [97] 1 (some { fa_vtype := vtype.VREG })
        0 0).2 _ rfl rfl⟩⟩

/-- Claim C9, amended: when the lookup inside `smbfs_nget` finds the node `vp`
and the caller passed `SMBFS_NGET_LOOKUP_ONLY`, no node is created (the table
on return holds no node that the table after the lookup did not hold). The
call returns 0 with `vp` and leaves the table as it is when the caller also
passed `SMBFS_NGET_NO_CACHE_UPDATE`, or passed no attribute record, or
`node_vtype_changed` reports no change for the record; when it reports a
change (and `SMBFS_NGET_NO_CACHE_UPDATE` is not set) the call returns `ENOENT`
without node and `vp` is unlinked from the table. -/
theorem smbfs_nget_lookup_only_found (h : smbfs_host) (wake : List (smbmount → smbmount))
    (share : smb_share) (smp : smbmount) (dvp : Option Nat) (name : List Nat) (nmlen : Nat)
    (fap : Option smbfattr) (cnflags flags : Nat) (vp : Nat) (s1 : smbmount)
    (hpre : smbfs_nget_precheck h smp dvp name nmlen flags = none)
    (hget : smb_hashget h.vnode_getwithvid dvp (smbfs_nget_hashval share name nmlen fap) name nmlen
      share.ss_maxfilenamelen 0 none wake (smbfs_nget_malloc smp) = some (some vp, s1))
    (hlk : flags &&& SMBFS_NGET_LOOKUP_ONLY ≠ 0) :
    ∃ r, smbfs_nget h wake share smp dvp name nmlen fap cnflags flags = some r ∧
      (∀ i q, q ∈ r.smp.sm_hash i → q ∈ s1.sm_hash i) ∧
      ((flags &&& SMBFS_NGET_NO_CACHE_UPDATE ≠ 0 ∨
          ∀ f, fap = some f →
            node_vtype_changed (s1.nodes vp) (vnode_vtype (s1.nodes vp)) f = false) →
        r.error = 0 ∧ r.vpp = some vp ∧ r.smp.sm_hash = s1.sm_hash) ∧
      (flags &&& SMBFS_NGET_NO_CACHE_UPDATE = 0 →
        ∀ f, fap = some f →
          node_vtype_changed (s1.nodes vp) (vnode_vtype (s1.nodes vp)) f = true →
          r.error = ENOENT ∧ r.vpp = none ∧
          ∀ i, r.smp.sm_hash i =
            if (s1.nodes vp).n_hash_le_prev then (s1.sm_hash i).erase vp else s1.sm_hash i) := by
  refine ⟨smbfs_nget_found h share s1 dvp name nmlen fap flags smp.node_brk
    (smbfs_nget_hashval share name nmlen fap) vp, ?_, ?_⟩
  · unfold smbfs_nget
    rw [hpre]
    simp only
    rw [hget]
  · unfold smbfs_nget_found
    by_cases hnc : flags &&& SMBFS_NGET_NO_CACHE_UPDATE ≠ 0
    · rw [if_pos hnc]
      exact ⟨fun i q hq => hq, fun _ => ⟨rfl, rfl, rfl⟩, fun h0 => absurd h0 hnc⟩
    · rw [if_neg hnc]
      cases fap with
      | none =>
        exact ⟨fun i q hq => hq, fun _ => ⟨rfl, rfl, rfl⟩, fun _ f hf => by cases hf⟩
      | some f =>
        simp only
        by_cases hch : node_vtype_changed (s1.nodes vp) (vnode_vtype (s1.nodes vp)) f = true
        · rw [if_pos hch]
          unfold smbfs_nget_new
          rw [if_pos hlk]
          simp only [setNode_sm_hash, smb_vhashrem_sm_hash]
          refine ⟨?_, ?_, ?_⟩
          · intro i q hq
            split at hq
            · exact List.mem_of_mem_erase hq
            · exact hq
          · intro hk
            rcases hk with hk | hk
            · exact absurd hk hnc
            · have := hk f rfl
              rw [hch] at this
              cases this
          · intro _ f' hf' _
            exact ⟨trivial, trivial, fun _ => trivial⟩
        · rw [if_neg hch]
          have hch' : node_vtype_changed (s1.nodes vp) (vnode_vtype (s1.nodes vp)) f = false := by
            simpa using hch
          have hf := (smbfs_attr_cacheenter_frame h share s1 vp f).2.2.2.2.2.2.2.1 hch'
          simp only
          refine ⟨?_, ?_, ?_⟩
          · intro i q hq
            rw [hf.1] at hq
            exact hq
          · intro _
            exact ⟨trivial, trivial, hf.1⟩
          · intro _ f' hf' hc
            cases hf'
            rw [hch'] at hc
            cases hc

theorem smbfs_nget_lookup_only_found_witness :
    ∃ r, smbfs_nget {} [] {} c9_state none [97] 1 (some { fa_vtype := vtype.VREG }) 0
        SMBFS_NGET_LOOKUP_ONLY = some r ∧
      r.error = 0 ∧ r.vpp = some 1 ∧ r.smp.sm_hash 0 = [1] := by
  obtain ⟨r, hr, _, hk, _⟩ := smbfs_nget_lookup_only_found {} [] {} c9_state none [97] 1
    (some { fa_vtype := vtype.VREG }) 0 SMBFS_NGET_LOOKUP_ONLY 1 _ (by decide) rfl (by decide)
  have h2 := hk (Or.inr (by intro f hf; cases hf; decide))
  exact ⟨r, hr, h2.1, h2.2.1, by rw [h2.2.2]; rfl⟩

/-- Claim C1, counterexample: on a server with file ids two calls of
`smbfs_nget` with the same parent and the same name, both successful and none
lookup-only, whose records carry the file ids 5 and 6, create two nodes: the
second call returns another node than the first, and the table then holds
both. -/
theorem smbfs_nget_same_name_two_nodes :
    (nget_trace c1_share (some 1) [97] 1
      [{ fap := some { fa_ino := 5, fa_vtype := vtype.VREG, fa_valid_mask := FA_VTYPE_VALID } },
       { fap := some { fa_ino := 6, fa_vtype := vtype.VREG, fa_valid_mask := FA_VTYPE_VALID } }]
      c1_state).map (fun e => (e.res.error, e.res.vpp, e.res.smp.sm_hash 0)) =
      [(0, some 2, [2, 1]), (0, some 3, [3, 2, 1])] := by
  decide

theorem getD_take (name : List Nat) (n i : Nat) (hi : i < n) :
    (name.take n).getD i 0 = name.getD i 0 := by
  simp [List.getD_eq_getElem?_getD, List.getElem?_take, hi]

theorem smbfs_check_name_strndup (share : smb_share) (name : List Nat) (nmlen : Nat) :
    smbfs_check_name share name (smb_strndup name nmlen) nmlen = 0 := by
  unfold smbfs_check_name smb_strndup
  split
  · rw [bcmp_eq_zero_iff]
    intro i hi
    rw [getD_take _ _ _ hi]
  · rw [strncasecmp_eq_zero_iff]
    intro i hi _
    rw [getD_take _ _ _ hi]

/-- A node that `smbfs_nget` has created for a request is not skipped by the
lookup of that request. -/
theorem smb_hashget_skip_created (share : smb_share) (dnp : Option Nat) (name : List Nat)
    (nmlen ino : Nat) (sname : Option (List Nat)) (snmlen : Nat) (n : smbnode)
    (hp : n.n_parent = dnp) (hn : n.n_name = smb_strndup name nmlen) (hl : n.n_nmlen = nmlen)
    (hi : n.n_ino = ino) (hf : n.n_flag &&& LOOKUPFLAGS = 0) :
    smb_hashget_skip share dnp (smbfs_hash (some share) ino name nmlen) name nmlen 0 sname snmlen
      n = false := by
  have f1 : n.n_flag &&& N_ISSTREAM = 0 := by
    have : n.n_flag &&& LOOKUPFLAGS &&& N_ISSTREAM = n.n_flag &&& N_ISSTREAM := by
      rw [Nat.and_assoc]; rfl
    rw [← this, hf]; rfl
  have f2 : n.n_flag &&& NDELETEONCLOSE = 0 := by
    have : n.n_flag &&& LOOKUPFLAGS &&& NDELETEONCLOSE = n.n_flag &&& NDELETEONCLOSE := by
      rw [Nat.and_assoc]; rfl
    rw [← this, hf]; rfl
  have f3 : n.n_flag &&& NMARKEDFORDLETE = 0 := by
    have : n.n_flag &&& LOOKUPFLAGS &&& NMARKEDFORDLETE = n.n_flag &&& NMARKEDFORDLETE := by
      rw [Nat.and_assoc]; rfl
    rw [← this, hf]; rfl
  unfold smb_hashget_skip
  rw [f1, f2, f3, hp, hl, hn, hi, smbfs_check_name_strndup]
  by_cases hfi : share.ss_vc.vc_misc_flags &&& SMBV_HAS_FILEIDS ≠ 0
  · have : smbfs_hash (some share) ino name nmlen = ino := by
      unfold smbfs_hash share_has_fileids
      simp [hfi]
    simp [hfi, this]
  · simp [hfi]

/-- The type test does not fire on a node that has just been bound to a vnode
of the type of the record, when the record is consistent: without a valid
vtype its directory bit tells whether the type is `VDIR`. -/
theorem node_vtype_changed_created (n0 : smbnode) (f : smbfattr) (mr : Bool)
    (hv : n0.n_vnode = some { v_type := f.fa_vtype, v_isvroot := mr, v_isnamedstream := false })
    (hd : n0.n_dosattr = f.fa_attr)
    (hcons : f.fa_valid_mask &&& FA_VTYPE_VALID = 0 →
      (f.fa_vtype = vtype.VDIR ↔ f.fa_attr &&& SMB_EFA_DIRECTORY ≠ 0)) :
    node_vtype_changed n0 (vnode_vtype n0) f = false := by
  unfold node_vtype_changed vnode_isvroot vnode_isnamedstream vnode_vtype
  rw [hv, hd]
  simp only
  by_cases hm : f.fa_valid_mask &&& FA_VTYPE_VALID = 0
  · have := hcons hm
    simp only [hm]
    by_cases hdir : f.fa_vtype = vtype.VDIR
    · have h2 := this.1 hdir
      cases mr <;> simp [hdir, h2]
    · have h2 : ¬ (f.fa_attr &&& SMB_EFA_DIRECTORY ≠ 0) := fun hh => hdir (this.2 hh)
      cases mr <;> simp [hdir, h2]
  · cases mr <;> simp [hm]

/-- What a successful tail of `smbfs_nget` leaves: the node is returned, the
table, the other nodes and the mount fields are as before, and the node looks
to the lookup like before with `NALLOC` cleared. -/
theorem smbfs_nget_vcreate_created (h : smbfs_host) (share : smb_share) (s : smbmount)
    (dvp : Option Nat) (fap : smbfattr) (np : Nat) (mr : Bool)
    (hok : (smbfs_nget_vcreate h share s dvp fap np fap.fa_vtype mr).error = 0)
    (hdos : (s.nodes np).n_dosattr = fap.fa_attr)
    (hcons : fap.fa_valid_mask &&& FA_VTYPE_VALID = 0 →
      (fap.fa_vtype = vtype.VDIR ↔ fap.fa_attr &&& SMB_EFA_DIRECTORY ≠ 0))
    (ref : smbnode) (hl : same_lookup ref (s.nodes np)) :
    (smbfs_nget_vcreate h share s dvp fap np fap.fa_vtype mr).vpp = some np ∧
    (smbfs_nget_vcreate h share s dvp fap np fap.fa_vtype mr).smp.sm_hash = s.sm_hash ∧
    (smbfs_nget_vcreate h share s dvp fap np fap.fa_vtype mr).smp.sm_share = s.sm_share ∧
    (smbfs_nget_vcreate h share s dvp fap np fap.fa_vtype mr).smp.sm_hashlen = s.sm_hashlen ∧
    (smbfs_nget_vcreate h share s dvp fap np fap.fa_vtype mr).smp.node_brk = s.node_brk ∧
    (∀ q, q ≠ np →
      (smbfs_nget_vcreate h share s dvp fap np fap.fa_vtype mr).smp.nodes q = s.nodes q) ∧
    same_lookup { ref with n_flag := CLR ref.n_flag NALLOC }
      ((smbfs_nget_vcreate h share s dvp fap np fap.fa_vtype mr).smp.nodes np) := by
  have hvc : h.vnode_create = 0 := by
    by_contra hv
    unfold smbfs_nget_vcreate at hok
    rw [if_pos hv] at hok
    exact hv hok
  obtain ⟨n0, ⟨v1, v2, _, _, v5, v6⟩, heq⟩ :=
    smbfs_nget_vcreate_ok h share s dvp fap np fap.fa_vtype mr hvc
  rw [heq]
  simp only [setNode_sm_hash, setNode_sm_share, setNode_sm_hashlen, setNode_node_brk,
    setNode_nodes_same]
  have hnc := node_vtype_changed_created n0 fap mr v1 (v6.trans hdos) hcons
  obtain ⟨c1, c2, _, _, c5, c6, c7, c8, _⟩ :=
    smbfs_attr_cacheenter_frame h share (s.setNode np n0) np fap
  rw [setNode_nodes_same] at c7 c8
  have c8' := (c8 hnc).1
  refine ⟨trivial, c8', c1, c2, c5, ?_, ?_⟩
  · intro q hq
    rw [setNode_nodes_ne _ _ hq, c6 q hq, setNode_nodes_ne _ _ hq]
  · have c7' := c7
    have hl' := hl
    obtain ⟨k1, k2, k3, k4, k5, k6, _, _, _, _⟩ := c7'
    obtain ⟨a1, a2, a3, a4, a5, a6, _⟩ := v2
    obtain ⟨b1, b2, b3, b4, b5, b6, _⟩ := hl'
    refine ⟨k1.trans (a1.trans b1), k2.trans (a2.trans b2), k3.trans (a3.trans b3),
      k4.trans (a4.trans b4), k5.trans (a5.trans b5), k6.trans (a6.trans b6), ?_⟩
    have e1 : ∀ x, CLR x NALLOC &&& LOOKUPFLAGS =
        x &&& ((0xFFFFFFFF ^^^ NALLOC) &&& LOOKUPFLAGS) := by
      intro x
      unfold CLR
      rw [Nat.and_assoc]
    show CLR _ NALLOC &&& LOOKUPFLAGS = CLR ref.n_flag NALLOC &&& LOOKUPFLAGS
    rw [e1, e1, same_key_flag c7 _ (by decide), v5, same_lookup_flag hl _ (by decide)]

theorem smbfs_nget_finish_created (h : smbfs_host) (share : smb_share) (s : smbmount)
    (d : Nat) (name : List Nat) (nmlen : Nat) (fap : smbfattr) (np : Nat)
    (hok : (smbfs_nget_finish h share s (some d) name nmlen fap np).error = 0)
    (hdos : (s.nodes np).n_dosattr = fap.fa_attr)
    (hcons : fap.fa_valid_mask &&& FA_VTYPE_VALID = 0 →
      (fap.fa_vtype = vtype.VDIR ↔ fap.fa_attr &&& SMB_EFA_DIRECTORY ≠ 0))
    (ref : smbnode) (hl : same_lookup ref (s.nodes np)) :
    (smbfs_nget_finish h share s (some d) name nmlen fap np).vpp = some np ∧
    (smbfs_nget_finish h share s (some d) name nmlen fap np).smp.sm_hash = s.sm_hash ∧
    (smbfs_nget_finish h share s (some d) name nmlen fap np).smp.sm_share = s.sm_share ∧
    (smbfs_nget_finish h share s (some d) name nmlen fap np).smp.sm_hashlen = s.sm_hashlen ∧
    (smbfs_nget_finish h share s (some d) name nmlen fap np).smp.node_brk = s.node_brk ∧
    (∀ q, q ≠ np →
      (smbfs_nget_finish h share s (some d) name nmlen fap np).smp.nodes q = s.nodes q) ∧
    same_lookup { ref with n_flag := CLR ref.n_flag NALLOC }
      ((smbfs_nget_finish h share s (some d) name nmlen fap np).smp.nodes np) := by
  unfold smbfs_nget_finish at hok ⊢
  have hroot : ¬ (fap.fa_vtype = vtype.VDIR ∧ some d = none ∧ s.sm_rvp = none ∧
      (s.nodes np).n_ino = s.sm_root_ino) := by simp
  rw [if_neg hroot] at hok ⊢
  split_ifs at hok ⊢
  · have hv := smbfs_nget_vcreate_created h share
      (s.setNode np
        { s.nodes np with
          n_size := (smb_check_for_windows_symlink h share (s.nodes np)).2
          n_flag := (s.nodes np).n_flag ||| NWINDOWSYMLNK })
      (some d)
      { fap with fa_valid_mask := fap.fa_valid_mask ||| FA_VTYPE_VALID, fa_vtype := vtype.VLNK }
      np (decide ((s.nodes np).n_ino = s.sm_root_ino)) hok
      (by rw [setNode_nodes_same]; exact hdos)
      (by
        intro hz
        exfalso
        have := or_and_self_right fap.fa_valid_mask FA_VTYPE_VALID
        rw [this] at hz
        exact absurd hz (by decide))
      ref
      (by
        rw [setNode_nodes_same]
        obtain ⟨b1, b2, b3, b4, b5, b6, b7⟩ := hl
        refine ⟨b1, b2, b3, b4, b5, b6, ?_⟩
        show ((s.nodes np).n_flag ||| NWINDOWSYMLNK) &&& LOOKUPFLAGS = _
        rw [or_and_of_disjoint _ _ _ (by decide)]
        exact b7)
    obtain ⟨w1, w2, w3, w4, w5, w6, w7⟩ := hv
    refine ⟨w1, w2, w3, w4, w5, ?_, w7⟩
    intro q hq
    rw [w6 q hq, setNode_nodes_ne _ _ hq]
  · exact smbfs_nget_vcreate_created h share s (some d) fap np _ hok hdos hcons ref hl
  · exact smbfs_nget_vcreate_created h share s (some d) fap np _ hok hdos hcons ref hl

/-- What a successful creation leaves: the new node `np` is returned, it is
linked at the head of the bucket of `hashval`, it carries the parent, the name
and the file id of the request with no flag the lookup reads, and every other
node looks to the lookup as before. -/
theorem smbfs_nget_create_created (h : smbfs_host) (share : smb_share) (s : smbmount)
    (d : Nat) (name : List Nat) (nmlen : Nat) (fap : smbfattr) (np hashval : Nat)
    (hd : d ≠ np) (hflag : (s.nodes np).n_flag = 0)
    (hcons : fap.fa_valid_mask &&& FA_VTYPE_VALID = 0 →
      (fap.fa_vtype = vtype.VDIR ↔ fap.fa_attr &&& SMB_EFA_DIRECTORY ≠ 0))
    (r : nget_result)
    (hr : smbfs_nget_create h share s (some d) name nmlen fap np hashval = r)
    (hok : r.error = 0) :
    r.vpp = some np ∧
    (∀ i, r.smp.sm_hash i =
      if i = hashval &&& s.sm_hashlen then np :: s.sm_hash i else s.sm_hash i) ∧
    r.smp.sm_share = s.sm_share ∧ r.smp.sm_hashlen = s.sm_hashlen ∧
    r.smp.node_brk = s.node_brk ∧
    (∀ q, q ≠ np → same_lookup (s.nodes q) (r.smp.nodes q)) ∧
    same_lookup
      { n_parent := some d, n_name := smb_strndup name nmlen, n_nmlen := nmlen,
        n_sname := (s.nodes np).n_sname, n_snmlen := (s.nodes np).n_snmlen,
        n_ino := fap.fa_ino, n_flag := 0 }
      (r.smp.nodes np) := by
  obtain ⟨_, i2, _, i4, i5, i6, _, i8, i9, i10, _⟩ := smbfs_nget_init_np s name nmlen fap np hashval
  have ih := smbfs_nget_init_sm_hash s name nmlen fap np hashval
  have ine := smbfs_nget_init_nodes_ne s name nmlen fap np hashval
  obtain ⟨m1, m2, m3, _, _⟩ := smbfs_nget_init_fields s name nmlen fap np hashval
  unfold smbfs_nget_create at hr
  simp only at hr
  generalize smbfs_nget_init s name nmlen fap np hashval = s1 at *
  rw [hflag] at i2
  -- the reference node while `NALLOC` is set
  have hclr : CLR NALLOC NALLOC = 0 := by decide
  split_ifs at hr <;> subst hr
  · obtain ⟨w1, w2, w3, w4, w5, w6, w7⟩ := smbfs_nget_finish_created h share
      (s1.setNode np { s1.nodes np with n_parent := some d }) d name nmlen fap np hok
      (by rw [setNode_nodes_same]; exact i10) hcons
      { n_parent := some d, n_name := smb_strndup name nmlen, n_nmlen := nmlen,
        n_sname := (s.nodes np).n_sname, n_snmlen := (s.nodes np).n_snmlen,
        n_ino := fap.fa_ino, n_flag := NALLOC }
      (by
        rw [setNode_nodes_same]
        refine ⟨rfl, i4, i5, i8, i9, i6, ?_⟩
        show (s1.nodes np).n_flag &&& LOOKUPFLAGS = _
        rw [i2]
        rfl)
    refine ⟨w1, ?_, w3.trans m1, w4.trans m2, w5.trans m3, ?_, ?_⟩
    · intro i
      rw [w2, setNode_sm_hash, ih]
    · intro q hq
      rw [w6 q hq, setNode_nodes_ne _ _ hq, ine q hq]
      exact same_lookup_refl _
    · simp only [hclr] at w7
      exact w7
  · obtain ⟨w1, w2, w3, w4, w5, w6, w7⟩ := smbfs_nget_finish_created h share
      (((s1.setNode np { s1.nodes np with n_parent := some d }).setNode np
          { (s1.setNode np { s1.nodes np with n_parent := some d }).nodes np with
            n_flag := ((s1.setNode np { s1.nodes np with n_parent := some d }).nodes np).n_flag |||
              NREFPARENT }).setNode d
        { ((s1.setNode np { s1.nodes np with n_parent := some d }).setNode np
            { (s1.setNode np { s1.nodes np with n_parent := some d }).nodes np with
              n_flag := ((s1.setNode np { s1.nodes np with n_parent := some d }).nodes np).n_flag |||
                NREFPARENT }).nodes d with
          n_child_refcnt :=
            ((((s1.setNode np { s1.nodes np with n_parent := some d }).setNode np
              { (s1.setNode np { s1.nodes np with n_parent := some d }).nodes np with
                n_flag :=
                  ((s1.setNode np { s1.nodes np with n_parent := some d }).nodes np).n_flag |||
                    NREFPARENT }).nodes d).n_child_refcnt + 1) % 2 ^ 32 })
      d name nmlen fap np hok
      (by
        rw [setNode_nodes_ne _ _ (Ne.symm hd), setNode_nodes_same, setNode_nodes_same]
        exact i10)
      hcons
      { n_parent := some d, n_name := smb_strndup name nmlen, n_nmlen := nmlen,
        n_sname := (s.nodes np).n_sname, n_snmlen := (s.nodes np).n_snmlen,
        n_ino := fap.fa_ino, n_flag := NALLOC }
      (by
        rw [setNode_nodes_ne _ _ (Ne.symm hd), setNode_nodes_same, setNode_nodes_same]
        refine ⟨rfl, i4, i5, i8, i9, i6, ?_⟩
        show ((s1.nodes np).n_flag ||| NREFPARENT) &&& LOOKUPFLAGS = _
        rw [i2]
        show (0 ||| NALLOC ||| NREFPARENT) &&& LOOKUPFLAGS = NALLOC &&& LOOKUPFLAGS
        decide)
    refine ⟨w1, ?_, w3.trans m1, w4.trans m2, w5.trans m3, ?_, ?_⟩
    · intro i
      rw [w2, setNode_sm_hash, setNode_sm_hash, setNode_sm_hash, ih]
    · intro q hq
      rw [w6 q hq]
      by_cases hqd : q = d
      · subst hqd
        rw [setNode_nodes_same, setNode_nodes_ne _ _ hq, setNode_nodes_ne _ _ hq, ine q hq]
        exact ⟨rfl, rfl, rfl, rfl, rfl, rfl, rfl⟩
      · rw [setNode_nodes_ne _ _ hqd, setNode_nodes_ne _ _ hq, setNode_nodes_ne _ _ hq, ine q hq]
        exact same_lookup_refl _
    · simp only [hclr] at w7
      exact w7
  · exact absurd (show EINVAL = 0 from hok) (by decide)
  · exact absurd (show EINVAL = 0 from hok) (by decide)

theorem smbfs_nget_precheck_ok (h : smbfs_host) (wake : List (smbmount → smbmount))
    (share : smb_share) (smp : smbmount) (dvp : Option Nat) (name : List Nat) (nmlen : Nat)
    (fap : Option smbfattr) (cnflags flags : Nat) (r : nget_result)
    (hrun : smbfs_nget h wake share smp dvp name nmlen fap cnflags flags = some r)
    (hok : r.error = 0) : smbfs_nget_precheck h smp dvp name nmlen flags = none := by
  cases hp : smbfs_nget_precheck h smp dvp name nmlen flags with
  | none => rfl
  | some e =>
    exfalso
    unfold smbfs_nget at hrun
    rw [hp] at hrun
    simp only at hrun
    cases hrun
    simp only at hok
    subst hok
    unfold smbfs_nget_precheck at hp
    split_ifs at hp <;> exact absurd (Option.some.inj hp) (by decide)

theorem nget_finds_of_equiv (share : smb_share) (dvp : Option Nat) (name : List Nat)
    (nmlen hv p : Nat) (s t : smbmount) (hs : nget_finds share dvp name nmlen hv p s)
    (he : lookup_equiv s t) : nget_finds share dvp name nmlen hv p t := by
  obtain ⟨h1, h2, h3⟩ := hs
  obtain ⟨e1, e2, e3, e4, e5⟩ := he
  refine ⟨e1.trans h1, ?_, ?_⟩
  · intro i q hq
    rw [e3] at hq
    have := h2 i q hq
    omega
  · unfold SMBFS_NOHASH at h3 ⊢
    rw [e3, e2, smb_hashget_scan_congr s t share dvp hv name nmlen 0 none 0 _
      (fun q hq => e5 q (h2 _ q hq))]
    exact h3

theorem node_vtype_changed_lock (n : smbnode) (x : Nat) (f : smbfattr) :
    node_vtype_changed { n with n_lockState := x } (vnode_vtype { n with n_lockState := x }) f =
      node_vtype_changed n (vnode_vtype n) f := rfl

/-- A found node whose type the record does not change is returned, and the
mount changes in the node only, which keeps its identity. -/
theorem smbfs_nget_found_stable (h : smbfs_host) (share : smb_share) (s1 : smbmount)
    (dvp : Option Nat) (name : List Nat) (nmlen : Nat) (fap : Option smbfattr)
    (flags np hv vp : Nat)
    (htype : flags &&& SMBFS_NGET_NO_CACHE_UPDATE = 0 → ∀ f, fap = some f →
      node_vtype_changed (s1.nodes vp) (vnode_vtype (s1.nodes vp)) f = false)
    (r : nget_result)
    (hr : smbfs_nget_found h share s1 dvp name nmlen fap flags np hv vp = r) :
    r.error = 0 ∧ r.vpp = some vp ∧ r.smp.sm_hash = s1.sm_hash ∧
    r.smp.sm_share = s1.sm_share ∧ r.smp.sm_hashlen = s1.sm_hashlen ∧
    r.smp.node_brk = s1.node_brk ∧ (∀ q, q ≠ vp → r.smp.nodes q = s1.nodes q) ∧
    same_key (s1.nodes vp) (r.smp.nodes vp) := by
  unfold smbfs_nget_found at hr
  by_cases hnc : flags &&& SMBFS_NGET_NO_CACHE_UPDATE ≠ 0
  · rw [if_pos hnc] at hr
    subst hr
    exact ⟨rfl, rfl, rfl, rfl, rfl, rfl, fun _ _ => rfl, same_key_refl _⟩
  · rw [if_neg hnc] at hr
    cases fap with
    | none =>
      subst hr
      exact ⟨rfl, rfl, rfl, rfl, rfl, rfl, fun _ _ => rfl, same_key_refl _⟩
    | some f =>
      simp only at hr
      have hch := htype (by simpa using hnc) f rfl
      have hch' : ¬ (node_vtype_changed (s1.nodes vp) (vnode_vtype (s1.nodes vp)) f = true) := by
        rw [hch]
        simp
      rw [if_neg hch'] at hr
      subst hr
      obtain ⟨c1, c2, _, _, c5, c6, c7, c8, _⟩ := smbfs_attr_cacheenter_frame h share s1 vp f
      exact ⟨rfl, rfl, (c8 hch).1, c1, c2, c5, c6, c7⟩

/-- The scan of a bucket after `SMB_MALLOC` is the scan before it. -/
theorem smb_hashget_scan_malloc (share : smb_share) (dvp : Option Nat) (name : List Nat)
    (nmlen hv : Nat) (s : smbmount) (hwf : table_wf s) :
    smb_hashget_scan (smbfs_nget_malloc s) share dvp hv name nmlen 0 none 0
        ((smbfs_nget_malloc s).sm_hash (SMBFS_NOHASH (smbfs_nget_malloc s) hv)) =
      smb_hashget_scan s share dvp hv name nmlen 0 none 0 (s.sm_hash (SMBFS_NOHASH s hv)) := by
  obtain ⟨mh, _, mhl, _, _, _, mne⟩ := smbfs_nget_malloc_spec s
  unfold SMBFS_NOHASH
  rw [mh, mhl]
  apply smb_hashget_scan_congr
  intro q hq
  have := hwf _ q hq
  rw [mne q (by omega)]
  exact same_lookup_refl _

/-- The lookup that `smbfs_nget` makes after `SMB_MALLOC` returns the node at
which the lookup of the request ends, locked, when its host handle is alive. -/
theorem smb_hashget_finds (getvid : Nat → Nat) (share : smb_share) (s : smbmount)
    (dvp : Option Nat) (name : List Nat) (nmlen hv p : Nat)
    (hinv : nget_finds share dvp name nmlen hv p s) (hvid : getvid p = 0) :
    smb_hashget getvid dvp hv name nmlen share.ss_maxfilenamelen 0 none []
        (smbfs_nget_malloc s) =
      some (some p, (smbfs_nget_malloc s).setNode p
          (smbnode_lock ((smbfs_nget_malloc s).nodes p) SMBFS_EXCLUSIVE_LOCK).2) := by
  obtain ⟨hshare, hwf, hscan⟩ := hinv
  obtain ⟨mh, msh, mhl, _, mbrk, _, mne⟩ := smbfs_nget_malloc_spec s
  have hpass : smb_hashget_pass getvid dvp hv name nmlen
      share.ss_maxfilenamelen 0 none (smbfs_nget_malloc s) =
      hashget_pass.ret (some p)
        ((smbfs_nget_malloc s).setNode p
          (smbnode_lock ((smbfs_nget_malloc s).nodes p) SMBFS_EXCLUSIVE_LOCK).2) := by
    unfold smb_hashget_pass
    rw [msh, hshare]
    simp only [hashget_snmlen]
    rw [smb_hashget_scan_malloc share dvp name nmlen hv s hwf, hscan]
    simp only [hvid, smbnode_lock, ne_eq, not_true_eq_false, if_false]
  simp only [smb_hashget, hpass]

/-- A call of `smbfs_nget` whose lookup ends at a node with a live host handle
returns. -/
theorem smbfs_nget_found_returns (c : nget_call) (share : smb_share) (s : smbmount)
    (dvp : Option Nat) (name : List Nat) (nmlen hv p : Nat)
    (hinv : nget_finds share dvp name nmlen hv p s)
    (hvid : c.host.vnode_getwithvid p = 0)
    (hhv : smbfs_nget_hashval share name nmlen c.fap = hv) :
    ∃ r, smbfs_nget c.host [] share s dvp name nmlen c.fap 0 c.flags = some r := by
  have hget := smb_hashget_finds c.host.vnode_getwithvid share s dvp name nmlen hv p hinv hvid
  unfold smbfs_nget
  cases smbfs_nget_precheck c.host s dvp name nmlen c.flags with
  | some e => exact ⟨_, rfl⟩
  | none =>
    simp only
    rw [hhv, hget]
    exact ⟨_, rfl⟩

/-- A call of `smbfs_nget` whose lookup ends at the node `p`, with a live host
handle and a record that does not change the type of `p`, returns `p` and
leaves a mount that looks to the lookup like the one before. -/
theorem smbfs_nget_found_step (c : nget_call) (share : smb_share) (s : smbmount)
    (dvp : Option Nat) (name : List Nat) (nmlen hv p : Nat) (r : nget_result)
    (hinv : nget_finds share dvp name nmlen hv p s)
    (hvid : c.host.vnode_getwithvid p = 0)
    (hhv : smbfs_nget_hashval share name nmlen c.fap = hv)
    (htype : c.flags &&& SMBFS_NGET_NO_CACHE_UPDATE = 0 → ∀ f, c.fap = some f →
      node_vtype_changed (s.nodes p) (vnode_vtype (s.nodes p)) f = false)
    (hrun : smbfs_nget c.host [] share s dvp name nmlen c.fap 0 c.flags = some r)
    (hok : r.error = 0) :
    r.vpp = some p ∧ lookup_equiv s r.smp := by
  obtain ⟨hshare, hwf, hscan⟩ := hinv
  obtain ⟨mh, msh, mhl, _, mbrk, _, mne⟩ := smbfs_nget_malloc_spec s
  have hp : p < s.node_brk := hwf _ p (smb_hashget_scan_candidate hscan).1
  have hget := smb_hashget_finds c.host.vnode_getwithvid share s dvp name nmlen hv p
    ⟨hshare, hwf, hscan⟩ hvid
  have hpre := smbfs_nget_precheck_ok _ _ _ _ _ _ _ _ _ _ _ hrun hok
  unfold smbfs_nget at hrun
  rw [hpre, hhv] at hrun
  simp only at hrun
  rw [hget] at hrun
  simp only [Option.some.injEq] at hrun
  obtain ⟨r1, r2, r3, r4, r5, r6, r7, r8⟩ := smbfs_nget_found_stable c.host share _ dvp name
    nmlen c.fap c.flags s.node_brk hv p
    (by
      intro hf f hfa
      rw [setNode_nodes_same, mne p (by omega)]
      exact htype hf f hfa) r hrun
  refine ⟨r2, r4.trans msh, r5.trans mhl, r3.trans mh, by rw [r6]; simp only [setNode_node_brk]; omega, ?_⟩
  intro q hq
  by_cases hqp : q = p
  · subst hqp
    rw [setNode_nodes_same, mne q (by omega)] at r8
    exact same_lookup_trans (b := { s.nodes q with n_lockState := SMBFS_EXCLUSIVE_LOCK })
      ⟨rfl, rfl, rfl, rfl, rfl, rfl, rfl⟩ (same_key_same_lookup r8)
  · rw [r7 q hqp, setNode_nodes_ne _ _ hqp, mne q (by omega)]
    exact same_lookup_refl _

/-- A call of `smbfs_nget` whose lookup finds no node and which succeeds
returns the new node, linked at the head of its bucket, and the lookup of the
request then ends at that node. -/
theorem smbfs_nget_create_step (c : nget_call) (share : smb_share) (s : smbmount)
    (d : Nat) (name : List Nat) (nmlen hv : Nat) (r : nget_result)
    (hshare : s.sm_share = some share) (hwf : table_wf s) (hd : d < s.node_brk)
    (hnone : smb_hashget_scan s share (some d) hv name nmlen 0 none 0
      (s.sm_hash (SMBFS_NOHASH s hv)) = hashget_scan.nomatch)
    (hhv : smbfs_nget_hashval share name nmlen c.fap = hv)
    (hlk : c.flags &&& SMBFS_NGET_LOOKUP_ONLY = 0)
    (hcons : ∀ f, c.fap = some f → f.fa_valid_mask &&& FA_VTYPE_VALID = 0 →
      (f.fa_vtype = vtype.VDIR ↔ f.fa_attr &&& SMB_EFA_DIRECTORY ≠ 0))
    (hrun : smbfs_nget c.host [] share s (some d) name nmlen c.fap 0 c.flags = some r)
    (hok : r.error = 0) :
    r.vpp = some s.node_brk ∧
    (∀ i, r.smp.sm_hash i =
      if i = hv &&& s.sm_hashlen then s.node_brk :: s.sm_hash i else s.sm_hash i) ∧
    nget_finds share (some d) name nmlen hv s.node_brk r.smp := by
  obtain ⟨mh, msh, mhl, _, mbrk, mnew, mne⟩ := smbfs_nget_malloc_spec s
  have hpre := smbfs_nget_precheck_ok _ _ _ _ _ _ _ _ _ _ _ hrun hok
  have hpass : smb_hashget_pass c.host.vnode_getwithvid (some d) hv name nmlen
      share.ss_maxfilenamelen 0 none (smbfs_nget_malloc s) =
      hashget_pass.ret none (smbfs_nget_malloc s) := by
    unfold smb_hashget_pass
    rw [msh, hshare]
    simp only [hashget_snmlen]
    rw [smb_hashget_scan_malloc share (some d) name nmlen hv s hwf, hnone]
  have hget : smb_hashget c.host.vnode_getwithvid (some d) hv name nmlen
      share.ss_maxfilenamelen 0 none [] (smbfs_nget_malloc s) =
      some (none, smbfs_nget_malloc s) := by
    simp only [smb_hashget, hpass]
  unfold smbfs_nget at hrun
  rw [hpre, hhv] at hrun
  simp only at hrun
  rw [hget] at hrun
  simp only [Option.some.injEq] at hrun
  cases hfap : c.fap with
  | none =>
    exfalso
    rw [hfap] at hrun
    unfold smbfs_nget_new at hrun
    subst hrun
    split_ifs at hok <;> exact absurd (show ENOENT = 0 from hok) (by decide)
  | some f =>
    rw [hfap] at hrun hhv
    rw [smbfs_nget_new_create _ _ _ _ _ _ _ _ _ _ hlk] at hrun
    obtain ⟨w1, w2, w3, w4, w5, w6, w7⟩ := smbfs_nget_create_created c.host share
      (smbfs_nget_malloc s) d name nmlen f s.node_brk hv (by omega) (by rw [mnew])
      (hcons f hfap) r hrun hok
    have hfl := same_lookup_flag w7
    obtain ⟨k1, k2, k3, _, _, k6, k7⟩ := w7
    refine ⟨w1, fun i => by rw [w2 i, mhl, mh], w3.trans (msh.trans hshare), ?_, ?_⟩
    · intro i q hq
      rw [w2 i, mh] at hq
      rw [w5, mbrk]
      split at hq
      · rcases List.mem_cons.1 hq with hq | hq
        · omega
        · have := hwf i q hq
          omega
      · have := hwf i q hq
        omega
    · unfold SMBFS_NOHASH
      rw [w2, w4, mhl]
      simp only [if_true]
      have hskip : smb_hashget_skip share (some d) hv name nmlen 0 none 0
          (r.smp.nodes s.node_brk) = false := by
        rw [← hhv]
        exact smb_hashget_skip_created share (some d) name nmlen f.fa_ino none 0 _ k1 k2 k3 k6
          (k7.trans (Nat.zero_and _))
      have ha : (r.smp.nodes s.node_brk).n_flag &&& NALLOC = 0 := (hfl NALLOC (by decide)).trans (Nat.zero_and _)
      have ht : (r.smp.nodes s.node_brk).n_flag &&& NTRANSIT = 0 := (hfl NTRANSIT (by decide)).trans (Nat.zero_and _)
      simp only [smb_hashget_scan, hskip, ha, ht, Bool.false_eq_true, if_false, ne_eq,
        not_true_eq_false]

/-- Once the lookup of the request ends at the node `p`, every further call
of the sequence completes, returns `p` and leaves the table as it is. -/
theorem nget_trace_found (share : smb_share) (d : Nat) (name : List Nat) (nmlen hv p : Nat)
    (cs : List nget_call) :
    ∀ s, nget_finds share (some d) name nmlen hv p s →
      (∀ c, c ∈ cs → c.host.vnode_getwithvid p = 0 ∧
        smbfs_nget_hashval share name nmlen c.fap = hv) →
      (∀ e, e ∈ nget_trace share (some d) name nmlen cs s →
        e.res.error = 0 ∧
        (e.call.flags &&& SMBFS_NGET_NO_CACHE_UPDATE = 0 → ∀ f, e.call.fap = some f →
          ∀ i q, q ∈ e.pre.sm_hash i →
            smb_hashget_skip share (some d) hv name nmlen 0 none 0 (e.pre.nodes q) = false →
            node_vtype_changed (e.pre.nodes q) (vnode_vtype (e.pre.nodes q)) f = false)) →
      (nget_trace share (some d) name nmlen cs s).length = cs.length ∧
      ∀ e, e ∈ nget_trace share (some d) name nmlen cs s →
        e.res.vpp = some p ∧ e.res.smp.sm_hash = s.sm_hash := by
  induction cs with
  | nil =>
    intro s _ _ _
    exact ⟨rfl, fun e he => by cases he⟩
  | cons c cs ih =>
    intro s hinv hcalls hsteps
    obtain ⟨hv1, hv2⟩ := hcalls c (by simp)
    obtain ⟨r, hr⟩ := smbfs_nget_found_returns c share s (some d) name nmlen hv p hinv hv1 hv2
    have htr : nget_trace share (some d) name nmlen (c :: cs) s =
        { call := c, pre := s, res := r } :: nget_trace share (some d) name nmlen cs r.smp := by
      simp only [nget_trace, hr]
    rw [htr] at hsteps ⊢
    obtain ⟨hok, htype⟩ := hsteps { call := c, pre := s, res := r } (by simp)
    have hcand := smb_hashget_scan_candidate hinv.2.2
    obtain ⟨s1, s2⟩ := smbfs_nget_found_step c share s (some d) name nmlen hv p r hinv hv1 hv2
      (fun hf f hfa => htype hf f hfa _ p hcand.1 hcand.2.1) hr hok
    obtain ⟨l1, l2⟩ := ih r.smp (nget_finds_of_equiv share (some d) name nmlen hv p s r.smp hinv s2)
      (fun c' hc' => hcalls c' (by simp [hc']))
      (fun e he => hsteps e (by simp [he]))
    refine ⟨by simp [l1], ?_⟩
    intro e he
    rcases List.mem_cons.1 he with he | he
    · subst he
      exact ⟨s1, s2.2.2.1⟩
    · obtain ⟨m1, m2⟩ := l2 e he
      exact ⟨m1, m2.trans s2.2.2.1⟩

/-- Claim C1, amended: take a sequence of calls of `smbfs_nget` on one mount
with the same non-NULL parent, the same name and the same hash value (that is,
on a server with file ids, the same file id), one call at a time, none
lookup-only, each completed call successful, the host handle of every node
alive, every record consistent (without a valid vtype its directory bit tells
whether its type is `VDIR`), and no record changing the type of a node of the
table that matches the request. Then, unless the first call blocks, all calls
complete and return the same node; either that node was in the table and the
table never changes, or it is the node the first call created and the table
after every call is the table on entry with that one node linked at the head
of its bucket. -/
theorem smbfs_nget_same_key_one_node (share : smb_share) (smp : smbmount) (d : Nat)
    (name : List Nat) (nmlen hv : Nat) (cs : List nget_call)
    (hshare : smp.sm_share = some share) (hwf : table_wf smp) (hd : d < smp.node_brk)
    (hcalls : ∀ c, c ∈ cs → c.flags &&& SMBFS_NGET_LOOKUP_ONLY = 0 ∧
      (∀ p, c.host.vnode_getwithvid p = 0) ∧
      smbfs_nget_hashval share name nmlen c.fap = hv ∧
      (∀ f, c.fap = some f → f.fa_valid_mask &&& FA_VTYPE_VALID = 0 →
        (f.fa_vtype = vtype.VDIR ↔ f.fa_attr &&& SMB_EFA_DIRECTORY ≠ 0)))
    (hsteps : ∀ e, e ∈ nget_trace share (some d) name nmlen cs smp →
      e.res.error = 0 ∧
      (e.call.flags &&& SMBFS_NGET_NO_CACHE_UPDATE = 0 → ∀ f, e.call.fap = some f →
        ∀ i q, q ∈ e.pre.sm_hash i →
          smb_hashget_skip share (some d) hv name nmlen 0 none 0 (e.pre.nodes q) = false →
          node_vtype_changed (e.pre.nodes q) (vnode_vtype (e.pre.nodes q)) f = false)) :
    (nget_trace share (some d) name nmlen cs smp = [] ∨
      (nget_trace share (some d) name nmlen cs smp).length = cs.length) ∧
    ∃ p, (∀ e, e ∈ nget_trace share (some d) name nmlen cs smp → e.res.vpp = some p) ∧
      ((∀ e, e ∈ nget_trace share (some d) name nmlen cs smp →
          e.res.smp.sm_hash = smp.sm_hash) ∨
        (p = smp.node_brk ∧
          ∀ e, e ∈ nget_trace share (some d) name nmlen cs smp → ∀ i,
            e.res.smp.sm_hash i =
              if i = hv &&& smp.sm_hashlen then p :: smp.sm_hash i else smp.sm_hash i)) := by
  cases cs with
  | nil => exact ⟨Or.inl rfl, 0, (fun e he => by cases he), Or.inl (fun e he => by cases he)⟩
  | cons c cs =>
    obtain ⟨hlk, hvid, hhv, hcons⟩ := hcalls c (by simp)
    cases hsc : smb_hashget_scan smp share (some d) hv name nmlen 0 none 0
        (smp.sm_hash (SMBFS_NOHASH smp hv))
    · cases hrun : smbfs_nget c.host [] share smp (some d) name nmlen c.fap 0 c.flags with
      | none =>
        have htr : nget_trace share (some d) name nmlen (c :: cs) smp = [] := by
          simp only [nget_trace, hrun]
        rw [htr]
        exact ⟨Or.inl rfl, 0, (fun e he => by cases he), Or.inl (fun e he => by cases he)⟩
      | some r =>
        have htr : nget_trace share (some d) name nmlen (c :: cs) smp =
            { call := c, pre := smp, res := r } ::
              nget_trace share (some d) name nmlen cs r.smp := by
          simp only [nget_trace, hrun]
        rw [htr] at hsteps ⊢
        obtain ⟨hok, _⟩ := hsteps { call := c, pre := smp, res := r } (by simp)
        obtain ⟨w1, w2, w3⟩ := smbfs_nget_create_step c share smp d name nmlen hv r hshare hwf hd
          hsc hhv hlk hcons hrun hok
        obtain ⟨l1, l2⟩ := nget_trace_found share d name nmlen hv smp.node_brk cs r.smp w3
          (fun c' hc' => ⟨(hcalls c' (by simp [hc'])).2.1 _, (hcalls c' (by simp [hc'])).2.2.1⟩)
          (fun e he => hsteps e (by simp [he]))
        refine ⟨Or.inr (by simp [l1]), smp.node_brk, ?_, Or.inr ⟨rfl, ?_⟩⟩
        · intro e he
          rcases List.mem_cons.1 he with he | he
          · subst he
            exact w1
          · exact (l2 e he).1
        · intro e he i
          rcases List.mem_cons.1 he with he | he
          · subst he
            exact w2 i
          · rw [(l2 e he).2]
            exact w2 i

    · rename_i p w
      cases hrun : smbfs_nget c.host [] share smp (some d) name nmlen c.fap 0 c.flags with
      | none =>
        have htr : nget_trace share (some d) name nmlen (c :: cs) smp = [] := by
          simp only [nget_trace, hrun]
        rw [htr]
        exact ⟨Or.inl rfl, 0, (fun e he => by cases he), Or.inl (fun e he => by cases he)⟩
      | some r =>
        exfalso
        have htr : nget_trace share (some d) name nmlen (c :: cs) smp =
            { call := c, pre := smp, res := r } ::
              nget_trace share (some d) name nmlen cs r.smp := by
          simp only [nget_trace, hrun]
        rw [htr] at hsteps
        obtain ⟨hok, _⟩ := hsteps { call := c, pre := smp, res := r } (by simp)
        have hpre := smbfs_nget_precheck_ok _ _ _ _ _ _ _ _ _ _ _ hrun hok
        obtain ⟨_, msh, _, _, _, _, _⟩ := smbfs_nget_malloc_spec smp
        have hpass : smb_hashget_pass c.host.vnode_getwithvid (some d) hv name nmlen
            share.ss_maxfilenamelen 0 none (smbfs_nget_malloc smp) =
            hashget_pass.msleep ((smbfs_nget_malloc smp).setNode p
              { (smbfs_nget_malloc smp).nodes p with
                n_flag := ((smbfs_nget_malloc smp).nodes p).n_flag ||| w }) := by
          unfold smb_hashget_pass
          rw [msh, hshare]
          simp only [hashget_snmlen]
          rw [smb_hashget_scan_malloc share (some d) name nmlen hv smp hwf, hsc]
        have hget : smb_hashget c.host.vnode_getwithvid (some d) hv name nmlen
            share.ss_maxfilenamelen 0 none [] (smbfs_nget_malloc smp) = none := by
          simp only [smb_hashget, hpass]
        unfold smbfs_nget at hrun
        rw [hpre, hhv] at hrun
        simp only at hrun
        rw [hget] at hrun
        cases hrun

    · rename_i p
      obtain ⟨l1, l2⟩ := nget_trace_found share d name nmlen hv p (c :: cs) smp
        ⟨hshare, hwf, hsc⟩ (fun c' hc' => ⟨(hcalls c' hc').2.1 p, (hcalls c' hc').2.2.1⟩) hsteps
      exact ⟨Or.inr l1, p, fun e he => (l2 e he).1, Or.inl (fun e he => (l2 e he).2)⟩

theorem c1_state_wf : table_wf c1_state := by
  intro i q hq
  simp only [c1_state] at hq ⊢
  split at hq
  · simp at hq
    omega
  · simp at hq

theorem smbfs_nget_same_key_one_node_witness :
    (nget_trace c1_share (some 1) [97] 1 [c1_call, c1_call] c1_state = [] ∨
      (nget_trace c1_share (some 1) [97] 1 [c1_call, c1_call] c1_state).length = 2) ∧
    ∃ p, (∀ e, e ∈ nget_trace c1_share (some 1) [97] 1 [c1_call, c1_call] c1_state →
        e.res.vpp = some p) ∧
      ((∀ e, e ∈ nget_trace c1_share (some 1) [97] 1 [c1_call, c1_call] c1_state →
          e.res.smp.sm_hash = c1_state.sm_hash) ∨
        (p = c1_state.node_brk ∧
          ∀ e, e ∈ nget_trace c1_share (some 1) [97] 1 [c1_call, c1_call] c1_state → ∀ i,
            e.res.smp.sm_hash i =
              if i = 5 &&& c1_state.sm_hashlen then p :: c1_state.sm_hash i
              else c1_state.sm_hash i)) := by
  have htr : nget_trace c1_share (some 1) [97] 1 [c1_call, c1_call] c1_state =
      [{ call := c1_call, pre := c1_state
         res := (smbfs_nget c1_call.host [] c1_share c1_state (some 1) [97] 1 c1_call.fap 0
           c1_call.flags).getD ⟨0, none, none, c1_state⟩ },
       { call := c1_call
         pre := ((smbfs_nget c1_call.host [] c1_share c1_state (some 1) [97] 1 c1_call.fap 0
           c1_call.flags).getD ⟨0, none, none, c1_state⟩).smp
         res := (smbfs_nget c1_call.host [] c1_share
           ((smbfs_nget c1_call.host [] c1_share c1_state (some 1) [97] 1 c1_call.fap 0
             c1_call.flags).getD ⟨0, none, none, c1_state⟩).smp (some 1) [97] 1 c1_call.fap 0
           c1_call.flags).getD ⟨0, none, none, c1_state⟩ }] := rfl
  refine smbfs_nget_same_key_one_node c1_share c1_state 1 [97] 1 5 [c1_call, c1_call] rfl
    c1_state_wf (by decide) ?_ ?_
  · intro c hc
    have hc' : c = c1_call := by simpa using hc
    subst hc'
    refine ⟨by decide, fun p => rfl, by decide, ?_⟩
    intro f hf hz
    cases hf
    exact absurd hz (by decide)
  · intro e he
    rw [htr] at he
    simp only [List.mem_cons, List.mem_singleton, List.not_mem_nil, or_false] at he
    rcases he with he | he
    · subst he
      refine ⟨rfl, ?_⟩
      intro _ f hf i q hq hs
      exfalso
      simp only [c1_state] at hq
      split at hq
      · simp only [List.mem_singleton] at hq
        subst hq
        exact absurd hs (by decide)
      · simp at hq
    · subst he
      refine ⟨rfl, ?_⟩
      intro _ f hf i q hq hs
      cases hf
      change q ∈ (if i = 5 &&& 0 then 2 :: (if i = 0 then [1] else []) else
        if i = 0 then [1] else []) at hq
      by_cases hi : i = 0
      · subst hi
        simp only [List.mem_cons, List.mem_singleton, if_true, Nat.and_zero, List.not_mem_nil,
          or_false] at hq
        rcases hq with hq | hq
        · subst hq
          decide
        · subst hq
          exact absurd hs (by decide)
      · simp [hi] at hq

theorem cacheenter_notify_fields (h : smbfs_host) (share : smb_share) (hint : Nat)
    (np : smbnode) :
    (cacheenter_notify h share hint np).n_mtime = np.n_mtime ∧
    (cacheenter_notify h share hint np).n_dosattr = np.n_dosattr := by
  unfold cacheenter_notify smbfs_attr_cachelookup
  split_ifs <;> simp

theorem smb_update_rsrc_and_getparent_fields (h : smbfs_host) (s : smbmount) (p : Nat)
    (setsize : Bool) (q : Nat) :
    ((smb_update_rsrc_and_getparent h s p setsize).nodes q).n_mtime = (s.nodes q).n_mtime ∧
    ((smb_update_rsrc_and_getparent h s p setsize).nodes q).n_dosattr = (s.nodes q).n_dosattr := by
  unfold smb_update_rsrc_and_getparent
  cases h.vnode_getparent with
  | none => exact ⟨rfl, rfl⟩
  | some parent =>
    simp only
    by_cases hr : (s.nodes p).n_flag &&& N_ISRSRCFRK ≠ 0
    · rw [if_pos hr]
      by_cases hq : q = parent
      · subst hq
        rw [setNode_nodes_same]
        exact ⟨rfl, rfl⟩
      · rw [setNode_nodes_ne _ _ hq]
        exact ⟨rfl, rfl⟩
    · rw [if_neg hr]
      exact ⟨rfl, rfl⟩

theorem smb_vhashrem_node_fields (s : smbmount) (p q : Nat) :
    ((smb_vhashrem s p).nodes q).n_mtime = (s.nodes q).n_mtime ∧
    ((smb_vhashrem s p).nodes q).n_dosattr = (s.nodes q).n_dosattr := by
  rw [smb_vhashrem_nodes]
  by_cases hq : q = p
  · subst hq
    rw [if_pos rfl]
    exact ⟨rfl, rfl⟩
  · rw [if_neg hq]
    exact ⟨rfl, rfl⟩

/-- The modify time and the DOS attributes that `smbfs_attr_cacheenter` leaves
in the node are those computed up to the label `vnode_notify_needed`, and the
record is left as computed there. -/
theorem smbfs_attr_cacheenter_fields (h : smbfs_host) (share : smb_share) (smp : smbmount)
    (p : Nat) (fap : smbfattr) (upd : Bool) :
    ((smbfs_attr_cacheenter h share smp p fap upd).1.nodes p).n_mtime =
      (smbfs_attr_cacheenter_node h share smp (smp.nodes p) fap upd).np.n_mtime ∧
    ((smbfs_attr_cacheenter h share smp p fap upd).1.nodes p).n_dosattr =
      (smbfs_attr_cacheenter_node h share smp (smp.nodes p) fap upd).np.n_dosattr ∧
    (smbfs_attr_cacheenter h share smp p fap upd).2.1 =
      (smbfs_attr_cacheenter_node h share smp (smp.nodes p) fap upd).fap := by
  unfold smbfs_attr_cacheenter
  simp only
  generalize smbfs_attr_cacheenter_node h share smp (smp.nodes p) fap upd = r
  have key : ∀ s3 : smbmount, (s3.nodes p).n_mtime = r.np.n_mtime ∧
      (s3.nodes p).n_dosattr = r.np.n_dosattr →
      ((if r.notify = true then
          s3.setNode p (cacheenter_notify h share r.monitorHint (s3.nodes p))
        else s3).nodes p).n_mtime = r.np.n_mtime ∧
      ((if r.notify = true then
          s3.setNode p (cacheenter_notify h share r.monitorHint (s3.nodes p))
        else s3).nodes p).n_dosattr = r.np.n_dosattr := by
    intro s3 hs3
    split
    · rw [setNode_nodes_same]
      have := cacheenter_notify_fields h share r.monitorHint (s3.nodes p)
      exact ⟨this.1.trans hs3.1, this.2.trans hs3.2⟩
    · exact hs3
  have h2 : ∀ s1 : smbmount, (s1.nodes p).n_mtime = r.np.n_mtime ∧
      (s1.nodes p).n_dosattr = r.np.n_dosattr →
      ((if r.vtype_changed = true then smb_vhashrem s1 p else s1).nodes p).n_mtime =
        r.np.n_mtime ∧
      ((if r.vtype_changed = true then smb_vhashrem s1 p else s1).nodes p).n_dosattr =
        r.np.n_dosattr := by
    intro s1 hs1
    split
    · have := smb_vhashrem_node_fields s1 p p
      exact ⟨this.1.trans hs1.1, this.2.trans hs1.2⟩
    · exact hs1
  have h1 := h2 { smp.setNode p r.np with
      sm_statfstime := if r.statfs_reset then 0 else smp.sm_statfstime }
    ⟨by simp [smbmount.setNode], by simp [smbmount.setNode]⟩
  have h3 : ∀ s2 : smbmount, (s2.nodes p).n_mtime = r.np.n_mtime ∧
      (s2.nodes p).n_dosattr = r.np.n_dosattr →
      ((match r.rsrc_parent with
        | some setsize => smb_update_rsrc_and_getparent h s2 p setsize
        | none => s2).nodes p).n_mtime = r.np.n_mtime ∧
      ((match r.rsrc_parent with
        | some setsize => smb_update_rsrc_and_getparent h s2 p setsize
        | none => s2).nodes p).n_dosattr = r.np.n_dosattr := by
    intro s2 hs2
    cases r.rsrc_parent with
    | none => exact hs2
    | some ss =>
      have := smb_update_rsrc_and_getparent_fields h s2 p ss p
      exact ⟨this.1.trans hs2.1, this.2.trans hs2.2⟩
  exact ⟨(key _ (h3 _ h1)).1, (key _ (h3 _ h1)).2, trivial⟩

/-- Claim C11: for a node that is neither the root nor a named stream and a
record without valid vtype, `node_vtype_changed` reports a change exactly when
the type of the node disagrees with the directory bit of the attributes cached
in the node (`n_dosattr`), or the cached reparse point bit differs from the
fetched one. The directory bit of the fetched `fa_attr` is not read: records
that agree in the reparse point bit give the same answer. -/
theorem node_vtype_changed_reads_cached_dosattr (np : smbnode) (node_vtype : vtype)
    (fap : smbfattr) (hroot : vnode_isvroot np = false)
    (hstream : vnode_isnamedstream np = false)
    (hvalid : fap.fa_valid_mask &&& FA_VTYPE_VALID = 0) :
    (node_vtype_changed np node_vtype fap = true ↔
      ((node_vtype = vtype.VDIR ∧ np.n_dosattr &&& SMB_EFA_DIRECTORY = 0) ∨
        (node_vtype ≠ vtype.VDIR ∧ np.n_dosattr &&& SMB_EFA_DIRECTORY ≠ 0) ∨
        np.n_dosattr &&& SMB_EFA_REPARSE_POINT ≠ fap.fa_attr &&& SMB_EFA_REPARSE_POINT)) ∧
    (∀ a, a &&& SMB_EFA_REPARSE_POINT = fap.fa_attr &&& SMB_EFA_REPARSE_POINT →
      node_vtype_changed np node_vtype { fap with fa_attr := a } =
        node_vtype_changed np node_vtype fap) := by
  have hv : ¬ (fap.fa_valid_mask &&& FA_VTYPE_VALID ≠ 0) := by simp [hvalid]
  constructor
  · unfold node_vtype_changed
    rw [hroot, hstream]
    simp only [Bool.false_eq_true, if_false]
    rw [if_neg hv]
    by_cases hd : (node_vtype = vtype.VDIR ∧ ¬ (np.n_dosattr &&& SMB_EFA_DIRECTORY ≠ 0)) ∨
        (node_vtype ≠ vtype.VDIR ∧ np.n_dosattr &&& SMB_EFA_DIRECTORY ≠ 0)
    · rw [if_pos hd]
      simp only [true_iff]
      rcases hd with ⟨h1, h2⟩ | hd
      · exact Or.inl ⟨h1, by simpa using h2⟩
      · exact Or.inr (Or.inl hd)
    · rw [if_neg hd]
      by_cases hr : (np.n_dosattr &&& SMB_EFA_REPARSE_POINT) ≠
          (fap.fa_attr &&& SMB_EFA_REPARSE_POINT)
      · rw [if_pos hr]
        simp only [true_iff]
        exact Or.inr (Or.inr hr)
      · rw [if_neg hr]
        simp only [Bool.false_eq_true, false_iff]
        rintro (⟨h1, h2⟩ | h3 | h3)
        · exact hd (Or.inl ⟨h1, by simp [h2]⟩)
        · exact hd (Or.inr h3)
        · exact hr h3
  · intro a ha
    unfold node_vtype_changed
    simp only [ha]

theorem node_vtype_changed_reads_cached_dosattr_witness :
    node_vtype_changed (c9_state.nodes 1) vtype.VREG { fa_attr := SMB_EFA_DIRECTORY } = false ∧
    vnode_vtype (c9_state.nodes 1) = vtype.VREG ∧
    ({ fa_attr := SMB_EFA_DIRECTORY } : smbfattr).fa_attr &&& SMB_EFA_DIRECTORY ≠ 0 ∧
    (smbfs_nget {} [] {} c9_state none [97] 1 (some { fa_attr := SMB_EFA_DIRECTORY }) 0 0).map
      (fun r => (r.error, r.vpp, r.smp.sm_hash 0)) = some (0, some 1, [1]) := by
  have hw := (node_vtype_changed_reads_cached_dosattr (c9_state.nodes 1) vtype.VREG
    { fa_attr := SMB_EFA_DIRECTORY } (by decide) (by decide) (by decide)).1
  refine ⟨?_, by decide, by decide, by decide⟩
  cases hc : node_vtype_changed (c9_state.nodes 1) vtype.VREG { fa_attr := SMB_EFA_DIRECTORY }
  · rfl
  · exact absurd (hw.1 hc) (by decide)

/-- Claim C12: when `new_size` equals the size recorded in the node,
`smbfs_update_size` returns TRUE and leaves the node as it is, whatever the
flags of the node, the request time and the uptime are; hence any number of
such calls, each with its own times, leaves the node as it is. -/
theorem smbfs_update_size_same_size (np : smbnode) (new_size : Nat)
    (hsame : np.n_size = new_size) :
    (∀ now reqtime, smbfs_update_size now np reqtime new_size = (true, np, false)) ∧
    (∀ calls : List (timespec × timespec),
      calls.foldl (fun n c => (smbfs_update_size c.1 n c.2 new_size).2.1) np = np) := by
  have h1 : ∀ now reqtime, smbfs_update_size now np reqtime new_size = (true, np, false) := by
    intro now reqtime
    unfold smbfs_update_size
    rw [if_pos hsame]
  refine ⟨h1, ?_⟩
  intro calls
  induction calls with
  | nil => rfl
  | cons c cs ih =>
    simp only [List.foldl_cons, h1]
    exact ih

theorem smbfs_update_size_same_size_witness :
    smbfs_update_size { tv_sec := 9 } c12_node { tv_sec := 3 } 5 = (true, c12_node, false) :=
  (smbfs_update_size_same_size c12_node 5 rfl).1 _ _

/-- Claim C13, counterexample: a call with `new_size` equal to `n_size` returns
TRUE and leaves `n_sizetime` at its old value, which is not the current
uptime. -/
theorem smbfs_update_size_true_keeps_sizetime :
    (smbfs_update_size { tv_sec := 9 } { n_size := 5, n_sizetime := { tv_sec := 1 } }
      { tv_sec := 3 } 5).1 = true ∧
    (smbfs_update_size { tv_sec := 9 } { n_size := 5, n_sizetime := { tv_sec := 1 } }
      { tv_sec := 3 } 5).2.1.n_sizetime = { tv_sec := 1 } ∧
    ({ tv_sec := 1 } : timespec) ≠ { tv_sec := 9 } := by
  decide

/-- Claim C13, amended: `smbfs_update_size` returns FALSE exactly when
`new_size` differs from `n_size` and `NNEEDS_EOF_SET` is set, or
`waitOnClusterWrite` is not zero, or `reqtime` is not later than `n_sizetime`
(seconds first, then nanoseconds). On FALSE the node is unchanged. On TRUE
`n_size` equals `new_size`; `n_sizetime` is set to the uptime `now` when the
size differed and is unchanged when it did not, so it does not move backwards
when the uptime is not earlier than the recorded time. -/
theorem smbfs_update_size_rule (now : timespec) (np : smbnode) (reqtime : timespec)
    (new_size : Nat) :
    ((smbfs_update_size now np reqtime new_size).1 = false ↔
      (np.n_size ≠ new_size ∧
        (np.n_flag &&& NNEEDS_EOF_SET ≠ 0 ∨ np.waitOnClusterWrite ≠ 0 ∨
          timespeccmp_le reqtime np.n_sizetime = true))) ∧
    ((smbfs_update_size now np reqtime new_size).1 = false →
      (smbfs_update_size now np reqtime new_size).2.1 = np) ∧
    ((smbfs_update_size now np reqtime new_size).1 = true →
      (smbfs_update_size now np reqtime new_size).2.1.n_size = new_size ∧
      (smbfs_update_size now np reqtime new_size).2.1.n_sizetime =
        (if np.n_size = new_size then np.n_sizetime else now)) ∧
    (timespeccmp_le np.n_sizetime now = true →
      timespeccmp_le np.n_sizetime
        (smbfs_update_size now np reqtime new_size).2.1.n_sizetime = true) := by
  have hrefl : timespeccmp_le np.n_sizetime np.n_sizetime = true := by
    unfold timespeccmp_le
    simp
  unfold smbfs_update_size
  by_cases h1 : np.n_size = new_size
  · simp [h1, hrefl]
  · by_cases h2 : np.n_flag &&& NNEEDS_EOF_SET ≠ 0
    · simp [h1, h2, hrefl]
    · by_cases h3 : np.waitOnClusterWrite ≠ 0
      · simp [h1, h2, h3, hrefl]
      · by_cases h4 : timespeccmp_le reqtime np.n_sizetime = true
        · simp [h1, h2, h3, h4, hrefl]
        · simp [h1, h2, h3, h4, smbfs_setsize]

theorem smbfs_update_size_rule_witness :
    (smbfs_update_size { tv_sec := 9 } { n_size := 5, n_sizetime := { tv_sec := 1 } }
      { tv_sec := 3 } 6).2.1.n_size = 6 ∧
    (smbfs_update_size { tv_sec := 9 } { n_size := 5, n_sizetime := { tv_sec := 1 } }
      { tv_sec := 3 } 6).2.1.n_sizetime = { tv_sec := 9 } :=
  (smbfs_update_size_rule { tv_sec := 9 } { n_size := 5, n_sizetime := { tv_sec := 1 } }
    { tv_sec := 3 } 6).2.2.1 (by decide)

/-- Claim C16: `smbfs_attr_cachelookup` returns `ENOENT` exactly when the
caller did not ask for cache-only data, the node is not marked
`NMARKEDFORDLETE`, and the uptime seconds minus `attribute_cache_timer` exceed
the time-out `attrtimeo`; in every other case it returns 0. A call that
returns `ENOENT` and a call without output (`va` NULL) leave the node as it
is. -/
theorem smbfs_attr_cachelookup_rule (share : smb_share) (uptime_sec attrtimeo : Int)
    (rsrcfrk : smbnode → smbnode) (np : smbnode) (va : Option vnode_attr)
    (useCacheDataOnly : Bool) :
    ((smbfs_attr_cachelookup share uptime_sec attrtimeo rsrcfrk np va useCacheDataOnly).1 =
        ENOENT ↔
      (useCacheDataOnly = false ∧ np.n_flag &&& NMARKEDFORDLETE = 0 ∧
        uptime_sec - np.attribute_cache_timer > attrtimeo)) ∧
    ((smbfs_attr_cachelookup share uptime_sec attrtimeo rsrcfrk np va useCacheDataOnly).1 ≠
        ENOENT →
      (smbfs_attr_cachelookup share uptime_sec attrtimeo rsrcfrk np va useCacheDataOnly).1 = 0) ∧
    ((smbfs_attr_cachelookup share uptime_sec attrtimeo rsrcfrk np va useCacheDataOnly).1 =
        ENOENT →
      (smbfs_attr_cachelookup share uptime_sec attrtimeo rsrcfrk np va useCacheDataOnly).2 = np) ∧
    (va = none →
      (smbfs_attr_cachelookup share uptime_sec attrtimeo rsrcfrk np va useCacheDataOnly).2 =
        np) := by
  unfold smbfs_attr_cachelookup
  by_cases hc : (if useCacheDataOnly = true then false
      else if np.n_flag &&& NMARKEDFORDLETE ≠ 0 then false
      else decide (uptime_sec - np.attribute_cache_timer > attrtimeo)) = true
  · rw [if_pos hc]
    refine ⟨⟨fun _ => ?_, fun _ => rfl⟩, fun hh => absurd rfl hh, fun _ => rfl, fun _ => rfl⟩
    split_ifs at hc with h1 h2
    exact ⟨by simpa using h1, by simpa using h2, by simpa using hc⟩
  · rw [if_neg hc]
    have hne : ¬ (useCacheDataOnly = false ∧ np.n_flag &&& NMARKEDFORDLETE = 0 ∧
        uptime_sec - np.attribute_cache_timer > attrtimeo) := by
      rintro ⟨h1, h2, h3⟩
      apply hc
      simp [h1, h2, h3]
    cases va with
    | none =>
      exact ⟨⟨fun hh => absurd (show (0 : Nat) = ENOENT from hh) (by decide), fun hh => absurd hh hne⟩, fun _ => rfl,
        fun hh => absurd (show (0 : Nat) = ENOENT from hh) (by decide), fun _ => rfl⟩
    | some v =>
      exact ⟨⟨fun hh => absurd (show (0 : Nat) = ENOENT from hh) (by decide), fun hh => absurd hh hne⟩, fun _ => rfl,
        fun hh => absurd (show (0 : Nat) = ENOENT from hh) (by decide), fun hh => by cases hh⟩

theorem smbfs_attr_cachelookup_rule_witness :
    (smbfs_attr_cachelookup {} 100 30 (fun n => n) { attribute_cache_timer := 60 } none false).1 =
      ENOENT ∧
    (smbfs_attr_cachelookup {} 100 30 (fun n => n) { attribute_cache_timer := 60 } none false).2 =
      { attribute_cache_timer := 60 } :=
  have hw := smbfs_attr_cachelookup_rule {} 100 30 (fun n => n) { attribute_cache_timer := 60 }
    none false
  ⟨hw.1.2 ⟨rfl, by decide, by decide⟩, hw.2.2.2 rfl⟩

theorem timespeccmp_le_refl (a : timespec) : timespeccmp_le a a = true := by
  unfold timespeccmp_le
  simp

theorem timespeccmp_le_of_not_lt (a b : timespec) (h : timespeccmp_lt a b = false) :
    timespeccmp_le b a = true := by
  unfold timespeccmp_lt at h
  unfold timespeccmp_le
  by_cases hs : a.tv_sec = b.tv_sec
  · rw [if_pos hs] at h
    rw [if_pos hs.symm]
    simp only [decide_eq_false_iff_not, not_lt] at h
    simpa using h
  · rw [if_neg hs] at h
    rw [if_neg (Ne.symm hs)]
    simp only [decide_eq_false_iff_not, not_lt] at h
    simpa using h

/-- The later of two time stamps, seconds first, then nanoseconds. -/
theorem cacheenter_vdir_mtime (share : smb_share) (np : smbnode) (fap : smbfattr) :
    (cacheenter_vdir share np fap).1.n_mtime = np.n_mtime ∧
    (cacheenter_vdir share np fap).2.1.fa_mtime =
      (if timespeccmp_lt fap.fa_mtime np.n_mtime then np.n_mtime else fap.fa_mtime) :=
  ⟨rfl, rfl⟩

theorem cacheenter_meta_mtime (h : smbfs_host) (share : smb_share) (smp : smbmount)
    (np : smbnode) (fap : smbfattr) (hint : Nat) :
    (cacheenter_meta h share smp np fap hint).1.n_mtime = fap.fa_mtime ∧
    (cacheenter_meta h share smp np fap hint).2.1.fa_mtime = fap.fa_mtime := by
  refine ⟨rfl, ?_⟩
  unfold cacheenter_meta smb_get_uid_gid_mode
  simp only
  split_ifs <;> rfl

/-- Claim C14: for a directory node, the modify time cached in the node after
`smbfs_attr_cacheenter` is not earlier than the one cached before (seconds
first, then nanoseconds). When the type test does not fire it is the later of
the cached `n_mtime` and the fetched `fa_mtime`, and the `fa_mtime` of the
record is left at that value. -/
theorem smbfs_attr_cacheenter_dir_mtime (h : smbfs_host) (share : smb_share) (smp : smbmount)
    (p : Nat) (fap : smbfattr) (upd : Bool)
    (hdir : vnode_vtype (smp.nodes p) = vtype.VDIR) :
    timespeccmp_le (smp.nodes p).n_mtime
      ((smbfs_attr_cacheenter h share smp p fap upd).1.nodes p).n_mtime = true ∧
    (node_vtype_changed (smp.nodes p) (vnode_vtype (smp.nodes p)) fap = false →
      ((smbfs_attr_cacheenter h share smp p fap upd).1.nodes p).n_mtime =
        (if timespeccmp_lt fap.fa_mtime (smp.nodes p).n_mtime then (smp.nodes p).n_mtime
          else fap.fa_mtime) ∧
      (smbfs_attr_cacheenter h share smp p fap upd).2.1.fa_mtime =
        (if timespeccmp_lt fap.fa_mtime (smp.nodes p).n_mtime then (smp.nodes p).n_mtime
          else fap.fa_mtime)) := by
  obtain ⟨f1, _, f3⟩ := smbfs_attr_cacheenter_fields h share smp p fap upd
  rw [f1, f3]
  have hlater : timespeccmp_le (smp.nodes p).n_mtime
      (if timespeccmp_lt fap.fa_mtime (smp.nodes p).n_mtime then (smp.nodes p).n_mtime
        else fap.fa_mtime) = true := by
    cases hlt : timespeccmp_lt fap.fa_mtime (smp.nodes p).n_mtime
    · simp only [Bool.false_eq_true, if_false]
      exact timespeccmp_le_of_not_lt _ _ hlt
    · simp only [if_true]
      exact timespeccmp_le_refl _
  unfold smbfs_attr_cacheenter_node
  by_cases hc : node_vtype_changed (smp.nodes p) (vnode_vtype (smp.nodes p)) fap = true
  · rw [if_pos hc]
    refine ⟨timespeccmp_le_refl _, fun hh => ?_⟩
    rw [hc] at hh
    cases hh
  · rw [if_neg hc, hdir]
    simp only
    have m1 := cacheenter_meta_mtime h share smp
      (cacheenter_vdir share
        { smp.nodes p with
          n_flag := CLR (smp.nodes p).n_flag NATTRCHANGED, d_needsUpdate := false } fap).1
      (cacheenter_vdir share
        { smp.nodes p with
          n_flag := CLR (smp.nodes p).n_flag NATTRCHANGED, d_needsUpdate := false } fap).2.1
      (if (smp.nodes p).d_needsUpdate then VNODE_EVENT_ATTRIB ||| VNODE_EVENT_WRITE else 0)
    rw [m1.1, m1.2]
    exact ⟨hlater, fun _ => ⟨rfl, rfl⟩⟩

theorem smbfs_attr_cacheenter_dir_mtime_witness :
    ((smbfs_attr_cacheenter {} c1_share
      (c1_state.setNode 1 { c1_state.nodes 1 with n_mtime := { tv_sec := 10 } }) 1
      { fa_attr := SMB_EFA_DIRECTORY, fa_mtime := { tv_sec := 5 } } false).1.nodes 1).n_mtime =
      { tv_sec := 10 } ∧
    (smbfs_attr_cacheenter {} c1_share
      (c1_state.setNode 1 { c1_state.nodes 1 with n_mtime := { tv_sec := 10 } }) 1
      { fa_attr := SMB_EFA_DIRECTORY, fa_mtime := { tv_sec := 5 } } false).2.1.fa_mtime =
      { tv_sec := 10 } :=
  have hw := (smbfs_attr_cacheenter_dir_mtime {} c1_share
    (c1_state.setNode 1 { c1_state.nodes 1 with n_mtime := { tv_sec := 10 } }) 1
    { fa_attr := SMB_EFA_DIRECTORY, fa_mtime := { tv_sec := 5 } } false (by decide)).2
      (by decide)
  ⟨hw.1.trans (by decide), hw.2.trans (by decide)⟩

theorem dosattr_mask_bits :
    (∀ i, i < 32 → (SMB_EFA_RDONLY ||| SMB_EFA_HIDDEN ||| SMB_EFA_ARCHIVE).testBit i =
      decide (i = 0 ∨ i = 1 ∨ i = 5)) ∧
    (∀ i, i < 32 →
      (0xFFFFFFFF ^^^ (SMB_EFA_RDONLY ||| SMB_EFA_HIDDEN ||| SMB_EFA_ARCHIVE)).testBit i =
        !decide (i = 0 ∨ i = 1 ∨ i = 5)) := by
  decide

theorem dosattr_merge_bits (n f i : Nat) (hi : i < 32) :
    ((n &&& (SMB_EFA_RDONLY ||| SMB_EFA_HIDDEN ||| SMB_EFA_ARCHIVE)) |||
      CLR f (SMB_EFA_RDONLY ||| SMB_EFA_HIDDEN ||| SMB_EFA_ARCHIVE)).testBit i =
      if i = 0 ∨ i = 1 ∨ i = 5 then n.testBit i else f.testBit i := by
  unfold CLR
  rw [Nat.testBit_or, Nat.testBit_and, Nat.testBit_and, dosattr_mask_bits.1 i hi,
    dosattr_mask_bits.2 i hi]
  by_cases h : i = 0 ∨ i = 1 ∨ i = 5
  · simp [h]
  · simp [h]

theorem dosattr_merge_lt (n f : Nat) :
    ((n &&& (SMB_EFA_RDONLY ||| SMB_EFA_HIDDEN ||| SMB_EFA_ARCHIVE)) |||
      CLR f (SMB_EFA_RDONLY ||| SMB_EFA_HIDDEN ||| SMB_EFA_ARCHIVE)) < 2 ^ 32 := by
  apply Nat.or_lt_two_pow
  · exact lt_of_le_of_lt Nat.and_le_right (by decide)
  · unfold CLR
    exact lt_of_le_of_lt Nat.and_le_right (by decide)

theorem smbfs_update_size_dosattr (now : timespec) (np : smbnode) (reqtime : timespec)
    (new_size : Nat) :
    (smbfs_update_size now np reqtime new_size).2.1.n_dosattr = np.n_dosattr := by
  unfold smbfs_update_size
  split_ifs <;> rfl

/-- Claim C15: after `smbfs_attr_cacheenter` on a regular file, a directory or
a symbolic link whose type the record does not change: when the record comes
from the UNIX extensions and its `fa_flags_mask` lacks a bit of
`EXT_REQUIRED_BY_MAC`, the read-only, hidden and archive bits (bits 0, 1 and
5) of `n_dosattr` keep their values and every other bit of the 32 bit word is
the bit of the fetched `fa_attr`; otherwise `n_dosattr` is the fetched
`fa_attr`. -/
theorem smbfs_attr_cacheenter_dosattr (h : smbfs_host) (share : smb_share) (smp : smbmount)
    (p : Nat) (fap : smbfattr) (upd : Bool)
    (htype : vnode_vtype (smp.nodes p) = vtype.VREG ∨ vnode_vtype (smp.nodes p) = vtype.VDIR ∨
      vnode_vtype (smp.nodes p) = vtype.VLNK)
    (hsame : node_vtype_changed (smp.nodes p) (vnode_vtype (smp.nodes p)) fap = false) :
    ((fap.fa_unix = true ∧ fap.fa_flags_mask &&& EXT_REQUIRED_BY_MAC ≠ EXT_REQUIRED_BY_MAC) →
      ((smbfs_attr_cacheenter h share smp p fap upd).1.nodes p).n_dosattr < 2 ^ 32 ∧
      ∀ i, i < 32 →
        ((smbfs_attr_cacheenter h share smp p fap upd).1.nodes p).n_dosattr.testBit i =
          if i = 0 ∨ i = 1 ∨ i = 5 then (smp.nodes p).n_dosattr.testBit i
          else fap.fa_attr.testBit i) ∧
    (¬ (fap.fa_unix = true ∧ fap.fa_flags_mask &&& EXT_REQUIRED_BY_MAC ≠ EXT_REQUIRED_BY_MAC) →
      ((smbfs_attr_cacheenter h share smp p fap upd).1.nodes p).n_dosattr = fap.fa_attr) := by
  obtain ⟨_, f2, _⟩ := smbfs_attr_cacheenter_fields h share smp p fap upd
  rw [f2]
  have hc : ¬ (node_vtype_changed (smp.nodes p) (vnode_vtype (smp.nodes p)) fap = true) := by
    simp [hsame]
  have key : (smbfs_attr_cacheenter_node h share smp (smp.nodes p) fap upd).np.n_dosattr =
      if fap.fa_unix ∧ (fap.fa_flags_mask &&& EXT_REQUIRED_BY_MAC) ≠ EXT_REQUIRED_BY_MAC then
        ((smp.nodes p).n_dosattr &&& (SMB_EFA_RDONLY ||| SMB_EFA_HIDDEN ||| SMB_EFA_ARCHIVE)) |||
          CLR fap.fa_attr (SMB_EFA_RDONLY ||| SMB_EFA_HIDDEN ||| SMB_EFA_ARCHIVE)
      else fap.fa_attr := by
    unfold smbfs_attr_cacheenter_node
    rw [if_neg hc]
    rcases htype with ht | ht | ht
    · rw [ht]
      simp only [cacheenter_meta, cacheenter_vreg, smbfs_update_size_dosattr]
    · rw [ht]
      rfl
    · rw [ht]
      rfl
  rw [key]
  constructor
  · intro hp
    rw [if_pos hp]
    exact ⟨dosattr_merge_lt _ _, fun i hi => dosattr_merge_bits _ _ i hi⟩
  · intro hp
    rw [if_neg hp]

theorem smbfs_attr_cacheenter_dosattr_witness :
    ((smbfs_attr_cacheenter {} {} c9_state 1
      { fa_unix := true, fa_attr := SMB_EFA_RDONLY ||| 0x80 } false).1.nodes 1).n_dosattr.testBit
        0 = false ∧
    ((smbfs_attr_cacheenter {} {} c9_state 1
      { fa_unix := true, fa_attr := SMB_EFA_RDONLY ||| 0x80 } false).1.nodes 1).n_dosattr.testBit
        7 = true :=
  have hw := ((smbfs_attr_cacheenter_dosattr {} {} c9_state 1
    { fa_unix := true, fa_attr := SMB_EFA_RDONLY ||| 0x80 } false (Or.inl (by decide))
    (by decide)).1 ⟨rfl, by decide⟩).2
  ⟨(hw 0 (by decide)).trans (by decide), (hw 7 (by decide)).trans (by decide)⟩

/-- The loop of `FindFileRef` breaks at the first entry that passes the
process filter and sets `foundIt`. -/
theorem FindFileRef_loop_found (p : Option Int) (accessMode : Nat) (flags : Int)
    (offset length : Int) (l : List fileRefEntry) :
    ∀ (i : Nat) (tempEntry : Option (Nat × fileRefEntry)) (k : Nat) (e : fileRefEntry),
      l.get? k = some e →
      (¬ (p.isSome ∧ some e.p_pid ≠ p) ∧
        FindFileRef_switch accessMode flags offset length e = true) →
      (∀ j e', j < k → l.get? j = some e' →
        ¬ (¬ (p.isSome ∧ some e'.p_pid ≠ p) ∧
          FindFileRef_switch accessMode flags offset length e' = true)) →
      (FindFileRef_loop p accessMode flags offset length l i tempEntry).1 = some (i + k, e) := by
  induction l with
  | nil =>
    intro i t k e hk
    simp at hk
  | cons x xs ih =>
    intro i t k e hk he hfirst
    cases k with
    | zero =>
      simp only [List.get?_cons_zero, Option.some.injEq] at hk
      subst hk
      unfold FindFileRef_loop
      rw [if_neg he.1, if_pos he.2]
      rfl
    | succ k =>
      have hx := hfirst 0 x (by omega) rfl
      unfold FindFileRef_loop
      by_cases h1 : p.isSome ∧ some x.p_pid ≠ p
      · rw [if_pos h1, ih (i + 1) t k e (by simpa using hk) he
          (fun j e' hj hj' => hfirst (j + 1) e' (by omega) (by simpa using hj'))]
        congr 2
        omega
      · have h2 : ¬ (FindFileRef_switch accessMode flags offset length x = true) :=
          fun hh => hx ⟨h1, hh⟩
        rw [if_neg h1, if_neg h2, ih (i + 1) _ k e (by simpa using hk) he
          (fun j e' hj hj' => hfirst (j + 1) e' (by omega) (by simpa using hj'))]
        congr 2
        omega

/-- The loop of `FindFileRef` runs to the end when no entry passes the process
filter and sets `foundIt`. -/
theorem FindFileRef_loop_none (p : Option Int) (accessMode : Nat) (flags : Int)
    (offset length : Int) (l : List fileRefEntry) :
    ∀ (i : Nat) (tempEntry : Option (Nat × fileRefEntry)),
      (∀ e, e ∈ l → ¬ (¬ (p.isSome ∧ some e.p_pid ≠ p) ∧
        FindFileRef_switch accessMode flags offset length e = true)) →
      (FindFileRef_loop p accessMode flags offset length l i tempEntry).1 = none := by
  induction l with
  | nil =>
    intro i t _
    rfl
  | cons x xs ih =>
    intro i t hnone
    have hx := hnone x (by simp)
    unfold FindFileRef_loop
    by_cases h1 : p.isSome ∧ some x.p_pid ≠ p
    · rw [if_pos h1]
      exact ih _ _ (fun e he => hnone e (by simp [he]))
    · have h2 : ¬ (FindFileRef_switch accessMode flags offset length x = true) :=
        fun hh => hx ⟨h1, hh⟩
      rw [if_neg h1, if_neg h2]
      exact ih _ _ (fun e he => hnone e (by simp [he]))

/-- Outside `kCheckDenyOrLocks` the loop leaves `tempEntry` as it is. -/
theorem FindFileRef_loop_temp_other (p : Option Int) (accessMode : Nat) (flags : Int)
    (offset length : Int) (hflags : flags ≠ kCheckDenyOrLocks) (l : List fileRefEntry) :
    ∀ (i : Nat) (tempEntry : Option (Nat × fileRefEntry)),
      (FindFileRef_loop p accessMode flags offset length l i tempEntry).2 = tempEntry := by
  induction l with
  | nil =>
    intro i t
    rfl
  | cons x xs ih =>
    intro i t
    have hc : ¬ (flags = kCheckDenyOrLocks ∧ x.accessMode &&& accessMode ≠ 0 ∧ t = none) :=
      fun hh => hflags hh.1
    unfold FindFileRef_loop
    rw [if_neg hc]
    split_ifs
    · exact ih _ _
    · rfl
    · exact ih _ _

theorem FindFileRef_filter_iff (p : Option Int) (e : fileRefEntry) :
    ¬ (p.isSome ∧ some e.p_pid ≠ p) ↔ (p = none ∨ p = some e.p_pid) := by
  cases p with
  | none => simp
  | some q =>
    simp only [Option.isSome_some, true_and, ne_eq, Decidable.not_not, reduceCtorEq, false_or]
    exact eq_comm

theorem FindFileRef_exact_iff (p : Option Int) (accessMode : Nat) (offset length : Int)
    (e : fileRefEntry) :
    (¬ (p.isSome ∧ some e.p_pid ≠ p) ∧
      FindFileRef_switch accessMode kExactMatch offset length e = true) ↔
    exact_match_rule p accessMode e := by
  unfold exact_match_rule
  rw [FindFileRef_filter_iff]
  have hs : FindFileRef_switch accessMode kExactMatch offset length e = true ↔
      (e.accessMode = accessMode ∨
        (accessMode &&& kAccessRead ≠ 0 ∧ accessMode &&& kDenyWrite ≠ 0 ∧
          accessMode &&& kAccessWrite = 0 ∧ e.accessMode &&& kAccessRead ≠ 0)) := by
    unfold FindFileRef_switch
    rw [if_neg (by decide), if_neg (by decide), if_neg (by decide)]
    by_cases h1 : accessMode = e.accessMode
    · rw [if_pos h1]
      simp [h1]
    · rw [if_neg h1]
      have h1' : ¬ (e.accessMode = accessMode) := fun hh => h1 hh.symm
      by_cases h2 : accessMode &&& kDenyWrite ≠ 0 ∧ accessMode &&& kAccessRead ≠ 0 ∧
          ¬ (accessMode &&& kAccessWrite ≠ 0)
      · rw [if_pos h2]
        simp only [decide_eq_true_eq, h1', false_or]
        exact ⟨fun hh => ⟨h2.2.1, h2.1, by simpa using h2.2.2, hh⟩, fun hh => hh.2.2.2⟩
      · rw [if_neg h2]
        simp only [Bool.false_eq_true, h1', false_or, false_iff]
        rintro ⟨a, b, c, _⟩
        exact h2 ⟨b, a, by simp [c]⟩
  rw [hs]

/-- Claim C17: with `kExactMatch`, `FindFileRef` returns 0 with the fid of the
first entry of the list that belongs to the calling process (any entry when
there is no process) and matches the request, where an entry matches when its
access mode equals the requested one, or the request contains `kAccessRead`
and `kDenyWrite` but not `kAccessWrite` and the entry contains `kAccessRead`;
`*fndEntry`, when asked for, is that entry. When no entry matches, or without
vnode, it returns -1 and leaves the outputs alone. -/
theorem FindFileRef_exact_match (l : List fileRefEntry) (p : Option Int) (accessMode : Nat)
    (offset length : Int) (wantEntry : Bool) (fid0 : Nat) (fnd0 : Option Nat) :
    (∀ k e, l.get? k = some e → exact_match_rule p accessMode e →
      (∀ j e', j < k → l.get? j = some e' → ¬ exact_match_rule p accessMode e') →
      FindFileRef (some l) p accessMode kExactMatch offset length wantEntry fid0 fnd0 =
        { ret := 0, fid := e.fid, fndEntry := if wantEntry then some k else fnd0 }) ∧
    ((∀ e, e ∈ l → ¬ exact_match_rule p accessMode e) →
      FindFileRef (some l) p accessMode kExactMatch offset length wantEntry fid0 fnd0 =
        { ret := -1, fid := fid0, fndEntry := fnd0 }) ∧
    FindFileRef none p accessMode kExactMatch offset length wantEntry fid0 fnd0 =
      { ret := -1, fid := fid0, fndEntry := fnd0 } := by
  refine ⟨?_, ?_, rfl⟩
  · intro k e hk he hfirst
    have h1 := FindFileRef_loop_found p accessMode kExactMatch offset length l 0 none k e hk
      ((FindFileRef_exact_iff p accessMode offset length e).2 he)
      (fun j e' hj hj' hh =>
        hfirst j e' hj hj' ((FindFileRef_exact_iff p accessMode offset length e').1 hh))
    unfold FindFileRef
    simp only
    cases hl : FindFileRef_loop p accessMode kExactMatch offset length l 0 none with
    | mk a b =>
      rw [hl] at h1
      simp only at h1
      subst h1
      simp
  · intro hnone
    have h1 := FindFileRef_loop_none p accessMode kExactMatch offset length l 0 none
      (fun e he hh => hnone e he ((FindFileRef_exact_iff p accessMode offset length e).1 hh))
    have h2 := FindFileRef_loop_temp_other p accessMode kExactMatch offset length (by decide)
      l 0 none
    unfold FindFileRef
    simp only
    cases hl : FindFileRef_loop p accessMode kExactMatch offset length l 0 none with
    | mk a b =>
      rw [hl] at h1 h2
      simp only at h1 h2
      subst h1
      subst h2
      rfl

theorem FindFileRef_exact_match_witness :
    FindFileRef (some c17_list) (some 7) (kAccessRead ||| kDenyRead ||| kDenyWrite) kExactMatch
        0 0 true 0 none =
      { ret := 0, fid := 41, fndEntry := some 0 } ∧
    FindFileRef (some c17_list) (some 7) kAccessWrite kExactMatch 0 0 true 0 none =
      { ret := -1, fid := 0, fndEntry := none } :=
  have hw := FindFileRef_exact_match c17_list (some 7)
    (kAccessRead ||| kDenyRead ||| kDenyWrite) 0 0 true 0 none
  have hw2 := FindFileRef_exact_match c17_list (some 7) kAccessWrite 0 0 true 0 none
  ⟨hw.1 0 c17_entry rfl (by unfold exact_match_rule; decide)
      (fun j e' hj => absurd hj (by omega)),
    hw2.2.1 (by
      intro e he
      have : e = c17_entry := by simpa [c17_list] using he
      subst this
      unfold exact_match_rule
      decide)⟩

/-- Once set, `tempEntry` is not changed by the loop. -/
theorem FindFileRef_loop_temp_some (p : Option Int) (accessMode : Nat) (flags : Int)
    (offset length : Int) (t : Nat × fileRefEntry) (l : List fileRefEntry) :
    ∀ (i : Nat), (FindFileRef_loop p accessMode flags offset length l i (some t)).2 = some t := by
  induction l with
  | nil =>
    intro i
    rfl
  | cons x xs ih =>
    intro i
    have hc : ¬ (flags = kCheckDenyOrLocks ∧ x.accessMode &&& accessMode ≠ 0 ∧
        (some t : Option (Nat × fileRefEntry)) = none) := fun hh => by simp at hh
    unfold FindFileRef_loop
    rw [if_neg hc]
    split_ifs
    · exact ih _
    · rfl
    · exact ih _

/-- With `kCheckDenyOrLocks`, when no entry hits a byte range lock,
`tempEntry` ends as the first entry of the process with overlapping access. -/
theorem FindFileRef_loop_temp_first (p : Option Int) (accessMode : Nat) (offset length : Int)
    (l : List fileRefEntry) :
    ∀ (i k : Nat) (e : fileRefEntry),
      (∀ e', e' ∈ l → (p = none ∨ p = some e'.p_pid) →
        FindFileRef_brl offset length e'.lockList = false) →
      l.get? k = some e → access_overlap_rule p accessMode e →
      (∀ j e', j < k → l.get? j = some e' → ¬ access_overlap_rule p accessMode e') →
      FindFileRef_loop p accessMode kCheckDenyOrLocks offset length l i none =
        (none, some (i + k, e)) := by
  induction l with
  | nil =>
    intro i k e _ hk
    simp at hk
  | cons x xs ih =>
    intro i k e hnolock hk he hfirst
    have hsw : ∀ e', e' ∈ x :: xs → (p = none ∨ p = some e'.p_pid) →
        ¬ (FindFileRef_switch accessMode kCheckDenyOrLocks offset length e' = true) := by
      intro e' he' hf
      unfold FindFileRef_switch
      rw [if_neg (by decide), if_neg (by decide), if_pos rfl, hnolock e' he' hf]
      simp
    have hrest : ∀ (t : Nat × fileRefEntry),
        FindFileRef_loop p accessMode kCheckDenyOrLocks offset length xs (i + 1) (some t) =
          (none, some t) := by
      intro t
      have h1 := FindFileRef_loop_none p accessMode kCheckDenyOrLocks offset length xs (i + 1)
        (some t) (fun e' he' hh =>
          hsw e' (by simp [he']) ((FindFileRef_filter_iff p e').1 hh.1) hh.2)
      have h2 := FindFileRef_loop_temp_some p accessMode kCheckDenyOrLocks offset length t xs
        (i + 1)
      exact Prod.ext h1 h2
    cases k with
    | zero =>
      simp only [List.get?_cons_zero, Option.some.injEq] at hk
      subst hk
      unfold FindFileRef_loop
      rw [if_neg ((FindFileRef_filter_iff p x).2 he.1), if_neg (hsw x (by simp) he.1),
        if_pos ⟨rfl, he.2, rfl⟩]
      exact hrest _
    | succ k =>
      have hx := hfirst 0 x (by omega) rfl
      unfold FindFileRef_loop
      by_cases h1 : p.isSome ∧ some x.p_pid ≠ p
      · rw [if_pos h1, ih (i + 1) k e (fun e' he' => hnolock e' (by simp [he']))
          (by simpa using hk) he
          (fun j e' hj hj' => hfirst (j + 1) e' (by omega) (by simpa using hj'))]
        congr 3
        omega
      · have hf := (FindFileRef_filter_iff p x).1 h1
        have hov : ¬ (kCheckDenyOrLocks = kCheckDenyOrLocks ∧ x.accessMode &&& accessMode ≠ 0 ∧
            (none : Option (Nat × fileRefEntry)) = none) := fun hh => hx ⟨hf, hh.2.1⟩
        rw [if_neg h1, if_neg (hsw x (by simp) hf), if_neg hov,
          ih (i + 1) k e (fun e' he' => hnolock e' (by simp [he']))
          (by simpa using hk) he
          (fun j e' hj hj' => hfirst (j + 1) e' (by omega) (by simpa using hj'))]
        congr 3
        omega

/-- With `kCheckDenyOrLocks`, when no entry of the process has overlapping
access, the loop ends without entry and without `tempEntry`. -/
theorem FindFileRef_loop_temp_none (p : Option Int) (accessMode : Nat) (offset length : Int)
    (l : List fileRefEntry) :
    ∀ (i : Nat), (∀ e, e ∈ l → ¬ access_overlap_rule p accessMode e) →
      FindFileRef_loop p accessMode kCheckDenyOrLocks offset length l i none = (none, none) := by
  induction l with
  | nil =>
    intro i _
    rfl
  | cons x xs ih =>
    intro i hnone
    have hx := hnone x (by simp)
    unfold FindFileRef_loop
    by_cases h1 : p.isSome ∧ some x.p_pid ≠ p
    · rw [if_pos h1]
      exact ih _ (fun e he => hnone e (by simp [he]))
    · have hf := (FindFileRef_filter_iff p x).1 h1
      have hov : ¬ (x.accessMode &&& accessMode ≠ 0) := fun hh => hx ⟨hf, hh⟩
      have hsw : ¬ (FindFileRef_switch accessMode kCheckDenyOrLocks offset length x = true) := by
        unfold FindFileRef_switch
        rw [if_neg (by decide), if_neg (by decide), if_pos rfl, if_neg hov]
        simp
      have hc : ¬ (kCheckDenyOrLocks = kCheckDenyOrLocks ∧ x.accessMode &&& accessMode ≠ 0 ∧
          (none : Option (Nat × fileRefEntry)) = none) := fun hh => hov hh.2.1
      rw [if_neg h1, if_neg hsw, if_neg hc]
      exact ih _ (fun e he => hnone e (by simp [he]))

/-- Claim C18: with `kCheckDenyOrLocks`, when no entry of the calling process
hits a byte range lock but one has access bits overlapping the request,
`FindFileRef` returns 0 and `*fid` is the fid of the first such entry, while
`*fndEntry`, when asked for, is set to NULL (the loop variable after the end
of the list), not to that entry; when no entry has overlapping access bits it
returns -1 and leaves the outputs alone. -/
theorem FindFileRef_check_deny_fallback (l : List fileRefEntry) (p : Option Int)
    (accessMode : Nat) (offset length : Int) (wantEntry : Bool) (fid0 : Nat) (fnd0 : Option Nat)
    (hnolock : ∀ e, e ∈ l → (p = none ∨ p = some e.p_pid) →
      FindFileRef_brl offset length e.lockList = false) :
    (∀ k e, l.get? k = some e → access_overlap_rule p accessMode e →
      (∀ j e', j < k → l.get? j = some e' → ¬ access_overlap_rule p accessMode e') →
      FindFileRef (some l) p accessMode kCheckDenyOrLocks offset length wantEntry fid0 fnd0 =
        { ret := 0, fid := e.fid, fndEntry := if wantEntry then none else fnd0 }) ∧
    ((∀ e, e ∈ l → ¬ access_overlap_rule p accessMode e) →
      FindFileRef (some l) p accessMode kCheckDenyOrLocks offset length wantEntry fid0 fnd0 =
        { ret := -1, fid := fid0, fndEntry := fnd0 }) := by
  constructor
  · intro k e hk he hfirst
    unfold FindFileRef
    simp only
    rw [FindFileRef_loop_temp_first p accessMode offset length l 0 k e hnolock hk he hfirst]
    simp
  · intro hnone
    unfold FindFileRef
    simp only
    rw [FindFileRef_loop_temp_none p accessMode offset length l 0 hnone]

theorem FindFileRef_check_deny_fallback_witness :
    FindFileRef (some c17_list) (some 7) kAccessRead kCheckDenyOrLocks 0 4 true 0 (some 9) =
      { ret := 0, fid := 41, fndEntry := none } :=
  (FindFileRef_check_deny_fallback c17_list (some 7) kAccessRead 0 4 true 0 (some 9)
    (by
      intro e he _
      have : e = c17_entry := by simpa [c17_list] using he
      subst this
      rfl)).1 0 c17_entry rfl (by unfold access_overlap_rule; decide)
      (fun j e' hj => absurd hj (by omega))

theorem cacheenter_notify_chtime (h : smbfs_host) (share : smb_share) (hint : Nat)
    (np : smbnode) :
    ∃ t, cacheenter_notify h share hint np = { np with n_chtime := t } := by
  unfold cacheenter_notify
  split
  · unfold smbfs_attr_cachelookup
    simp only [Bool.true_eq_false, if_true, not_true_eq_false, and_false, if_false,
      Bool.false_eq_true]
    exact ⟨_, rfl⟩
  · exact ⟨np.n_chtime, rfl⟩

/-- A field of the node that is not the link mark, a resource fork field or
the change time is left by `smbfs_attr_cacheenter` as computed up to the label
`vnode_notify_needed`. -/
theorem smbfs_attr_cacheenter_proj {α : Type} (g : smbnode → α)
    (hg1 : ∀ (n : smbnode) b, g { n with n_hash_le_prev := b } = g n)
    (hg2 : ∀ (n : smbnode) a b c,
      g { n with rfrk_size := a, rfrk_alloc_size := b, rfrk_cache_timer := c } = g n)
    (hg3 : ∀ (n : smbnode) t, g { n with n_chtime := t } = g n)
    (h : smbfs_host) (share : smb_share) (smp : smbmount) (p : Nat) (fap : smbfattr)
    (upd : Bool) :
    g ((smbfs_attr_cacheenter h share smp p fap upd).1.nodes p) =
      g (smbfs_attr_cacheenter_node h share smp (smp.nodes p) fap upd).np := by
  unfold smbfs_attr_cacheenter
  simp only
  generalize smbfs_attr_cacheenter_node h share smp (smp.nodes p) fap upd = r
  have key : ∀ s3 : smbmount, g (s3.nodes p) = g r.np →
      g ((if r.notify = true then
          s3.setNode p (cacheenter_notify h share r.monitorHint (s3.nodes p))
        else s3).nodes p) = g r.np := by
    intro s3 hs3
    split
    · rw [setNode_nodes_same]
      obtain ⟨t, ht⟩ := cacheenter_notify_chtime h share r.monitorHint (s3.nodes p)
      rw [ht, hg3]
      exact hs3
    · exact hs3
  have h2 : ∀ s1 : smbmount, g (s1.nodes p) = g r.np →
      g ((if r.vtype_changed = true then smb_vhashrem s1 p else s1).nodes p) = g r.np := by
    intro s1 hs1
    split
    · rw [smb_vhashrem_nodes, if_pos rfl, hg1]
      exact hs1
    · exact hs1
  have h3 : ∀ s2 : smbmount, g (s2.nodes p) = g r.np →
      g ((match r.rsrc_parent with
        | some setsize => smb_update_rsrc_and_getparent h s2 p setsize
        | none => s2).nodes p) = g r.np := by
    intro s2 hs2
    cases r.rsrc_parent with
    | none => exact hs2
    | some ss =>
      simp only
      unfold smb_update_rsrc_and_getparent
      cases h.vnode_getparent with
      | none => exact hs2
      | some parent =>
        simp only
        by_cases hr : (s2.nodes p).n_flag &&& N_ISRSRCFRK ≠ 0
        · rw [if_pos hr]
          by_cases hq : p = parent
          · subst hq
            rw [setNode_nodes_same, hg2]
            exact hs2
          · rw [setNode_nodes_ne _ _ hq]
            exact hs2
        · rw [if_neg hr]
          exact hs2
  apply key
  apply h3
  apply h2
  simp [smbmount.setNode]

theorem smbfs_attr_cacheenter_node_vreg_size (h : smbfs_host) (share : smb_share)
    (smp : smbmount) (np : smbnode) (fap : smbfattr) (upd : Bool)
    (hreg : vnode_vtype np = vtype.VREG) (hsize : np.n_size = fap.fa_size) :
    (smbfs_attr_cacheenter_node h share smp np fap upd).np.n_size = np.n_size := by
  unfold smbfs_attr_cacheenter_node
  by_cases hc : node_vtype_changed np (vnode_vtype np) fap = true
  · rw [if_pos hc]
  · rw [if_neg hc, hreg]
    simp only [cacheenter_meta, cacheenter_vreg]
    unfold smbfs_update_size
    rw [if_pos hsize]

theorem smbfs_nget_vcreate_eq (h : smbfs_host) (share : smb_share) (s : smbmount)
    (dvp : Option Nat) (fap : smbfattr) (np : Nat) (vt : vtype) (mr : Bool)
    (hv : h.vnode_create = 0) :
    smbfs_nget_vcreate h share s dvp fap np vt mr =
      { error := 0, vpp := some np
        fap := some (smbfs_attr_cacheenter h share
          (s.setNode np (smbfs_nget_bind (s.nodes np) vt mr)) np fap false).2.1
        smp := (smbfs_attr_cacheenter h share
            (s.setNode np (smbfs_nget_bind (s.nodes np) vt mr)) np fap false).1.setNode np
          { (smbfs_attr_cacheenter h share
              (s.setNode np (smbfs_nget_bind (s.nodes np) vt mr)) np fap false).1.nodes np with
            n_flag := CLR ((smbfs_attr_cacheenter h share
              (s.setNode np (smbfs_nget_bind (s.nodes np) vt mr)) np fap false).1.nodes
                np).n_flag NALLOC } } := by
  unfold smbfs_nget_vcreate
  have hv' : ¬ (h.vnode_create ≠ 0) := by simp [hv]
  rw [if_neg hv']
  rfl

/-- Claim C20, counterexample: a content whose length field `0000` is
followed by the letter `X` instead of a newline, with the digest of the empty
payload, is accepted: `smb_check_for_windows_symlink` returns 0. -/
theorem smb_check_for_windows_symlink_no_newline_test :
    c20_content.getD (SMB_SYMMAGICLEN + SMB_SYMLENLEN - 1) 0 = 88 ∧
    smb_check_for_windows_symlink c20_host {} c19_node = (0, 0) := by
  decide

/-- Claim C20, amended: once the buffer is allocated and the file is open,
`smb_check_for_windows_symlink` returns `ENOENT` and leaves `*symlen` alone
when the header fails the validation that the code makes: the magic is absent,
or the four bytes of the length field are not all decimal digits, or the
length exceeds `(int)(n_size - SMB_SYMHDRLEN)` (the byte after the length field
is not looked at). In `smbfs_nget` the new node of a regular file of the size
`SMB_SYMLEN` whose content fails this validation gets a vnode of type `VREG`,
keeps its size and is not marked `NWINDOWSYMLNK`. -/
theorem smb_check_for_windows_symlink_bad_header (h : smbfs_host) (share : smb_share)
    (halloc : h.symlink_alloc_ok = true)
    (hopen : ¬ (share.ss_vc.vc_flags &&& SMBV_SMB2 = 0 ∧ h.symlink_open_error ≠ 0)) :
    (∀ np : smbnode, symlink_bad_header h.symlink_content np.n_size →
      smb_check_for_windows_symlink h share np = (ENOENT, 0)) ∧
    (∀ (smp : smbmount) (dvp : Option Nat) (name : List Nat) (nmlen : Nat) (fap : smbfattr)
        (p : Nat),
      fap.fa_vtype = vtype.VREG → (smp.nodes p).n_size = SMB_SYMLEN →
      fap.fa_size = SMB_SYMLEN → symlink_bad_header h.symlink_content (smp.nodes p).n_size →
      h.vnode_create = 0 →
      (smbfs_nget_finish h share smp dvp name nmlen fap p).error = 0 ∧
      (smbfs_nget_finish h share smp dvp name nmlen fap p).vpp = some p ∧
      vnode_vtype ((smbfs_nget_finish h share smp dvp name nmlen fap p).smp.nodes p) =
        vtype.VREG ∧
      ((smbfs_nget_finish h share smp dvp name nmlen fap p).smp.nodes p).n_size = SMB_SYMLEN ∧
      ((smbfs_nget_finish h share smp dvp name nmlen fap p).smp.nodes p).n_flag &&&
          NWINDOWSYMLNK = (smp.nodes p).n_flag &&& NWINDOWSYMLNK) := by
  have part1 : ∀ np : smbnode, symlink_bad_header h.symlink_content np.n_size →
      smb_check_for_windows_symlink h share np = (ENOENT, 0) := by
    intro np hbad
    unfold smb_check_for_windows_symlink
    have ha : ¬ ¬ (h.symlink_alloc_ok = true) := by simp [halloc]
    rw [if_neg ha, if_neg hopen]
    unfold symlink_bad_header symlink_len at hbad
    by_cases hm : h.symlink_read_error = 0 ∧
        bcmp h.symlink_content smb_symmagic SMB_SYMMAGICLEN = 0
    · rw [if_pos hm]
      rcases hbad with hbad | hbad | hbad
      · exact absurd hm.2 hbad
      · rw [if_pos (Or.inl hbad)]
      · rw [if_pos (Or.inr hbad)]
    · rw [if_neg hm]
  refine ⟨part1, ?_⟩
  intro smp dvp name nmlen fap p hvt hsize hfsize hbad hvc
  have hchk := part1 (smp.nodes p) hbad
  unfold smbfs_nget_finish
  have hroot : ¬ (fap.fa_vtype = vtype.VDIR ∧ dvp = none ∧ smp.sm_rvp = none ∧
      (smp.nodes p).n_ino = smp.sm_root_ino) := by
    rw [hvt]
    simp
  have hne : ¬ ((smb_check_for_windows_symlink h share (smp.nodes p)).1 = 0) := by
    rw [hchk]
    decide
  rw [if_neg hroot, if_pos ⟨hvt, hsize⟩, if_neg hne,
    smbfs_nget_vcreate_eq h share smp dvp fap p fap.fa_vtype _ hvc]
  simp only [setNode_nodes_same]
  obtain ⟨_, _, _, _, _, _, c7, _, _⟩ := smbfs_attr_cacheenter_frame h share
    (smp.setNode p (smbfs_nget_bind (smp.nodes p) fap.fa_vtype
      (decide ((smp.nodes p).n_ino = smp.sm_root_ino)))) p fap
  rw [setNode_nodes_same] at c7
  have hvn := c7.2.2.2.2.2.2.1
  have hfl := same_key_flag c7 NWINDOWSYMLNK (by decide)
  have hsz := smbfs_attr_cacheenter_proj (fun n => n.n_size) (fun _ _ => rfl)
    (fun _ _ _ _ => rfl) (fun _ _ => rfl) h share
    (smp.setNode p (smbfs_nget_bind (smp.nodes p) fap.fa_vtype
      (decide ((smp.nodes p).n_ino = smp.sm_root_ino)))) p fap false
  simp only [setNode_nodes_same] at hsz
  rw [smbfs_attr_cacheenter_node_vreg_size h share _ _ fap false
    (by unfold vnode_vtype smbfs_nget_bind; simp only; exact hvt)
    (by unfold smbfs_nget_bind; simp only; rw [hsize, hfsize])] at hsz
  refine ⟨trivial, trivial, ?_, ?_, ?_⟩
  · show vnode_vtype _ = _
    unfold vnode_vtype
    simp only
    rw [hvn]
    unfold smbfs_nget_bind
    simp only
    exact hvt
  · show ((smbfs_attr_cacheenter h share _ p fap false).1.nodes p).n_size = _
    rw [hsz]
    unfold smbfs_nget_bind
    simp only
    exact hsize
  · show CLR _ NALLOC &&& NWINDOWSYMLNK = _
    rw [CLR_and _ _ _ (by decide), hfl]
    rfl

theorem smb_check_for_windows_symlink_bad_header_witness :
    smb_check_for_windows_symlink {} {} c19_node = (ENOENT, 0) ∧
    (smbfs_nget_finish {} {} (c9_state.setNode 2 c19_node) (some 1) [98] 1
      { fa_vtype := vtype.VREG, fa_size := SMB_SYMLEN } 2).error = 0 ∧
    vnode_vtype ((smbfs_nget_finish {} {} (c9_state.setNode 2 c19_node) (some 1) [98] 1
      { fa_vtype := vtype.VREG, fa_size := SMB_SYMLEN } 2).smp.nodes 2) = vtype.VREG ∧
    ((smbfs_nget_finish {} {} (c9_state.setNode 2 c19_node) (some 1) [98] 1
      { fa_vtype := vtype.VREG, fa_size := SMB_SYMLEN } 2).smp.nodes 2).n_size = SMB_SYMLEN :=
  have hw := smb_check_for_windows_symlink_bad_header {} {} rfl (by decide)
  have h2 := hw.2 (c9_state.setNode 2 c19_node) (some 1) [98] 1
    { fa_vtype := vtype.VREG, fa_size := SMB_SYMLEN } 2 rfl rfl rfl
    (by unfold symlink_bad_header; decide) rfl
  ⟨hw.1 c19_node (by unfold symlink_bad_header; decide), h2.1, h2.2.2.1, h2.2.2.2.1⟩

/-- The name loop of `smbfs_hash` reads its argument only through the folded
values of the first `nmlen` bytes. -/
theorem smbfs_hash_name_congr (nmlen : Nat) (a b : List Nat) (v : Nat)
    (h : ∀ i, i < nmlen → tolower (a.getD i 0 % 256) = tolower (b.getD i 0 % 256)) :
    smbfs_hash_name v a nmlen = smbfs_hash_name v b nmlen := by
  induction nmlen generalizing a b v with
  | zero => rfl
  | succ n ih =>
    simp only [smbfs_hash_name, headD_eq_getD]
    rw [h 0 (Nat.succ_pos n)]
    apply ih
    intro i hi
    rw [getD_tail, getD_tail]
    exact h (i + 1) (Nat.succ_lt_succ hi)

/-- A match reported by `smbfs_check_name` on a name without NUL byte means
that the folded bytes agree. -/
theorem smbfs_check_name_fold (share : smb_share) (a b : List Nat) (len : Nat)
    (hnul : ∀ i, i < len → a.getD i 0 % 256 ≠ 0)
    (hmatch : smbfs_check_name share a b len = 0) :
    ∀ i, i < len → tolower (a.getD i 0 % 256) = tolower (b.getD i 0 % 256) := by
  unfold smbfs_check_name at hmatch
  split at hmatch
  · rw [bcmp_eq_zero_iff] at hmatch
    intro i hi
    rw [hmatch i hi]
  · rw [strncasecmp_eq_zero_iff] at hmatch
    intro i hi
    exact hmatch i hi (fun j hj => hnul j (Nat.lt_trans hj hi))

/-- Claim C28: on a server without file ids, when `smbfs_check_name` reports
that the names `a` and `b` of length `len` match (whichever comparison the
share selects) and `a` holds no NUL byte, `smbfs_hash` gives both names the
same value, whatever the node numbers passed with them, so both select the
same bucket of every mount: a node whose name matches the request lies in the
bucket that `smb_hashget` scans. -/
theorem smbfs_check_name_hash_agree (share : smb_share) (a b : List Nat) (len ino1 ino2 : Nat)
    (hids : share_has_fileids (some share) = false)
    (hnul : ∀ i, i < len → a.getD i 0 % 256 ≠ 0)
    (hmatch : smbfs_check_name share a b len = 0) :
    smbfs_hash (some share) ino1 a len = smbfs_hash (some share) ino2 b len ∧
    ∀ smp : smbmount,
      SMBFS_NOHASH smp (smbfs_hash (some share) ino1 a len) =
        SMBFS_NOHASH smp (smbfs_hash (some share) ino2 b len) := by
  have h : smbfs_hash (some share) ino1 a len = smbfs_hash (some share) ino2 b len := by
    unfold smbfs_hash
    rw [hids]
    exact smbfs_hash_name_congr len a b _ (smbfs_check_name_fold share a b len hnul hmatch)
  exact ⟨h, fun smp => by rw [h]⟩

/-- Claim C28 at the names `Ab` and `aB` on a case-insensitive share without
file ids. -/
theorem smbfs_check_name_hash_agree_witness :
    smbfs_check_name {} [65, 98] [97, 66] 2 = 0 ∧
    smbfs_hash (some {}) 5 [65, 98] 2 = smbfs_hash (some {}) 9 [97, 66] 2 ∧
    ∀ smp : smbmount,
      SMBFS_NOHASH smp (smbfs_hash (some {}) 5 [65, 98] 2) =
        SMBFS_NOHASH smp (smbfs_hash (some {}) 9 [97, 66] 2) :=
  ⟨by decide,
    smbfs_check_name_hash_agree {} [65, 98] [97, 66] 2 5 9 (by decide)
      (by decide) (by decide)⟩

/-- When `smbfs_update_size` returns TRUE the node has the new size. -/
theorem smbfs_update_size_true_size (now : timespec) (np : smbnode) (reqtime : timespec)
    (new_size : Nat) (h : (smbfs_update_size now np reqtime new_size).1 = true) :
    (smbfs_update_size now np reqtime new_size).2.1.n_size = new_size := by
  unfold smbfs_update_size at h ⊢
  split_ifs at h ⊢ with h1 h2 h3 h4
  · exact h1
  · rfl

/-- The size update keeps the cached create and modify times. -/
theorem smbfs_update_size_times (now : timespec) (np : smbnode) (reqtime : timespec)
    (new_size : Nat) :
    (smbfs_update_size now np reqtime new_size).2.1.n_crtime = np.n_crtime ∧
    (smbfs_update_size now np reqtime new_size).2.1.n_mtime = np.n_mtime := by
  unfold smbfs_update_size smbfs_setsize
  split_ifs <;> exact ⟨rfl, rfl⟩

/-- The event mask that lines 1854-1858 leave. -/
theorem cacheenter_meta_hint (h : smbfs_host) (share : smb_share) (smp : smbmount)
    (np : smbnode) (fap : smbfattr) :
    ((cacheenter_meta h share smp np fap 0).2.2 &&& VNODE_EVENT_ATTRIB ≠ 0 ↔
      (timespeccmp_eq np.n_crtime fap.fa_crtime = false ∧
        timespeccmp_eq np.n_mtime fap.fa_mtime = true)) := by
  unfold cacheenter_meta
  simp only
  cases timespeccmp_eq np.n_crtime fap.fa_crtime <;>
    cases timespeccmp_eq np.n_mtime fap.fa_mtime <;> decide

/-- Claim C26: what the code does. For a regular file or a symbolic link whose
type did not change, `smbfs_attr_cacheenter` puts `VNODE_EVENT_ATTRIB` in the
monitor hint exactly when the fetched create time differs from the cached one
and the fetched modify time equals the cached one: a changed modify time
never raises the event, it suppresses it. -/
theorem smbfs_attr_cacheenter_attrib_event (h : smbfs_host) (share : smb_share)
    (smp : smbmount) (p : Nat) (fap : smbfattr) (UpdateResourceParent : Bool)
    (hch : node_vtype_changed (smp.nodes p) (vnode_vtype (smp.nodes p)) fap = false)
    (hv : vnode_vtype (smp.nodes p) = vtype.VREG ∨ vnode_vtype (smp.nodes p) = vtype.VLNK) :
    ((smbfs_attr_cacheenter h share smp p fap UpdateResourceParent).2.2 &&&
        VNODE_EVENT_ATTRIB ≠ 0 ↔
      (timespeccmp_eq (smp.nodes p).n_crtime fap.fa_crtime = false ∧
        timespeccmp_eq (smp.nodes p).n_mtime fap.fa_mtime = true)) := by
  have e : (smbfs_attr_cacheenter h share smp p fap UpdateResourceParent).2.2 =
      (smbfs_attr_cacheenter_node h share smp (smp.nodes p) fap UpdateResourceParent).monitorHint :=
    rfl
  rw [e]
  unfold smbfs_attr_cacheenter_node
  rw [hch]
  simp only [Bool.false_eq_true, if_false]
  rcases hv with hv | hv
  · rw [hv]
    simp only
    have h0 : (cacheenter_vreg h { smp.nodes p with n_flag := CLR (smp.nodes p).n_flag NATTRCHANGED }
        fap).2.2.1 = 0 := by
      unfold cacheenter_vreg
      simp only
      rw [if_neg]
      rintro ⟨h1, h2⟩
      exact h2 (smbfs_update_size_true_size _ _ _ _ h1)
    rw [h0, cacheenter_meta_hint]
    have h1 : (cacheenter_vreg h
        { smp.nodes p with n_flag := CLR (smp.nodes p).n_flag NATTRCHANGED } fap).1.n_crtime =
        (smp.nodes p).n_crtime :=
      (smbfs_update_size_times _ _ _ _).1
    have h2 : (cacheenter_vreg h
        { smp.nodes p with n_flag := CLR (smp.nodes p).n_flag NATTRCHANGED } fap).1.n_mtime =
        (smp.nodes p).n_mtime :=
      (smbfs_update_size_times _ _ _ _).2
    rw [h1, h2]
    exact Iff.rfl
  · rw [hv]
    simp only
    rw [cacheenter_meta_hint]

/-- Claim C26 at a regular file whose modify time changed from 5 s to 9 s
while its create time and size did not: no attribute event is flagged. -/
theorem smbfs_attr_cacheenter_attrib_event_witness :
    timespeccmp_eq (c26_state.nodes 1).n_mtime c26_fap.fa_mtime = false ∧
    (smbfs_attr_cacheenter {} {} c26_state 1 c26_fap false).2.2 &&& VNODE_EVENT_ATTRIB = 0 ∧
    ((smbfs_attr_cacheenter {} {} c26_state 1 c26_fap false).2.2 &&& VNODE_EVENT_ATTRIB ≠ 0 ↔
      (timespeccmp_eq (c26_state.nodes 1).n_crtime c26_fap.fa_crtime = false ∧
        timespeccmp_eq (c26_state.nodes 1).n_mtime c26_fap.fa_mtime = true)) :=
  ⟨by decide, by decide,
    smbfs_attr_cacheenter_attrib_event {} {} c26_state 1 c26_fap false (by decide)
      (Or.inl (by decide))⟩

/-- The lock loop of `FindFileRef` succeeds exactly when one lock of the chain
passes the test of the code. -/
theorem FindFileRef_brl_iff (offset length : Int) (ls : List ByteRangeLockEntry) :
    FindFileRef_brl offset length ls = true ↔ ∃ c, c ∈ ls ∧ brl_hit_rule offset length c := by
  induction ls with
  | nil => simp [FindFileRef_brl]
  | cons x xs ih =>
    unfold FindFileRef_brl
    by_cases h1 : offset ≥ x.offset ∧ offset ≤ int64_add x.offset x.length
    · rw [if_pos h1]
      exact ⟨fun _ => ⟨x, by simp, Or.inl h1⟩, fun _ => rfl⟩
    · rw [if_neg h1]
      by_cases h2 : int64_add offset length ≥ x.offset ∧
          int64_add offset length ≤ int64_add x.offset x.length
      · rw [if_pos h2]
        exact ⟨fun _ => ⟨x, by simp, Or.inr h2⟩, fun _ => rfl⟩
      · rw [if_neg h2, ih]
        constructor
        · rintro ⟨c, hc, hh⟩
          exact ⟨c, by simp [hc], hh⟩
        · rintro ⟨c, hc, hh⟩
          rcases List.mem_cons.1 hc with rfl | hc'
          · rcases hh with hh | hh
            · exact absurd hh h1
            · exact absurd hh h2
          · exact ⟨c, hc', hh⟩

theorem FindFileRef_lock_iff (p : Option Int) (accessMode : Nat) (offset length : Int)
    (e : fileRefEntry) :
    (¬ (p.isSome ∧ some e.p_pid ≠ p) ∧
      FindFileRef_switch accessMode kCheckDenyOrLocks offset length e = true) ↔
    lock_entry_rule brl_hit_rule p accessMode offset length e := by
  unfold lock_entry_rule access_overlap_rule
  rw [FindFileRef_filter_iff]
  unfold FindFileRef_switch
  rw [if_neg (by decide), if_neg (by decide), if_pos rfl]
  by_cases h : e.accessMode &&& accessMode ≠ 0
  · rw [if_pos h, FindFileRef_brl_iff]
    exact ⟨fun hh => ⟨⟨hh.1, h⟩, hh.2⟩, fun hh => ⟨hh.1.1, hh.2⟩⟩
  · rw [if_neg h]
    exact ⟨fun hh => absurd hh.2 (by simp), fun hh => absurd hh.1.2 h⟩

/-- Claim C27, counterexample: process 7 has two opens for read, the first
(fid 1) without lock, the second (fid 2) with a lock on the bytes 3 to 5. A
transfer of the bytes 0 to 10 overlaps that lock, yet `FindFileRef` with
`kCheckDenyOrLocks` returns the first entry, fid 1: the lock lies strictly
inside the requested range, so neither end of the range falls inside it. -/
theorem FindFileRef_lock_inside_request_missed :
    lock_entry_rule brl_overlap_rule (some 7) kAccessRead 0 10 c27_second ∧
    ¬ lock_entry_rule brl_overlap_rule (some 7) kAccessRead 0 10 c27_first ∧
    FindFileRef (some c27_list) (some 7) kAccessRead kCheckDenyOrLocks 0 10 true 0 none =
      { ret := 0, fid := 1, fndEntry := none } := by
  refine ⟨⟨by unfold access_overlap_rule; decide, c27_lock, by simp [c27_second], ?_⟩, ?_, ?_⟩
  · unfold brl_overlap_rule; decide
  · rintro ⟨_, c, hc, _⟩
    simp [c27_first] at hc
  · decide

/-- Claim C27, amended: with `kCheckDenyOrLocks`, when some entry of the
calling process (any entry when there is no process) with access bits
overlapping the request holds a byte range lock such that the start `offset`
or the end `offset + length` of the requested range lies inside
`[lock.offset, lock.offset + lock.length]`, `FindFileRef` returns 0 with the
fid of the first such entry in list order, and that entry in `*fndEntry` when
asked for, not an earlier entry without such a lock. -/
theorem FindFileRef_lock_hit (l : List fileRefEntry) (p : Option Int) (accessMode : Nat)
    (offset length : Int) (wantEntry : Bool) (fid0 : Nat) (fnd0 : Option Nat)
    (k : Nat) (e : fileRefEntry) (hk : l.get? k = some e)
    (he : lock_entry_rule brl_hit_rule p accessMode offset length e)
    (hfirst : ∀ j e', j < k → l.get? j = some e' →
      ¬ lock_entry_rule brl_hit_rule p accessMode offset length e') :
    FindFileRef (some l) p accessMode kCheckDenyOrLocks offset length wantEntry fid0 fnd0 =
      { ret := 0, fid := e.fid, fndEntry := if wantEntry then some k else fnd0 } := by
  have h1 := FindFileRef_loop_found p accessMode kCheckDenyOrLocks offset length l 0 none k e hk
    ((FindFileRef_lock_iff p accessMode offset length e).2 he)
    (fun j e' hj hj' hh =>
      hfirst j e' hj hj' ((FindFileRef_lock_iff p accessMode offset length e').1 hh))
  unfold FindFileRef
  simp only
  cases hl : FindFileRef_loop p accessMode kCheckDenyOrLocks offset length l 0 none with
  | mk a b =>
    rw [hl] at h1
    simp only at h1
    subst h1
    simp

/-- Claim C27 at the list of the counterexample and a transfer of the bytes 4
to 10, whose start lies inside the lock of the second entry: the second entry
is returned. -/
theorem FindFileRef_lock_hit_witness :
    FindFileRef (some c27_list) (some 7) kAccessRead kCheckDenyOrLocks 4 6 true 0 none =
      { ret := 0, fid := 2, fndEntry := some 1 } :=
  FindFileRef_lock_hit c27_list (some 7) kAccessRead 4 6 true 0 none 1 c27_second rfl
    ⟨by unfold access_overlap_rule; decide, c27_lock, by simp [c27_second],
      Or.inl (by decide)⟩
    (fun j e' hj hj' => by
      have hj0 : j = 0 := by omega
      subst hj0
      have he' : e' = c27_first := by simpa [c27_list] using hj'.symm
      subst he'
      rintro ⟨_, c, hc, _⟩
      simp [c27_first] at hc)

/-- The walk writes at most one slot of each array per round. -/
theorem smbfs_build_path_loop_le (smp : smbmount) (rem : Nat) :
    ∀ (np : Nat) (npstack lock_stack : List Nat),
      (smbfs_build_path_loop smp rem np npstack lock_stack).npstack.length ≤
        npstack.length + rem ∧
      (smbfs_build_path_loop smp rem np npstack lock_stack).lock_stack.length ≤
        lock_stack.length + rem := by
  induction rem with
  | zero =>
    intro np a b
    unfold smbfs_build_path_loop
    cases (smp.nodes np).n_parent <;> exact ⟨Nat.le_refl _, Nat.le_refl _⟩
  | succ n ih =>
    intro np a b
    unfold smbfs_build_path_loop
    cases (smp.nodes np).n_parent with
    | none => exact ⟨by simp, by simp⟩
    | some parent =>
      have h := ih parent (a ++ [np]) (b ++ [parent])
      simp only [List.length_append, List.length_singleton] at h
      exact ⟨by simp only; omega, by simp only; omega⟩

/-- On a chain with at least `rem` ancestors the walk makes `rem` rounds, and
it ends in `ENAMETOOLONG` exactly when there is one ancestor more. -/
theorem smbfs_build_path_loop_full (smp : smbmount) (rem : Nat) :
    ∀ (np : Nat) (npstack lock_stack : List Nat),
      (nth_parent smp rem np).isSome = true →
      (smbfs_build_path_loop smp rem np npstack lock_stack).npstack.length =
        npstack.length + rem ∧
      (smbfs_build_path_loop smp rem np npstack lock_stack).lock_stack.length =
        lock_stack.length + rem ∧
      ((smbfs_build_path_loop smp rem np npstack lock_stack).error = ENAMETOOLONG ↔
        (nth_parent smp (rem + 1) np).isSome = true) ∧
      ((smbfs_build_path_loop smp rem np npstack lock_stack).error = 0 ↔
        (nth_parent smp (rem + 1) np).isSome = false) := by
  induction rem with
  | zero =>
    intro np a b _
    unfold smbfs_build_path_loop
    simp only [nth_parent]
    cases (smp.nodes np).n_parent <;> simp [ENAMETOOLONG]
  | succ n ih =>
    intro np a b h
    unfold smbfs_build_path_loop
    rw [nth_parent] at h
    unfold nth_parent
    cases hp : (smp.nodes np).n_parent with
    | none =>
      rw [hp] at h
      simp at h
    | some parent =>
      rw [hp] at h
      have h2 := ih parent (a ++ [np]) (b ++ [parent]) h
      simp only [List.length_append, List.length_singleton] at h2
      simp only
      refine ⟨by omega, by omega, h2.2.2.1, h2.2.2.2⟩

/-- Claim C30: what the code does. In `smbfs_build_path` the number of nodes
written to `npstack` never exceeds `SMBFS_MAXPATHCOMP`, but `lock_stack`
receives the start node and one node per round, so up to
`SMBFS_MAXPATHCOMP + 1` nodes; on every parent chain with `SMBFS_MAXPATHCOMP`
or more ancestors exactly `SMBFS_MAXPATHCOMP + 1` nodes are written to
`lock_stack`, one more than its capacity, whether the walk then ends in
`ENAMETOOLONG` (one more ancestor exists) or in success. -/
theorem smbfs_build_path_lock_stack_overflow (smp : smbmount) (np : Nat) :
    (smbfs_build_path_walk smp np).npstack.length ≤ SMBFS_MAXPATHCOMP ∧
    (smbfs_build_path_walk smp np).lock_stack.length ≤ SMBFS_MAXPATHCOMP + 1 ∧
    ((nth_parent smp SMBFS_MAXPATHCOMP np).isSome = true →
      (smbfs_build_path_walk smp np).npstack.length = SMBFS_MAXPATHCOMP ∧
      (smbfs_build_path_walk smp np).lock_stack.length = SMBFS_MAXPATHCOMP + 1 ∧
      ((smbfs_build_path_walk smp np).error = ENAMETOOLONG ↔
        (nth_parent smp (SMBFS_MAXPATHCOMP + 1) np).isSome = true) ∧
      ((smbfs_build_path_walk smp np).error = 0 ↔
        (nth_parent smp (SMBFS_MAXPATHCOMP + 1) np).isSome = false)) := by
  unfold smbfs_build_path_walk
  have h1 := smbfs_build_path_loop_le smp SMBFS_MAXPATHCOMP np [] [np]
  simp only [List.length_nil, List.length_singleton] at h1
  refine ⟨by omega, by omega, ?_⟩
  intro h
  have h2 := smbfs_build_path_loop_full smp SMBFS_MAXPATHCOMP np [] [np] h
  simp only [List.length_nil, List.length_singleton] at h2
  exact ⟨by omega, by omega, h2.2.2.1, h2.2.2.2⟩

set_option maxRecDepth 100000 in
/-- Claim C30 at chains of exactly `SMBFS_MAXPATHCOMP` and of
`SMBFS_MAXPATHCOMP + 4` ancestors: `lock_stack` receives
`SMBFS_MAXPATHCOMP + 1` nodes, and the walk ends in success in the first case
and in `ENAMETOOLONG` in the second. -/
theorem smbfs_build_path_lock_stack_overflow_witness :
    ((smbfs_build_path_walk c30_state 256).lock_stack.length = SMBFS_MAXPATHCOMP + 1 ∧
      (smbfs_build_path_walk c30_state 256).error = 0) ∧
    ((smbfs_build_path_walk c30_state 260).lock_stack.length = SMBFS_MAXPATHCOMP + 1 ∧
      (smbfs_build_path_walk c30_state 260).error = ENAMETOOLONG) :=
  have h1 := (smbfs_build_path_lock_stack_overflow c30_state 256).2.2 (by decide)
  have h2 := (smbfs_build_path_lock_stack_overflow c30_state 260).2.2 (by decide)
  ⟨⟨h1.2.1, h1.2.2.2.2 (by decide)⟩, ⟨h2.2.1, h2.2.2.1.2 (by decide)⟩⟩

theorem mem_table_nodes (smp : smbmount) (p : Nat) :
    p ∈ table_nodes smp ↔ ∃ i, i ≤ smp.sm_hashlen ∧ p ∈ smp.sm_hash i := by
  unfold table_nodes
  rw [List.mem_flatMap]
  constructor
  · rintro ⟨i, hi, hp⟩
    exact ⟨i, Nat.lt_succ_iff.1 (List.mem_range.1 hi), hp⟩
  · rintro ⟨i, hi, hp⟩
    exact ⟨i, List.mem_range.2 (Nat.lt_succ_iff.2 hi), hp⟩

theorem smbfs_IObusy_node_iff (h : reconnect_host) (smp : smbmount) (os : Nat → smbnode_open)
    (p : Nat) :
    smbfs_IObusy_node h smp os p = true ↔
      ((smp.nodes p).n_flag &&& NALLOC = 0 ∧ (smp.nodes p).n_flag &&& NTRANSIT = 0 ∧
        (smp.nodes p).n_dosattr &&& SMB_EFA_DIRECTORY = 0 ∧ (os p).f_refcnt ≠ 0) ∧
      ((os p).f_openTotalWCnt > 0 ∨ h.vnode_hasdirtyblks p = true) := by
  unfold smbfs_IObusy_node
  by_cases h1 : (smp.nodes p).n_flag &&& NALLOC ≠ 0
  · rw [if_pos h1]
    exact ⟨fun hh => absurd hh (by simp), fun hh => absurd hh.1.1 h1⟩
  · rw [if_neg h1]
    by_cases h2 : (smp.nodes p).n_flag &&& NTRANSIT ≠ 0
    · rw [if_pos h2]
      exact ⟨fun hh => absurd hh (by simp), fun hh => absurd hh.1.2.1 h2⟩
    · rw [if_neg h2]
      by_cases h3 : (smp.nodes p).n_dosattr &&& SMB_EFA_DIRECTORY ≠ 0
      · rw [if_pos h3]
        exact ⟨fun hh => absurd hh (by simp), fun hh => absurd hh.1.2.2.1 h3⟩
      · rw [if_neg h3]
        by_cases h4 : (os p).f_refcnt = 0
        · rw [if_pos h4]
          exact ⟨fun hh => absurd hh (by simp), fun hh => absurd h4 hh.1.2.2.2⟩
        · rw [if_neg h4, Bool.or_eq_true, decide_eq_true_eq]
          exact ⟨fun hh => ⟨⟨not_not.1 h1, not_not.1 h2, not_not.1 h3, h4⟩, hh⟩, fun hh => hh.2⟩

/-- Claim C24, counterexample: the table holds the regular file at address 1,
which has no open (`f_refcnt` is 0) and whose vnode has dirty blocks; the
table holds a file node with dirty cached blocks, yet `smbfs_IObusy` returns
0. -/
theorem smbfs_IObusy_dirty_closed_file :
    busy_rule c24_host c9_state c24_open ∧ smbfs_IObusy c24_host c9_state c24_open = 0 := by
  refine ⟨⟨0, 1, by decide, by decide, by decide, Or.inr (by decide)⟩, by decide⟩

/-- Claim C24, amended: `smbfs_IObusy` returns `EBUSY` when the table (buckets
0 to `sm_hashlen`) links a node that is neither allocating nor in transit,
is not a directory, has an open (`f_refcnt` not 0), and is open for write
(`f_openTotalWCnt > 0`) or has dirty cached blocks; it returns 0 otherwise, in
particular when only files without open have dirty blocks. It writes nothing:
the model function has no state in its result. -/
theorem smbfs_IObusy_rule (h : reconnect_host) (smp : smbmount) (os : Nat → smbnode_open) :
    ((∃ p, busy_candidate smp os p ∧
        ((os p).f_openTotalWCnt > 0 ∨ h.vnode_hasdirtyblks p = true)) →
      smbfs_IObusy h smp os = EBUSY) ∧
    ((¬ ∃ p, busy_candidate smp os p ∧
        ((os p).f_openTotalWCnt > 0 ∨ h.vnode_hasdirtyblks p = true)) →
      smbfs_IObusy h smp os = 0) := by
  have key : (table_nodes smp).any (smbfs_IObusy_node h smp os) = true ↔
      ∃ p, busy_candidate smp os p ∧
        ((os p).f_openTotalWCnt > 0 ∨ h.vnode_hasdirtyblks p = true) := by
    rw [List.any_eq_true]
    constructor
    · rintro ⟨p, hp, hb⟩
      have := (smbfs_IObusy_node_iff h smp os p).1 hb
      exact ⟨p, ⟨(mem_table_nodes smp p).1 hp, this.1⟩, this.2⟩
    · rintro ⟨p, ⟨hp, hc⟩, hb⟩
      exact ⟨p, (mem_table_nodes smp p).2 hp, (smbfs_IObusy_node_iff h smp os p).2 ⟨hc, hb⟩⟩
  unfold smbfs_IObusy
  constructor
  · intro hh
    rw [if_pos (key.2 hh)]
  · intro hh
    rw [if_neg (fun hk => hh (key.1 hk))]

/-- Claim C24 at the file of `c9_state` with dirty blocks: busy when it has an
open, not busy when it has none. -/
theorem smbfs_IObusy_rule_witness :
    smbfs_IObusy c24_host c9_state c24_open_read = EBUSY ∧
    smbfs_IObusy c24_host c9_state c24_open = 0 :=
  ⟨(smbfs_IObusy_rule c24_host c9_state c24_open_read).1
      ⟨1, ⟨⟨0, by decide, by decide⟩, by decide, by decide, by decide, by decide⟩,
        Or.inr (by decide)⟩,
    (smbfs_IObusy_rule c24_host c9_state c24_open).2 (by
      rintro ⟨p, ⟨_, _, _, _, hr⟩, _⟩
      exact hr rfl)⟩

theorem setOpen_same (os : Nat → smbnode_open) (p : Nat) (o : smbnode_open) :
    setOpen os p o p = o := by
  simp [setOpen]

theorem setOpen_ne (os : Nat → smbnode_open) {p q : Nat} (o : smbnode_open) (h : q ≠ p) :
    setOpen os p o q = os q := by
  simp [setOpen, h]

theorem visit_frame_refl (h : reconnect_host) (p : Nat) (np : smbnode) (o : smbnode_open) :
    visit_frame h p np o np o :=
  ⟨rfl, rfl, rfl, rfl, rfl, rfl, rfl, rfl, Or.inl rfl, fun hh => hh⟩

theorem dir_reopen_rule_congr (h : reconnect_host) (p : Nat) {np np2 : smbnode}
    {o o2 : smbnode_open} (hf : visit_frame h p np o np2 o2) :
    dir_reopen_rule h p np2 o2 ↔ dir_reopen_rule h p np o := by
  obtain ⟨a1, a2, a3, a4, _⟩ := hf
  unfold dir_reopen_rule
  rw [a1, a2, a3, a4]

theorem visit_frame_trans (h : reconnect_host) (p : Nat) {np np2 np3 : smbnode}
    {o o2 o3 : smbnode_open} (h1 : visit_frame h p np o np2 o2)
    (h2 : visit_frame h p np2 o2 np3 o3) : visit_frame h p np o np3 o3 := by
  have hc := dir_reopen_rule_congr h p h1
  obtain ⟨a1, a2, a3, a4, a5, a6, a7, a8, a9, a10⟩ := h1
  obtain ⟨b1, b2, b3, b4, b5, b6, b7, b8, b9, b10⟩ := h2
  refine ⟨b1.trans a1, b2.trans a2, b3.trans a3, b4.trans a4, b5.trans a5, b6.trans a6,
    b7.trans a7, b8.trans a8, ?_, fun hh => b10 (a10 hh)⟩
  rcases b9 with b9 | ⟨b9, b9'⟩
  · rcases a9 with a9 | ⟨a9, a9'⟩
    · exact Or.inl (b9.trans a9)
    · exact Or.inr ⟨b9.trans a9, a9'⟩
  · exact Or.inr ⟨b9, hc.1 b9'⟩

theorem pass_frame_refl (h : reconnect_host) (s : reconnect_state) : pass_frame h s s :=
  ⟨rfl, rfl, rfl, rfl, rfl, rfl, rfl, fun q => visit_frame_refl h q _ _⟩

theorem pass_frame_trans (h : reconnect_host) {s t u : reconnect_state}
    (h1 : pass_frame h s t) (h2 : pass_frame h t u) : pass_frame h s u :=
  ⟨h2.1.trans h1.1, h2.2.1.trans h1.2.1, h2.2.2.1.trans h1.2.2.1,
    h2.2.2.2.1.trans h1.2.2.2.1, h2.2.2.2.2.1.trans h1.2.2.2.2.1,
    h2.2.2.2.2.2.1.trans h1.2.2.2.2.2.1, h2.2.2.2.2.2.2.1.trans h1.2.2.2.2.2.2.1,
    fun q => visit_frame_trans h q (h1.2.2.2.2.2.2.2 q) (h2.2.2.2.2.2.2.2 q)⟩

/-- The block for a monitored node keeps the tested fields and sets
`d_needReopen` exactly under its condition. -/
theorem reconnect_monitored_spec (h : reconnect_host) (p : Nat) (np : smbnode)
    (o : smbnode_open) :
    (reconnect_monitored h p np o).1.n_flag = np.n_flag ∧
    (reconnect_monitored h p np o).1.n_dosattr = np.n_dosattr ∧
    (reconnect_monitored h p np o).1.n_vnode = np.n_vnode ∧
    (reconnect_monitored h p np o).2.d_fid = o.d_fid ∧
    (reconnect_monitored h p np o).2.d_fctx = o.d_fctx ∧
    (reconnect_monitored h p np o).2.f_refcnt = o.f_refcnt ∧
    (reconnect_monitored h p np o).2.f_openState = o.f_openState ∧
    (reconnect_monitored h p np o).2.f_openDenyList = o.f_openDenyList ∧
    (reconnect_monitored h p np o).2.f_fid = o.f_fid ∧
    (reconnect_monitored h p np o).2.f_openTotalWCnt = o.f_openTotalWCnt ∧
    (reconnect_monitored h p np o).2.d_needReopen =
      (if np.n_vnode ≠ none ∧ h.vnode_ismonitored p = true ∧
          np.n_dosattr &&& SMB_EFA_DIRECTORY ≠ 0 ∧ o.d_fid ≠ 0 then true
        else o.d_needReopen) := by
  unfold reconnect_monitored
  by_cases c : np.n_vnode ≠ none ∧ h.vnode_ismonitored p = true
  · rw [if_pos c]
    refine ⟨rfl, rfl, rfl, rfl, rfl, rfl, rfl, rfl, rfl, rfl, ?_⟩
    by_cases d : np.n_dosattr &&& SMB_EFA_DIRECTORY ≠ 0 ∧ o.d_fid ≠ 0
    · have d2 : np.n_vnode ≠ none ∧ h.vnode_ismonitored p = true ∧
          np.n_dosattr &&& SMB_EFA_DIRECTORY ≠ 0 ∧ o.d_fid ≠ 0 := ⟨c.1, c.2, d.1, d.2⟩
      simp only [if_pos d, if_pos d2]
    · have d2 : ¬ (np.n_vnode ≠ none ∧ h.vnode_ismonitored p = true ∧
          np.n_dosattr &&& SMB_EFA_DIRECTORY ≠ 0 ∧ o.d_fid ≠ 0) :=
        fun hh => d ⟨hh.2.2.1, hh.2.2.2⟩
      simp only [if_neg d, if_neg d2]
  · rw [if_neg c]
    refine ⟨rfl, rfl, rfl, rfl, rfl, rfl, rfl, rfl, rfl, rfl, ?_⟩
    rw [if_neg (fun hh => c ⟨hh.1, hh.2.1⟩)]

/-- The monitored block as a visit, for a node that is neither allocating nor
in transit. -/
theorem reconnect_monitored_frame (h : reconnect_host) (p : Nat) (np : smbnode)
    (o : smbnode_open) (h1 : np.n_flag &&& NALLOC = 0) (h2 : np.n_flag &&& NTRANSIT = 0) :
    visit_frame h p np o (reconnect_monitored h p np o).1 (reconnect_monitored h p np o).2 ∧
    (dir_reopen_rule h p np o → (reconnect_monitored h p np o).2.d_needReopen = true) := by
  obtain ⟨m1, m2, m3, m4, _, m6, m7, m8, m9, m10, m11⟩ := reconnect_monitored_spec h p np o
  refine ⟨⟨m1, m2, m3, m4, m6, m8, m9, m10, ?_, fun hh => by rw [m7]; exact hh⟩, ?_⟩
  · rw [m11]
    by_cases c : np.n_vnode ≠ none ∧ h.vnode_ismonitored p = true ∧
        np.n_dosattr &&& SMB_EFA_DIRECTORY ≠ 0 ∧ o.d_fid ≠ 0
    · rw [if_pos c]
      exact Or.inr ⟨rfl, h1, h2, c.1, c.2.1, c.2.2.1, c.2.2.2⟩
    · rw [if_neg c]
      exact Or.inl rfl
  · intro hd
    rw [m11, if_pos ⟨hd.2.2.1, hd.2.2.2.1, hd.2.2.2.2.1, hd.2.2.2.2.2⟩]

theorem nat_or_eq_zero {a b : Nat} (h : a ||| b = 0) : a = 0 ∧ b = 0 := by
  constructor
  · apply Nat.eq_of_testBit_eq
    intro i
    have := congrArg (fun x => x.testBit i) h
    simp only [Nat.testBit_or, Nat.zero_testBit, Bool.or_eq_false_iff] at this
    rw [this.1, Nat.zero_testBit]
  · apply Nat.eq_of_testBit_eq
    intro i
    have := congrArg (fun x => x.testBit i) h
    simp only [Nat.testBit_or, Nat.zero_testBit, Bool.or_eq_false_iff] at this
    rw [this.2, Nat.zero_testBit]

theorem or_kNeedReopen (x : Nat) (hx : x &&& kNeedReopen ≠ 0) (f : Nat) :
    (x ||| f) &&& kNeedReopen ≠ 0 := by
  rw [Nat.and_distrib_right]
  intro hh
  exact hx (nat_or_eq_zero hh).1

/-- The body of the loop of `smb1fs_reconnect` is a visit. -/
theorem smb1fs_reconnect_node_frame (h : reconnect_host) (p : Nat) (np : smbnode)
    (o : smbnode_open) :
    visit_frame h p np o (smb1fs_reconnect_node h p np o).1 (smb1fs_reconnect_node h p np o).2 ∧
    (dir_reopen_rule h p np o → (smb1fs_reconnect_node h p np o).2.d_needReopen = true) := by
  unfold smb1fs_reconnect_node
  by_cases h1 : np.n_flag &&& NALLOC ≠ 0
  · rw [if_pos h1]
    exact ⟨visit_frame_refl h p np o, fun hd => absurd hd.1 h1⟩
  · rw [if_neg h1]
    by_cases h2 : np.n_flag &&& NTRANSIT ≠ 0
    · rw [if_pos h2]
      exact ⟨visit_frame_refl h p np o, fun hd => absurd hd.2.1 h2⟩
    · rw [if_neg h2]
      have hm := reconnect_monitored_frame h p np o (not_not.1 h1) (not_not.1 h2)
      split
      · exact hm
      · split
        · exact hm
        · split
          · exact hm
          · obtain ⟨⟨a1, a2, a3, a4, a5, a6, a7, a8, a9, a10⟩, hd⟩ := hm
            refine ⟨⟨a1, a2, a3, a4, a5, a6, a7, a8, a9, ?_⟩, hd⟩
            intro hh
            simp only
            split
            · exact or_kNeedReopen _ (a10 hh) _
            · exact or_kNeedReopen _ (a10 hh) _

/-- The body of the loop of the first pass of `smb2fs_reconnect` is a visit
that keeps `kNeedRevoke` and marks every open file that is not revoked. -/
theorem smb2fs_reconnect_node_frame (h : reconnect_host) (p : Nat) (np : smbnode)
    (o : smbnode_open) :
    visit_frame h p np o (smb2fs_reconnect_node h p np o).1
      (smb2fs_reconnect_node h p np o).2.1 ∧
    (dir_reopen_rule h p np o → (smb2fs_reconnect_node h p np o).2.1.d_needReopen = true) ∧
    (smb2fs_reconnect_node h p np o).2.1.f_openState &&& kNeedRevoke =
      o.f_openState &&& kNeedRevoke ∧
    ((np.n_flag &&& NALLOC = 0 ∧ np.n_flag &&& NTRANSIT = 0 ∧
        np.n_dosattr &&& SMB_EFA_DIRECTORY = 0 ∧ o.f_refcnt ≠ 0 ∧
        o.f_openState &&& kNeedRevoke = 0) →
      (smb2fs_reconnect_node h p np o).2.1.f_openState &&& kNeedReopen ≠ 0 ∧
      (smb2fs_reconnect_node h p np o).2.2 = true) := by
  unfold smb2fs_reconnect_node
  by_cases h1 : np.n_flag &&& NALLOC ≠ 0
  · rw [if_pos h1]
    exact ⟨visit_frame_refl h p np o, fun hd => absurd hd.1 h1, rfl, fun hd => absurd hd.1 h1⟩
  · rw [if_neg h1]
    by_cases h2 : np.n_flag &&& NTRANSIT ≠ 0
    · rw [if_pos h2]
      exact ⟨visit_frame_refl h p np o, fun hd => absurd hd.2.1 h2, rfl,
        fun hd => absurd hd.2.1 h2⟩
    · rw [if_neg h2]
      obtain ⟨⟨a1, a2, a3, a4, a5, a6, a7, a8, a9, a10⟩, hd⟩ :=
        reconnect_monitored_frame h p np o (not_not.1 h1) (not_not.1 h2)
      obtain ⟨_, _, _, _, _, m6, m7, _⟩ := reconnect_monitored_spec h p np o
      by_cases h3 : np.n_dosattr &&& SMB_EFA_DIRECTORY ≠ 0
      · rw [if_pos h3]
        exact ⟨⟨a1, a2, a3, a4, a5, a6, a7, a8, a9, a10⟩, hd, by rw [← m7],
          fun hh => absurd hh.2.2.1 h3⟩
      · rw [if_neg h3]
        by_cases h4 : (reconnect_monitored h p np o).2.f_refcnt = 0
        · rw [if_pos h4]
          exact ⟨⟨a1, a2, a3, a4, a5, a6, a7, a8, a9, a10⟩, hd, by rw [← m7],
            fun hh => absurd (m6 ▸ h4) hh.2.2.2.1⟩
        · rw [if_neg h4]
          by_cases h5 : (reconnect_monitored h p np o).2.f_openState &&& kNeedRevoke ≠ 0
          · rw [if_pos h5]
            exact ⟨⟨a1, a2, a3, a4, a5, a6, a7, a8, a9, a10⟩, hd, by rw [← m7],
              fun hh => absurd (m7 ▸ hh.2.2.2.2) h5⟩
          · rw [if_neg h5]
            refine ⟨⟨a1, a2, a3, a4, a5, a6, a7, a8, a9,
              fun hh => or_kNeedReopen _ (a10 hh) _⟩, hd, ?_, fun _ => ⟨?_, rfl⟩⟩
            · show ((reconnect_monitored h p np o).2.f_openState ||| kNeedReopen) &&&
                kNeedRevoke = _
              rw [or_and_of_disjoint _ _ _ (by decide), m7]
            · show ((reconnect_monitored h p np o).2.f_openState ||| kNeedReopen) &&&
                kNeedReopen ≠ 0
              rw [Nat.and_distrib_right]
              intro hh
              exact absurd (show kNeedReopen &&& kNeedReopen = 0 from (nat_or_eq_zero hh).2) (by decide)

theorem visit_frame_needReopen {h : reconnect_host} {p : Nat} {np np2 : smbnode}
    {o o2 : smbnode_open} (hf : visit_frame h p np o np2 o2) (ht : o.d_needReopen = true) :
    o2.d_needReopen = true := by
  rcases hf.2.2.2.2.2.2.2.2.1 with e | e
  · rw [e, ht]
  · exact e.1

/-- A visit of `smb1fs_reconnect` on the state. -/
theorem smb1fs_reconnect_visit_frame (h : reconnect_host) (s : reconnect_state) (p : Nat) :
    pass_frame h s (smb1fs_reconnect_visit h s p) ∧
    (dir_reopen_rule h p (s.smp.nodes p) (s.open_state p) →
      ((smb1fs_reconnect_visit h s p).open_state p).d_needReopen = true) := by
  obtain ⟨f1, f2⟩ := smb1fs_reconnect_node_frame h p (s.smp.nodes p) (s.open_state p)
  unfold smb1fs_reconnect_visit
  refine ⟨⟨rfl, rfl, rfl, rfl, rfl, rfl, rfl, fun q => ?_⟩, ?_⟩
  · by_cases hq : q = p
    · subst hq
      simp only [setNode_nodes_same, setOpen_same]
      exact f1
    · simp only [setNode_nodes_ne _ _ hq, setOpen_ne _ _ hq]
      exact visit_frame_refl h q _ _
  · intro hd
    simp only [setOpen_same]
    exact f2 hd

/-- The function `smb1fs_reconnect` over a list of nodes. -/
theorem smb1fs_reconnect_fold (h : reconnect_host) (l : List Nat) :
    ∀ s : reconnect_state,
      pass_frame h s (l.foldl (smb1fs_reconnect_visit h) s) ∧
      ∀ p, p ∈ l → dir_reopen_rule h p (s.smp.nodes p) (s.open_state p) →
        ((l.foldl (smb1fs_reconnect_visit h) s).open_state p).d_needReopen = true := by
  induction l with
  | nil =>
    intro s
    exact ⟨pass_frame_refl h s, fun p hp => absurd hp (List.not_mem_nil p)⟩
  | cons x xs ih =>
    intro s
    obtain ⟨v1, v2⟩ := smb1fs_reconnect_visit_frame h s x
    obtain ⟨i1, i2⟩ := ih (smb1fs_reconnect_visit h s x)
    rw [List.foldl_cons]
    refine ⟨pass_frame_trans h v1 i1, ?_⟩
    intro p hp hd
    by_cases hpx : p ∈ xs
    · exact i2 p hpx ((dir_reopen_rule_congr h p (v1.2.2.2.2.2.2.2 p)).2 hd)
    · rcases List.mem_cons.1 hp with e | e
      · subst e
        exact visit_frame_needReopen (i1.2.2.2.2.2.2.2 p) (v2 hd)
      · exact absurd e hpx

theorem reopen_mark_rule_congr (h : reconnect_host) (p : Nat) {np np2 : smbnode}
    {o o2 : smbnode_open} (hf : visit_frame h p np o np2 o2)
    (hr : o2.f_openState &&& kNeedRevoke = o.f_openState &&& kNeedRevoke) :
    reopen_mark_rule np2 o2 ↔ reopen_mark_rule np o := by
  obtain ⟨a1, a2, _, _, a5, _⟩ := hf
  unfold reopen_mark_rule
  rw [a1, a2, a5, hr]

/-- A visit of the first pass of `smb2fs_reconnect` on the state. -/
theorem smb2fs_reconnect_visit_frame (h : reconnect_host) (s : reconnect_state × Bool)
    (p : Nat) :
    pass_frame h s.1 (smb2fs_reconnect_visit h s p).1 ∧
    (∀ q, ((smb2fs_reconnect_visit h s p).1.open_state q).f_openState &&& kNeedRevoke =
      (s.1.open_state q).f_openState &&& kNeedRevoke) ∧
    (s.2 = true → (smb2fs_reconnect_visit h s p).2 = true) ∧
    (dir_reopen_rule h p (s.1.smp.nodes p) (s.1.open_state p) →
      ((smb2fs_reconnect_visit h s p).1.open_state p).d_needReopen = true) ∧
    (reopen_mark_rule (s.1.smp.nodes p) (s.1.open_state p) →
      ((smb2fs_reconnect_visit h s p).1.open_state p).f_openState &&& kNeedReopen ≠ 0 ∧
      (smb2fs_reconnect_visit h s p).2 = true) := by
  obtain ⟨f1, f2, f3, f4⟩ := smb2fs_reconnect_node_frame h p (s.1.smp.nodes p) (s.1.open_state p)
  unfold smb2fs_reconnect_visit
  refine ⟨⟨rfl, rfl, rfl, rfl, rfl, rfl, rfl, fun q => ?_⟩, fun q => ?_, ?_, ?_, ?_⟩
  · by_cases hq : q = p
    · subst hq
      simp only [setNode_nodes_same, setOpen_same]
      exact f1
    · simp only [setNode_nodes_ne _ _ hq, setOpen_ne _ _ hq]
      exact visit_frame_refl h q _ _
  · by_cases hq : q = p
    · subst hq
      simp only [setOpen_same]
      exact f3
    · simp only [setOpen_ne _ _ hq]
  · intro hs
    simp only [hs, Bool.true_or]
  · intro hd
    simp only [setOpen_same]
    exact f2 hd
  · intro hm
    simp only [setOpen_same]
    have := f4 hm
    exact ⟨this.1, by rw [this.2, Bool.or_true]⟩

/-- The first pass of `smb2fs_reconnect` over a list of nodes. -/
theorem smb2fs_reconnect_mark_fold (h : reconnect_host) (l : List Nat) :
    ∀ s : reconnect_state × Bool,
      pass_frame h s.1 (l.foldl (smb2fs_reconnect_visit h) s).1 ∧
      (∀ q, ((l.foldl (smb2fs_reconnect_visit h) s).1.open_state q).f_openState &&&
          kNeedRevoke = (s.1.open_state q).f_openState &&& kNeedRevoke) ∧
      (s.2 = true → (l.foldl (smb2fs_reconnect_visit h) s).2 = true) ∧
      (∀ p, p ∈ l → dir_reopen_rule h p (s.1.smp.nodes p) (s.1.open_state p) →
        ((l.foldl (smb2fs_reconnect_visit h) s).1.open_state p).d_needReopen = true) ∧
      (∀ p, p ∈ l → reopen_mark_rule (s.1.smp.nodes p) (s.1.open_state p) →
        ((l.foldl (smb2fs_reconnect_visit h) s).1.open_state p).f_openState &&&
          kNeedReopen ≠ 0 ∧
        (l.foldl (smb2fs_reconnect_visit h) s).2 = true) := by
  induction l with
  | nil =>
    intro s
    exact ⟨pass_frame_refl h s.1, fun _ => rfl, fun hs => hs,
      fun p hp => absurd hp (List.not_mem_nil p), fun p hp => absurd hp (List.not_mem_nil p)⟩
  | cons x xs ih =>
    intro s
    obtain ⟨v1, v2, v3, v4, v5⟩ := smb2fs_reconnect_visit_frame h s x
    obtain ⟨i1, i2, i3, i4, i5⟩ := ih (smb2fs_reconnect_visit h s x)
    rw [List.foldl_cons]
    refine ⟨pass_frame_trans h v1 i1, fun q => (i2 q).trans (v2 q), fun hs => i3 (v3 hs), ?_, ?_⟩
    · intro p hp hd
      by_cases hpx : p ∈ xs
      · exact i4 p hpx ((dir_reopen_rule_congr h p (v1.2.2.2.2.2.2.2 p)).2 hd)
      · rcases List.mem_cons.1 hp with e | e
        · subst e
          exact visit_frame_needReopen (i1.2.2.2.2.2.2.2 p) (v4 hd)
        · exact absurd e hpx
    · intro p hp hm
      by_cases hpx : p ∈ xs
      · exact i5 p hpx ((reopen_mark_rule_congr h p (v1.2.2.2.2.2.2.2 p) (v2 p)).2 hm)
      · rcases List.mem_cons.1 hp with e | e
        · subst e
          have := v5 hm
          exact ⟨(i1.2.2.2.2.2.2.2 p).2.2.2.2.2.2.2.2.2 this.1, i3 this.2⟩
        · exact absurd e hpx

theorem CLRB_and_self (x f : Nat) : CLRB x f &&& f = 0 := by
  unfold CLRB
  rw [Nat.and_xor_distrib_right, Nat.and_assoc, Nat.and_self, Nat.xor_self]

theorem CLRB_and_disjoint (x f g : Nat) (h : f &&& g = 0) : CLRB x f &&& g = x &&& g := by
  unfold CLRB
  rw [Nat.and_xor_distrib_right, Nat.and_assoc, h, Nat.and_zero, Nat.xor_zero]

/-- The flag `kNeedReopen` is clear when the attempt starts. -/
theorem reopen_state_begin_clear (s : Nat) : reopen_state_begin s &&& kNeedReopen = 0 := by
  unfold reopen_state_begin
  rw [Nat.and_distrib_right, CLRB_and_self]
  rfl

/-- After the attempt `kNeedReopen` is clear, `kNeedRevoke` is kept, and a
flag `kNeedReopen` found set has become `kNeedRevoke`. -/
theorem reopen_state_end_spec (s : Nat) :
    reopen_state_end s &&& kNeedReopen = 0 ∧
    (s &&& kNeedRevoke ≠ 0 → reopen_state_end s &&& kNeedRevoke ≠ 0) ∧
    (s &&& kNeedReopen ≠ 0 → reopen_state_end s &&& kNeedRevoke ≠ 0) ∧
    (s &&& kNeedReopen = 0 → reopen_state_end s = s) := by
  have hrev : ∀ x : Nat, (x ||| kNeedRevoke) &&& kNeedRevoke ≠ 0 := by
    intro x hh
    rw [Nat.and_distrib_right] at hh
    exact absurd (show kNeedRevoke &&& kNeedRevoke = 0 from (nat_or_eq_zero hh).2) (by decide)
  unfold reopen_state_end
  by_cases c : s &&& kNeedReopen ≠ 0
  · rw [if_pos c]
    refine ⟨?_, fun _ => hrev _, fun _ => hrev _, fun hh => absurd hh c⟩
    rw [Nat.and_distrib_right, CLRB_and_self]
    rfl
  · rw [if_neg c]
    exact ⟨not_not.1 c, fun hh => hh, fun hh => absurd hh c, fun _ => rfl⟩

/-- A failed loop over the open deny list marks the file for revoke. -/
theorem reopen_state_denylist_error (error f_fid s : Nat) (he : error ≠ 0) :
    reopen_state_denylist error f_fid s &&& kNeedRevoke ≠ 0 := by
  unfold reopen_state_denylist
  rw [if_pos he]
  intro hh
  rw [Nat.and_distrib_right] at hh
  exact absurd (show kNeedRevoke &&& kNeedRevoke = 0 from (nat_or_eq_zero hh).2) (by decide)

/-- Once `error` is set the loop over the open deny list reopens nothing. -/
theorem smb2fs_reopen_denylist_error (h : reconnect_host) (p : Nat) (l : List fileRefEntry) :
    ∀ (i error : Nat), error ≠ 0 → smb2fs_reopen_denylist h p i error l = (error, l, []) := by
  induction l with
  | nil =>
    intro i error _
    rfl
  | cons e rest ih =>
    intro i error he
    unfold smb2fs_reopen_denylist
    rw [if_neg he, ih (i + 1) error he]

/-- The calls of the loop over the open deny list are for the node at `p` and
for indices from `i` on. -/
theorem smb2fs_reopen_denylist_calls (h : reconnect_host) (p : Nat) (l : List fileRefEntry) :
    ∀ (i error : Nat) (c : Nat × Nat),
      c ∈ (smb2fs_reopen_denylist h p i error l).2.2 → c.1 = p ∧ i ≤ c.2 := by
  induction l with
  | nil =>
    intro i error c hc
    simp [smb2fs_reopen_denylist] at hc
  | cons e rest ih =>
    intro i error c hc
    unfold smb2fs_reopen_denylist at hc
    by_cases he : error = 0
    · rw [if_pos he] at hc
      by_cases hg : e.dur_handle_flags &&& SMB2_DURABLE_HANDLE_GRANTED ≠ 0
      · rw [if_pos hg] at hc
        simp only [List.mem_cons] at hc
        rcases hc with hc | hc
        · subst hc
          exact ⟨rfl, Nat.le_refl _⟩
        · have := ih _ _ c hc
          exact ⟨this.1, by omega⟩
      · rw [if_neg hg] at hc
        have := ih _ _ c hc
        exact ⟨this.1, by omega⟩
    · rw [if_neg he] at hc
      have := ih _ _ c hc
      exact ⟨this.1, by omega⟩

/-- When the loop over the open deny list ends with an error, it failed at
some entry `k`: that entry has no granted durable handle, or the call of
`smbfs_smb_ntcreatex` for it returned an error; the entries after it are left
as they were and no call is made for them. -/
theorem smb2fs_reopen_denylist_fail (h : reconnect_host) (p : Nat) (l : List fileRefEntry) :
    ∀ (i : Nat), (smb2fs_reopen_denylist h p i 0 l).1 ≠ 0 →
      ∃ k e, l.get? k = some e ∧
        (e.dur_handle_flags &&& SMB2_DURABLE_HANDLE_GRANTED = 0 ∨
          (h.smbfs_smb_ntcreatex p (i + k)
            { e with
              dur_handle_flags :=
                CLRB (e.dur_handle_flags ||| SMB2_DURABLE_HANDLE_RECONNECT)
                  (SMB2_DURABLE_HANDLE_GRANTED ||| SMB2_LEASE_GRANTED)
              dur_handle_fid := e.fid }).1 ≠ 0) ∧
        ∀ j, k < j →
          (smb2fs_reopen_denylist h p i 0 l).2.1.get? j = l.get? j ∧
          (p, i + j) ∉ (smb2fs_reopen_denylist h p i 0 l).2.2 := by
  induction l with
  | nil =>
    intro i hf
    exact absurd rfl hf
  | cons e rest ih =>
    intro i hf
    unfold smb2fs_reopen_denylist at hf ⊢
    rw [if_pos rfl] at hf ⊢
    by_cases hg : e.dur_handle_flags &&& SMB2_DURABLE_HANDLE_GRANTED ≠ 0
    · rw [if_pos hg] at hf ⊢
      simp only at hf ⊢
      by_cases herr : (h.smbfs_smb_ntcreatex p i
          { e with
            dur_handle_flags :=
              CLRB (e.dur_handle_flags ||| SMB2_DURABLE_HANDLE_RECONNECT)
                (SMB2_DURABLE_HANDLE_GRANTED ||| SMB2_LEASE_GRANTED)
            dur_handle_fid := e.fid }).1 = 0
      · rw [herr] at hf ⊢
        obtain ⟨k, e', hk, hfail, hrest⟩ := ih (i + 1) hf
        refine ⟨k + 1, e', by simpa using hk, ?_, ?_⟩
        · rw [show i + (k + 1) = i + 1 + k by omega]
          exact hfail
        · intro j hj
          obtain ⟨j', rfl⟩ : ∃ j', j = j' + 1 := ⟨j - 1, by omega⟩
          have := hrest j' (by omega)
          refine ⟨by simpa using this.1, ?_⟩
          intro hmem
          rcases List.mem_cons.1 hmem with hmem | hmem
          · have := congrArg Prod.snd hmem
            simp only at this
            omega
          · rw [show i + (j' + 1) = i + 1 + j' by omega] at hmem
            exact this.2 hmem
      · refine ⟨0, e, rfl, Or.inr herr, ?_⟩
        intro j hj
        obtain ⟨j', rfl⟩ : ∃ j', j = j' + 1 := ⟨j - 1, by omega⟩
        rw [smb2fs_reopen_denylist_error h p rest (i + 1) _ herr]
        refine ⟨by simp, ?_⟩
        intro hmem
        simp only [List.mem_singleton, Prod.mk.injEq] at hmem
        omega
    · rw [if_neg hg]
      refine ⟨0, e, rfl, Or.inl (not_not.1 hg), ?_⟩
      intro j hj
      obtain ⟨j', rfl⟩ : ∃ j', j = j' + 1 := ⟨j - 1, by omega⟩
      rw [smb2fs_reopen_denylist_error h p rest (i + 1) EBADF (by decide)]
      exact ⟨by simp, by simp⟩

/-- What a reopen attempt leaves of the open state of the node. -/
theorem smb2fs_reopen_node_spec (h : reconnect_host) (p : Nat) (o : smbnode_open) :
    (smb2fs_reopen_node h p o).f_openState &&& kNeedReopen = 0 ∧
    (smb2fs_reopen_node h p o).d_fid = o.d_fid ∧
    (smb2fs_reopen_node h p o).d_needReopen = o.d_needReopen ∧
    (smb2fs_reopen_node h p o).f_refcnt = o.f_refcnt ∧
    (smb2fs_reopen_node h p o).f_fid = o.f_fid ∧
    (o.f_openDenyList ≠ [] → (smb2fs_reopen_denylist h p 0 0 o.f_openDenyList).1 ≠ 0 →
      (smb2fs_reopen_node h p o).f_openState &&& kNeedRevoke ≠ 0 ∧
      (smb2fs_reopen_node h p o).f_openDenyList =
        (smb2fs_reopen_denylist h p 0 0 o.f_openDenyList).2.1) := by
  refine ⟨(reopen_state_end_spec _).1, rfl, rfl, rfl, rfl, ?_⟩
  intro hl herr
  have he : reopen_error h p o ≠ 0 := by
    unfold reopen_error
    rw [if_pos hl]
    exact herr
  constructor
  · show reopen_state_end (reopen_state_attempt h p o) &&& kNeedRevoke ≠ 0
    unfold reopen_state_attempt
    rw [if_neg (fun hh => he hh.2), if_pos hl]
    exact (reopen_state_end_spec _).2.1 (reopen_state_denylist_error _ _ _ he)
  · show (if o.f_openDenyList ≠ [] then _ else _) = _
    rw [if_pos hl]

theorem filter_length_lt {α : Type} (f g : α → Bool) (l : List α) (p : α)
    (hfg : ∀ x, f x = true → g x = true) (hp : p ∈ l) (hgp : g p = true) (hfp : f p = false) :
    (l.filter f).length < (l.filter g).length := by
  have hle : ∀ l : List α, (l.filter f).length ≤ (l.filter g).length := by
    intro l
    induction l with
    | nil => simp
    | cons x xs ih =>
      simp only [List.filter_cons]
      by_cases hx : f x = true
      · rw [if_pos hx, if_pos (hfg x hx)]
        simp only [List.length_cons]
        omega
      · rw [if_neg hx]
        split
        · simp only [List.length_cons]
          omega
        · exact ih
  induction l with
  | nil => exact absurd hp (List.not_mem_nil p)
  | cons x xs ih =>
    simp only [List.filter_cons]
    rcases List.mem_cons.1 hp with e | e
    · subst e
      rw [if_pos hgp, if_neg (by rw [hfp]; simp)]
      simp only [List.length_cons]
      have := hle xs
      omega
    · have := ih e
      by_cases hx : f x = true
      · rw [if_pos hx, if_pos (hfg x hx)]
        simp only [List.length_cons]
        omega
      · rw [if_neg hx]
        split
        · simp only [List.length_cons]
          omega
        · exact this

theorem flatMap_congr_mem {α β : Type} (f g : α → List β) (l : List α)
    (h : ∀ x, x ∈ l → f x = g x) : l.flatMap f = l.flatMap g := by
  induction l with
  | nil => rfl
  | cons x xs ih =>
    simp only [List.flatMap_cons]
    rw [h x (by simp), ih (fun y hy => h y (by simp [hy]))]

/-- What one reopen attempt does to the state. -/
theorem smb2fs_reconnect_attempt_spec (h : reconnect_host) (st : reconnect_state) (p : Nat) :
    (smb2fs_reconnect_attempt h st p).smp = st.smp ∧
    (∀ q, (smb2fs_reconnect_attempt h st p).open_state q =
      if q = p then smb2fs_reopen_node h p (st.open_state p) else st.open_state q) ∧
    (∀ q, reopen_pending st.smp (smb2fs_reconnect_attempt h st p).open_state q =
      (reopen_pending st.smp st.open_state q && decide (q ≠ p))) := by
  refine ⟨rfl, fun q => rfl, fun q => ?_⟩
  show reopen_pending st.smp (setOpen st.open_state p _) q = _
  by_cases hq : q = p
  · subst hq
    unfold reopen_pending
    rw [setOpen_same]
    have := (smb2fs_reopen_node_spec h q (st.open_state q)).1
    simp [this]
  · unfold reopen_pending
    rw [setOpen_ne _ _ hq]
    simp [hq]

/-- The number of nodes that need a reopen strictly decreases with every
attempt. -/
theorem smb2fs_reconnect_attempt_decreases (h : reconnect_host) (st : reconnect_state) (p : Nat)
    (hp : p ∈ table_nodes st.smp) (hpend : reopen_pending st.smp st.open_state p = true) :
    (reopen_pending_nodes (smb2fs_reconnect_attempt h st p)).length <
      (reopen_pending_nodes st).length := by
  obtain ⟨a1, _, a3⟩ := smb2fs_reconnect_attempt_spec h st p
  unfold reopen_pending_nodes
  rw [a1]
  refine filter_length_lt _ _ _ p (fun x hx => ?_) hp hpend ?_
  · rw [a3] at hx
    simp only [Bool.and_eq_true] at hx
    exact hx.1
  · rw [a3]
    simp

/-- The second pass ends within one scan more than there are nodes that need
a reopen; it makes exactly one attempt for each of them and changes nothing
else. -/
theorem smb2fs_reconnect_loop_spec (h : reconnect_host) :
    ∀ (fuel : Nat) (st : reconnect_state), (reopen_pending_nodes st).length + 1 ≤ fuel →
      ∃ st2 A, smb2fs_reconnect_loop h fuel st = some st2 ∧
        st2.smp = st.smp ∧ st2.attempts = st.attempts ++ A ∧ A.Nodup ∧
        A.length ≤ (reopen_pending_nodes st).length ∧
        (∀ q, q ∈ A ↔ q ∈ reopen_pending_nodes st) ∧
        st2.scans = st.scans + A.length + 1 ∧
        (∀ q, st2.open_state q =
          if q ∈ A then smb2fs_reopen_node h q (st.open_state q) else st.open_state q) ∧
        st2.opens = st.opens ++ A.flatMap (fun q => reopen_calls h q (st.open_state q)) := by
  intro fuel
  induction fuel with
  | zero =>
    intro st hf
    omega
  | succ n ih =>
    intro st hf
    unfold smb2fs_reconnect_loop
    cases hfind : (table_nodes st.smp).find? (reopen_pending st.smp st.open_state) with
    | none =>
      have hnil : reopen_pending_nodes st = [] := by
        unfold reopen_pending_nodes
        rw [List.filter_eq_nil_iff]
        intro x hx
        exact List.find?_eq_none.1 hfind x hx
      refine ⟨_, [], rfl, rfl, by simp, List.nodup_nil, by simp, ?_, by simp, ?_, by simp⟩
      · intro q
        rw [hnil]
      · intro q
        simp
    | some p =>
      have hp : p ∈ table_nodes st.smp := List.mem_of_find?_eq_some hfind
      have hpend : reopen_pending st.smp st.open_state p = true := List.find?_some hfind
      have hpp : p ∈ reopen_pending_nodes st := List.mem_filter.2 ⟨hp, hpend⟩
      obtain ⟨a1, a2, a3⟩ := smb2fs_reconnect_attempt_spec h { st with scans := st.scans + 1 } p
      have hdec := smb2fs_reconnect_attempt_decreases h { st with scans := st.scans + 1 } p hp
        hpend
      have hsame : reopen_pending_nodes { st with scans := st.scans + 1 } =
          reopen_pending_nodes st := rfl
      rw [hsame] at hdec
      obtain ⟨st2, A1, r1, r2, r3, r4, r5, r6, r7, r8, r9⟩ :=
        ih (smb2fs_reconnect_attempt h { st with scans := st.scans + 1 } p) (by omega)
      have hmem1 : ∀ q, q ∈ A1 ↔ q ∈ reopen_pending_nodes st ∧ q ≠ p := by
        intro q
        rw [r6 q]
        unfold reopen_pending_nodes
        rw [a1, List.mem_filter, List.mem_filter, a3]
        simp only [Bool.and_eq_true, decide_eq_true_eq]
        exact ⟨fun hh => ⟨⟨hh.1, hh.2.1⟩, hh.2.2⟩, fun hh => ⟨hh.1.1, hh.1.2, hh.2⟩⟩
      have hpA : p ∉ A1 := fun hh => ((hmem1 p).1 hh).2 rfl
      refine ⟨st2, p :: A1, r1, r2.trans a1, ?_, List.nodup_cons.2 ⟨hpA, r4⟩, ?_, ?_, ?_, ?_, ?_⟩
      · rw [r3]
        show (st.attempts ++ [p]) ++ A1 = _
        simp
      · simp only [List.length_cons]
        omega
      · intro q
        rw [List.mem_cons, hmem1]
        constructor
        · rintro (e | e)
          · rw [e]; exact hpp
          · exact e.1
        · intro hq
          by_cases e : q = p
          · exact Or.inl e
          · exact Or.inr ⟨hq, e⟩
      · rw [r7]
        show st.scans + 1 + A1.length + 1 = st.scans + (p :: A1).length + 1
        simp only [List.length_cons]
        omega
      · intro q
        rw [r8 q, a2 q]
        by_cases e : q = p
        · subst e
          simp [hpA]
        · simp only [List.mem_cons, e, false_or, if_false]
      · rw [r9]
        show (st.opens ++ reopen_calls h p (st.open_state p)) ++ _ = _
        rw [List.flatMap_cons, List.append_assoc]
        congr 2
        apply flatMap_congr_mem
        intro q hq
        rw [a2 q, if_neg (fun e : q = p => hpA (e ▸ hq))]

/-- What the first pass of `smb2fs_reconnect` leaves. -/
theorem smb2fs_reconnect_mark_spec (h : reconnect_host) (st : reconnect_state) :
    pass_frame h st (smb2fs_reconnect_mark h st).1 ∧
    table_nodes (smb2fs_reconnect_mark h st).1.smp = table_nodes st.smp ∧
    (∀ q, ((smb2fs_reconnect_mark h st).1.open_state q).f_openState &&& kNeedRevoke =
      (st.open_state q).f_openState &&& kNeedRevoke) ∧
    (∀ p, p ∈ table_nodes st.smp → dir_reopen_rule h p (st.smp.nodes p) (st.open_state p) →
      ((smb2fs_reconnect_mark h st).1.open_state p).d_needReopen = true) ∧
    (∀ p, p ∈ table_nodes st.smp → reopen_mark_rule (st.smp.nodes p) (st.open_state p) →
      reopen_pending (smb2fs_reconnect_mark h st).1.smp (smb2fs_reconnect_mark h st).1.open_state
        p = true ∧
      (smb2fs_reconnect_mark h st).2 = true) := by
  obtain ⟨f1, f2, _, f4, f5⟩ := smb2fs_reconnect_mark_fold h (table_nodes st.smp) (st, false)
  refine ⟨f1, ?_, f2, f4, ?_⟩
  · unfold table_nodes
    show (List.range ((smb2fs_reconnect_mark h st).1.smp.sm_hashlen + 1)).flatMap
      (smb2fs_reconnect_mark h st).1.smp.sm_hash = _
    have e1 : (smb2fs_reconnect_mark h st).1.smp.sm_hash = st.smp.sm_hash := f1.1
    have e2 : (smb2fs_reconnect_mark h st).1.smp.sm_hashlen = st.smp.sm_hashlen := f1.2.1
    rw [e1, e2]
  · intro p hp hm
    obtain ⟨g1, g2⟩ := f5 p hp hm
    refine ⟨?_, g2⟩
    obtain ⟨a1, a2, _⟩ := f1.2.2.2.2.2.2.2 p
    unfold reopen_pending
    have b1 : ((smb2fs_reconnect_mark h st).1.smp.nodes p).n_flag = (st.smp.nodes p).n_flag := a1
    have b2 : ((smb2fs_reconnect_mark h st).1.smp.nodes p).n_dosattr =
        (st.smp.nodes p).n_dosattr := a2
    rw [b1, b2]
    exact decide_eq_true ⟨hm.1, hm.2.1, hm.2.2.1, g1⟩

/-- The two passes of `smb2fs_reconnect` return when the bound on the scans is one
more than the number of nodes that the first pass left in need of a reopen;
the second pass makes exactly one attempt for each of them. -/
theorem smb2fs_reconnect_passes_spec (h : reconnect_host) (fuel : Nat) (smp : smbmount)
    (os : Nat → smbnode_open)
    (hfuel : (reopen_pending_nodes
      (smb2fs_reconnect_mark h { smp := smp, open_state := os }).1).length + 1 ≤ fuel) :
    ∃ st2 A, smb2fs_reconnect_passes h fuel { smp := smp, open_state := os } = some st2 ∧
      st2.attempts = A ∧ A.Nodup ∧
      A.length ≤ (reopen_pending_nodes
        (smb2fs_reconnect_mark h { smp := smp, open_state := os }).1).length ∧
      st2.scans ≤ A.length + 1 ∧
      ((smb2fs_reconnect_mark h { smp := smp, open_state := os }).2 = true →
        ∀ q, q ∈ A ↔ q ∈ reopen_pending_nodes
          (smb2fs_reconnect_mark h { smp := smp, open_state := os }).1) ∧
      (∀ q, st2.open_state q =
        if q ∈ A then
          smb2fs_reopen_node h q
            ((smb2fs_reconnect_mark h { smp := smp, open_state := os }).1.open_state q)
        else (smb2fs_reconnect_mark h { smp := smp, open_state := os }).1.open_state q) ∧
      st2.opens = A.flatMap (fun q => reopen_calls h q
        ((smb2fs_reconnect_mark h { smp := smp, open_state := os }).1.open_state q)) := by
  obtain ⟨f1, _⟩ := smb2fs_reconnect_mark_spec h { smp := smp, open_state := os }
  obtain ⟨_, _, _, l1, l2, _, l4, _⟩ := f1
  unfold smb2fs_reconnect_passes
  by_cases hn : (smb2fs_reconnect_mark h { smp := smp, open_state := os }).2 = false
  · rw [if_pos hn]
    refine ⟨_, [], rfl, l1, List.nodup_nil, Nat.zero_le _, ?_, ?_, fun q => by simp, l2⟩
    · rw [l4]
      exact Nat.zero_le _
    · intro ht
      rw [hn] at ht
      exact absurd ht (by decide)
  · rw [if_neg hn]
    obtain ⟨st2, A, r1, _, r3, r4, r5, r6, r7, r8, r9⟩ := smb2fs_reconnect_loop_spec h fuel _ hfuel
    refine ⟨st2, A, r1, ?_, r4, r5, ?_, fun _ => r6, r8, ?_⟩
    · rw [r3, l1]
      rfl
    · rw [r7, l4]
      show 0 + A.length + 1 ≤ A.length + 1
      omega
    · rw [r9, l2]
      rfl

theorem smb2fs_reconnect_visit_share (h : reconnect_host) (s : reconnect_state × Bool) (p : Nat)
    (sh : Option smb_share) :
    smb2fs_reconnect_visit h (with_share s.1 sh, s.2) p =
      (with_share (smb2fs_reconnect_visit h s p).1 sh, (smb2fs_reconnect_visit h s p).2) := rfl

/-- The first pass does not read the share of the mount. -/
theorem smb2fs_reconnect_mark_share (h : reconnect_host) (st : reconnect_state)
    (sh : Option smb_share) :
    smb2fs_reconnect_mark h (with_share st sh) =
      (with_share (smb2fs_reconnect_mark h st).1 sh, (smb2fs_reconnect_mark h st).2) := by
  unfold smb2fs_reconnect_mark
  have key : ∀ (l : List Nat) (s : reconnect_state × Bool),
      l.foldl (smb2fs_reconnect_visit h) (with_share s.1 sh, s.2) =
        (with_share (l.foldl (smb2fs_reconnect_visit h) s).1 sh,
          (l.foldl (smb2fs_reconnect_visit h) s).2) := by
    intro l
    induction l with
    | nil => intro s; rfl
    | cons x xs ih =>
      intro s
      rw [List.foldl_cons, List.foldl_cons, smb2fs_reconnect_visit_share, ih]
  exact key (table_nodes st.smp) (st, false)

/-- The second pass does not read the share of the mount. -/
theorem smb2fs_reconnect_loop_share (h : reconnect_host) (sh : Option smb_share) :
    ∀ (fuel : Nat) (st : reconnect_state),
      smb2fs_reconnect_loop h fuel (with_share st sh) =
        Option.map (fun s => with_share s sh) (smb2fs_reconnect_loop h fuel st) := by
  intro fuel
  induction fuel with
  | zero => intro st; rfl
  | succ n ih =>
    intro st
    unfold smb2fs_reconnect_loop
    have e : (table_nodes (with_share st sh).smp).find?
        (reopen_pending (with_share st sh).smp (with_share st sh).open_state) =
        (table_nodes st.smp).find? (reopen_pending st.smp st.open_state) := rfl
    rw [e]
    cases (table_nodes st.smp).find? (reopen_pending st.smp st.open_state) with
    | none => rfl
    | some p =>
      exact ih (smb2fs_reconnect_attempt h { st with scans := st.scans + 1 } p)

/-- The function `smb2fs_reconnect` is its two passes, with the share that the
renewal of the AAPL create context leaves. -/
theorem smb2fs_reconnect_eq_passes (h : reconnect_host) (fuel : Nat) (st : reconnect_state) :
    smb2fs_reconnect h fuel st =
      Option.map (fun s => with_share s (smb2fs_reconnect_aapl h st.smp))
        (smb2fs_reconnect_passes h fuel st) := by
  unfold smb2fs_reconnect smb2fs_reconnect_passes
  rw [smb2fs_reconnect_mark_share]
  simp only
  split
  · rfl
  · exact smb2fs_reconnect_loop_share h _ fuel _

/-- The function `smb2fs_reconnect` returns when the bound on the scans is one
more than the number of nodes that the first pass left in need of a reopen;
the second pass makes exactly one attempt for each of them. -/
theorem smb2fs_reconnect_spec (h : reconnect_host) (fuel : Nat) (smp : smbmount)
    (os : Nat → smbnode_open)
    (hfuel : (reopen_pending_nodes
      (smb2fs_reconnect_mark h { smp := smp, open_state := os }).1).length + 1 ≤ fuel) :
    ∃ st2 A, smb2fs_reconnect h fuel { smp := smp, open_state := os } = some st2 ∧
      st2.attempts = A ∧ A.Nodup ∧
      A.length ≤ (reopen_pending_nodes
        (smb2fs_reconnect_mark h { smp := smp, open_state := os }).1).length ∧
      st2.scans ≤ A.length + 1 ∧
      ((smb2fs_reconnect_mark h { smp := smp, open_state := os }).2 = true →
        ∀ q, q ∈ A ↔ q ∈ reopen_pending_nodes
          (smb2fs_reconnect_mark h { smp := smp, open_state := os }).1) ∧
      (∀ q, st2.open_state q =
        if q ∈ A then
          smb2fs_reopen_node h q
            ((smb2fs_reconnect_mark h { smp := smp, open_state := os }).1.open_state q)
        else (smb2fs_reconnect_mark h { smp := smp, open_state := os }).1.open_state q) ∧
      st2.opens = A.flatMap (fun q => reopen_calls h q
        ((smb2fs_reconnect_mark h { smp := smp, open_state := os }).1.open_state q)) := by
  obtain ⟨st2, A, r1, r2⟩ := smb2fs_reconnect_passes_spec h fuel smp os hfuel
  refine ⟨with_share st2 (smb2fs_reconnect_aapl h smp), A, ?_, r2⟩
  rw [smb2fs_reconnect_eq_passes, r1]
  rfl

/-- Claim C21, counterexample: the table of an SMB 2 mount, and of an SMB 1
mount, links the directory at address 1, which is neither allocating nor in
transit and has the open directory handle 5, but whose vnode nobody monitors.
After `smbfs_reconnect` the directory is not marked for lazy reopen. -/
theorem smbfs_reconnect_unmonitored_dir_not_marked :
    1 ∈ c21_state.sm_hash 0 ∧ dir_open_rule (c21_state.nodes 1) (c21_open 1) ∧
    Option.map (fun s => (s.open_state 1).d_needReopen)
      (smbfs_reconnect {} 2 c21_state c21_open) = some false ∧
    Option.map (fun s => (s.open_state 1).d_needReopen)
      (smbfs_reconnect {} 2 c21_state_smb1 c21_open) = some false := by
  refine ⟨by decide, by unfold dir_open_rule; decide, by decide, by decide⟩

/-- Claim C21, amended: `smbfs_reconnect` returns, on the SMB 1 path and,
given a bound on the scans of one more than the number of nodes of the table,
on the SMB 2/3 path; afterwards every directory node linked in the table
(buckets 0 to `sm_hashlen`) that is neither allocating nor in transit, has a
non-zero `d_fid` and has a vnode that is monitored is marked for lazy reopen
(`d_needReopen` is TRUE), and the `d_needReopen` of every node that does not
meet all these conditions is as before. -/
theorem smbfs_reconnect_monitored_dir_marked (h : reconnect_host) (fuel : Nat)
    (smp : smbmount) (os : Nat → smbnode_open) (share : smb_share)
    (hshare : smp.sm_share = some share)
    (hfuel : (table_nodes smp).length + 1 ≤ fuel) :
    ∃ st2, smbfs_reconnect h fuel smp os = some st2 ∧
      (∀ i p, i ≤ smp.sm_hashlen → p ∈ smp.sm_hash i → dir_open_rule (smp.nodes p) (os p) →
        (smp.nodes p).n_vnode ≠ none → h.vnode_ismonitored p = true →
        (st2.open_state p).d_needReopen = true) ∧
      (∀ p, ¬ dir_reopen_rule h p (smp.nodes p) (os p) →
        (st2.open_state p).d_needReopen = (os p).d_needReopen) := by
  have hrule : ∀ p, dir_open_rule (smp.nodes p) (os p) → (smp.nodes p).n_vnode ≠ none →
      h.vnode_ismonitored p = true → dir_reopen_rule h p (smp.nodes p) (os p) :=
    fun p hd hv hm => ⟨hd.1, hd.2.1, hv, hm, hd.2.2.1, hd.2.2.2⟩
  have hkeep : ∀ (t : reconnect_state) (p : Nat),
      pass_frame h { smp := smp, open_state := os } t →
      ¬ dir_reopen_rule h p (smp.nodes p) (os p) →
      (t.open_state p).d_needReopen = (os p).d_needReopen := by
    intro t p hf hn
    rcases (hf.2.2.2.2.2.2.2 p).2.2.2.2.2.2.2.2.1 with e | e
    · exact e
    · exact absurd e.2 hn
  unfold smbfs_reconnect
  rw [hshare]
  simp only
  by_cases hv : share.ss_vc.vc_flags &&& SMBV_SMB2 ≠ 0
  · rw [if_pos hv]
    obtain ⟨m1, m2, _, m4, _⟩ := smb2fs_reconnect_mark_spec h { smp := smp, open_state := os }
    have hlen : (reopen_pending_nodes
        (smb2fs_reconnect_mark h { smp := smp, open_state := os }).1).length + 1 ≤ fuel := by
      have : (reopen_pending_nodes
          (smb2fs_reconnect_mark h { smp := smp, open_state := os }).1).length ≤
          (table_nodes smp).length := by
        unfold reopen_pending_nodes
        rw [m2]
        exact List.length_filter_le _ _
      omega
    obtain ⟨st2, A, r1, _, _, _, _, _, r7, _⟩ := smb2fs_reconnect_spec h fuel smp os hlen
    have hnr : ∀ p, (st2.open_state p).d_needReopen =
        ((smb2fs_reconnect_mark h { smp := smp, open_state := os }).1.open_state p).d_needReopen := by
      intro p
      rw [r7 p]
      split
      · exact (smb2fs_reopen_node_spec h p _).2.2.1
      · rfl
    refine ⟨st2, r1, ?_, ?_⟩
    · intro i p hi hp hd hvn hm
      rw [hnr p]
      exact m4 p ((mem_table_nodes smp p).2 ⟨i, hi, hp⟩) (hrule p hd hvn hm)
    · intro p hn
      rw [hnr p]
      exact hkeep _ p m1 hn
  · rw [if_neg hv]
    obtain ⟨f1, f2⟩ := smb1fs_reconnect_fold h (table_nodes smp) { smp := smp, open_state := os }
    refine ⟨_, rfl, ?_, ?_⟩
    · intro i p hi hp hd hvn hm
      exact f2 p ((mem_table_nodes smp p).2 ⟨i, hi, hp⟩) (hrule p hd hvn hm)
    · intro p hn
      exact hkeep _ p f1 hn

/-- Claim C21 at the directory of the counterexample on a host where its
vnode is monitored: it is marked, on the SMB 2 path. -/
theorem smbfs_reconnect_monitored_dir_marked_witness :
    ∃ st2, smbfs_reconnect c21_host 2 c21_state c21_open = some st2 ∧
      (st2.open_state 1).d_needReopen = true :=
  have hw := smbfs_reconnect_monitored_dir_marked c21_host 2 c21_state c21_open
    { ss_vc := { vc_flags := SMBV_SMB2 } } rfl (by decide)
  hw.elim (fun st2 hst =>
    ⟨st2, hst.1, hst.2.1 0 1 (by decide) (by decide) (by unfold dir_open_rule; decide)
      (by decide) (by decide)⟩)

/-- Claim C23: one run of `smb2fs_reconnect` returns when the bound on the
scans of its second pass is one more than the number of nodes that the first
pass left marked `kNeedReopen`, and it starts at most that many scans. No
node has two reopen attempts; each attempted node ends with the state that
one attempt on what the first pass left gives, with `kNeedReopen` clear. In
an attempt `kNeedReopen` is clear after the first step, the test after the
attempt leaves it clear, and a flag found set at that test is replaced by
`kNeedRevoke`. Every attempt strictly decreases the number of nodes that a
scan would select. -/
theorem smb2fs_reconnect_one_attempt (h : reconnect_host) (fuel : Nat) (smp : smbmount)
    (os : Nat → smbnode_open)
    (hfuel : (reopen_pending_nodes
      (smb2fs_reconnect_mark h { smp := smp, open_state := os }).1).length + 1 ≤ fuel) :
    (∃ st2, smb2fs_reconnect h fuel { smp := smp, open_state := os } = some st2 ∧
      st2.attempts.Nodup ∧
      st2.scans ≤ (reopen_pending_nodes
        (smb2fs_reconnect_mark h { smp := smp, open_state := os }).1).length + 1 ∧
      ∀ q, q ∈ st2.attempts →
        st2.open_state q = smb2fs_reopen_node h q
          ((smb2fs_reconnect_mark h { smp := smp, open_state := os }).1.open_state q) ∧
        (st2.open_state q).f_openState &&& kNeedReopen = 0) ∧
    (∀ s, reopen_state_begin s &&& kNeedReopen = 0 ∧ reopen_state_end s &&& kNeedReopen = 0 ∧
      (s &&& kNeedReopen ≠ 0 → reopen_state_end s &&& kNeedRevoke ≠ 0)) ∧
    (∀ (p : Nat) (o : smbnode_open),
      (smb2fs_reopen_node h p o).f_openState = reopen_state_end (reopen_state_attempt h p o)) ∧
    (∀ (st : reconnect_state) (p : Nat), p ∈ table_nodes st.smp →
      reopen_pending st.smp st.open_state p = true →
      (reopen_pending_nodes (smb2fs_reconnect_attempt h st p)).length <
        (reopen_pending_nodes st).length) := by
  refine ⟨?_, fun s => ⟨reopen_state_begin_clear s, (reopen_state_end_spec s).1,
    (reopen_state_end_spec s).2.2.1⟩, fun _ _ => rfl,
    fun st p hp hpend => smb2fs_reconnect_attempt_decreases h st p hp hpend⟩
  obtain ⟨st2, A, r1, r2, r3, r4, r5, _, r7, _⟩ := smb2fs_reconnect_spec h fuel smp os hfuel
  refine ⟨st2, r1, by rw [r2]; exact r3, by omega, ?_⟩
  intro q hq
  rw [r2] at hq
  have e : st2.open_state q = smb2fs_reopen_node h q
      ((smb2fs_reconnect_mark h { smp := smp, open_state := os }).1.open_state q) := by
    rw [r7 q, if_pos hq]
  exact ⟨e, by rw [e]; exact (smb2fs_reopen_node_spec h q _).1⟩

/-- Claim C23 at the mount with two open files, on a host where the reopen of
the shared fork leaves `kNeedReopen` set again: the run makes one attempt for
each file in three scans, and the second file ends with `kNeedRevoke` instead
of a second attempt. -/
theorem smb2fs_reconnect_one_attempt_witness :
    Option.map reconnect_view
        (smb2fs_reconnect c23_host 3 { smp := c22_state, open_state := c22_open }) =
      some ([1, 2], [(1, 0)], [2], 3, kNeedRevoke ||| kInReopen, kNeedRevoke ||| kInReopen) ∧
    ∃ st2, smb2fs_reconnect c23_host 3 { smp := c22_state, open_state := c22_open } = some st2 ∧
      st2.attempts.Nodup ∧ st2.scans ≤ 3 :=
  ⟨by decide,
    (smb2fs_reconnect_one_attempt c23_host 3 c22_state c22_open (by decide)).1.elim
      (fun st2 hst => ⟨st2, hst.1, hst.2.1,
        Nat.le_trans hst.2.2.1 (by decide)⟩)⟩

/-- An entry without granted durable handle, or an entry for which
`smbfs_smb_ntcreatex` returns an error, makes the loop over the open deny list
end with an error; the entries after it are left as they were and no call is
made for them. -/
theorem smb2fs_reopen_denylist_cause (h : reconnect_host) (p : Nat) (l : List fileRefEntry) :
    ∀ (i k : Nat) (e : fileRefEntry), l.get? k = some e →
      (e.dur_handle_flags &&& SMB2_DURABLE_HANDLE_GRANTED = 0 ∨
        (h.smbfs_smb_ntcreatex p (i + k)
          { e with
            dur_handle_flags :=
              CLRB (e.dur_handle_flags ||| SMB2_DURABLE_HANDLE_RECONNECT)
                (SMB2_DURABLE_HANDLE_GRANTED ||| SMB2_LEASE_GRANTED)
            dur_handle_fid := e.fid }).1 ≠ 0) →
      (smb2fs_reopen_denylist h p i 0 l).1 ≠ 0 ∧
      ∀ j, k < j →
        (smb2fs_reopen_denylist h p i 0 l).2.1.get? j = l.get? j ∧
        (p, i + j) ∉ (smb2fs_reopen_denylist h p i 0 l).2.2 := by
  induction l with
  | nil =>
    intro i k e hk
    simp at hk
  | cons e0 rest ih =>
    intro i k e hk hcause
    have hcall : ∀ j, 0 < j → (p, i + j) ∉ [(p, i)] := by
      intro j hj hmem
      simp only [List.mem_singleton, Prod.mk.injEq] at hmem
      omega
    unfold smb2fs_reopen_denylist
    rw [if_pos rfl]
    by_cases hg : e0.dur_handle_flags &&& SMB2_DURABLE_HANDLE_GRANTED ≠ 0
    · rw [if_pos hg]
      simp only
      by_cases herr : (h.smbfs_smb_ntcreatex p i
          { e0 with
            dur_handle_flags :=
              CLRB (e0.dur_handle_flags ||| SMB2_DURABLE_HANDLE_RECONNECT)
                (SMB2_DURABLE_HANDLE_GRANTED ||| SMB2_LEASE_GRANTED)
            dur_handle_fid := e0.fid }).1 = 0
      · rw [herr]
        cases k with
        | zero =>
          simp only [List.get?_cons_zero, Option.some.injEq] at hk
          subst hk
          rcases hcause with hc | hc
          · exact absurd hc hg
          · exact absurd herr hc
        | succ k =>
          have hk' : rest.get? k = some e := by simpa using hk
          obtain ⟨f1, f2⟩ := ih (i + 1) k e hk'
            (by rw [show i + 1 + k = i + (k + 1) by omega]; exact hcause)
          refine ⟨f1, ?_⟩
          intro j hj
          obtain ⟨j', rfl⟩ : ∃ j', j = j' + 1 := ⟨j - 1, by omega⟩
          have := f2 j' (by omega)
          refine ⟨by simpa using this.1, ?_⟩
          intro hmem
          rcases List.mem_cons.1 hmem with hmem | hmem
          · have := congrArg Prod.snd hmem
            simp only at this
            omega
          · rw [show i + (j' + 1) = i + 1 + j' by omega] at hmem
            exact this.2 hmem
      · rw [smb2fs_reopen_denylist_error h p rest (i + 1) _ herr]
        refine ⟨herr, ?_⟩
        intro j hj
        obtain ⟨j', rfl⟩ : ∃ j', j = j' + 1 := ⟨j - 1, by omega⟩
        exact ⟨by simp, hcall (j' + 1) (by omega)⟩
    · rw [if_neg hg, smb2fs_reopen_denylist_error h p rest (i + 1) EBADF (by decide)]
      refine ⟨show EBADF ≠ 0 by decide, ?_⟩
      intro j hj
      obtain ⟨j', rfl⟩ : ∃ j', j = j' + 1 := ⟨j - 1, by omega⟩
      exact ⟨by simp, by simp⟩

/-- Claim C22: in `smb2fs_reconnect`, for a file of the table that the first
pass marks (neither allocating nor in transit, not a directory, with an open,
not revoked) and whose open deny list holds an entry `k` that has no granted
durable handle, or for which the durable re-create `smbfs_smb_ntcreatex`
returns an error, the routine returns, given a bound on the scans of one more
than the number of nodes of the table, and then: the file has `kNeedRevoke`
set; the entries after entry `k` are as before, without any call of
`smbfs_smb_ntcreatex` for them; and every file of the table that the first
pass marks has had its reopen attempt and has `kNeedReopen` clear. -/
theorem smb2fs_reconnect_denylist_failure (h : reconnect_host) (fuel : Nat) (smp : smbmount)
    (os : Nat → smbnode_open) (p k : Nat) (e : fileRefEntry)
    (hfuel : (table_nodes smp).length + 1 ≤ fuel)
    (hp : ∃ i, i ≤ smp.sm_hashlen ∧ p ∈ smp.sm_hash i)
    (hmark : reopen_mark_rule (smp.nodes p) (os p))
    (hk : (os p).f_openDenyList.get? k = some e)
    (hcause : e.dur_handle_flags &&& SMB2_DURABLE_HANDLE_GRANTED = 0 ∨
      (h.smbfs_smb_ntcreatex p k
        { e with
          dur_handle_flags :=
            CLRB (e.dur_handle_flags ||| SMB2_DURABLE_HANDLE_RECONNECT)
              (SMB2_DURABLE_HANDLE_GRANTED ||| SMB2_LEASE_GRANTED)
          dur_handle_fid := e.fid }).1 ≠ 0) :
    ∃ st2, smb2fs_reconnect h fuel { smp := smp, open_state := os } = some st2 ∧
      (st2.open_state p).f_openState &&& kNeedRevoke ≠ 0 ∧
      (∀ j, k < j →
        (st2.open_state p).f_openDenyList.get? j = (os p).f_openDenyList.get? j ∧
        (p, j) ∉ st2.opens) ∧
      (∀ q, (∃ i, i ≤ smp.sm_hashlen ∧ q ∈ smp.sm_hash i) →
        reopen_mark_rule (smp.nodes q) (os q) →
        q ∈ st2.attempts ∧ (st2.open_state q).f_openState &&& kNeedReopen = 0) := by
  have hlist : (os p).f_openDenyList ≠ [] := by
    intro hnil
    rw [hnil] at hk
    simp at hk
  obtain ⟨hfail, hrest⟩ := smb2fs_reopen_denylist_cause h p (os p).f_openDenyList 0 k e hk
    (by rw [Nat.zero_add]; exact hcause)
  obtain ⟨m1, m2, _, _, m5⟩ := smb2fs_reconnect_mark_spec h { smp := smp, open_state := os }
  have hlen : (reopen_pending_nodes
      (smb2fs_reconnect_mark h { smp := smp, open_state := os }).1).length + 1 ≤ fuel := by
    have : (reopen_pending_nodes
        (smb2fs_reconnect_mark h { smp := smp, open_state := os }).1).length ≤
        (table_nodes smp).length := by
      unfold reopen_pending_nodes
      rw [m2]
      exact List.length_filter_le _ _
    omega
  obtain ⟨st2, A, r1, r2, _, _, _, r6, r7, r8⟩ := smb2fs_reconnect_spec h fuel smp os hlen
  have hpt : p ∈ table_nodes smp := (mem_table_nodes smp p).2 hp
  have hneed := (m5 p hpt hmark).2
  have hA : ∀ q, q ∈ table_nodes smp → reopen_mark_rule (smp.nodes q) (os q) → q ∈ A := by
    intro q hq hm
    rw [r6 hneed q]
    unfold reopen_pending_nodes
    rw [m2]
    exact List.mem_filter.2 ⟨hq, (m5 q hq hm).1⟩
  have hlist2 : ((smb2fs_reconnect_mark h { smp := smp, open_state := os }).1.open_state
      p).f_openDenyList = (os p).f_openDenyList := (m1.2.2.2.2.2.2.2 p).2.2.2.2.2.1
  have hpst : st2.open_state p = smb2fs_reopen_node h p
      ((smb2fs_reconnect_mark h { smp := smp, open_state := os }).1.open_state p) := by
    rw [r7 p, if_pos (hA p hpt hmark)]
  obtain ⟨s1, s2⟩ := (smb2fs_reopen_node_spec h p
    ((smb2fs_reconnect_mark h { smp := smp, open_state := os }).1.open_state p)).2.2.2.2.2
      (by rw [hlist2]; exact hlist) (by rw [hlist2]; exact hfail)
  refine ⟨st2, r1, by rw [hpst]; exact s1, ?_, ?_⟩
  · intro j hj
    obtain ⟨t1, t2⟩ := hrest j hj
    rw [Nat.zero_add] at t2
    refine ⟨by rw [hpst, s2, hlist2]; exact t1, ?_⟩
    intro hmem
    rw [r8, List.mem_flatMap] at hmem
    obtain ⟨q, _, hq⟩ := hmem
    unfold reopen_calls at hq
    split at hq
    · have hq1 := (smb2fs_reopen_denylist_calls h q _ 0 0 (p, j) hq).1
      simp only at hq1
      subst hq1
      rw [hlist2] at hq
      exact t2 hq
    · exact absurd hq (List.not_mem_nil _)
  · intro q hq hm
    have hqA := hA q ((mem_table_nodes smp q).2 hq) hm
    refine ⟨by rw [r2]; exact hqA, ?_⟩
    rw [r7 q, if_pos hqA]
    exact (smb2fs_reopen_node_spec h q _).1

/-- Claim C22 at a mount with two open files: the second entry of the open
deny list of the first file has no durable handle. The first file ends with
`kNeedRevoke`, only its first entry was reopened, the third entry is as
before, and the second file was still reopened through
`smbfs_smb_reopen_file`. On a host whose `smbfs_smb_ntcreatex` returns the
error 5, the first entry already fails: the first file ends with
`kNeedRevoke`, the second entry is as before and no call is made for it, and
the second file was still reopened. -/
theorem smb2fs_reconnect_denylist_failure_witness :
    Option.map reconnect_view (smb2fs_reconnect {} 3 { smp := c22_state, open_state := c22_open })
      = some ([1, 2], [(1, 0)], [2], 3, kNeedRevoke ||| kInReopen, kInReopen) ∧
    (∃ st2, smb2fs_reconnect {} 3 { smp := c22_state, open_state := c22_open } = some st2 ∧
      (st2.open_state 1).f_openState &&& kNeedRevoke ≠ 0 ∧
      ((st2.open_state 1).f_openDenyList.get? 2 = c22_list.get? 2 ∧ (1, 2) ∉ st2.opens) ∧
      (2 ∈ st2.attempts ∧ (st2.open_state 2).f_openState &&& kNeedReopen = 0)) ∧
    ∃ st2, smb2fs_reconnect { smbfs_smb_ntcreatex := fun _ _ e => (5, e) } 3
        { smp := c22_state, open_state := c22_open } = some st2 ∧
      (st2.open_state 1).f_openState &&& kNeedRevoke ≠ 0 ∧
      ((st2.open_state 1).f_openDenyList.get? 1 = c22_list.get? 1 ∧ (1, 1) ∉ st2.opens) ∧
      (2 ∈ st2.attempts ∧ (st2.open_state 2).f_openState &&& kNeedReopen = 0) :=
  ⟨by decide,
    (smb2fs_reconnect_denylist_failure {} 3 c22_state c22_open 1 1 { fid := 11 } (by decide)
      ⟨0, by decide, by decide⟩ (by unfold reopen_mark_rule; decide) rfl
      (Or.inl (by decide))).elim
      (fun st2 hst => ⟨st2, hst.1, hst.2.1, hst.2.2.1 2 (by decide),
        hst.2.2.2 2 ⟨0, by decide, by decide⟩ (by unfold reopen_mark_rule; decide)⟩),
    (smb2fs_reconnect_denylist_failure { smbfs_smb_ntcreatex := fun _ _ e => (5, e) } 3
      c22_state c22_open 1 0 { fid := 10, dur_handle_flags := SMB2_DURABLE_HANDLE_GRANTED }
      (by decide) ⟨0, by decide, by decide⟩ (by unfold reopen_mark_rule; decide) rfl
      (Or.inr (by decide))).elim
      (fun st2 hst => ⟨st2, hst.1, hst.2.1, hst.2.2.1 1 (by decide),
        hst.2.2.2 2 ⟨0, by decide, by decide⟩ (by unfold reopen_mark_rule; decide)⟩)⟩

theorem same_name_refl (a : smbnode) : same_name a a := ⟨rfl, rfl, rfl, rfl⟩

/-- Linking the new node, which is in no bucket, under a hash value. -/
theorem np_linked_vhashadd {np : Nat} {t : smbmount} (h : np_unlinked np t) (hv : Nat) :
    np_linked np (hv &&& t.sm_hashlen) (t.nodes np).n_name (t.nodes np).n_nmlen
      (smb_vhashadd t np hv) := by
  refine ⟨?_, fun i => ?_, ?_, ?_⟩
  · rw [smb_vhashadd_nodes, if_pos rfl]
  · rw [smb_vhashadd_sm_hash]
    have h0 : (t.sm_hash i).count np = 0 := List.count_eq_zero.2 (h i)
    split
    · rw [List.count_cons_self, h0]
    · exact h0
  · rw [smb_vhashadd_nodes, if_pos rfl]
  · rw [smb_vhashadd_nodes, if_pos rfl]

theorem nget_frame_vhashadd (np : Nat) (t : smbmount) (hv : Nat) :
    nget_frame np t (smb_vhashadd t np hv) := by
  refine ⟨(smb_vhashadd_fields t np hv).2.1, fun q hq => ?_, fun i q hq hm => ?_⟩
  · rw [smb_vhashadd_nodes, if_neg hq]
    exact ⟨rfl, rfl, rfl⟩
  · rw [smb_vhashadd_sm_hash] at hm
    split at hm
    · rcases List.mem_cons.1 hm with e | e
      · exact absurd e hq
      · exact e
    · exact hm

end smbfs
